import Mathlib

/-!
# SkSL C++ code generator: template flushing, deferred blocks, child indices,
runtime values, statements and the processor key

A shallow embedding of `src/sksl/SkSLCPPCodeGenerator.cpp`.

* `String` of the source is `Text`, a list of characters.
* The generator object is the record `CPPCodeGenerator`; every member function
  takes the record and returns the updated record.
* Output streams are values: a stream is its address `fId` and the characters
  written so far.  The function that installs a temporary stream keeps the
  previous one in a local, exactly as the source keeps `oldSKSL`/`oldOut`.
* `SkASSERT` is compiled out (release build).  What the source leaves undefined
  (reading a vector past its end, a cast to the wrong node class) is the fault
  `Fault.undefined`; `ABORT(...)` is the fault `Fault.abort`.
-/

set_option autoImplicit false
set_option maxRecDepth 100000

namespace SkSL

/-- The string type of the source, as a list of characters. -/
abbrev Text := List Char

/-- Ways in which a run stops without a result. -/
inductive Fault where
  /-- The macro `ABORT(...)` was reached. -/
  | abort
  /-- Undefined behaviour of the source: a read past the end of a vector or a wrong cast. -/
  | undefined
  /-- The step budget of a loop model was used up. -/
  | outOfFuel
deriving DecidableEq, Repr

deriving instance DecidableEq for Except

/-- A run of generator code: a result or a fault. -/
abbrev Run (α : Type) := Except Fault α

/-- An output stream: its address and the characters written to it. -/
structure OutputStream where
  fId : Nat
  fText : Text
deriving DecidableEq, Repr

/-! ## The program model consumed by the generator -/

/-- The enumeration `Type::Kind`. -/
inductive TypeKind where
  | kArray_Kind | kEnum_Kind | kGeneric_Kind | kNullable_Kind | kMatrix_Kind | kOther_Kind
  | kSampler_Kind | kSeparateSampler_Kind | kScalar_Kind | kStruct_Kind | kTexture_Kind
  | kVector_Kind
deriving DecidableEq, Repr

/-- Modelled from the spec: the class `Type` is declared outside the sources. A "shader
value type" is its name, its kind, whether it is a floating-point scalar, its matrix shape,
and the name and kind of its component type. Two types are equal when their names are. -/
structure SkType where
  fName : Text
  fTypeKind : TypeKind
  fIsFloat : Bool
  fColumns : Nat
  fRows : Nat
  fComponentName : Text
  fComponentKind : TypeKind
  /-- The result of `Type::isInteger()`. -/
  fIsInteger : Bool := false
deriving DecidableEq, Repr

/-- The accessor `Type::name()`. -/
def SkType.name (t : SkType) : Text := t.fName

/-- The accessor `Type::kind()`. -/
def SkType.kind (t : SkType) : TypeKind := t.fTypeKind

/-- The accessor `Type::nonnullable()`: the component type of a nullable type, else the
type itself. -/
def SkType.nonnullable (t : SkType) : SkType :=
  if t.fTypeKind = TypeKind.kNullable_Kind then
    { fName := t.fComponentName, fTypeKind := t.fComponentKind, fIsFloat := false,
      fColumns := 1, fRows := 1, fComponentName := t.fComponentName,
      fComponentKind := t.fComponentKind }
  else t

/-- The enumeration `Layout::CType`, with the values the generator tells apart. -/
inductive CType where
  | kDefault | kSkPMColor | kSkPMColor4f | kSkV4 | kSkRect | kOther
deriving DecidableEq, Repr

/-- The enumeration `Layout::Key`. -/
inductive Key where
  | kNo_Key | kKey_Key | kIdentity_Key
deriving DecidableEq, Repr

/-- The members of `Layout` read by the generator. -/
structure Layout where
  fBuiltin : Int
  fCType : CType
  /-- The guard expression `fWhen`, empty when absent. -/
  fWhen : Text
  /-- The bit `Layout::kTracked_Flag` of `fFlags`. -/
  fTracked : Bool
  /-- The member `fKey`; a default-constructed layout has `kNo_Key`. -/
  fKey : Key := Key.kNo_Key
deriving DecidableEq, Repr

/-- The default-constructed `Layout()`. -/
def Layout.default : Layout :=
  { fBuiltin := -1, fCType := CType.kDefault, fWhen := [], fTracked := false }

/-- The members of `Modifiers` read by the generator; the two booleans are the bits
`kUniform_Flag` and `kIn_Flag` of `fFlags`. -/
structure Modifiers where
  fUniform : Bool
  fIn : Bool
  fLayout : Layout
deriving DecidableEq, Repr

/-- A `Variable`. The source compares variables by address; `fAddr` is that address. -/
structure Variable where
  fAddr : Nat
  fName : Text
  fType : SkType
  fModifiers : Modifiers
  /-- Whether `fStorage == Variable::kGlobal_Storage`. -/
  fGlobal : Bool
  /-- The source offset `fOffset` of the symbol. -/
  fOffset : Int := -1
deriving DecidableEq, Repr

/-- The members of `FunctionDeclaration` read when a call is written. -/
structure FunctionDeclaration where
  fBuiltin : Bool
  fName : Text
deriving DecidableEq, Repr

/-- The enumeration `GLSLCodeGenerator::Precedence`, by its numeric value. -/
abbrev Precedence := Nat

/-- The value `kPostfix_Precedence`. -/
def kPostfix_Precedence : Precedence := 2
/-- The value `kTernary_Precedence`. -/
def kTernary_Precedence : Precedence := 15
/-- The value `kAssignment_Precedence`. -/
def kAssignment_Precedence : Precedence := 16
/-- The value `kSequence_Precedence`. -/
def kSequence_Precedence : Precedence := 17
/-- The value `kTopLevel_Precedence`, equal to `kSequence_Precedence`. -/
def kTopLevel_Precedence : Precedence := kSequence_Precedence

/-- The operator tokens `Token::Kind` of binary expressions: the three the generator
names, and every other one by its number. -/
inductive TokenKind where
  | TK_PERCENT | TK_EQEQ | TK_NEQ
  | TK_OTHER (n : Nat)
deriving DecidableEq, Repr

mutual
/-- The expression nodes. Every node has its source offset and its type. The nodes whose
writer the generator overrides have their own constructor; `inherited` stands for every
other node kind, which the base class renders as literal text around its operands. -/
inductive Expression where
  | binary (fOffset : Int) (fType : SkType) (fLeft : Expression) (fOperator : TokenKind)
      (fRight : Expression)
  | nullLiteral (fOffset : Int) (fType : SkType)
  | intLiteral (fOffset : Int) (fType : SkType) (fValue : Int)
  | variableReference (fOffset : Int) (fVariable : Variable)
  | index (fOffset : Int) (fType : SkType) (fBase : Expression) (fIndex : Expression)
  | swizzle (fOffset : Int) (fType : SkType) (fBase : Expression) (fComponents : List Nat)
  | fieldAccess (fOffset : Int) (fType : SkType) (fBase : Expression) (fFieldIndex : Nat)
      (fFieldName : Text)
  | functionCall (fOffset : Int) (fType : SkType) (fFunction : FunctionDeclaration)
      (fArguments : Arguments)
  | setting (fOffset : Int) (fType : SkType) (fName : Text)
  | inherited (fOffset : Int) (fType : SkType) (fPieces : Pieces)
/-- The vector `fArguments` of a call. -/
inductive Arguments where
  | nil
  | cons (head : Expression) (tail : Arguments)
/-- What the base class does for a node it renders itself: it writes text and renders
operands at a precedence, in some order. -/
inductive Pieces where
  | nil
  | text (t : Text) (rest : Pieces)
  | operand (e : Expression) (parentPrecedence : Precedence) (rest : Pieces)
end

/-- The member `fOffset` of a node. -/
def Expression.offset : Expression → Int
  | .binary o _ _ _ _ => o
  | .nullLiteral o _ => o
  | .intLiteral o _ _ => o
  | .variableReference o _ => o
  | .index o _ _ _ => o
  | .swizzle o _ _ _ => o
  | .fieldAccess o _ _ _ _ => o
  | .functionCall o _ _ _ => o
  | .setting o _ _ => o
  | .inherited o _ _ => o

/-- The member `fType` of a node; a variable reference has the type of its variable. -/
def Expression.type : Expression → SkType
  | .binary _ t _ _ _ => t
  | .nullLiteral _ t => t
  | .intLiteral _ t _ => t
  | .variableReference _ v => v.fType
  | .index _ t _ _ => t
  | .swizzle _ t _ _ => t
  | .fieldAccess _ t _ _ _ => t
  | .functionCall _ t _ _ => t
  | .setting _ t _ => t
  | .inherited _ t _ => t

/-- The test `fKind == Expression::kNullLiteral_Kind`. -/
def Expression.isNullLiteral : Expression → Bool
  | .nullLiteral _ _ => true
  | _ => false

/-- The variable of a node of kind `kVariableReference_Kind`, `none` for another kind. -/
def Expression.asVariableReference : Expression → Option Variable
  | .variableReference _ v => some v
  | _ => none

/-- The value of a node of kind `kIntLiteral_Kind`, `none` for another kind. -/
def Expression.asIntLiteral : Expression → Option Int
  | .intLiteral _ _ v => some v
  | _ => none

/-- The elements of an argument vector, in order. -/
def Arguments.toList : Arguments → List Expression
  | .nil => []
  | .cons e rest => e :: rest.toList

/-- A `VarDeclaration`: the declared variable and the offset of the declaration. -/
structure VarDeclaration where
  fOffset : Int
  fVar : Variable
  fValue : Option Expression

/-- The elements of a program: a `VarDeclarations` statement with its `fVars`, or an
element of another kind. -/
inductive ProgramElement where
  | kVar_Kind (fVars : List VarDeclaration)
  | kOther_Kind

/-- A `Section` of the program: the members `fArgument` and `fText`. -/
structure Section where
  fArgument : Text
  fText : Text
deriving DecidableEq, Repr

/-- The section names the generator passes to `getSection` and `writeSection`. -/
inductive SectionName where
  | kCloneSection | kCppSection | kCppEndSection | kDumpInfoSection | kEmitCodeSection
  | kFieldsSection | kSetDataSection | kTestCodeSection
deriving DecidableEq, Repr

/-- What the generator reads of a `UniformCTypeMapper`, a class declared outside the
sources: the results of its member functions, taken as given. -/
structure UniformCTypeMapper where
  /-- The text `Layout::CTypeToStr(mapper->ctype())`. -/
  ctype : Text
  defaultValue : Text
  supportsTracking : Bool
  canInlineUniformValue : Bool
  dirtyExpression : Text → Text → Text
  saveState : Text → Text → Text
  setUniform : Text → Text → Text → Text

/-- What the generator reads but never changes: the program, and the declarations of this
repository that are outside the sources and are taken as given. -/
structure Environment where
  /-- The elements of `fProgram`, in order. -/
  fProgram : List ProgramElement
  /-- The result of `fSectionAndParameterHelper.getParameters()`. -/
  fParameters : List Variable
  /-- The predicate `SectionAndParameterHelper::IsParameter`. -/
  IsParameter : Variable → Bool
  /-- The function `HCodeGenerator::FieldName`. -/
  FieldName : Text → Text
  /-- The function `GetBinaryPrecedence`. -/
  GetBinaryPrecedence : TokenKind → Precedence
  /-- The function `Compiler::OperatorName`. -/
  OperatorName : TokenKind → Text
  /-- The result of `Analysis::GetSampleUsage(fProgram, child).hasUniformMatrix()`. -/
  hasUniformMatrix : Variable → Bool
  /-- The name and type of each field of `fContext.fFragmentProcessor_Type`. -/
  fFragmentProcessorFields : List (Text × SkType)
  /-- The constant `SK_OUTCOLOR_BUILTIN`. -/
  SK_OUTCOLOR_BUILTIN : Int
  /-- The constant `SK_MAIN_COORDS_BUILTIN`. -/
  SK_MAIN_COORDS_BUILTIN : Int
  /-- The constant `SK_WIDTH_BUILTIN`. -/
  SK_WIDTH_BUILTIN : Int
  /-- The constant `SK_HEIGHT_BUILTIN`. -/
  SK_HEIGHT_BUILTIN : Int
  /-- The constant `SK_TEXTURESAMPLERS_BUILTIN`. -/
  SK_TEXTURESAMPLERS_BUILTIN : Int
  /-- The function `HCodeGenerator::FieldType`, with the context fixed; unless stated
  otherwise the name of the type. -/
  FieldType : SkType → Layout → Text := fun t _ => t.fName
  /-- The member `fFullName`: the name of the generated class. -/
  fFullName : Text := []
  /-- The member `fName`; the constructor sets `fFullName` to "Gr" followed by it. -/
  fName : Text := []
  /-- The function `fSectionAndParameterHelper.getSection`; `none` is `nullptr`. -/
  getSection : SectionName → Option Section := fun _ => none
  /-- The text returned by `HCodeGenerator::GetHeader(fProgram, fErrors)`. -/
  GetHeader : Text := []
  /-- The errors `HCodeGenerator::GetHeader` reports to `fErrors`. -/
  GetHeaderErrors : List (Int × Text) := []
  /-- The text `kFragmentProcessorHeader` formatted with a class name. -/
  kFragmentProcessorHeader : Text → Text := fun _ => []
  /-- The function `UniformCTypeMapper::Get`, with the context fixed; `none` is `nullptr`. -/
  UniformCTypeMapper_Get : Variable → Option UniformCTypeMapper := fun _ => none
  /-- The function `HCodeGenerator::AccessType`, with the context fixed. -/
  AccessType : SkType → Layout → Text := fun t _ => t.fName

/-! ## The generator state -/

/-- The mutable members of the generator object. -/
structure CPPCodeGenerator where
  /-- The active output sink `fOut`. -/
  fOut : OutputStream
  /-- The member `fCPPBuffer`; `none` is `nullptr`. -/
  fCPPBuffer : Option OutputStream
  /-- The format-argument queue `fFormatArgs`. -/
  fFormatArgs : List Text
  /-- The deferred-block table `fExtraEmitCodeBlocks`. -/
  fExtraEmitCodeBlocks : List Text
  /-- The errors reported to `fErrors`: offset and message. -/
  fErrors : List (Int × Text)
  fCPPMode : Bool
  fInMain : Bool
  fAccessSampleCoordsDirectly : Bool
  /-- Number of streams created so far; the address given to the next local stream. -/
  fStreams : Nat
deriving DecidableEq, Repr

/-- The call `this->write(s)`: append to the active sink. -/
def CPPCodeGenerator.write (s : Text) (g : CPPCodeGenerator) : CPPCodeGenerator :=
  { g with fOut := { g.fOut with fText := g.fOut.fText ++ s } }

/-- The call `fErrors.error(offset, msg)`. -/
def CPPCodeGenerator.error (offset : Int) (msg : Text) (g : CPPCodeGenerator) :
    CPPCodeGenerator :=
  { g with fErrors := g.fErrors ++ [(offset, msg)] }

/-- The function `to_string` on an unsigned size, also the `%zu` conversion: decimal digits. -/
def to_string (n : Nat) : Text := Nat.toDigits 10 n

/-- The function `to_string` on an `int`. -/
def to_string_int (n : Int) : Text := (toString n).toList

/-- Decimal value of the leading digits of `s`, continuing from `acc`. -/
def stoiDigits : Text → Nat → Nat
  | [], acc => acc
  | c :: rest, acc =>
    if '0'.toNat ≤ c.toNat ∧ c.toNat ≤ '9'.toNat then
      stoiDigits rest (acc * 10 + (c.toNat - '0'.toNat))
    else acc

/-- Modelled from the spec: `stoi` is declared outside the sources. A token carries the
"integer index" of its block, written by `newExtraEmitCodeBlock` as decimal digits; `stoi`
reads the leading decimal digits, and gives 0 when there are none. -/
def stoi (s : Text) : Nat := stoiDigits s 0

/-- The element `code[index]`; the terminating NUL at `index == size()`. -/
def charAt (s : Text) (i : Nat) : Char := s.getD i (Char.ofNat 0)

/-- The loop of `writeCodeAppend` headed "Count % format specifiers", over the rest of
`code` from the current index on. A '%' that is the last character ends the loop; a '%'
whose next character is not '%' counts; the index then moves on by one. -/
def countFormatSpecifiers : Text → Nat
  | [] => 0
  | c :: rest =>
    if c = '%' then
      match rest with
      | [] => 0
      | d :: _ => (if d ≠ '%' then 1 else 0) + countFormatSpecifiers rest
    else countFormatSpecifiers rest

/-- The loop `for (i = 0; i < argCount; ++i) writef(", %s", fFormatArgs[i])`, with `n` the
iterations still to run. -/
def writeCodeAppendArgs : Nat → Nat → CPPCodeGenerator → Run CPPCodeGenerator
  | 0, _, g => pure g
  | n + 1, i, g =>
    match g.fFormatArgs[i]? with
    | some a => writeCodeAppendArgs n (i + 1) (g.write (", ".toList ++ a))
    | none => throw Fault.undefined

/-- The member function `writeCodeAppend`. -/
def writeCodeAppend (code : Text) (g : CPPCodeGenerator) : Run CPPCodeGenerator :=
  if code ≠ [] then do
    let argCount := countFormatSpecifiers code
    let g1 := g.write ("        fragBuilder->codeAppendf(\nR\"SkSL(".toList ++ code
                        ++ ")SkSL\"\n".toList)
    let g2 ← writeCodeAppendArgs argCount 0 g1
    let g3 := g2.write ");\n".toList
    if argCount > 0 then
      pure { g3 with fFormatArgs := g3.fFormatArgs.drop argCount }
    else pure g3
  else pure g

/-- The characters `String(s.c_str() + start, count)`. -/
def substr (s : Text) (start count : Nat) : Text := (s.drop start).take count

/-- The `while (i < sksl.size())` loop of `flushEmittedCode` and the final
`writeCodeAppend(sksl)`; each iteration uses one unit of `fuel`. The source sets `i = -1`
on a restart and the `i++` that ends the iteration wraps it to 0. -/
def flushLoop : Nat → Text → Nat → Int → Int → CPPCodeGenerator → Run CPPCodeGenerator
  | 0, _, _, _, _, _ => throw Fault.outOfFuel
  | fuel + 1, sksl, i, flushPoint, tokenStart, g =>
    if i < sksl.length then
      if tokenStart ≥ 0 then
        if charAt sksl i = '}' then do
          let toFlush := substr sksl 0 (flushPoint + 1).toNat
          let g1 ← writeCodeAppend toFlush g
          let codeBlock :=
            stoi (substr sksl (tokenStart + 2).toNat (i - (tokenStart + 2).toNat))
          match g1.fExtraEmitCodeBlocks[codeBlock]? with
          | none => throw Fault.undefined
          | some block =>
            let g2 := if block.length > 0 then g1.write block else g1
            let compacted := substr sksl (flushPoint + 1).toNat
                               (tokenStart - flushPoint - 1).toNat
            let compacted :=
              if i < sksl.length - 1 then
                compacted ++ substr sksl (i + 1) (sksl.length - i - 1)
              else compacted
            flushLoop fuel compacted 0 (-1) (-1) g2
        else flushLoop fuel sksl (i + 1) flushPoint tokenStart g
      else
        if charAt sksl i = ';' ∨ charAt sksl i = '{' ∨ charAt sksl i = '}' then
          flushLoop fuel sksl (i + 1) (i : Int) tokenStart g
        else if i < sksl.length - 1 ∧ charAt sksl i = '$' ∧ charAt sksl (i + 1) = '{' then
          flushLoop fuel sksl (i + 2) flushPoint (i : Int) g
        else flushLoop fuel sksl (i + 1) flushPoint tokenStart g
    else writeCodeAppend sksl g

/-- The member function `flushEmittedCode`. While the loop runs the active sink is the cpp
buffer; afterwards it is the emptied sksl buffer again. The loop needs fewer than
`(size + 1)²` iterations. -/
def flushEmittedCode (g : CPPCodeGenerator) : Run CPPCodeGenerator :=
  match g.fCPPBuffer with
  | none => pure g
  | some cppBuffer => do
    let skslBuffer := g.fOut
    let sksl := skslBuffer.fText
    let g1 ← flushLoop ((sksl.length + 1) * (sksl.length + 1)) sksl 0 (-1) (-1)
                { g with fOut := cppBuffer }
    pure { g1 with fOut := { skslBuffer with fText := [] }
                   fCPPBuffer := some g1.fOut
                   fExtraEmitCodeBlocks := [] }

/-! ## Child indices, deferred blocks and runtime values -/

/-- The inner loop of `getChildFPIndex` over the `fVars` of one declaration statement; the
state is the pair of the locals `index` and `found`. -/
def getChildFPIndexVars (var : Variable) : List VarDeclaration → Nat × Bool → Nat × Bool
  | [], st => st
  | decl :: rest, (index, found) =>
    if decl.fVar.fAddr = var.fAddr then
      getChildFPIndexVars var rest (index, true)
    else if decl.fVar.fType.nonnullable.fName = "fragmentProcessor".toList then
      getChildFPIndexVars var rest (index + 1, found)
    else getChildFPIndexVars var rest (index, found)

/-- The outer loop of `getChildFPIndex` over the program elements, left by `break` once
`found` is set. -/
def getChildFPIndexElements (var : Variable) : List ProgramElement → Nat × Bool → Nat × Bool
  | [], st => st
  | p :: rest, st =>
    let st1 :=
      match p with
      | .kVar_Kind fVars => getChildFPIndexVars var fVars st
      | .kOther_Kind => st
    if st1.2 then st1 else getChildFPIndexElements var rest st1

/-- The member function `getChildFPIndex`. -/
def getChildFPIndex (env : Environment) (var : Variable) : Nat :=
  (getChildFPIndexElements var env.fProgram (0, false)).1

/-- The member function `newExtraEmitCodeBlock`. -/
def newExtraEmitCodeBlock (g : CPPCodeGenerator) : CPPCodeGenerator :=
  let g1 := { g with fExtraEmitCodeBlocks := g.fExtraEmitCodeBlocks ++ [[]] }
  g1.write ("$\x7b".toList ++ to_string (g1.fExtraEmitCodeBlocks.length - 1) ++ "\x7d".toList)

/-- The member function `addExtraEmitCodeLine`; the current block is the last one. -/
def addExtraEmitCodeLine (toAppend : Text) (g : CPPCodeGenerator) : Run CPPCodeGenerator :=
  match g.fExtraEmitCodeBlocks.getLast? with
  | none => throw Fault.undefined
  | some currentBlock =>
    pure { g with fExtraEmitCodeBlocks :=
                    g.fExtraEmitCodeBlocks.dropLast ++
                      [currentBlock ++ ("        ".toList ++ toAppend ++ "\n".toList)] }

/-- The static function `default_value(const Type&)`. -/
def default_value (type : SkType) : Run Text :=
  if type.fName = "bool".toList then pure "false".toList
  else
    match type.kind with
    | .kScalar_Kind => pure "0".toList
    | .kVector_Kind => pure (type.name ++ "(0)".toList)
    | .kMatrix_Kind => pure (type.name ++ "(1)".toList)
    | _ => throw Fault.abort

/-- The cells of a matrix in the order of the loops of `formatRuntimeValue`: the column
index `c` outside, the row index `r` inside; each cell is the pair `(r, c)`. -/
def matrixCells (columns rows : Nat) : List (Nat × Nat) :=
  (List.range columns).flatMap (fun c => (List.range rows).map (fun r => (r, c)))

/-- The body of `formatRuntimeValue`: the returned template and the values it pushes onto
`formatArgs`, in the order of the `push_back` calls. An unsupported type reaches the
`return ""` after the debug-only `SkDEBUGFAILF`. -/
def runtimeValueTemplate (type : SkType) (layout : Layout) (cppCode : Text) :
    Run (Text × List Text) :=
  if type.fIsFloat then
    pure ("%f".toList, [cppCode])
  else if type.fName = "int".toList then
    pure ("%d".toList, [cppCode])
  else if type.fName = "bool".toList then
    pure ("%s".toList, ["(".toList ++ cppCode ++ " ? \"true\" : \"false\")".toList])
  else if type.fName = "float2".toList ∨ type.fName = "half2".toList then
    pure (type.name ++ "(%f, %f)".toList, [cppCode ++ ".fX".toList, cppCode ++ ".fY".toList])
  else if type.fName = "float3".toList ∨ type.fName = "half3".toList then
    pure (type.name ++ "(%f, %f, %f)".toList,
      [cppCode ++ ".fX".toList, cppCode ++ ".fY".toList, cppCode ++ ".fZ".toList])
  else if type.fName = "float4".toList ∨ type.fName = "half4".toList then
    pure (type.name ++ "(%f, %f, %f, %f)".toList,
      match layout.fCType with
      | .kSkPMColor =>
        ["SkGetPackedR32(".toList ++ cppCode ++ ") / 255.0".toList,
         "SkGetPackedG32(".toList ++ cppCode ++ ") / 255.0".toList,
         "SkGetPackedB32(".toList ++ cppCode ++ ") / 255.0".toList,
         "SkGetPackedA32(".toList ++ cppCode ++ ") / 255.0".toList]
      | .kSkPMColor4f =>
        [cppCode ++ ".fR".toList, cppCode ++ ".fG".toList, cppCode ++ ".fB".toList,
         cppCode ++ ".fA".toList]
      | .kSkV4 =>
        [cppCode ++ ".x".toList, cppCode ++ ".y".toList, cppCode ++ ".z".toList,
         cppCode ++ ".w".toList]
      | .kSkRect | .kDefault =>
        [cppCode ++ ".left()".toList, cppCode ++ ".top()".toList,
         cppCode ++ ".right()".toList, cppCode ++ ".bottom()".toList]
      | .kOther => [])
  else if type.kind = TypeKind.kMatrix_Kind then
    if (type.name ++ "(".toList
          ++ (matrixCells type.fColumns type.fRows).flatMap (fun _ => "%f, ".toList)).dropLast
        = [] then
      throw Fault.undefined
    else
      pure ((type.name ++ "(".toList
              ++ (matrixCells type.fColumns type.fRows).flatMap
                   (fun _ => "%f, ".toList)).dropLast.dropLast ++ [')'],
        (matrixCells type.fColumns type.fRows).map (fun rc =>
          cppCode ++ ".rc(".toList ++ to_string rc.1 ++ ", ".toList ++ to_string rc.2
            ++ ")".toList))
  else if type.kind = TypeKind.kEnum_Kind then
    pure ("%d".toList, ["(int) ".toList ++ cppCode])
  else if type.fName = "int4".toList ∨ type.fName = "short4".toList
          ∨ type.fName = "byte4".toList then
    pure (type.name ++ "(%d, %d, %d, %d)".toList,
      [cppCode ++ ".left()".toList, cppCode ++ ".top()".toList,
       cppCode ++ ".right()".toList, cppCode ++ ".bottom()".toList])
  else pure ([], [])

/-- The member function `formatRuntimeValue`: the returned template and the argument
vector after the pushes. -/
def formatRuntimeValue (type : SkType) (layout : Layout) (cppCode : Text)
    (formatArgs : List Text) : Run (Text × List Text) := do
  let r ← runtimeValueTemplate type layout cppCode
  pure (r.1, formatArgs ++ r.2)

/-- The member function `writeRuntimeValue`. -/
def writeRuntimeValue (type : SkType) (layout : Layout) (cppCode : Text)
    (g : CPPCodeGenerator) : Run CPPCodeGenerator := do
  let r ← formatRuntimeValue type layout cppCode g.fFormatArgs
  pure ({ g with fFormatArgs := r.2 }.write r.1)

/-- The loop of `getSamplerHandle` over the parameters, with the local `samplerCount`. -/
def getSamplerHandleLoop (var : Variable) : List Variable → Nat → Run Text
  | [], _ => throw Fault.abort
  | param :: rest, samplerCount =>
    if var.fAddr = param.fAddr then
      pure ("args.fTexSamplers[".toList ++ to_string samplerCount ++ "]".toList)
    else if param.fType.kind = TypeKind.kSampler_Kind then
      getSamplerHandleLoop var rest (samplerCount + 1)
    else getSamplerHandleLoop var rest samplerCount

/-- The member function `getSamplerHandle`. -/
def getSamplerHandle (env : Environment) (var : Variable) : Run Text :=
  getSamplerHandleLoop var env.fParameters 0

/-- The cast `(int32_t)` of a 64-bit literal value. -/
def toInt32 (v : Int) : Int := (v + 2 ^ 31) % 2 ^ 32 - 2 ^ 31

/-- The push `fFormatArgs.push_back(a)`. -/
def CPPCodeGenerator.pushFormatArg (a : Text) (g : CPPCodeGenerator) : CPPCodeGenerator :=
  { g with fFormatArgs := g.fFormatArgs ++ [a] }

/-- The member function `writeVariableReference`. -/
def writeVariableReference (env : Environment) (fVariable : Variable)
    (g : CPPCodeGenerator) : Run CPPCodeGenerator :=
  if g.fCPPMode then pure (g.write fVariable.fName)
  else if fVariable.fModifiers.fLayout.fBuiltin = env.SK_OUTCOLOR_BUILTIN then
    pure ((g.write "%s".toList).pushFormatArg "args.fOutputColor".toList)
  else if fVariable.fModifiers.fLayout.fBuiltin = env.SK_MAIN_COORDS_BUILTIN then
    pure { (g.write "%s".toList).pushFormatArg "args.fSampleCoord".toList with
             fAccessSampleCoordsDirectly := true }
  else if fVariable.fModifiers.fLayout.fBuiltin = env.SK_WIDTH_BUILTIN then
    pure (g.write "sk_Width".toList)
  else if fVariable.fModifiers.fLayout.fBuiltin = env.SK_HEIGHT_BUILTIN then
    pure (g.write "sk_Height".toList)
  else if fVariable.fType.kind = TypeKind.kSampler_Kind then do
    let g1 := g.write "%s".toList
    let handle ← getSamplerHandle env fVariable
    pure (g1.pushFormatArg
      ("fragBuilder->getProgramBuilder()->samplerVariable(".toList ++ handle ++ ")".toList))
  else if fVariable.fModifiers.fUniform then do
    let g1 := g.write "%s".toList
    let name := fVariable.fName
    let var := "args.fUniformHandler->getUniformCStr(".toList ++ env.FieldName name
                 ++ "Var)".toList
    if fVariable.fModifiers.fLayout.fWhen.length ≠ 0 then do
      let dflt ← default_value fVariable.fType
      pure (g1.pushFormatArg
        (env.FieldName name ++ "Var.isValid() ? ".toList ++ var ++ " : \"".toList ++ dflt
          ++ "\"".toList))
    else pure (g1.pushFormatArg var)
  else if env.IsParameter fVariable then
    writeRuntimeValue fVariable.fType fVariable.fModifiers.fLayout
      ("_outer.".toList ++ fVariable.fName) g
  else pure (g.write fVariable.fName)

/-! ## Isolated rendering -/

/-- A writer of one expression: `writeExpression(e, parentPrecedence)` with `e` fixed. -/
abbrev Writer := Precedence → CPPCodeGenerator → Run CPPCodeGenerator

/-- The token-stripping loop of `convertSKSLExpressionToCPP`, with `n` the iterations still
allowed (the loop runs at most `expr.size()` times); the state is the index `i`, the
locals `tokenStart` and `exprFormat`, and the generator, whose active sink receives the
tokens. -/
def stripTokensLoop : Nat → Text → Nat → Int → Text → CPPCodeGenerator →
    Text × CPPCodeGenerator
  | 0, _, _, _, exprFormat, g => (exprFormat, g)
  | n + 1, expr, i, tokenStart, exprFormat, g =>
    if i < expr.length then
      if tokenStart ≥ 0 then
        if charAt expr i = '}' then
          stripTokensLoop n expr (i + 1) (-1) exprFormat
            (g.write (substr expr tokenStart.toNat (i - tokenStart.toNat + 1)))
        else stripTokensLoop n expr (i + 1) tokenStart exprFormat g
      else
        if i < expr.length - 1 ∧ charAt expr i = '$' ∧ charAt expr (i + 1) = '{' then
          stripTokensLoop n expr (i + 2) (i : Int) exprFormat g
        else stripTokensLoop n expr (i + 1) tokenStart (exprFormat ++ [charAt expr i]) g
    else (exprFormat, g)

/-- The last part of `convertSKSLExpressionToCPP`: the host snippet built from the
variable name, the template and the arguments of the isolated rendering. -/
def buildCppExpr (cppVar exprFormat : Text) (newArgs : List Text) : Text :=
  if newArgs = [] then
    "SkString ".toList ++ cppVar ++ "(\"".toList ++ exprFormat ++ "\");".toList
  else if newArgs.length = 1 ∧ exprFormat = "%s".toList then
    "SkString ".toList ++ cppVar ++ "(".toList ++ newArgs.headD [] ++ ");".toList
  else
    "SkString ".toList ++ cppVar ++ " = SkStringPrintf(\"".toList ++ exprFormat
      ++ "\"".toList ++ newArgs.flatMap (fun a => ", ".toList ++ a) ++ ");".toList

/-- The member function `convertSKSLExpressionToCPP`, given the call
`this->writeExpression(e, ...)` for its expression as `writeE`. -/
def convertSKSLExpressionToCPPWith (writeE : Writer) (cppVar : Text)
    (g : CPPCodeGenerator) : Run (Text × CPPCodeGenerator) := do
  let oldSKSL := g.fOut
  let exprBuffer : OutputStream := { fId := g.fStreams, fText := [] }
  let oldArgs := g.fFormatArgs
  let g1 := { g with fOut := exprBuffer, fStreams := g.fStreams + 1, fFormatArgs := [] }
  let g2 ← writeE kTopLevel_Precedence g1
  let newArgs := g2.fFormatArgs
  let expr := g2.fOut.fText
  let g3 := { g2 with fFormatArgs := oldArgs, fOut := oldSKSL }
  let r := stripTokensLoop expr.length expr 0 (-1) [] g3
  pure (buildCppExpr cppVar r.1 newArgs, r.2)

/-! ## Calls -/

/-- The argument loop of a call: the separator, then the argument at
`kSequence_Precedence`. -/
def writeArgumentList : List (Expression × Writer) → Text → CPPCodeGenerator →
    Run CPPCodeGenerator
  | [], _, g => pure g
  | (_, w) :: rest, separator, g => do
    let g1 ← w kSequence_Precedence (g.write separator)
    writeArgumentList rest ", ".toList g1

/-- The statement `addExtraEmitCodeLine(convertSKSLExpressionToCPP(e, cppVar))`, given the
writer of `e`. -/
def addConvertedLine (writeE : Writer) (cppVar : Text) (g : CPPCodeGenerator) :
    Run CPPCodeGenerator := do
  let r ← convertSKSLExpressionToCPPWith writeE cppVar g
  addExtraEmitCodeLine r.1 r.2

/-- The part of the `sample` branch that sets the local `inputColor`. -/
def sampleInputColor (fOffset : Int) (fArguments : List (Expression × Writer))
    (g : CPPCodeGenerator) : Run (Text × CPPCodeGenerator) :=
  match fArguments[1]? with
  | some a1 =>
    if a1.1.type.name = "half4".toList then do
      let inputColorName := "_input".toList ++ to_string_int fOffset
      let g1 ← addConvertedLine a1.2 inputColorName g
      pure (", ".toList ++ inputColorName ++ ".c_str()".toList, g1)
    else pure ([], g)
  | none => pure ([], g)

/-- The part of the `sample` branch that sets the locals `inputCoord` and `invokeFunction`,
up to the test `!inputCoord.empty()`; the result is `((inputCoord, invokeFunction), g)`. -/
def sampleInputCoord (env : Environment) (fOffset : Int)
    (fArguments : List (Expression × Writer)) (child : Variable) (g : CPPCodeGenerator) :
    Run ((Text × Text) × CPPCodeGenerator) :=
  match fArguments.getLast? with
  | none => throw Fault.undefined
  | some aLast =>
    if aLast.1.type.name = "float2".toList then do
      let inputCoord := "_coords".toList ++ to_string_int fOffset
      let g1 ← addConvertedLine aLast.2 inputCoord g
      pure ((inputCoord ++ ".c_str()".toList, "invokeChild".toList), g1)
    else if aLast.1.type.name = "float3x3".toList then
      if ¬ env.hasUniformMatrix child then do
        let inputCoord := "_matrix".toList ++ to_string_int fOffset
        let g1 ← addConvertedLine aLast.2 inputCoord g
        pure ((inputCoord ++ ".c_str()".toList, "invokeChildWithMatrix".toList), g1)
      else pure (([], "invokeChildWithMatrix".toList), g)
    else pure (([], "invokeChild".toList), g)

/-- The branch of `writeFunctionCall` for `sample(child, ...)` on a child processor, from
`newExtraEmitCodeBlock()` to the `return`. `fArguments` pairs every argument with its
writer. -/
def writeSampleChild (env : Environment) (fOffset : Int)
    (fArguments : List (Expression × Writer)) (child : Variable) (g : CPPCodeGenerator) :
    Run CPPCodeGenerator := do
  let g1 := newExtraEmitCodeBlock g
  let color ← sampleInputColor fOffset fArguments g1
  let coord ← sampleInputCoord env fOffset fArguments child color.2
  let inputCoord := if coord.1.1 ≠ [] then ", ".toList ++ coord.1.1 else coord.1.1
  let childName := "_sample".toList ++ to_string_int fOffset
  let childIndexStr := to_string (getChildFPIndex env child)
  let g2 ← addExtraEmitCodeLine
    ("SkString ".toList ++ childName ++ " = this->".toList ++ coord.1.2 ++ "(".toList
      ++ childIndexStr ++ color.1 ++ ", args".toList ++ inputCoord ++ ");".toList) coord.2
  pure ((g2.write "%s".toList).pushFormatArg (childName ++ ".c_str()".toList))

/-- The member function `writeFunctionCall`, given every argument with its writer. The
call `INHERITED::writeFunctionCall(c)` is modelled from the spec (the base class is outside
the sources): it writes the function name and the parenthesised argument list. -/
def writeFunctionCallWith (env : Environment) (fOffset : Int)
    (fFunction : FunctionDeclaration) (fArguments : List (Expression × Writer))
    (g : CPPCodeGenerator) : Run CPPCodeGenerator :=
  if fFunction.fBuiltin = true ∧ fFunction.fName = "sample".toList then
    match fArguments.head? with
    | none => throw Fault.undefined
    | some arg0 =>
      if arg0.1.type.kind ≠ TypeKind.kSampler_Kind then
        match arg0.1.asVariableReference with
        | none =>
          pure (g.error arg0.1.offset
            "sample()'s fragmentProcessor argument must be a variable reference\n".toList)
        | some child => writeSampleChild env fOffset fArguments child g
      else do
        let g2 ← writeArgumentList fArguments [] (g.write (fFunction.fName ++ "(".toList))
        match arg0.1.asVariableReference with
        | none => throw Fault.undefined
        | some v => do
          let sampler ← getSamplerHandle env v
          pure (((g2.write ")".toList).write ".%s".toList).pushFormatArg
            ("fragBuilder->getProgramBuilder()->samplerSwizzle(".toList ++ sampler
              ++ ").asString().c_str()".toList))
  else if fFunction.fBuiltin = true then do
    let g2 ← writeArgumentList fArguments [] (g.write (fFunction.fName ++ "(".toList))
    pure (g2.write ")".toList)
  else do
    let g1 := (g.write "%s".toList).pushFormatArg (fFunction.fName ++ "_name.c_str()".toList)
    let g2 ← writeArgumentList fArguments [] (g1.write "(".toList)
    pure (g2.write ")".toList)

/-- The letter written by the base class for one swizzle component. -/
def swizzleLetter (c : Nat) : Text :=
  match c with
  | 0 => ['x'] | 1 => ['y'] | 2 => ['z'] | 3 => ['w'] | _ => []

/-- The branch of `writeBinaryExpression` for a comparison with a null literal. -/
def writeNullComparison (env : Environment) (fLeft : Expression) (fOperator : TokenKind)
    (fRight : Expression) (g : CPPCodeGenerator) : Run CPPCodeGenerator :=
  match (if ¬ fLeft.isNullLiteral then fLeft.asVariableReference
         else fRight.asVariableReference) with
  | none => throw Fault.undefined
  | some var =>
    let g1 := g.write "%s".toList
    let op : Text :=
      match fOperator with
      | .TK_EQEQ => "!".toList
      | .TK_NEQ => []
      | _ => []
    let childIndex := getChildFPIndex env var
    pure (g1.pushFormatArg
      (op ++ "_outer.childProcessor(".toList ++ to_string childIndex
        ++ ") ? \"true\" : \"false\"".toList))

/-- The test of `writeIndexExpression`: the base is a variable reference whose builtin is
`SK_TEXTURESAMPLERS_BUILTIN`. -/
def isTextureSamplers (env : Environment) (fBase : Expression) : Bool :=
  match fBase.asVariableReference with
  | some v => decide (env.SK_TEXTURESAMPLERS_BUILTIN = v.fModifiers.fLayout.fBuiltin)
  | none => false

/-- The branch of `writeIndexExpression` for an index into `sk_TextureSamplers`. -/
def writeSamplerIndex (fIndex : Expression) (g : CPPCodeGenerator) : CPPCodeGenerator :=
  let g1 := g.write "%s".toList
  match fIndex.asIntLiteral with
  | none =>
    g1.error fIndex.offset "index into sk_TextureSamplers must be an integer literal".toList
  | some index =>
    g1.pushFormatArg
      ("        fragBuilder->getProgramBuilder()->samplerVariable(args.fTexSamplers[".toList
        ++ to_string_int index ++ "])".toList)

/-- The `switch (swizzle.fComponents[0])` of `writeSwizzle` in C++ mode. -/
def writeSwizzleAccessor (fComponents : List Nat) (g : CPPCodeGenerator) :
    Run CPPCodeGenerator :=
  match fComponents[0]? with
  | none => throw Fault.undefined
  | some 0 => pure (g.write ".left()".toList)
  | some 1 => pure (g.write ".top()".toList)
  | some 2 => pure (g.write ".right()".toList)
  | some 3 => pure (g.write ".bottom()".toList)
  | some _ => pure g

/-- The branch of `writeFieldAccess` for a field of a fragment processor. -/
def writeChildFieldAccess (env : Environment) (fBase : Expression) (fFieldIndex : Nat)
    (g : CPPCodeGenerator) : Run CPPCodeGenerator :=
  match fBase.asVariableReference with
  | none => pure (g.error fBase.offset "fragmentProcessor must be a reference\n".toList)
  | some var =>
    match env.fFragmentProcessorFields[fFieldIndex]? with
    | none => throw Fault.undefined
    | some field =>
      let cppAccess := "_outer.childProcessor(".toList
        ++ to_string (getChildFPIndex env var) ++ ")->".toList ++ field.1 ++ "()".toList
      if g.fCPPMode then pure (g.write cppAccess)
      else writeRuntimeValue field.2 Layout.default cppAccess g

mutual
/-- The virtual `writeExpression` with the writers `CPPCodeGenerator` overrides. The calls
`INHERITED::write...` are modelled from the spec, the base class being outside the
sources: each writes literal text and renders the operands through `writeExpression`. -/
def writeExpression (env : Environment) :
    Expression → Precedence → CPPCodeGenerator → Run CPPCodeGenerator
  | .binary _ _ fLeft fOperator fRight, parentPrecedence, g =>
    if fOperator = TokenKind.TK_PERCENT then do
      let g2 ← writeExpression env fLeft (env.GetBinaryPrecedence fOperator)
        (if env.GetBinaryPrecedence fOperator ≥ parentPrecedence then g.write "(".toList
         else g)
      let g4 ← writeExpression env fRight (env.GetBinaryPrecedence fOperator)
        (g2.write " %% ".toList)
      pure (if env.GetBinaryPrecedence fOperator ≥ parentPrecedence then g4.write ")".toList
            else g4)
    else if fLeft.isNullLiteral = true ∨ fRight.isNullLiteral = true then
      writeNullComparison env fLeft fOperator fRight g
    else do
      let g2 ← writeExpression env fLeft (env.GetBinaryPrecedence fOperator)
        (if env.GetBinaryPrecedence fOperator ≥ parentPrecedence then g.write "(".toList
         else g)
      let g4 ← writeExpression env fRight (env.GetBinaryPrecedence fOperator)
        (g2.write (" ".toList ++ env.OperatorName fOperator ++ " ".toList))
      pure (if env.GetBinaryPrecedence fOperator ≥ parentPrecedence then g4.write ")".toList
            else g4)
  | .nullLiteral _ _, _, _ => throw Fault.abort
  | .intLiteral _ _ fValue, _, g => pure (g.write (to_string_int (toInt32 fValue)))
  | .variableReference _ fVariable, _, g => writeVariableReference env fVariable g
  | .index _ _ fBase fIndex, _, g =>
    if isTextureSamplers env fBase = true then pure (writeSamplerIndex fIndex g)
    else do
      let g1 ← writeExpression env fBase kPostfix_Precedence g
      let g2 ← writeExpression env fIndex kTopLevel_Precedence (g1.write "[".toList)
      pure (g2.write "]".toList)
  | .swizzle _ _ fBase fComponents, _, g =>
    if g.fCPPMode = true then do
      let g1 ← writeExpression env fBase kPostfix_Precedence g
      writeSwizzleAccessor fComponents g1
    else do
      let g1 ← writeExpression env fBase kPostfix_Precedence g
      pure ((g1.write ".".toList).write (fComponents.flatMap swizzleLetter))
  | .fieldAccess _ _ fBase fFieldIndex fFieldName, _, g =>
    if fBase.type.name = "fragmentProcessor".toList then
      writeChildFieldAccess env fBase fFieldIndex g
    else do
      let g1 ← writeExpression env fBase kPostfix_Precedence g
      pure ((g1.write ".".toList).write fFieldName)
  | .functionCall fOffset _ fFunction fArguments, _, g =>
    writeFunctionCallWith env fOffset fFunction (writeArguments env fArguments) g
  | .setting _ _ fName, _, g => pure (g.write fName)
  | .inherited _ _ fPieces, _, g => writePieces env fPieces g
/-- Every argument of a call paired with the call `writeExpression(arg, ...)` for it. -/
def writeArguments (env : Environment) : Arguments → List (Expression × Writer)
  | .nil => []
  | .cons head tail => (head, writeExpression env head) :: writeArguments env tail
/-- The base class rendering a node kind of its own: text and operands in order. -/
def writePieces (env : Environment) : Pieces → CPPCodeGenerator → Run CPPCodeGenerator
  | .nil, g => pure g
  | .text t rest, g => writePieces env rest (g.write t)
  | .operand e parentPrecedence rest, g => do
    let g1 ← writeExpression env e parentPrecedence g
    writePieces env rest g1
end

/-- The member function `convertSKSLExpressionToCPP`. -/
def convertSKSLExpressionToCPP (env : Environment) (e : Expression) (cppVar : Text)
    (g : CPPCodeGenerator) : Run (Text × CPPCodeGenerator) :=
  convertSKSLExpressionToCPPWith (writeExpression env e) cppVar g

/-- The member function `writeBinaryExpression`. -/
def writeBinaryExpression (env : Environment) (fOffset : Int) (fType : SkType)
    (fLeft : Expression) (fOperator : TokenKind) (fRight : Expression)
    (parentPrecedence : Precedence) (g : CPPCodeGenerator) : Run CPPCodeGenerator :=
  writeExpression env (.binary fOffset fType fLeft fOperator fRight) parentPrecedence g

/-- The member function `writeFunctionCall`. -/
def writeFunctionCall (env : Environment) (fOffset : Int) (fType : SkType)
    (fFunction : FunctionDeclaration) (fArguments : Arguments) (g : CPPCodeGenerator) :
    Run CPPCodeGenerator :=
  writeExpression env (.functionCall fOffset fType fFunction fArguments)
    kTopLevel_Precedence g

/-! ## Programs used as concrete inputs -/

/-- The type `half4`. -/
def half4Type : SkType :=
  { fName := "half4".toList, fTypeKind := .kVector_Kind, fIsFloat := false, fColumns := 4,
    fRows := 1, fComponentName := "half".toList, fComponentKind := .kScalar_Kind }

/-- The type `half`. -/
def halfType : SkType :=
  { fName := "half".toList, fTypeKind := .kScalar_Kind, fIsFloat := true, fColumns := 1,
    fRows := 1, fComponentName := [], fComponentKind := .kOther_Kind }

/-- The type `float2`. -/
def float2Type : SkType :=
  { fName := "float2".toList, fTypeKind := .kVector_Kind, fIsFloat := false, fColumns := 2,
    fRows := 1, fComponentName := "float".toList, fComponentKind := .kScalar_Kind }

/-- The type `bool`. -/
def boolType : SkType :=
  { fName := "bool".toList, fTypeKind := .kScalar_Kind, fIsFloat := false, fColumns := 1,
    fRows := 1, fComponentName := [], fComponentKind := .kOther_Kind }

/-- The type `fragmentProcessor`. -/
def fragmentProcessorType : SkType :=
  { fName := "fragmentProcessor".toList, fTypeKind := .kOther_Kind, fIsFloat := false,
    fColumns := 1, fRows := 1, fComponentName := [], fComponentKind := .kOther_Kind }

/-- The type `fragmentProcessor?`. -/
def nullableFragmentProcessorType : SkType :=
  { fName := "fragmentProcessor?".toList, fTypeKind := .kNullable_Kind, fIsFloat := false,
    fColumns := 1, fRows := 1, fComponentName := "fragmentProcessor".toList,
    fComponentKind := .kOther_Kind }

/-- A variable declared `in`, without layout. -/
def inVariable (addr : Nat) (name : String) (type : SkType) (uniform : Bool) : Variable :=
  { fAddr := addr, fName := name.toList, fType := type,
    fModifiers := { fUniform := uniform, fIn := true, fLayout := Layout.default },
    fGlobal := true }

/-- A builtin variable with the given `builtin` layout value. -/
def builtinVariable (addr : Nat) (name : String) (type : SkType) (builtin : Int) : Variable :=
  { fAddr := addr, fName := name.toList, fType := type,
    fModifiers := { fUniform := false, fIn := false,
                    fLayout := { Layout.default with fBuiltin := builtin } },
    fGlobal := true }

/-- Scenario A: `in uniform half weight`. -/
def weightVar : Variable := inVariable 1 "weight" halfType true
/-- Scenario A: `in fragmentProcessor fp0`. -/
def fp0Var : Variable := inVariable 2 "fp0" fragmentProcessorType false
/-- Scenario A: `in fragmentProcessor? fp1`. -/
def fp1Var : Variable := inVariable 3 "fp1" nullableFragmentProcessorType false
/-- The builtin `sk_OutColor`. -/
def outColorVar : Variable := builtinVariable 4 "sk_OutColor" half4Type 10004
/-- The builtin `sk_InColor`. -/
def inColorVar : Variable := builtinVariable 5 "sk_InColor" half4Type 10003
/-- A local variable `coords` of type float2. -/
def coordsVar : Variable :=
  { fAddr := 6, fName := "coords".toList, fType := float2Type,
    fModifiers := { fUniform := false, fIn := false, fLayout := Layout.default },
    fGlobal := false }

/-- An environment for the given program and parameters; the declarations outside the
sources get the values of the SkSL front end: `IsParameter` is "`in` and no builtin",
`FieldName` is the name itself, '%' binds at precedence 4, the comparisons at 8 and every
other binary operator is taken to be the assignment. -/
def environmentOf (program : List ProgramElement) (parameters : List Variable) :
    Environment :=
  { fProgram := program
    fParameters := parameters
    IsParameter := fun v => v.fModifiers.fIn && decide (v.fModifiers.fLayout.fBuiltin = -1)
    FieldName := fun n => n
    GetBinaryPrecedence := fun k =>
      match k with
      | .TK_PERCENT => 4
      | .TK_EQEQ => 8
      | .TK_NEQ => 8
      | .TK_OTHER _ => kAssignment_Precedence
    OperatorName := fun k =>
      match k with
      | .TK_PERCENT => "%".toList
      | .TK_EQEQ => "==".toList
      | .TK_NEQ => "!=".toList
      | .TK_OTHER _ => "=".toList
    hasUniformMatrix := fun _ => false
    fFragmentProcessorFields := []
    SK_OUTCOLOR_BUILTIN := 10004
    SK_MAIN_COORDS_BUILTIN := 10009
    SK_WIDTH_BUILTIN := 10011
    SK_HEIGHT_BUILTIN := 10012
    SK_TEXTURESAMPLERS_BUILTIN := 10006 }

/-- Scenario A: the declarations `weight`, `fp0`, `fp1`, each in its own statement. -/
def scenarioA : Environment :=
  environmentOf
    [.kVar_Kind [{ fOffset := 0, fVar := weightVar, fValue := none }],
     .kVar_Kind [{ fOffset := 20, fVar := fp0Var, fValue := none }],
     .kVar_Kind [{ fOffset := 40, fVar := fp1Var, fValue := none }],
     .kOther_Kind]
    [weightVar, fp0Var, fp1Var]

/-- The builtin function `sample`. -/
def sampleFunction : FunctionDeclaration := { fBuiltin := true, fName := "sample".toList }

/-- The builtin function `mix`. -/
def mixFunction : FunctionDeclaration := { fBuiltin := true, fName := "mix".toList }

/-- The call `sample(child)` at the given offset. -/
def sampleCall (offset : Int) (child : Variable) : Expression :=
  .functionCall offset half4Type sampleFunction
    (.cons (.variableReference (offset + 7) child) .nil)

/-- Scenario A: the expression
`sk_OutColor = mix(sample(fp0), fp1 != null ? sample(fp1) : sk_InColor, weight)`; the
ternary is a node the base class renders. -/
def scenarioAMain : Expression :=
  .binary 10 half4Type (.variableReference 10 outColorVar) (.TK_OTHER 0)
    (.functionCall 24 half4Type mixFunction
      (.cons (sampleCall 28 fp0Var)
      (.cons (.inherited 41 half4Type
          (.operand (.binary 41 boolType (.variableReference 41 fp1Var) .TK_NEQ
                       (.nullLiteral 48 nullableFragmentProcessorType)) kTernary_Precedence
          (.text " ? ".toList
          (.operand (sampleCall 55 fp1Var) kTernary_Precedence
          (.text " : ".toList
          (.operand (.variableReference 69 inColorVar) kTernary_Precedence .nil))))))
      (.cons (.variableReference 81 weightVar) .nil))))

/-- The generator inside `writeEmitCode`, after `fCPPBuffer = fOut; fOut = &skslBuffer`:
the sksl buffer (address 1) holds `sksl`, the cpp buffer (address 0) is empty. -/
def emitCodeState (sksl : Text) (formatArgs : List Text) (blocks : List Text) :
    CPPCodeGenerator :=
  { fOut := { fId := 1, fText := sksl }
    fCPPBuffer := some { fId := 0, fText := [] }
    fFormatArgs := formatArgs
    fExtraEmitCodeBlocks := blocks
    fErrors := []
    fCPPMode := false
    fInMain := false
    fAccessSampleCoordsDirectly := false
    fStreams := 2 }

/-- The part of `writeEmitCode` from `newExtraEmitCodeBlock()` to `flushEmittedCode()` for
a main body that is one expression statement. The base class writing the statement (the
expression, then ";" and the line ending) is modelled from the spec. The result is the
text in the cpp buffer. -/
def emitCodeOfStatement (env : Environment) (e : Expression) : Run Text := do
  let g1 ← writeExpression env e kTopLevel_Precedence (newExtraEmitCodeBlock (emitCodeState [] [] []))
  let g2 ← flushEmittedCode (g1.write ";\n".toList)
  match g2.fCPPBuffer with
  | some cpp => pure cpp.fText
  | none => throw Fault.undefined

/-- Whether `needle` occurs in `hay` starting at its first character. -/
def startsWith : Text → Text → Bool
  | [], _ => true
  | _ :: _, [] => false
  | a :: needle, b :: hay => a == b && startsWith needle hay

/-- Whether `needle` occurs somewhere in `hay`. -/
def occursIn (needle : Text) : Text → Bool
  | [] => startsWith needle []
  | c :: hay => startsWith needle (c :: hay) || occursIn needle hay

/-- The value of a run, or `d` after a fault. -/
def Run.getD {α : Type} (x : Run α) (d : α) : α :=
  match x with
  | .ok a => a
  | .error _ => d

/-! ## Specification-side definitions and the inputs of the worked cases -/

/-- The state `g'` is `g` after more output: the same sink with more text, the queue, the
block table and the error list longer at the end, everything else as it was. -/
structure Extends (g g' : CPPCodeGenerator) : Prop where
  sink : g'.fOut.fId = g.fOut.fId
  text : ∃ t, g'.fOut.fText = g.fOut.fText ++ t
  args : ∃ a, g'.fFormatArgs = g.fFormatArgs ++ a
  blocks : ∃ b, g'.fExtraEmitCodeBlocks = g.fExtraEmitCodeBlocks ++ b
  errors : ∃ e, g'.fErrors = g.fErrors ++ e
  cppBuffer : g'.fCPPBuffer = g.fCPPBuffer
  cppMode : g'.fCPPMode = g.fCPPMode
  inMain : g'.fInMain = g.fInMain
  streams : g.fStreams ≤ g'.fStreams

/-- A complete token: the two characters "${", text without '}', and '}'. -/
def IsToken (t : Text) : Prop :=
  ∃ inner : Text, t = '$' :: '{' :: (inner ++ ['}']) ∧ '}' ∉ inner

/-- The invariant of the token-stripping loop on the local `tokenStart`. -/
def TokenOpen (expr : Text) (i : Nat) (tokenStart : Int) : Prop :=
  tokenStart < 0 ∨
    ∃ ts : Nat, tokenStart = (ts : Int) ∧ ts + 2 ≤ i ∧ charAt expr ts = '$' ∧
      charAt expr (ts + 1) = '{' ∧ ∀ j, ts + 2 ≤ j → j < i → charAt expr j ≠ '}'

/-- The token written for block `k`. -/
def blockToken (k : Nat) : Text := "$\x7b".toList ++ to_string k ++ "\x7d".toList

/-- What a step between `newExtraEmitCodeBlock()` and the last line of the `sample` branch
may change, `n` being the number of blocks before the branch: tokens are appended to the
sink, text is appended to the blocks from `n` on, the queue is as it was. -/
structure Inside (n : Nat) (g g' : CPPCodeGenerator) : Prop where
  out : ∃ toks : List Text, (∀ t ∈ toks, IsToken t) ∧
    g'.fOut = { fId := g.fOut.fId, fText := g.fOut.fText ++ toks.flatten }
  args : g'.fFormatArgs = g.fFormatArgs
  kept : g'.fExtraEmitCodeBlocks.take n = g.fExtraEmitCodeBlocks.take n
  added : ∃ x, (g'.fExtraEmitCodeBlocks.drop n).flatten
              = (g.fExtraEmitCodeBlocks.drop n).flatten ++ x
  size : g.fExtraEmitCodeBlocks.length ≤ g'.fExtraEmitCodeBlocks.length
  errors : ∃ e, g'.fErrors = g.fErrors ++ e
  cppBuffer : g'.fCPPBuffer = g.fCPPBuffer
  cppMode : g'.fCPPMode = g.fCPPMode
  inMain : g'.fInMain = g.fInMain
  streams : g.fStreams ≤ g'.fStreams

/-- The text `<color>` of the invocation line: ", _input<off>.c_str()" when there is a
second argument of type half4, empty otherwise. -/
def sampleColorArgument (fOffset : Int) (args : List Expression) : Text :=
  match args[1]? with
  | some a =>
    if a.type.name = "half4".toList then
      ", ".toList ++ ("_input".toList ++ to_string_int fOffset) ++ ".c_str()".toList
    else []
  | none => []

/-- The name of the coordinate local: "_coords<off>" when the last argument is a float2,
"_matrix<off>" when it is a float3x3 and the child is not sampled through a uniform matrix,
empty otherwise. -/
def sampleCoordName (env : Environment) (fOffset : Int) (child : Variable)
    (args : List Expression) : Text :=
  match args.getLast? with
  | some a =>
    if a.type.name = "float2".toList then "_coords".toList ++ to_string_int fOffset
    else if a.type.name = "float3x3".toList ∧ ¬ env.hasUniformMatrix child then
      "_matrix".toList ++ to_string_int fOffset
    else []
  | none => []

/-- The name `<fn>` of the invoked function: invokeChildWithMatrix when the last argument
is a float3x3, invokeChild otherwise. -/
def sampleInvokeName (args : List Expression) : Text :=
  match args.getLast? with
  | some a =>
    if a.type.name = "float3x3".toList then "invokeChildWithMatrix".toList
    else "invokeChild".toList
  | none => "invokeChild".toList

/-- The invocation line "SkString _sample<off> = this-><fn>(<idx><color>, args<coord>);". -/
def sampleInvocationLine (env : Environment) (fOffset : Int) (child : Variable)
    (args : List Expression) : Text :=
  "SkString ".toList ++ ("_sample".toList ++ to_string_int fOffset) ++ " = this->".toList
    ++ sampleInvokeName args ++ "(".toList ++ to_string (getChildFPIndex env child)
    ++ sampleColorArgument fOffset args ++ ", args".toList
    ++ (if sampleCoordName env fOffset child args ≠ [] then
          ", ".toList ++ (sampleCoordName env fOffset child args ++ ".c_str()".toList)
        else [])
    ++ ");".toList

/-- A line as `addExtraEmitCodeLine` stores it: indentation, the text, a newline. -/
def emitCodeLine (l : Text) : Text := "        ".toList ++ l ++ "\n".toList

/-- A text in document order: a first segment, then each token "${k}" followed by the
segment after it. -/
def spliceBuffer (first : Text) (rest : List (Nat × Text)) : Text :=
  first ++ rest.flatMap (fun kt => blockToken kt.1 ++ kt.2)

/-- The number of unescaped placeholders of a text: reading from the left, "%%" is a
literal percent sign and every other '%' is a placeholder. -/
def unescapedPlaceholders : Text → Nat
  | [] => 0
  | '%' :: '%' :: rest => unescapedPlaceholders rest
  | '%' :: rest => 1 + unescapedPlaceholders rest
  | _ :: rest => unescapedPlaceholders rest

/-- The variables declared by a program, in declaration order. -/
def declaredVariables (program : List ProgramElement) : List Variable :=
  program.flatMap (fun p =>
    match p with
    | .kVar_Kind fVars => fVars.map (fun d => d.fVar)
    | .kOther_Kind => [])

/-- Whether a variable has a child-processor type, nullable or not. -/
def isChildProcessor (v : Variable) : Bool :=
  decide (v.fType.nonnullable.fName = "fragmentProcessor".toList)

/-- The number of child-processor-typed variables declared before `v`. -/
def childProcessorsBefore (program : List ProgramElement) (v : Variable) : Nat :=
  ((declaredVariables program).takeWhile (fun d => d.fAddr ≠ v.fAddr)).countP isChildProcessor

/-- The program `in fragmentProcessor fp0, fp1;`: two children in one statement. -/
def twoChildrenInOneStatement : Environment :=
  environmentOf
    [.kVar_Kind [{ fOffset := 0, fVar := fp0Var, fValue := none },
                 { fOffset := 0, fVar := fp1Var, fValue := none }]]
    [fp0Var, fp1Var]

/-- The host code generated for Scenario A. -/
def scenarioAHostCode : Text :=
  ("        SkString _sample28 = this->invokeChild(0, args);\n"
    ++ "        SkString _sample55 = this->invokeChild(1, args);\n"
    ++ "        fragBuilder->codeAppendf(\n"
    ++ "R\"SkSL(%s = mix(%s, %s ? %s : sk_InColor, %s);\n)SkSL\"\n"
    ++ ", args.fOutputColor, _sample28.c_str(), "
    ++ "_outer.childProcessor(1) ? \"true\" : \"false\", _sample55.c_str(), "
    ++ "args.fUniformHandler->getUniformCStr(weightVar));\n").toList

/-- The expression `weight % 2` of the witness of C3. -/
def moduloLeft : Expression := .variableReference 3 weightVar

/-- The right operand `2` of the witness of C3. -/
def moduloRight : Expression := .intLiteral 12 halfType 2

/-- The enclosing state of the witnesses of C9 and C10: the buffer holds "${0}x = ", the
queue one argument and the table one block. -/
def enclosingState : CPPCodeGenerator :=
  emitCodeState "$\x7b0\x7dx = ".toList ["args.fOutputColor".toList] [[]]

/-- The call `sample(fp0, sample(fp1))`: a sample call nested in the colour argument. -/
def nestedSampleArguments : Arguments :=
  .cons (.variableReference 12 fp0Var) (.cons (sampleCall 17 fp1Var) .nil)

/-- The call `sample(fp0, sk_InColor, coords)`: input colour and explicit coordinates. -/
def sampleWithColorAndCoords : Arguments :=
  .cons (.variableReference 12 fp0Var)
    (.cons (.variableReference 17 inColorVar) (.cons (.variableReference 29 coordsVar) .nil))

/-- The test `sksl[i] == ';' || sksl[i] == '{' || sksl[i] == '}'`. -/
def isStatementEnd (c : Char) : Prop := c = ';' ∨ c = '{' ∨ c = '}'

/-- Whether the two characters "${" occur in a text. -/
def hasTokenStart : Text → Bool
  | [] => false
  | [_] => false
  | c :: d :: rest => (c == '$' && d == '{') || hasTokenStart (d :: rest)

/-- A token put after this text stands at a statement boundary: the text is empty (the
token is at the start of the buffer or directly after the '}' of the token before it) or
ends with ';', '{' or '}'. -/
def EndsStatement (s : Text) : Prop := ∀ c, s.getLast? = some c → isStatementEnd c

/-- Every token of the buffer `spliceBuffer first rest` stands at a statement boundary. -/
def TokensAtBoundaries : Text → List (Nat × Text) → Prop
  | _, [] => True
  | first, kt :: rest => EndsStatement first ∧ TokensAtBoundaries kt.2 rest

/-- The manual concatenation in document order: for each token in turn one templated call
with the text before it and then the text of its block, and at the end one templated
call with the text after the last token. -/
def manualSplice : Text → List (Nat × Text) → CPPCodeGenerator → Run CPPCodeGenerator
  | last, [], g => writeCodeAppend last g
  | before, kt :: rest, g => do
    let g1 ← writeCodeAppend before g
    match g1.fExtraEmitCodeBlocks[kt.1]? with
    | none => throw Fault.undefined
    | some block => manualSplice kt.2 rest (g1.write block)

/-! ## Statements and functions -/

mutual
/-- The statement nodes. The nodes whose writer the generator overrides have their own
constructor; `inherited` stands for every other node kind. The calls `INHERITED::write...`
are modelled from the spec, the base class being outside the sources: a statement is
rendered as literal text around its parts, which `fPieces` lists in order. -/
inductive Statement where
  | returnStatement (fOffset : Int) (fExpression : Option Expression)
  | ifStatement (fOffset : Int) (fIsStatic : Bool) (fPieces : StatementPieces)
  | switchStatement (fOffset : Int) (fIsStatic : Bool) (fPieces : StatementPieces)
  | inherited (fOffset : Int) (fPieces : StatementPieces)
/-- What the base class does for a statement: it writes text, renders expressions at a
precedence, writes the initial value of a declared variable through the virtual
`writeVarInitializer`, and renders nested statements. -/
inductive StatementPieces where
  | nil
  | text (t : Text) (rest : StatementPieces)
  | operand (e : Expression) (parentPrecedence : Precedence) (rest : StatementPieces)
  | initializer (fVar : Variable) (fValue : Expression) (rest : StatementPieces)
  | statement (s : Statement) (rest : StatementPieces)
end

/-- A `FunctionDefinition`: its declaration, the members `fParameters` and `fReturnType` of
the declaration, and the statements of the block `fBody`. -/
structure FunctionDefinition where
  fDeclaration : FunctionDeclaration
  fParameters : List Variable
  fReturnType : SkType
  fBody : List Statement

/-- The static function `is_private`. -/
def is_private (var : Variable) : Bool :=
  !var.fModifiers.fUniform && !var.fModifiers.fIn && var.fGlobal
    && decide (var.fModifiers.fLayout.fBuiltin = -1)

/-- The static function `default_value(const Variable&)`. -/
def default_value_variable (var : Variable) : Run Text :=
  if var.fModifiers.fLayout.fCType = CType.kSkPMColor4f then
    pure "\x7bSK_FloatNaN, SK_FloatNaN, SK_FloatNaN, SK_FloatNaN\x7d".toList
  else default_value var.fType

/-- The member function `writeVarInitializer`. -/
def writeVarInitializer (env : Environment) (var : Variable) (value : Expression)
    (g : CPPCodeGenerator) : Run CPPCodeGenerator :=
  if is_private var = true then
    writeRuntimeValue var.fType var.fModifiers.fLayout var.fName g
  else writeExpression env value kTopLevel_Precedence g

/-- The message of the error reported for a return statement in `main`. -/
def returnInMainMessage : Text :=
  "fragmentProcessor main() may not contain return statements".toList

/-- The member function `writeReturnStatement`. The call
`INHERITED::writeReturnStatement(s)` is modelled from the spec: it writes "return", the
expression after a blank when there is one, and ";". -/
def writeReturnStatement (env : Environment) (fOffset : Int) (fExpression : Option Expression)
    (g : CPPCodeGenerator) : Run CPPCodeGenerator :=
  let g1 := if g.fInMain = true then g.error fOffset returnInMainMessage else g
  let g2 := g1.write "return".toList
  match fExpression with
  | some e => do
    let g3 ← writeExpression env e kTopLevel_Precedence (g2.write " ".toList)
    pure (g3.write ";".toList)
  | none => pure (g2.write ";".toList)

mutual
/-- The virtual `writeStatement` with the writers `CPPCodeGenerator` overrides:
`writeReturnStatement`, and `writeIfStatement` and `writeSwitchStatement`, which write "@"
before a static statement and then call the base class. -/
def writeStatement (env : Environment) :
    Statement → CPPCodeGenerator → Run CPPCodeGenerator
  | .returnStatement fOffset fExpression, g => writeReturnStatement env fOffset fExpression g
  | .ifStatement _ fIsStatic fPieces, g =>
    writeStatementPieces env fPieces (if fIsStatic = true then g.write "@".toList else g)
  | .switchStatement _ fIsStatic fPieces, g =>
    writeStatementPieces env fPieces (if fIsStatic = true then g.write "@".toList else g)
  | .inherited _ fPieces, g => writeStatementPieces env fPieces g
/-- The base class rendering the parts of a statement in order. -/
def writeStatementPieces (env : Environment) :
    StatementPieces → CPPCodeGenerator → Run CPPCodeGenerator
  | .nil, g => pure g
  | .text t rest, g => writeStatementPieces env rest (g.write t)
  | .operand e parentPrecedence rest, g => do
    let g1 ← writeExpression env e parentPrecedence g
    writeStatementPieces env rest g1
  | .initializer fVar fValue rest, g => do
    let g1 ← writeVarInitializer env fVar fValue g
    writeStatementPieces env rest g1
  | .statement s rest, g => do
    let g1 ← writeStatement env s g
    writeStatementPieces env rest g1
end

/-- The loop `for (s : fStatements) { writeStatement(*s); writeLine(); }` of
`writeFunction`; the line ending is "\n". -/
def writeStatements (env : Environment) :
    List Statement → CPPCodeGenerator → Run CPPCodeGenerator
  | [], g => pure g
  | s :: rest, g => do
    let g1 ← writeStatement env s g
    writeStatements env rest (g1.write "\n".toList)

/-- The table of the static function `glsltype_string`: the name of each type of the
context it tests, in the order of the tests, with the string it returns. -/
def glsltypeTable : List (Text × Text) :=
  [("float".toList, "kFloat_GrSLType".toList), ("half".toList, "kHalf_GrSLType".toList),
   ("int".toList, "kInt_GrSLType".toList), ("float2".toList, "kFloat2_GrSLType".toList),
   ("half2".toList, "kHalf2_GrSLType".toList), ("int2".toList, "kInt2_GrSLType".toList),
   ("float3".toList, "kFloat3_GrSLType".toList), ("half3".toList, "kHalf3_GrSLType".toList),
   ("int3".toList, "kInt3_GrSLType".toList), ("float4".toList, "kFloat4_GrSLType".toList),
   ("half4".toList, "kHalf4_GrSLType".toList), ("int4".toList, "kInt4_GrSLType".toList),
   ("float2x2".toList, "kFloat2x2_GrSLType".toList),
   ("half2x2".toList, "kHalf2x2_GrSLType".toList),
   ("float2x3".toList, "kFloat2x3_GrSLType".toList),
   ("half2x3".toList, "kHalf2x3_GrSLType".toList),
   ("float2x4".toList, "kFloat2x4_GrSLType".toList),
   ("half2x4".toList, "kHalf2x4_GrSLType".toList),
   ("float3x2".toList, "kFloat3x2_GrSLType".toList),
   ("half3x2".toList, "kHalf3x2_GrSLType".toList),
   ("float3x3".toList, "kFloat3x3_GrSLType".toList),
   ("half3x3".toList, "kHalf3x3_GrSLType".toList),
   ("float3x4".toList, "kFloat3x4_GrSLType".toList),
   ("half3x4".toList, "kHalf3x4_GrSLType".toList),
   ("float4x2".toList, "kFloat4x2_GrSLType".toList),
   ("half4x2".toList, "kHalf4x2_GrSLType".toList),
   ("float4x3".toList, "kFloat4x3_GrSLType".toList),
   ("half4x3".toList, "kHalf4x3_GrSLType".toList),
   ("float4x4".toList, "kFloat4x4_GrSLType".toList),
   ("half4x4".toList, "kHalf4x4_GrSLType".toList), ("void".toList, "kVoid_GrSLType".toList)]

/-- The static function `glsltype_string`; `none` is the `nullptr` returned for a type that
is in no test. -/
def glsltype_string (type : SkType) : Option Text :=
  match glsltypeTable.find? (fun entry => decide (entry.1 = type.fName)) with
  | some entry => some entry.2
  | none => if type.kind = TypeKind.kEnum_Kind then some "int".toList else none

/-- The loop of `writeFunction` over the parameters that extends the local `args`; the
result is the text added. Appending the `nullptr` of an unknown type is undefined. -/
def functionParameterArgs : List Variable → Text → Run Text
  | [], _ => pure []
  | param :: rest, separator =>
    match glsltype_string param.fType with
    | none => throw Fault.undefined
    | some t => do
      let more ← functionParameterArgs rest ", ".toList
      pure (separator ++ "GrShaderVar(\"".toList ++ param.fName ++ "\", ".toList ++ t
        ++ ")".toList ++ more)

/-- The member function `writeFunction`. The local `buffer` is a new stream; the member
`fFunctionHeader` of the base class is set to "" and stays empty, the base class being
modelled as writing text only to the active sink. -/
def writeFunction (env : Environment) (f : FunctionDefinition) (g : CPPCodeGenerator) :
    Run CPPCodeGenerator :=
  if f.fDeclaration.fBuiltin = true then pure g
  else
    if f.fDeclaration.fName = "main".toList then do
      let g1 ← writeStatements env f.fBody
        { g with fOut := { fId := g.fStreams, fText := [] }, fStreams := g.fStreams + 1,
                 fInMain := true }
      pure ({ g1 with fInMain := false, fOut := g.fOut }.write g1.fOut.fText)
    else do
      let g1 ← addExtraEmitCodeLine
        ("SkString ".toList ++ f.fDeclaration.fName ++ "_name;".toList)
        { g with fOut := { fId := g.fStreams, fText := [] }, fStreams := g.fStreams + 1 }
      let params ← functionParameterArgs f.fParameters []
      let g2 ← addExtraEmitCodeLine
        ("const GrShaderVar ".toList ++ f.fDeclaration.fName ++ "_args[] = \x7b ".toList
          ++ params ++ "\x7d;".toList) g1
      let g3 ← writeStatements env f.fBody g2
      match glsltype_string f.fReturnType with
      | none => throw Fault.undefined
      | some returnType =>
        addExtraEmitCodeLine
          ("fragBuilder->emitFunction(".toList ++ returnType ++ ", \"".toList
            ++ f.fDeclaration.fName ++ "\"".toList ++ ", ".toList
            ++ to_string f.fParameters.length ++ ", ".toList ++ f.fDeclaration.fName
            ++ "_args".toList ++ ",\nR\"SkSL(".toList ++ g3.fOut.fText ++ ")SkSL\"".toList
            ++ ", &".toList ++ f.fDeclaration.fName ++ "_name);".toList)
          { g3 with fOut := g.fOut }

/-! ## The processor key -/

/-- The `if (is_private(var))` statement of `writeGetKey`: the declaration of a local
for a private key variable, with its value rendered in C++ mode. -/
def writeGetKeyPrivate (env : Environment) (decl : VarDeclaration) (g : CPPCodeGenerator) :
    Run CPPCodeGenerator :=
  if is_private decl.fVar = true then do
    let g1 := g.write (env.FieldType decl.fVar.fType decl.fVar.fModifiers.fLayout
      ++ " ".toList ++ decl.fVar.fName ++ " =".toList)
    match decl.fValue with
    | some value => do
      let g2 ← writeExpression env value kAssignment_Precedence { g1 with fCPPMode := true }
      pure ({ g2 with fCPPMode := false }.write ";\n".toList)
    | none => do
      let d ← default_value_variable decl.fVar
      pure ((g1.write d).write ";\n".toList)
  else pure g

/-- The chain of tests on `var.fType` in the case `Layout::kKey_Key` of `writeGetKey`. -/
def writeGetKeyValue (env : Environment) (var : Variable) (g : CPPCodeGenerator) :
    Run CPPCodeGenerator :=
  if var.fType.fName = "half4".toList then
    pure ((((((g.write
      ("    uint16_t red = SkFloatToHalf(".toList ++ env.FieldName var.fName
        ++ ".fR);\n".toList)).write
      ("    uint16_t green = SkFloatToHalf(".toList ++ env.FieldName var.fName
        ++ ".fG);\n".toList)).write
      ("    uint16_t blue = SkFloatToHalf(".toList ++ env.FieldName var.fName
        ++ ".fB);\n".toList)).write
      ("    uint16_t alpha = SkFloatToHalf(".toList ++ env.FieldName var.fName
        ++ ".fA);\n".toList)).write
      "    b->add32(((uint32_t)red << 16) | green);\n".toList).write
      "    b->add32(((uint32_t)blue << 16) | alpha);\n".toList)
  else if var.fType.fName = "half".toList ∨ var.fType.fName = "float".toList then
    pure (g.write ("    b->add32(sk_bit_cast<uint32_t>(".toList ++ env.FieldName var.fName
      ++ "));\n".toList))
  else if var.fType.fIsInteger = true ∨ var.fType.fName = "bool".toList
          ∨ var.fType.kind = TypeKind.kEnum_Kind then
    pure (g.write ("    b->add32((uint32_t) ".toList ++ env.FieldName var.fName
      ++ ");\n".toList))
  else throw Fault.abort

/-- The statement `switch (var.fModifiers.fLayout.fKey)` of `writeGetKey`. -/
def writeGetKeySwitch (env : Environment) (decl : VarDeclaration) (g : CPPCodeGenerator) :
    Run CPPCodeGenerator :=
  match decl.fVar.fModifiers.fLayout.fKey with
  | .kKey_Key => do
    let g1 ← writeGetKeyPrivate env decl g
    let g2 :=
      if decl.fVar.fModifiers.fLayout.fWhen.length ≠ 0 then
        g1.write ("if (".toList ++ decl.fVar.fModifiers.fLayout.fWhen ++ ") \x7b".toList)
      else g1
    let g3 ← writeGetKeyValue env decl.fVar g2
    pure (if decl.fVar.fModifiers.fLayout.fWhen.length ≠ 0 then g3.write "\x7d".toList
          else g3)
  | .kIdentity_Key =>
    let g1 :=
      if decl.fVar.fType.kind ≠ TypeKind.kMatrix_Kind then
        g.error decl.fVar.fOffset "layout(key=identity) requires matrix type".toList
      else g
    pure (g1.write ("    b->add32(".toList ++ env.FieldName decl.fVar.fName
      ++ ".isIdentity() ? 1 : 0);\n".toList))
  | .kNo_Key => pure g

/-- The body of the inner loop of `writeGetKey` for one declared variable: the test for
`key` on a uniform variable, then the `switch`. -/
def writeGetKeyVariable (env : Environment) (decl : VarDeclaration) (g : CPPCodeGenerator) :
    Run CPPCodeGenerator :=
  writeGetKeySwitch env decl
    (if decl.fVar.fModifiers.fLayout.fKey ≠ Key.kNo_Key ∧ decl.fVar.fModifiers.fUniform = true
     then g.error decl.fVar.fOffset "layout(key) may not be specified on uniforms".toList
     else g)

/-- The inner loop of `writeGetKey` over the `fVars` of one declaration statement. -/
def writeGetKeyVars (env : Environment) :
    List VarDeclaration → CPPCodeGenerator → Run CPPCodeGenerator
  | [], g => pure g
  | decl :: rest, g => do
    let g1 ← writeGetKeyVariable env decl g
    writeGetKeyVars env rest g1

/-- The outer loop of `writeGetKey` over the program elements. -/
def writeGetKeyElements (env : Environment) :
    List ProgramElement → CPPCodeGenerator → Run CPPCodeGenerator
  | [], g => pure g
  | .kVar_Kind fVars :: rest, g => do
    let g1 ← writeGetKeyVars env fVars g
    writeGetKeyElements env rest g1
  | .kOther_Kind :: rest, g => writeGetKeyElements env rest g

/-- The member function `writeGetKey`. -/
def writeGetKey (env : Environment) (g : CPPCodeGenerator) : Run CPPCodeGenerator := do
  let g1 := g.write ("void ".toList ++ env.fFullName
    ++ "::onGetGLSLProcessorKey(const GrShaderCaps& caps, ".toList
    ++ "GrProcessorKeyBuilder* b) const \x7b\n".toList)
  let g2 ← writeGetKeyElements env env.fProgram g1
  pure (g2.write "\x7d\n".toList)

/-- The parameter `in half scale`, not a uniform: a reference to it is rendered through
`writeRuntimeValue`. -/
def scaleVar : Variable := inVariable 7 "scale" halfType false

/-- The program that declares `scale` only. -/
def scaleProgram : Environment :=
  environmentOf [.kVar_Kind [{ fOffset := 0, fVar := scaleVar, fValue := none }]] [scaleVar]

/-- The names of the scalar and vector types of the runtime-value table. -/
def runtimeValueTypeNames : List Text :=
  ["float".toList, "half".toList, "int".toList, "bool".toList, "float2".toList,
   "half2".toList, "float3".toList, "half3".toList, "float4".toList, "half4".toList,
   "int4".toList, "short4".toList, "byte4".toList]

/-- What the front end guarantees of a type: `isFloat()` holds of the floating-point
scalars `float` and `half` and of no other named type, and a type with the name of a
built-in scalar or vector is neither a matrix nor an enum. -/
def SkType.Consistent (t : SkType) : Prop :=
  (t.fIsFloat = true ↔ t.fName = "float".toList ∨ t.fName = "half".toList) ∧
    (t.fName ∈ runtimeValueTypeNames →
      t.kind ≠ TypeKind.kMatrix_Kind ∧ t.kind ≠ TypeKind.kEnum_Kind)

/-- The rows of the runtime-value table for the types that are not matrices, as the
specification lists them: the template and the values, for the host expression `x`. No row
applies to a 4-vector whose layout is none of the five named ones, nor to another type. -/
def runtimeValueRow (type : SkType) (layout : Layout) (x : Text) : Option (Text × List Text) :=
  if type.fName = "float".toList ∨ type.fName = "half".toList then
    some ("%f".toList, [x])
  else if type.fName = "int".toList then
    some ("%d".toList, [x])
  else if type.fName = "bool".toList then
    some ("%s".toList, ["(".toList ++ x ++ " ? \"true\" : \"false\")".toList])
  else if type.fName = "float2".toList ∨ type.fName = "half2".toList then
    some (type.fName ++ "(%f, %f)".toList, [x ++ ".fX".toList, x ++ ".fY".toList])
  else if type.fName = "float3".toList ∨ type.fName = "half3".toList then
    some (type.fName ++ "(%f, %f, %f)".toList,
      [x ++ ".fX".toList, x ++ ".fY".toList, x ++ ".fZ".toList])
  else if type.fName = "float4".toList ∨ type.fName = "half4".toList then
    match layout.fCType with
    | .kSkPMColor =>
      some (type.fName ++ "(%f, %f, %f, %f)".toList,
        ["SkGetPackedR32(".toList ++ x ++ ") / 255.0".toList,
         "SkGetPackedG32(".toList ++ x ++ ") / 255.0".toList,
         "SkGetPackedB32(".toList ++ x ++ ") / 255.0".toList,
         "SkGetPackedA32(".toList ++ x ++ ") / 255.0".toList])
    | .kSkPMColor4f =>
      some (type.fName ++ "(%f, %f, %f, %f)".toList,
        [x ++ ".fR".toList, x ++ ".fG".toList, x ++ ".fB".toList, x ++ ".fA".toList])
    | .kSkV4 =>
      some (type.fName ++ "(%f, %f, %f, %f)".toList,
        [x ++ ".x".toList, x ++ ".y".toList, x ++ ".z".toList, x ++ ".w".toList])
    | .kSkRect =>
      some (type.fName ++ "(%f, %f, %f, %f)".toList,
        [x ++ ".left()".toList, x ++ ".top()".toList, x ++ ".right()".toList,
         x ++ ".bottom()".toList])
    | .kDefault =>
      some (type.fName ++ "(%f, %f, %f, %f)".toList,
        [x ++ ".left()".toList, x ++ ".top()".toList, x ++ ".right()".toList,
         x ++ ".bottom()".toList])
    | .kOther => none
  else if type.fName = "int4".toList ∨ type.fName = "short4".toList
          ∨ type.fName = "byte4".toList then
    some (type.fName ++ "(%d, %d, %d, %d)".toList,
      [x ++ ".left()".toList, x ++ ".top()".toList, x ++ ".right()".toList,
       x ++ ".bottom()".toList])
  else if type.fTypeKind = TypeKind.kEnum_Kind then
    some ("%d".toList, ["(int) ".toList ++ x])
  else none

/-- The host type `SkPMColor4f` on a `half4` parameter. -/
def colorLayout : Layout := { Layout.default with fCType := CType.kSkPMColor4f }

/-- The type `float2x2`. -/
def float2x2Type : SkType :=
  { fName := "float2x2".toList, fTypeKind := .kMatrix_Kind, fIsFloat := false, fColumns := 2,
    fRows := 2, fComponentName := "float".toList, fComponentKind := .kScalar_Kind }

/-- The accessor of the cell in row `r` and column `c` of the host matrix `x`. -/
def cellAccessor (x : Text) (r c : Nat) : Text :=
  x ++ ".rc(".toList ++ to_string r ++ ", ".toList ++ to_string c ++ ")".toList

/-- The cells of a matrix in row-major order: all cells of row 0 by increasing column,
then row 1, and so on; cell number `k` is in row `k / columns` and column `k % columns`. -/
def rowMajorAccessors (x : Text) (rows columns : Nat) : List Text :=
  (List.range (rows * columns)).map (fun k => cellAccessor x (k / columns) (k % columns))

/-- The cells of a matrix in column-major order: all cells of column 0 by increasing row,
then column 1, and so on; cell number `k` is in row `k % rows` and column `k / rows`. -/
def columnMajorAccessors (x : Text) (rows columns : Nat) : List Text :=
  (List.range (rows * columns)).map (fun k => cellAccessor x (k % rows) (k / rows))

/-- The text of `n` placeholders "%f" separated by ", ", for `n` at least 1. -/
def separatedPlaceholders (n : Nat) : Text :=
  "%f".toList ++ (List.replicate (n - 1) ", %f".toList).flatten

/-- The type `int2`. -/
def int2Type : SkType :=
  { fName := "int2".toList, fTypeKind := .kVector_Kind, fIsFloat := false, fColumns := 2,
    fRows := 1, fComponentName := "int".toList, fComponentKind := .kScalar_Kind }

/-- The parameter `in int2 size`. -/
def sizeVar : Variable := inVariable 8 "size" int2Type false

/-- The program that declares `size` only. -/
def sizeProgram : Environment :=
  environmentOf [.kVar_Kind [{ fOffset := 0, fVar := sizeVar, fValue := none }]] [sizeVar]

/-- A layout whose host type is none of the five the 4-vector row names. -/
def otherLayout : Layout := { Layout.default with fCType := CType.kOther }

/-- The member function `writeIndexExpression`. -/
def writeIndexExpression (env : Environment) (fOffset : Int) (fType : SkType)
    (fBase fIndex : Expression) (g : CPPCodeGenerator) : Run CPPCodeGenerator :=
  writeExpression env (.index fOffset fType fBase fIndex) kPostfix_Precedence g

/-- The argument pushed for a comparison of the child `v` with null: the test of the
child's presence, negated with a leading '!' for `==`. -/
def nullComparisonArgument (env : Environment) (fOperator : TokenKind) (v : Variable) : Text :=
  (if fOperator = TokenKind.TK_EQEQ then "!".toList else [])
    ++ "_outer.childProcessor(".toList ++ to_string (getChildFPIndex env v)
    ++ ") ? \"true\" : \"false\"".toList

/-- The type of the array `sk_TextureSamplers`. -/
def samplerArrayType : SkType :=
  { fName := "sampler2D[]".toList, fTypeKind := .kArray_Kind, fIsFloat := false,
    fColumns := 1, fRows := 1, fComponentName := "sampler2D".toList,
    fComponentKind := .kSampler_Kind }

/-- The builtin array `sk_TextureSamplers`. -/
def textureSamplersVar : Variable :=
  builtinVariable 9 "sk_TextureSamplers" samplerArrayType 10006

/-- The type `int`. -/
def intType : SkType :=
  { fName := "int".toList, fTypeKind := .kScalar_Kind, fIsFloat := false, fColumns := 1,
    fRows := 1, fComponentName := [], fComponentKind := .kOther_Kind, fIsInteger := true }

/-- A local variable `i` of type int. -/
def loopIndexVar : Variable :=
  { fAddr := 10, fName := "i".toList, fType := intType,
    fModifiers := { fUniform := false, fIn := false, fLayout := Layout.default },
    fGlobal := false }

/-- The generator at the start of `writeGetKey`: an empty sink, no errors. -/
def keyState : CPPCodeGenerator :=
  { fOut := { fId := 0, fText := [] }
    fCPPBuffer := none
    fFormatArgs := []
    fExtraEmitCodeBlocks := []
    fErrors := []
    fCPPMode := false
    fInMain := false
    fAccessSampleCoordsDirectly := false
    fStreams := 1 }

/-- The generator `g` as it is when the errors `X` were reported before all of its own. -/
def CPPCodeGenerator.afterErrors (X : List (Int × Text)) (g : CPPCodeGenerator) :
    CPPCodeGenerator :=
  { g with fErrors := X ++ g.fErrors }

/-- The declarations of a program, in the order in which `writeGetKey` visits them. -/
def programDeclarations (program : List ProgramElement) : List VarDeclaration :=
  program.flatMap (fun p =>
    match p with
    | .kVar_Kind fVars => fVars
    | .kOther_Kind => [])

/-- The offsets of the errors reported for return statements in `main`, in the order of the
reports. -/
def CPPCodeGenerator.returnErrors (g : CPPCodeGenerator) : List Int :=
  (g.fErrors.filter (fun x => decide (x.2 = returnInMainMessage))).map Prod.fst

mutual
/-- The offsets of the return statements inside a statement, in the order in which the
statement renders them. -/
def Statement.returnOffsets : Statement → List Int
  | .returnStatement fOffset _ => [fOffset]
  | .ifStatement _ _ fPieces => fPieces.returnOffsets
  | .switchStatement _ _ fPieces => fPieces.returnOffsets
  | .inherited _ fPieces => fPieces.returnOffsets
/-- The offsets of the return statements among the parts of a statement. -/
def StatementPieces.returnOffsets : StatementPieces → List Int
  | .nil => []
  | .text _ rest => rest.returnOffsets
  | .operand _ _ rest => rest.returnOffsets
  | .initializer _ _ rest => rest.returnOffsets
  | .statement s rest => s.returnOffsets ++ rest.returnOffsets
end

/-- The statements `if (weight) { return; }` and `return sk_OutColor;`: two return
statements, one of them nested in a block, at the offsets 40 and 70. -/
def returningBody : List Statement :=
  [.ifStatement 20 false
      (.text "if (".toList
      (.operand (.variableReference 24 weightVar) kTopLevel_Precedence
      (.text ") ".toList
      (.statement (.inherited 38
          (.text "\x7b\n".toList
          (.statement (.returnStatement 40 none)
          (.text "\n\x7d".toList .nil)))) .nil)))),
   .returnStatement 70 (some (.variableReference 77 outColorVar))]

/-- The function `main` with the body `returningBody`. -/
def returningMain : FunctionDefinition :=
  { fDeclaration := { fBuiltin := false, fName := "main".toList }
    fParameters := []
    fReturnType := half4Type
    fBody := returningBody }

/-- The function `half4 helper()` with the body `returningBody`. -/
def returningHelper : FunctionDefinition :=
  { fDeclaration := { fBuiltin := false, fName := "helper".toList }
    fParameters := []
    fReturnType := half4Type
    fBody := returningBody }

/-- The statement `sk_TextureSamplers[i];` with a variable `i` as index. -/
def samplerIndexByVariable : Expression :=
  .index 60 samplerArrayType (.variableReference 60 textureSamplersVar)
    (.variableReference 79 loopIndexVar)

/-- The message of the error reported for a `sample()` call whose child argument is not a
variable reference. -/
def sampleArgumentMessage : Text :=
  "sample()'s fragmentProcessor argument must be a variable reference\n".toList

/-- The call `sample(fp1 != null ? fp0 : fp1)`-like call: the first argument is a node of
type `fragmentProcessor` that is not a variable reference. -/
def sampleOfExpression : Arguments :=
  .cons (.inherited 12 fragmentProcessorType (.text "pick()".toList .nil)) .nil

/-- The function `half scaled() { return weight; }`: its body refers to the uniform
`weight`. -/
def uniformHelper : FunctionDefinition :=
  { fDeclaration := { fBuiltin := false, fName := "scaled".toList }
    fParameters := []
    fReturnType := halfType
    fBody := [.returnStatement 30 (some (.variableReference 37 weightVar))] }

/-- The function `void main() { sk_OutColor = scaled(); }`; the base class renders the
expression statement as the expression followed by ";". -/
def callingMain : FunctionDefinition :=
  { fDeclaration := { fBuiltin := false, fName := "main".toList }
    fParameters := []
    fReturnType := halfType
    fBody := [.inherited 60
      (.operand (.binary 60 half4Type (.variableReference 60 outColorVar) (.TK_OTHER 0)
          (.functionCall 74 halfType { fBuiltin := false, fName := "scaled".toList } .nil))
        kTopLevel_Precedence (.text ";".toList .nil))] }

/-- The part of `writeEmitCode` from `newExtraEmitCodeBlock()` to `flushEmittedCode()` for
a program of two functions, written in order; the result is the text in the cpp buffer
and the queue left after the flush. -/
def emitCodeOfFunctions (env : Environment) (f₁ f₂ : FunctionDefinition) :
    Run (Text × List Text) := do
  let g1 ← writeFunction env f₁ (newExtraEmitCodeBlock (emitCodeState [] [] []))
  let g2 ← writeFunction env f₂ g1
  let g3 ← flushEmittedCode g2
  match g3.fCPPBuffer with
  | some cpp => pure (cpp.fText, g3.fFormatArgs)
  | none => throw Fault.undefined

/-- The generator after `writeFunction(scaled)` in the state that `writeEmitCode` sets up:
the buffer still holds the token of block 0, the block holds the three lines of the
function, and the queue holds the argument pushed by the body. -/
def afterUniformHelper : CPPCodeGenerator :=
  { newExtraEmitCodeBlock (emitCodeState [] [] []) with
      fFormatArgs := ["args.fUniformHandler->getUniformCStr(weightVar)".toList]
      fStreams := 3
      fExtraEmitCodeBlocks :=
        [("        SkString scaled_name;\n"
          ++ "        const GrShaderVar scaled_args[] = \x7b \x7d;\n"
          ++ "        fragBuilder->emitFunction(kHalf_GrSLType, \"scaled\", 0, scaled_args,\n"
          ++ "R\"SkSL(return %s;\n)SkSL\", &scaled_name);\n").toList] }

/-- The test `c == ';' || c == '{' || c == '}'` as a boolean. -/
def isStatementEndChar (c : Char) : Bool := c == ';' || c == '{' || c == '}'

/-- The text of `cur` after its last ';', '{' or '}': all of `cur` when it has none. -/
def heldBack (cur : Text) : Text :=
  (cur.reverse.takeWhile (fun c => !isStatementEndChar c)).reverse

/-- The prefix of `cur` up to and including its last ';', '{' or '}': empty when it has
none. -/
def flushPrefix (cur : Text) : Text :=
  (cur.reverse.dropWhile (fun c => !isStatementEndChar c)).reverse

/-- The splice with held-back text, in document order: before the block of each token one
templated call with the current text up to its last statement end, then the text of the
block, the rest of the current text being put in front of the text after the token; at
the end one templated call with what is left. -/
def heldBackSplice : Text → List (Nat × Text) → CPPCodeGenerator → Run CPPCodeGenerator
  | cur, [], g => writeCodeAppend cur g
  | cur, kt :: rest, g => do
    let g1 ← writeCodeAppend (flushPrefix cur) g
    match g1.fExtraEmitCodeBlocks[kt.1]? with
    | none => throw Fault.undefined
    | some block => heldBackSplice (heldBack cur ++ kt.2) rest (g1.write block)

/-- The slices of the buffer `spliceBuffer cur rest` in emission order: the slice emitted
before the first block, and for each token its index with the slice emitted after its
block. -/
def flushedSlices : Text → List (Nat × Text) → Text × List (Nat × Text)
  | cur, [] => (cur, [])
  | cur, kt :: rest =>
    (flushPrefix cur,
      (kt.1, (flushedSlices (heldBack cur ++ kt.2) rest).1)
        :: (flushedSlices (heldBack cur ++ kt.2) rest).2)

/-- The local `compacted` of `flushEmittedCode` at the index `i` of the '}' that ends a
token: the text after the flush point up to the token, and the text after the token. -/
def compactedBuffer (sksl : Text) (i : Nat) (flushPoint tokenStart : Int) : Text :=
  if i < sksl.length - 1 then
    substr sksl (flushPoint + 1).toNat (tokenStart - flushPoint - 1).toNat
      ++ substr sksl (i + 1) (sksl.length - i - 1)
  else substr sksl (flushPoint + 1).toNat (tokenStart - flushPoint - 1).toNat

/-- What the scan loop keeps true of its locals: the flush point is before the index, and
an open token starts after the flush point and at least two characters before the
index. -/
def ScanInvariant (i : Nat) (flushPoint tokenStart : Int) : Prop :=
  -1 ≤ flushPoint ∧ flushPoint < (i : Int) ∧
    (tokenStart ≥ 0 → flushPoint < tokenStart ∧ tokenStart + 2 ≤ (i : Int))

/-- The buffer of the worked cases of C32 and C33: a first statement, and a second one with
the token of block 0 in the middle, before the placeholder of a sample() call. -/
def midStatementToken : CPPCodeGenerator :=
  emitCodeState ("half4 a = %s;half4 b = $\x7b0\x7d%s;").toList
    ["args.fInputColor".toList, "_sample30.c_str()".toList]
    ["        SkString _sample30 = this->invokeChild(0, args);\n".toList]

/-- The buffer of the worked case of C37: the same statements, the block of the token
being empty. -/
def emptyBlockToken : CPPCodeGenerator :=
  emitCodeState ("half4 a = %s;half4 b = $\x7b0\x7d%s;").toList
    ["args.fInputColor".toList, "x".toList] [[]]

/-- The states of one rendering: `Renders g₀ g` says that `g` is reached from `g₀` by
writing template text without '$', by `newExtraEmitCodeBlock`, by `addExtraEmitCodeLine`,
and by `convertSKSLExpressionToCPP` around a rendering of the same kind: the isolated
rendering starts on a new empty stream with an empty queue, and its tokens are relocated
to the sink of before by the token-stripping loop. -/
inductive Renders : CPPCodeGenerator → CPPCodeGenerator → Prop where
  | start (g : CPPCodeGenerator) : Renders g g
  | text {g₀ g : CPPCodeGenerator} (t : Text) :
      Renders g₀ g → '$' ∉ t → Renders g₀ (g.write t)
  | newBlock {g₀ g : CPPCodeGenerator} :
      Renders g₀ g → Renders g₀ (newExtraEmitCodeBlock g)
  | addLine {g₀ g g' : CPPCodeGenerator} (l : Text) :
      Renders g₀ g → addExtraEmitCodeLine l g = Except.ok g' → Renders g₀ g'
  | convert {g₀ g g₂ : CPPCodeGenerator} :
      Renders g₀ g →
      Renders { g with fOut := { fId := g.fStreams, fText := [] }
                       fStreams := g.fStreams + 1
                       fFormatArgs := [] } g₂ →
      Renders g₀
        (stripTokensLoop g₂.fOut.fText.length g₂.fOut.fText 0 (-1) []
          { g₂ with fFormatArgs := g.fFormatArgs, fOut := g.fOut }).2

/-- The buffer of `g` is text without '$' around the tokens of the blocks `base`,
`base + 1`, ... up to the last block of the table, one token for each, in this order. -/
def TokensInOrder (base : Nat) (g : CPPCodeGenerator) : Prop :=
  ∃ (first : Text) (rest : List (Nat × Text)),
    g.fOut.fText = spliceBuffer first rest ∧ '$' ∉ first ∧ (∀ kt ∈ rest, '$' ∉ kt.2) ∧
      rest.map Prod.fst = List.range' base (g.fExtraEmitCodeBlocks.length - base)

/-- The splice with held-back text in which the lookup of a block cannot fail: a missing
block counts as empty. -/
def heldBackSpliceTotal : Text → List (Nat × Text) → CPPCodeGenerator → Run CPPCodeGenerator
  | cur, [], g => writeCodeAppend cur g
  | cur, kt :: rest, g => do
    let g1 ← writeCodeAppend (flushPrefix cur) g
    heldBackSpliceTotal (heldBack cur ++ kt.2) rest
      (g1.write (g1.fExtraEmitCodeBlocks.getD kt.1 []))

/-- The state of the worked case of C39: from the empty state of `writeEmitCode`, a new
block, the text "a = ", an isolated rendering that opens a second block, a line for it,
and the text "%s;". -/
def twoBlocksState : CPPCodeGenerator :=
  (Run.getD
    (addExtraEmitCodeLine "SkString _sample10 = this->invokeChild(0, args);".toList
      (stripTokensLoop
        (newExtraEmitCodeBlock
          { ((newExtraEmitCodeBlock (emitCodeState [] [] [])).write "a = ".toList) with
              fOut := { fId := 2, fText := [] }, fStreams := 3, fFormatArgs := [] }).fOut.fText.length
        (newExtraEmitCodeBlock
          { ((newExtraEmitCodeBlock (emitCodeState [] [] [])).write "a = ".toList) with
              fOut := { fId := 2, fText := [] }, fStreams := 3, fFormatArgs := [] }).fOut.fText
        0 (-1) []
        { (newExtraEmitCodeBlock
            { ((newExtraEmitCodeBlock (emitCodeState [] [] [])).write "a = ".toList) with
                fOut := { fId := 2, fText := [] }, fStreams := 3, fFormatArgs := [] }) with
            fFormatArgs := ((newExtraEmitCodeBlock (emitCodeState [] [] [])).write
              "a = ".toList).fFormatArgs
            fOut := ((newExtraEmitCodeBlock (emitCodeState [] [] [])).write "a = ".toList).fOut }).2)
    (emitCodeState [] [] [])).write "x;".toList

/-! ## The driver `SkSLMain.cpp` -/

/-- The C library function `strncmp` on NUL-terminated strings; the end of a list is the
terminating NUL. The result is zero, or the difference of the first two characters that
differ. -/
def strncmp : Text → Text → Nat → Int
  | _, _, 0 => 0
  | [], [], _ + 1 => 0
  | [], b :: _, _ + 1 => -(b.toNat : Int)
  | a :: _, [], _ + 1 => (a.toNat : Int)
  | a :: as, b :: bs, n + 1 =>
    if a = b then strncmp as bs n else (a.toNat : Int) - (b.toNat : Int)

/-- The loop of `base_name` that backs up until it finds a slash: `fileName` as an index
into the path, starting from the index `i`. -/
def fileNameStart (fpPath : Text) : Nat → Nat
  | 0 => 0
  | i + 1 =>
    if '/' ≠ charAt fpPath i ∧ '\\' ≠ charAt fpPath i then fileNameStart fpPath i else i + 1

/-- The static function `base_name`. Pointers into the path are indices and `end` is the
length. Forming the pointer `end - strlen(suffix)` before the start of the path is
undefined, and so is the negative difference converted to the unsigned count of `append`. -/
def base_name (fpPath namePrefix nameSuffix : Text) : Run Text :=
  if strncmp (fpPath.drop (fileNameStart fpPath fpPath.length)) namePrefix namePrefix.length = 0
  then
    if fpPath.length < nameSuffix.length then throw Fault.undefined
    else if strncmp (fpPath.drop (fpPath.length - nameSuffix.length)) nameSuffix
              nameSuffix.length = 0 then
      if fpPath.length
          < fileNameStart fpPath fpPath.length + namePrefix.length + nameSuffix.length then
        throw Fault.undefined
      else pure (substr fpPath (fileNameStart fpPath fpPath.length + namePrefix.length)
        (fpPath.length - fileNameStart fpPath fpPath.length - namePrefix.length
          - nameSuffix.length))
    else pure []
  else pure []

/-- Modelled from the spec: `String::endsWith` is declared outside the sources. An input or
output "extension" is an ending of the path: the text ends with the given characters. -/
def endsWith (s ending : Text) : Bool := ending.isSuffixOf s

/-- The enumeration `Program::Kind`, with the kinds the driver selects. -/
inductive ProgramKind where
  | kVertex_Kind | kFragment_Kind | kGeometry_Kind | kFragmentProcessor_Kind
  | kPipelineStage_Kind
deriving DecidableEq, Repr

/-- The member functions of `Compiler` that the driver calls as back ends. -/
inductive Backend where
  | toSPIRV | toGLSL | toMetal | toH | toCPP
deriving DecidableEq, Repr

/-- What the driver does to the world, in order. -/
inductive DriverEvent where
  /-- A `printf` to the standard output. -/
  | print (text : Text)
  /-- The stream `std::ifstream in(argv[1])` is opened and read to its end. -/
  | readInput (path : Text)
  /-- The stream `FileOutputStream out(argv[2])` is opened. -/
  | openOutput (path : Text)
  /-- The call `compiler.convertProgram(kind, text, settings)`, with the flag given to the
  compiler and the setting `fReplaceSettings`. -/
  | convertProgram (kind : ProgramKind) (text : Text) (permitInvalidStaticTests : Bool)
      (fReplaceSettings : Bool)
  /-- The call of a back end on the program, with the name given to `toH` and `toCPP`. -/
  | backend (b : Backend) (program : Nat) (name : Text)
  /-- The call `compiler.processIncludeFile(kind, argv[1], ...)`. -/
  | processIncludeFile (kind : ProgramKind) (path : Text)
  /-- An `out.printf` to the output stream. -/
  | writeOutput (text : Text)
  /-- The call `out.close()`. -/
  | closeOutput (path : Text)
deriving DecidableEq, Repr

/-- Modelled from the spec: the file system, `Compiler`, `Dehydrator` and
`FileOutputStream` are outside the sources. The driver sees them through these answers:
the text of an input file, or `none` when the stream state is not good after the read;
whether an output stream is valid once opened and whether closing it succeeds; the program
of the front end, `none` for a null pointer; the result of a back end; the error text of
the compiler; and the bytes of a dehydrated include file. -/
structure DriverWorld where
  readFile : Text → Option Text
  outputValid : Text → Bool
  closeOk : Text → Bool
  convertProgram : ProgramKind → Text → Bool → Bool → Option Nat
  backendOk : Backend → Nat → Text → Bool
  errorText : ProgramKind → Text → Text
  dehydrate : ProgramKind → Text → List Nat

/-- How a run of the driver ends: `exit(code)` or the return from `main`, or behaviour the
source leaves undefined. -/
inductive DriverOutcome where
  | exit (code : Nat)
  | undefined
deriving DecidableEq, Repr

/-- The chain of tests on the input path at the start of `main`: the program kind, `none`
when the path has none of the endings. -/
def programKind (input : Text) : Option ProgramKind :=
  if endsWith input ".vert".toList then some .kVertex_Kind
  else if endsWith input ".frag".toList ∨ endsWith input ".sksl".toList then
    some .kFragment_Kind
  else if endsWith input ".geom".toList then some .kGeometry_Kind
  else if endsWith input ".fp".toList then some .kFragmentProcessor_Kind
  else if endsWith input ".stage".toList then some .kPipelineStage_Kind
  else none

/-- The text of the branches of `main` for ".spirv", ".glsl", ".metal", ".h" and ".cpp",
which differ in the back end, in the flag given to the compiler, in `fReplaceSettings`,
and in whether `base_name(argv[1], "Gr", ".fp")` is an argument of the back end. `trace`
holds the events before the branch. -/
def compileBranch (w : DriverWorld) (kind : ProgramKind) (text input output : Text)
    (b : Backend) (permitInvalidStaticTests fReplaceSettings withName : Bool)
    (trace : List DriverEvent) : DriverOutcome × List DriverEvent :=
  if ¬ w.outputValid output then
    (.exit 4, trace ++ [.openOutput output,
      .print ("error writing '".toList ++ output ++ "'\n".toList)])
  else
    match w.convertProgram kind text permitInvalidStaticTests fReplaceSettings with
    | none =>
      (.exit 3, trace ++ [.openOutput output,
        .convertProgram kind text permitInvalidStaticTests fReplaceSettings,
        .print (w.errorText kind text)])
    | some program =>
      match (if withName then base_name input "Gr".toList ".fp".toList else pure []) with
      | .error _ =>
        (.undefined, trace ++ [.openOutput output,
          .convertProgram kind text permitInvalidStaticTests fReplaceSettings])
      | .ok name =>
        if ¬ w.backendOk b program name then
          (.exit 3, trace ++ [.openOutput output,
            .convertProgram kind text permitInvalidStaticTests fReplaceSettings,
            .backend b program name, .print (w.errorText kind text)])
        else if ¬ w.closeOk output then
          (.exit 4, trace ++ [.openOutput output,
            .convertProgram kind text permitInvalidStaticTests fReplaceSettings,
            .backend b program name, .closeOutput output,
            .print ("error writing '".toList ++ output ++ "'\n".toList)])
        else
          (.exit 0, trace ++ [.openOutput output,
            .convertProgram kind text permitInvalidStaticTests fReplaceSettings,
            .backend b program name, .closeOutput output])

/-- The branch of `main` for ".dehydrated.sksl". -/
def dehydrateBranch (w : DriverWorld) (kind : ProgramKind) (input output : Text)
    (trace : List DriverEvent) : DriverOutcome × List DriverEvent :=
  if ¬ w.outputValid output then
    (.exit 4, trace ++ [.openOutput output,
      .print ("error writing '".toList ++ output ++ "'\n".toList)])
  else
    match base_name input [] ".sksl".toList with
    | .error _ => (.undefined, trace ++ [.openOutput output, .processIncludeFile kind input])
    | .ok name =>
      if ¬ w.closeOk output then
        (.exit 4, trace ++ [.openOutput output, .processIncludeFile kind input,
          .writeOutput ("static constexpr size_t SKSL_INCLUDE_".toList ++ name
            ++ "_LENGTH = ".toList ++ to_string (w.dehydrate kind input).length
            ++ ";\n".toList),
          .writeOutput ("static uint8_t SKSL_INCLUDE_".toList ++ name ++ "[".toList
            ++ to_string (w.dehydrate kind input).length ++ "] = \x7b".toList),
          .writeOutput ((w.dehydrate kind input).flatMap
            (fun byte => to_string (byte % 256) ++ ",".toList)),
          .writeOutput "\x7d;\n".toList, .closeOutput output,
          .print ("error writing '".toList ++ output ++ "'\n".toList)])
      else
        (.exit 0, trace ++ [.openOutput output, .processIncludeFile kind input,
          .writeOutput ("static constexpr size_t SKSL_INCLUDE_".toList ++ name
            ++ "_LENGTH = ".toList ++ to_string (w.dehydrate kind input).length
            ++ ";\n".toList),
          .writeOutput ("static uint8_t SKSL_INCLUDE_".toList ++ name ++ "[".toList
            ++ to_string (w.dehydrate kind input).length ++ "] = \x7b".toList),
          .writeOutput ((w.dehydrate kind input).flatMap
            (fun byte => to_string (byte % 256) ++ ",".toList)),
          .writeOutput "\x7d;\n".toList, .closeOutput output])

/-- The function `main` of the driver: `argv` holds `argc` strings, the first being the
name of the program. The result is how the run ends and what it has done. -/
def main (w : DriverWorld) (argv : List Text) : DriverOutcome × List DriverEvent :=
  if argv.length ≠ 3 then (.exit 1, [.print "usage: skslc <input> <output>\n".toList])
  else
    match programKind (argv.getD 1 []) with
    | none =>
      (.exit 1, [.print (("input filename must end in '.vert', '.frag', '.geom', '.fp', "
        ++ "'.stage', or '.sksl'\n").toList)])
    | some kind =>
      match w.readFile (argv.getD 1 []) with
      | none =>
        (.exit 2, [.readInput (argv.getD 1 []),
          .print ("error reading '".toList ++ argv.getD 1 [] ++ "'\n".toList)])
      | some text =>
        if endsWith (argv.getD 2 []) ".spirv".toList then
          compileBranch w kind text (argv.getD 1 []) (argv.getD 2 []) .toSPIRV false true false
            [.readInput (argv.getD 1 [])]
        else if endsWith (argv.getD 2 []) ".glsl".toList then
          compileBranch w kind text (argv.getD 1 []) (argv.getD 2 []) .toGLSL false true false
            [.readInput (argv.getD 1 [])]
        else if endsWith (argv.getD 2 []) ".metal".toList then
          compileBranch w kind text (argv.getD 1 []) (argv.getD 2 []) .toMetal false true false
            [.readInput (argv.getD 1 [])]
        else if endsWith (argv.getD 2 []) ".h".toList then
          compileBranch w kind text (argv.getD 1 []) (argv.getD 2 []) .toH true false true
            [.readInput (argv.getD 1 [])]
        else if endsWith (argv.getD 2 []) ".cpp".toList then
          compileBranch w kind text (argv.getD 1 []) (argv.getD 2 []) .toCPP true false true
            [.readInput (argv.getD 1 [])]
        else if endsWith (argv.getD 2 []) ".dehydrated.sksl".toList then
          dehydrateBranch w kind (argv.getD 1 []) (argv.getD 2 []) [.readInput (argv.getD 1 [])]
        else
          (.exit 1, [.readInput (argv.getD 1 []),
            .print (("expected output filename to end with '.spirv', '.glsl', '.cpp', '.h', "
              ++ "or '.metal'").toList)])

/-- The usage message for the input path. -/
def inputUsage : Text :=
  ("input filename must end in '.vert', '.frag', '.geom', '.fp', "
    ++ "'.stage', or '.sksl'\n").toList

/-- The usage message for the output path. -/
def outputUsage : Text :=
  ("expected output filename to end with '.spirv', '.glsl', '.cpp', '.h', "
    ++ "or '.metal'").toList

/-- A world in which no input file can be read. -/
def unreadableWorld : DriverWorld :=
  { readFile := fun _ => none
    outputValid := fun _ => true
    closeOk := fun _ => true
    convertProgram := fun _ _ _ _ => some 0
    backendOk := fun _ _ _ => true
    errorText := fun _ _ => []
    dehydrate := fun _ _ => [] }

/-- A world in which every file can be read (as the text "void main() {}") and written,
the front end yields program 7, and every back end succeeds. -/
def goodWorld : DriverWorld :=
  { readFile := fun _ => some "void main() \x7b\x7d".toList
    outputValid := fun _ => true
    closeOk := fun _ => true
    convertProgram := fun _ _ _ _ => some 7
    backendOk := fun _ _ _ => true
    errorText := fun _ _ => "error".toList
    dehydrate := fun _ _ => [1, 2] }

/-- The final component of a path: the part after its last '/' or '\\', all of the path
when it has none. -/
def finalComponent (fpPath : Text) : Text :=
  (fpPath.reverse.takeWhile (fun c => decide ('/' ≠ c ∧ '\\' ≠ c))).reverse

/-- A world in which every file can be read and every output opened. -/
def plainWorld : DriverWorld :=
  { readFile := fun _ => some []
    outputValid := fun _ => true
    closeOk := fun _ => true
    convertProgram := fun _ _ _ _ => none
    backendOk := fun _ _ _ => true
    errorText := fun _ _ => []
    dehydrate := fun _ _ => [] }

/-- The back end that the output path selects among ".spirv", ".glsl", ".metal", ".h" and
".cpp": the first ending of this list that the path has. -/
def selectedBackend (output : Text) : Option Backend :=
  if endsWith output ".spirv".toList then some .toSPIRV
  else if endsWith output ".glsl".toList then some .toGLSL
  else if endsWith output ".metal".toList then some .toMetal
  else if endsWith output ".h".toList then some .toH
  else if endsWith output ".cpp".toList then some .toCPP
  else none

/-- Whether a back end writes a fragment processor class: `toH` and `toCPP`, for which the
driver permits invalid static tests, clears `fReplaceSettings` and passes the base name. -/
def Backend.writesProcessor (b : Backend) : Bool :=
  match b with
  | .toH => true
  | .toCPP => true
  | _ => false

/-- The events of a run up to the call of the front end. -/
def eventsToFrontEnd (kind : ProgramKind) (text input output : Text) (b : Backend) :
    List DriverEvent :=
  [.readInput input, .openOutput output,
   .convertProgram kind text b.writesProcessor (!b.writesProcessor)]

/-! ## The statement nodes `ContinueStatement`, `ReturnStatement` and `SwitchStatement` -/

/-- Modelled from the spec: the classes `Expression` and `SwitchCase` are declared outside
the sources. A node of such a class, with everything it owns, is its source offset, the
text of its `description()` ("canonical textual rendering") and the value of its
`nodeCount()` ("recursive size"), taken in the integers. -/
structure IRNode where
  fOffset : Int
  fDescription : Text
  fNodeCount : Int
deriving DecidableEq, Repr

/-- The free store: the nodes of the classes outside the sources, by address. -/
abbrev IRHeap := List IRNode

/-- A `std::unique_ptr` to a node: the address of the node, `none` for the null pointer. -/
abbrev NodePtr := Option Nat

/-- The node a pointer points to; there is none for a null or dangling pointer. -/
def IRHeap.nodeAt (h : IRHeap) (p : NodePtr) : Option IRNode :=
  match p with
  | none => none
  | some a => h[a]?

/-- The call `p->description()`; it is undefined through a pointer to no node. -/
def NodePtr.description (h : IRHeap) (p : NodePtr) : Run Text :=
  match h.nodeAt p with
  | none => throw Fault.undefined
  | some n => pure n.fDescription

/-- The call `p->nodeCount()`; it is undefined through a pointer to no node. -/
def NodePtr.nodeCount (h : IRHeap) (p : NodePtr) : Run Int :=
  match h.nodeAt p with
  | none => throw Fault.undefined
  | some n => pure n.fNodeCount

/-- Modelled from the spec: `clone()` of the classes outside the sources is a
"structurally independent deep copy": the call `p->clone()` allocates, at the next free
address, a node with the offset, the description and the node count of `*p`. -/
def NodePtr.clone (h : IRHeap) (p : NodePtr) : Run (NodePtr × IRHeap) :=
  match h.nodeAt p with
  | none => throw Fault.undefined
  | some n => pure (some h.length, h ++ [n])

/-- The members of a `ContinueStatement`. -/
structure ContinueStatement where
  fOffset : Int
deriving DecidableEq, Repr

/-- The member function `ContinueStatement::nodeCount`. -/
def ContinueStatement.nodeCount (_ : ContinueStatement) : Int := 1

/-- The member function `ContinueStatement::clone`. -/
def ContinueStatement.clone (s : ContinueStatement) : ContinueStatement :=
  { fOffset := s.fOffset }

/-- The member function `ContinueStatement::description`. -/
def ContinueStatement.description (_ : ContinueStatement) : Text := "continue;".toList

/-- The members of a `ReturnStatement`; `fExpression` is null after the constructor that
takes an offset. -/
structure ReturnStatement where
  fOffset : Int
  fExpression : NodePtr
deriving DecidableEq, Repr

/-- The member function `ReturnStatement::nodeCount`: it calls `fExpression->nodeCount()`
without a test of the pointer. -/
def ReturnStatement.nodeCount (h : IRHeap) (s : ReturnStatement) : Run Int := do
  let c ← s.fExpression.nodeCount h
  pure (1 + c)

/-- The member function `ReturnStatement::clone`; the constructor that takes an expression
reads the offset of the expression. -/
def ReturnStatement.clone (h : IRHeap) (s : ReturnStatement) :
    Run (ReturnStatement × IRHeap) :=
  if s.fExpression ≠ none then do
    let r ← s.fExpression.clone h
    match r.2.nodeAt r.1 with
    | none => throw Fault.undefined
    | some n => pure ({ fOffset := n.fOffset, fExpression := r.1 }, r.2)
  else pure ({ fOffset := s.fOffset, fExpression := none }, h)

/-- The member function `ReturnStatement::description`. -/
def ReturnStatement.description (h : IRHeap) (s : ReturnStatement) : Run Text :=
  if s.fExpression ≠ none then do
    let d ← s.fExpression.description h
    pure ("return ".toList ++ d ++ ";".toList)
  else pure "return;".toList

/-- The members of a `SwitchStatement`; `fSymbols` is the address of the shared symbol
table, `none` for an empty `shared_ptr`. -/
structure SwitchStatement where
  fOffset : Int
  fIsStatic : Bool
  fValue : NodePtr
  fSymbols : Option Nat
  fCases : List NodePtr
deriving DecidableEq, Repr

/-- The loop of `SwitchStatement::nodeCount` over the cases, with the local `result`. -/
def switchNodeCountLoop (h : IRHeap) : List NodePtr → Int → Run Int
  | [], result => pure result
  | c :: rest, result => do
    let n ← c.nodeCount h
    switchNodeCountLoop h rest (result + n)

/-- The member function `SwitchStatement::nodeCount`. -/
def SwitchStatement.nodeCount (h : IRHeap) (s : SwitchStatement) : Run Int := do
  let v ← s.fValue.nodeCount h
  switchNodeCountLoop h s.fCases (1 + v)

/-- The loop of `SwitchStatement::clone` over the cases, with the local `cloned`. -/
def switchCloneLoop : List NodePtr → List NodePtr → IRHeap → Run (List NodePtr × IRHeap)
  | [], cloned, h => pure (cloned, h)
  | s :: rest, cloned, h => do
    let r ← s.clone h
    switchCloneLoop rest (cloned ++ [r.1]) r.2

/-- The member function `SwitchStatement::clone`: the cases are cloned by the loop, then
the value, and the new statement gets the offset, the flag and the symbol table pointer of
this one. -/
def SwitchStatement.clone (h : IRHeap) (s : SwitchStatement) :
    Run (SwitchStatement × IRHeap) := do
  let cs ← switchCloneLoop s.fCases [] h
  let v ← s.fValue.clone cs.2
  pure ({ fOffset := s.fOffset, fIsStatic := s.fIsStatic, fValue := v.1,
          fSymbols := s.fSymbols, fCases := cs.1 }, v.2)

/-- The loop of `SwitchStatement::description` over the cases, with the local `result`. -/
def switchDescriptionLoop (h : IRHeap) : List NodePtr → Text → Run Text
  | [], result => pure result
  | c :: rest, result => do
    let d ← c.description h
    switchDescriptionLoop h rest (result ++ d)

/-- The member function `SwitchStatement::description`. -/
def SwitchStatement.description (h : IRHeap) (s : SwitchStatement) : Run Text := do
  let v ← s.fValue.description h
  let result ← switchDescriptionLoop h s.fCases
    ((if s.fIsStatic then "@".toList else []) ++ ("switch (".toList ++ v ++ ") \x7b\n".toList))
  pure (result ++ "\x7d".toList)

/-- A statement of one of the three classes, as a `Statement` pointer sees it. -/
inductive IRStatement where
  | continueStatement (s : ContinueStatement)
  | returnStatement (s : ReturnStatement)
  | switchStatement (s : SwitchStatement)
deriving DecidableEq, Repr

/-- The virtual `Statement::nodeCount`. -/
def IRStatement.nodeCount (h : IRHeap) : IRStatement → Run Int
  | .continueStatement s => pure s.nodeCount
  | .returnStatement s => s.nodeCount h
  | .switchStatement s => s.nodeCount h

/-- The virtual `Statement::clone`. -/
def IRStatement.clone (h : IRHeap) : IRStatement → Run (IRStatement × IRHeap)
  | .continueStatement s => pure (.continueStatement s.clone, h)
  | .returnStatement s => do
    let r ← s.clone h
    pure (.returnStatement r.1, r.2)
  | .switchStatement s => do
    let r ← s.clone h
    pure (.switchStatement r.1, r.2)

/-- The virtual `Statement::description`. -/
def IRStatement.description (h : IRHeap) : IRStatement → Run Text
  | .continueStatement s => pure s.description
  | .returnStatement s => s.description h
  | .switchStatement s => s.description h

/-- The pointers of a statement point to nodes of the free store; the expression of a
return statement may be null. -/
def IRStatement.Valid (h : IRHeap) : IRStatement → Prop
  | .continueStatement _ => True
  | .returnStatement s => s.fExpression = none ∨ (h.nodeAt s.fExpression).isSome
  | .switchStatement s =>
    (h.nodeAt s.fValue).isSome ∧ ∀ c ∈ s.fCases, (h.nodeAt c).isSome

/-- The assignment `*p = n` through a pointer to a node. -/
def IRHeap.store (h : IRHeap) (a : Nat) (n : IRNode) : IRHeap := h.set a n

/-- The free store of the worked cases: the expression `x` (one node), and the cases
"case 0: continue;" (three nodes) and "default: return x;" (three nodes). -/
def sampleHeap : IRHeap :=
  [{ fOffset := 8, fDescription := "x".toList, fNodeCount := 1 },
   { fOffset := 14, fDescription := "case 0:\ncontinue;\n".toList, fNodeCount := 3 },
   { fOffset := 30, fDescription := "default:\nreturn x;\n".toList, fNodeCount := 3 }]

/-- The statement `@switch (x) { case 0: continue; default: return x; }`, with the symbol
table at address 100. -/
def sampleSwitch : SwitchStatement :=
  { fOffset := 0, fIsStatic := true, fValue := some 0, fSymbols := some 100,
    fCases := [some 1, some 2] }

/-! ## The generated class: `writeEmitCode`, `writeSetData`, `writeClone`, `writeDumpInfo`
and `generateCode` -/

/-- The static function `needs_uniform_var`. -/
def needs_uniform_var (var : Variable) : Bool :=
  var.fModifiers.fUniform && decide (var.fType.kind ≠ TypeKind.kSampler_Kind)

/-- The static function `is_uniform_in`. -/
def is_uniform_in (var : Variable) : Bool :=
  var.fModifiers.fUniform && var.fModifiers.fIn
    && decide (var.fType.kind ≠ TypeKind.kSampler_Kind)

/-- The static function `is_accessible`. -/
def is_accessible (var : Variable) : Bool :=
  decide (TypeKind.kSampler_Kind ≠ var.fType.nonnullable.kind)
    && decide (TypeKind.kOther_Kind ≠ var.fType.nonnullable.kind)

/-- The member function `writeSection`: the returned flag and the generator after it. -/
def writeSection (env : Environment) (name : SectionName) (namePrefix : Text)
    (g : CPPCodeGenerator) : Bool × CPPCodeGenerator :=
  match env.getSection name with
  | some s => (true, g.write (namePrefix ++ s.fText))
  | none => (false, g)

/-- The member function `addUniform`. Formatting the `nullptr` that `glsltype_string`
returns for an unknown type is undefined. -/
def addUniform (env : Environment) (var : Variable) (g : CPPCodeGenerator) :
    Run CPPCodeGenerator :=
  if needs_uniform_var var = false then pure g
  else
    let g1 :=
      if var.fModifiers.fLayout.fWhen.length ≠ 0 then
        g.write ("        if (".toList ++ var.fModifiers.fLayout.fWhen ++ ") \x7b\n    ".toList)
      else g
    match glsltype_string var.fType with
    | none => throw Fault.undefined
    | some type =>
      let g2 := g1.write ("        ".toList ++ env.FieldName var.fName
        ++ "Var = args.fUniformHandler->addUniform(&_outer, kFragment_GrShaderFlag, ".toList
        ++ type ++ ", \"".toList ++ var.fName ++ "\");\n".toList)
      pure (if var.fModifiers.fLayout.fWhen.length ≠ 0 then g2.write "        \x7d\n".toList
            else g2)

/-- The loop `for (u : uniforms) addUniform(*u)` of `writeEmitCode`. -/
def addUniforms (env : Environment) : List Variable → CPPCodeGenerator → Run CPPCodeGenerator
  | [], g => pure g
  | u :: rest, g => do
    let g1 ← addUniform env u g
    addUniforms env rest g1

/-- The body of the loops of `writePrivateVars` for the declarations from one on; the
loops over `fProgram` and over the `fVars` of each declaration statement visit the
declarations in the order of `programDeclarations`. The `return` after the error leaves
the function. -/
def writePrivateVarsLoop (env : Environment) :
    List VarDeclaration → CPPCodeGenerator → Run CPPCodeGenerator
  | [], g => pure g
  | decl :: rest, g =>
    if is_private decl.fVar = true then
      if decl.fVar.fType.fName = "fragmentProcessor".toList then
        pure (g.error decl.fOffset "fragmentProcessor variables must be declared 'in'".toList)
      else do
        let d ← default_value_variable decl.fVar
        writePrivateVarsLoop env rest
          (g.write (env.FieldType decl.fVar.fType decl.fVar.fModifiers.fLayout ++ " ".toList
            ++ decl.fVar.fName ++ " = ".toList ++ d ++ ";\n".toList))
    else if decl.fVar.fModifiers.fLayout.fTracked = true then
      match env.UniformCTypeMapper_Get decl.fVar with
      | none => throw Fault.undefined
      | some mapper =>
        writePrivateVarsLoop env rest
          (if mapper.defaultValue.length > 0 then
            g.write (mapper.ctype ++ " ".toList ++ env.FieldName decl.fVar.fName
              ++ "Prev = ".toList ++ mapper.defaultValue ++ ";\n".toList)
          else
            g.write (mapper.ctype ++ " ".toList ++ env.FieldName decl.fVar.fName
              ++ "Prev;\n".toList))
    else writePrivateVarsLoop env rest g

/-- The member function `writePrivateVars`. -/
def writePrivateVars (env : Environment) (g : CPPCodeGenerator) : Run CPPCodeGenerator :=
  writePrivateVarsLoop env (programDeclarations env.fProgram) g

/-- The body of the loops of `writePrivateVarValues` for one declaration. -/
def writePrivateVarValue (env : Environment) (decl : VarDeclaration) (g : CPPCodeGenerator) :
    Run CPPCodeGenerator :=
  if is_private decl.fVar = true then
    match decl.fValue with
    | some value => do
      let g1 := g.write (decl.fVar.fName ++ " = ".toList)
      let g2 ← writeExpression env value kAssignment_Precedence { g1 with fCPPMode := true }
      pure ({ g2 with fCPPMode := false }.write ";\n".toList)
    | none => pure g
  else pure g

/-- The loops of `writePrivateVarValues`, over the declarations in the order of
`programDeclarations`. -/
def writePrivateVarValuesLoop (env : Environment) :
    List VarDeclaration → CPPCodeGenerator → Run CPPCodeGenerator
  | [], g => pure g
  | decl :: rest, g => do
    let g1 ← writePrivateVarValue env decl g
    writePrivateVarValuesLoop env rest g1

/-- The member function `writePrivateVarValues`. -/
def writePrivateVarValues (env : Environment) (g : CPPCodeGenerator) : Run CPPCodeGenerator :=
  writePrivateVarValuesLoop env (programDeclarations env.fProgram) g

/-- The loops of `writeEmitCode` over the declarations, in the order of
`programDeclarations`: a local alias for each accessible parameter. -/
def writeEmitCodeAliases (env : Environment) :
    List VarDeclaration → CPPCodeGenerator → CPPCodeGenerator
  | [], g => g
  | decl :: rest, g =>
    writeEmitCodeAliases env rest
      (if env.IsParameter decl.fVar = true ∧ is_accessible decl.fVar = true then
        g.write ("        auto ".toList ++ decl.fVar.fName ++ " = _outer.".toList
          ++ decl.fVar.fName ++ ";\n        (void) ".toList ++ decl.fVar.fName
          ++ ";\n".toList)
      else g)

/-- The functions of the program written in order by the virtual `writeFunction`. -/
def writeFunctions (env : Environment) :
    List FunctionDefinition → CPPCodeGenerator → Run CPPCodeGenerator
  | [], g => pure g
  | f :: rest, g => do
    let g1 ← writeFunction env f g
    writeFunctions env rest g1

/-- Modelled from the spec: the call `INHERITED::generateCode()` of the base class, which
is outside the sources, is the "statement-rendering" pass: it writes the function
definitions of the program, `functions`, in order through `writeFunction`, and returns
whether no error has been reported. -/
def inheritedGenerateCode (env : Environment) (functions : List FunctionDefinition)
    (g : CPPCodeGenerator) : Run (Bool × CPPCodeGenerator) := do
  let g1 ← writeFunctions env functions g
  pure (decide (g1.fErrors.length = 0), g1)

/-- The member function `writeEmitCode`: the returned flag and the generator after it.
The local `skslBuffer` is a new stream; `functions` are the function definitions among
the elements of `fProgram`. -/
def writeEmitCode (env : Environment) (functions : List FunctionDefinition)
    (uniforms : List Variable) (g : CPPCodeGenerator) : Run (Bool × CPPCodeGenerator) := do
  let g1 := g.write ("    void emitCode(EmitArgs& args) override \x7b\n"
    ++ "        GrGLSLFPFragmentBuilder* fragBuilder = args.fFragBuilder;\n").toList
  let g2 := g1.write ("        const ".toList ++ env.fFullName
    ++ "& _outer = args.fFp.cast<".toList ++ env.fFullName
    ++ ">();\n        (void) _outer;\n".toList)
  let g3 := writeEmitCodeAliases env (programDeclarations env.fProgram) g2
  let g4 ← writePrivateVarValues env g3
  let g5 ← addUniforms env uniforms g4
  let g6 := (writeSection env SectionName.kEmitCodeSection [] g5).2
  let g7 := newExtraEmitCodeBlock
    { g6 with fCPPBuffer := some g6.fOut, fOut := { fId := g6.fStreams, fText := [] },
              fStreams := g6.fStreams + 1 }
  let r ← inheritedGenerateCode env functions g7
  let g8 ← flushEmittedCode r.2
  match g8.fCPPBuffer with
  | none => throw Fault.undefined
  | some cppBuffer =>
    pure (r.1, { g8 with fOut := cppBuffer, fCPPBuffer := none }.write "    \x7d\n".toList)

/-- The body of the loop of `writeSetData` over the uniforms, with the local
`wroteProcessor`. The mapper of a "uniform in" variable is read through the pointer
without a test. -/
def writeSetDataUniform (env : Environment) (pdman : Text) (u : Variable)
    (wroteProcessor : Bool) (g : CPPCodeGenerator) : Run (Bool × CPPCodeGenerator) :=
  if is_uniform_in u = true then
    let g1 :=
      if wroteProcessor = false then
        (g.write ("        const ".toList ++ env.fFullName ++ "& _outer = _proc.cast<".toList
          ++ env.fFullName ++ ">();\n".toList)).write "        \x7b\n".toList
      else g
    match env.UniformCTypeMapper_Get u with
    | none => throw Fault.undefined
    | some mapper =>
      let conditionalUniform : Bool := decide (u.fModifiers.fLayout.fWhen ≠ [])
      let isTracked : Bool := u.fModifiers.fLayout.fTracked
      let needsValueDeclaration : Bool := isTracked || !mapper.canInlineUniformValue
      let uniformName := env.FieldName u.fName ++ "Var".toList
      let g2 :=
        if conditionalUniform = true then
          g1.write ("        if (".toList ++ uniformName ++ ".isValid()) \x7b\n".toList)
        else g1
      let indent :=
        if conditionalUniform = true then "        ".toList ++ "    ".toList
        else "        ".toList
      let valueVar :=
        if needsValueDeclaration = true then u.fName ++ "Value".toList
        else "(_outer.".toList ++ u.fName ++ ")".toList
      let g3 :=
        if needsValueDeclaration = true then
          g2.write (indent ++ env.AccessType u.fType u.fModifiers.fLayout ++ " ".toList
            ++ valueVar ++ " = _outer.".toList ++ u.fName ++ ";\n".toList)
        else g2
      let prevVar := env.FieldName u.fName ++ "Prev".toList
      let g4 :=
        if isTracked = true then
          g3.write (indent ++ "if (".toList ++ mapper.dirtyExpression valueVar prevVar
            ++ ") \x7b\n".toList
            ++ indent ++ "    ".toList ++ mapper.saveState valueVar prevVar ++ ";\n".toList
            ++ indent ++ "    ".toList ++ mapper.setUniform pdman uniformName valueVar
            ++ ";\n".toList
            ++ indent ++ "\x7d\n".toList)
        else
          g3.write (indent ++ mapper.setUniform pdman uniformName valueVar ++ ";\n".toList)
      pure (true, if conditionalUniform = true then g4.write "        \x7d\n".toList else g4)
  else pure (wroteProcessor, g)

/-- The loop of `writeSetData` over the uniforms. -/
def writeSetDataUniforms (env : Environment) (pdman : Text) :
    List Variable → Bool → CPPCodeGenerator → Run (Bool × CPPCodeGenerator)
  | [], wroteProcessor, g => pure (wroteProcessor, g)
  | u :: rest, wroteProcessor, g => do
    let r ← writeSetDataUniform env pdman u wroteProcessor g
    writeSetDataUniforms env pdman rest r.1 r.2

/-- The loops of `writeSetData` over the declarations when there is a custom section,
in the order of `programDeclarations`, with the locals `samplerIndex` and
`wroteProcessor`. -/
def writeSetDataVariables (env : Environment) :
    List VarDeclaration → Nat → Bool → CPPCodeGenerator → CPPCodeGenerator
  | [], _, _, g => g
  | decl :: rest, samplerIndex, wroteProcessor, g =>
    if decl.fVar.fType.kind = TypeKind.kSampler_Kind then
      writeSetDataVariables env rest (samplerIndex + 1) wroteProcessor
        (((g.write ("        const GrSurfaceProxyView& ".toList ++ decl.fVar.fName
            ++ "View = _outer.textureSampler(".toList ++ to_string samplerIndex
            ++ ").view();\n".toList)).write
          ("        GrTexture& ".toList ++ decl.fVar.fName ++ " = *".toList
            ++ decl.fVar.fName ++ "View.proxy()->peekTexture();\n".toList)).write
          ("        (void) ".toList ++ decl.fVar.fName ++ ";\n".toList))
    else if needs_uniform_var decl.fVar = true then
      writeSetDataVariables env rest samplerIndex wroteProcessor
        (g.write ("        UniformHandle& ".toList ++ decl.fVar.fName ++ " = ".toList
          ++ env.FieldName decl.fVar.fName ++ "Var;\n        (void) ".toList
          ++ decl.fVar.fName ++ ";\n".toList))
    else if env.IsParameter decl.fVar = true
        ∧ decl.fVar.fType.fName ≠ "fragmentProcessor".toList then
      let g1 :=
        if wroteProcessor = false then
          g.write ("        const ".toList ++ env.fFullName ++ "& _outer = _proc.cast<".toList
            ++ env.fFullName ++ ">();\n".toList)
        else g
      writeSetDataVariables env rest samplerIndex true
        (if decl.fVar.fType.nonnullable.fName ≠ "fragmentProcessor".toList then
          g1.write ("        auto ".toList ++ decl.fVar.fName ++ " = _outer.".toList
            ++ decl.fVar.fName ++ ";\n        (void) ".toList ++ decl.fVar.fName
            ++ ";\n".toList)
        else g1)
    else writeSetDataVariables env rest samplerIndex wroteProcessor g

/-- The member function `writeSetData`. -/
def writeSetData (env : Environment) (uniforms : List Variable) (g : CPPCodeGenerator) :
    Run CPPCodeGenerator := do
  let setDataSection := env.getSection SectionName.kSetDataSection
  let pdman :=
    match setDataSection with
    | some s => s.fArgument
    | none => "pdman".toList
  let g1 := g.write ("    void onSetData(const GrGLSLProgramDataManager& ".toList ++ pdman
    ++ ", const GrFragmentProcessor& _proc) override \x7b\n".toList)
  let r ← writeSetDataUniforms env pdman uniforms false g1
  let g2 := if r.1 = true then r.2.write "        \x7d\n".toList else r.2
  let g3 :=
    if setDataSection.isSome = true then
      (writeSection env SectionName.kSetDataSection []
        (writeSetDataVariables env (programDeclarations env.fProgram) 0 r.1 g2)).2
    else g2
  pure (g3.write "    \x7d\n".toList)

/-- The loop of `writeOnTextureSampler` over the parameters, with the local
`foundSampler`. -/
def writeOnTextureSamplerLoop (env : Environment) :
    List Variable → Bool → CPPCodeGenerator → Bool × CPPCodeGenerator
  | [], foundSampler, g => (foundSampler, g)
  | param :: rest, foundSampler, g =>
    if param.fType.kind = TypeKind.kSampler_Kind then
      if foundSampler = false then
        writeOnTextureSamplerLoop env rest true
          ((g.write ("const GrFragmentProcessor::TextureSampler& ".toList ++ env.fFullName
              ++ "::onTextureSampler(int index) const \x7b\n".toList)).write
            ("    return IthTextureSampler(index, ".toList ++ env.FieldName param.fName))
      else
        writeOnTextureSamplerLoop env rest foundSampler
          (g.write (", ".toList ++ env.FieldName param.fName))
    else writeOnTextureSamplerLoop env rest foundSampler g

/-- The member function `writeOnTextureSampler`. -/
def writeOnTextureSampler (env : Environment) (g : CPPCodeGenerator) : CPPCodeGenerator :=
  let r := writeOnTextureSamplerLoop env env.fParameters false g
  if r.1 = true then r.2.write ");\n\x7d\n".toList else r.2

/-- The loop of `writeClone` over the parameters that writes the member initializers. -/
def writeCloneFields (env : Environment) : List Variable → CPPCodeGenerator → CPPCodeGenerator
  | [], g => g
  | param :: rest, g =>
    writeCloneFields env rest
      (if param.fType.nonnullable.fName ≠ "fragmentProcessor".toList then
        g.write ("\n, ".toList ++ env.FieldName param.fName ++ "(src.".toList
          ++ env.FieldName param.fName ++ ")".toList)
      else g)

/-- The loop of `writeClone` that counts the sampler parameters in `samplerCount`. -/
def countSamplers : List Variable → Nat → Nat
  | [], samplerCount => samplerCount
  | param :: rest, samplerCount =>
    countSamplers rest
      (if param.fType.kind = TypeKind.kSampler_Kind then samplerCount + 1 else samplerCount)

/-- The message of `writeClone` for a fields section without a clone section. -/
def missingCloneMessage : Text :=
  "fragment processors with custom @fields must also have a custom @clone".toList

/-- The message of `writeDumpInfo` for a fields section without a dump-info section. -/
def missingDumpInfoMessage : Text :=
  "fragment processors with custom @fields must also have a custom @dumpInfo".toList

/-- The member function `writeClone`. -/
def writeClone (env : Environment) (g : CPPCodeGenerator) : CPPCodeGenerator :=
  let r := writeSection env SectionName.kCloneSection [] g
  if r.1 = false then
    let g1 :=
      if (env.getSection SectionName.kFieldsSection).isSome = true then
        r.2.error 0 missingCloneMessage
      else r.2
    let g2 := g1.write (env.fFullName ++ "::".toList ++ env.fFullName ++ "(const ".toList
      ++ env.fFullName ++ "& src)\n: INHERITED(k".toList ++ env.fFullName
      ++ "_ClassID, src.optimizationFlags())".toList)
    let g3 := writeCloneFields env env.fParameters g2
    let g4 := (g3.write " \x7b\n".toList).write
      "        this->cloneAndRegisterAllChildProcessors(src);\n".toList
    let samplerCount := countSamplers env.fParameters 0
    let g5 :=
      if samplerCount ≠ 0 then
        g4.write ("     this->setTextureSamplerCnt(".toList ++ to_string samplerCount
          ++ ");".toList)
      else g4
    let g6 :=
      if g5.fAccessSampleCoordsDirectly = true then
        g5.write "    this->setUsesSampleCoordsDirectly();\n".toList
      else g5
    (((g6.write "\x7d\n".toList).write
      ("std::unique_ptr<GrFragmentProcessor> ".toList ++ env.fFullName
        ++ "::clone() const \x7b\n".toList)).write
      ("    return std::make_unique<".toList ++ env.fFullName ++ ">(*this);\n".toList)).write
      "\x7d\n".toList
  else r.2

/-- The loop of `writeDumpInfo` over the parameters, with the locals `formatString` and
`argumentList`. -/
def writeDumpInfoLoop (env : Environment) :
    List Variable → Text → List Text → Run (Text × List Text)
  | [], formatString, argumentList => pure (formatString, argumentList)
  | param :: rest, formatString, argumentList =>
    if param.fType.nonnullable.fName = "fragmentProcessor".toList then
      writeDumpInfoLoop env rest formatString argumentList
    else do
      let r ← formatRuntimeValue param.fType param.fModifiers.fLayout param.fName argumentList
      writeDumpInfoLoop env rest
        (formatString ++ (if formatString = [] then [] else ", ".toList)
          ++ env.FieldName param.fName ++ "=".toList ++ r.1) r.2

/-- The loop of `writeDumpInfo` that writes the arguments. -/
def writeDumpInfoArguments : List Text → CPPCodeGenerator → CPPCodeGenerator
  | [], g => g
  | argument :: rest, g => writeDumpInfoArguments rest (g.write (", ".toList ++ argument))

/-- The member function `writeDumpInfo`. -/
def writeDumpInfo (env : Environment) (g : CPPCodeGenerator) : Run CPPCodeGenerator := do
  let g1 := g.write ("#if GR_TEST_UTILS\nSkString ".toList ++ env.fFullName
    ++ "::onDumpInfo() const \x7b\n".toList)
  let r := writeSection env SectionName.kDumpInfoSection [] g1
  let g2 ←
    if r.1 = false then do
      let g3 :=
        if (env.getSection SectionName.kFieldsSection).isSome = true then
          r.2.error 0 missingDumpInfoMessage
        else r.2
      let fields ← writeDumpInfoLoop env env.fParameters [] []
      if fields.1 ≠ [] then
        pure ((writeDumpInfoArguments fields.2
          (g3.write ("    return SkStringPrintf(\"(".toList ++ fields.1 ++ ")\"".toList))).write
          ");".toList)
      else pure (g3.write "    return SkString();".toList)
    else pure r.2
  pure (g2.write "\n\x7d\n#endif\n".toList)

/-- The member function `writeTest`. -/
def writeTest (env : Environment) (g : CPPCodeGenerator) : CPPCodeGenerator :=
  match env.getSection SectionName.kTestCodeSection with
  | some test =>
    (writeSection env SectionName.kTestCodeSection []
      (g.write ("GR_DEFINE_FRAGMENT_PROCESSOR_TEST(".toList ++ env.fFullName
        ++ ");\n#if GR_TEST_UTILS\nstd::unique_ptr<GrFragmentProcessor> ".toList
        ++ env.fFullName ++ "::TestCreate(GrProcessorTestData* ".toList ++ test.fArgument
        ++ ") \x7b\n".toList))).2.write "\x7d\n#endif\n".toList
  | none => g

/-- The first loops of `generateCode`, over the declarations in the order of
`programDeclarations`, with the local `uniforms`; the result is `none` when the function is
left by `return false`. -/
def validateDeclarations (env : Environment) :
    List VarDeclaration → List Variable → CPPCodeGenerator →
      Option (List Variable) × CPPCodeGenerator
  | [], uniforms, g => (some uniforms, g)
  | decl :: rest, uniforms, g =>
    let uniforms1 :=
      if decl.fVar.fModifiers.fUniform = true
          ∧ decl.fVar.fType.kind ≠ TypeKind.kSampler_Kind then
        uniforms ++ [decl.fVar]
      else uniforms
    if is_uniform_in decl.fVar = true then
      match env.UniformCTypeMapper_Get decl.fVar with
      | none =>
        (none, g.error decl.fOffset
          (decl.fVar.fName ++ "'s type is not supported for use as a 'uniform in'".toList))
      | some mapper =>
        if decl.fVar.fModifiers.fLayout.fTracked = true ∧ mapper.supportsTracking = false then
          (none, g.error decl.fOffset
            (decl.fVar.fName ++ "'s type does not support state tracking".toList))
        else validateDeclarations env rest uniforms1 g
    else if decl.fVar.fModifiers.fLayout.fTracked = true then
      (none, g.error decl.fOffset "Non-'in uniforms' cannot be tracked".toList)
    else validateDeclarations env rest uniforms1 g

/-- The loop of `generateCode` over the uniforms that declares the handles. -/
def writeUniformHandles (env : Environment) : List Variable → CPPCodeGenerator → CPPCodeGenerator
  | [], g => g
  | u :: rest, g =>
    writeUniformHandles env rest
      (if needs_uniform_var u = true ∧ u.fModifiers.fIn = false then
        g.write ("    UniformHandle ".toList ++ env.FieldName u.fName ++ "Var;\n".toList)
      else g)

/-- The loop of `generateCode` over the parameters that declares the handles. -/
def writeParameterHandles (env : Environment) :
    List Variable → CPPCodeGenerator → CPPCodeGenerator
  | [], g => g
  | param :: rest, g =>
    writeParameterHandles env rest
      (if needs_uniform_var param = true then
        g.write ("    UniformHandle ".toList ++ env.FieldName param.fName ++ "Var;\n".toList)
      else g)

/-- The loop of `generateCode` over the parameters that writes the comparisons of
`onIsEqual`. -/
def writeIsEqualFields (env : Environment) : List Variable → CPPCodeGenerator → CPPCodeGenerator
  | [], g => g
  | param :: rest, g =>
    writeIsEqualFields env rest
      (if param.fType.nonnullable.fName = "fragmentProcessor".toList then g
      else
        g.write ("    if (".toList ++ env.FieldName param.fName ++ " != that.".toList
          ++ env.FieldName param.fName ++ ") return false;\n".toList))

/-- The member function `generateCode`: the returned flag and the generator after it;
`functions` are the function definitions among the elements of `fProgram`. -/
def generateCode (env : Environment) (functions : List FunctionDefinition)
    (g : CPPCodeGenerator) : Run (Bool × CPPCodeGenerator) :=
  match validateDeclarations env (programDeclarations env.fProgram) [] g with
  | (none, g1) => pure (false, g1)
  | (some uniforms, g1) => do
    let g2 := { g1 with fErrors := g1.fErrors ++ env.GetHeaderErrors }.write
      (env.GetHeader ++ "\n".toList)
    let g3 := g2.write (env.kFragmentProcessorHeader env.fFullName)
    let g4 := g3.write ("#include \"".toList ++ env.fFullName ++ ".h\"\n\n".toList)
    let g5 := (writeSection env SectionName.kCppSection [] g4).2
    let g6 := g5.write (("#include \"src/core/SkUtils.h\"\n"
      ++ "#include \"src/gpu/GrTexture.h\"\n"
      ++ "#include \"src/gpu/glsl/GrGLSLFragmentProcessor.h\"\n"
      ++ "#include \"src/gpu/glsl/GrGLSLFragmentShaderBuilder.h\"\n"
      ++ "#include \"src/gpu/glsl/GrGLSLProgramBuilder.h\"\n"
      ++ "#include \"src/sksl/SkSLCPP.h\"\n"
      ++ "#include \"src/sksl/SkSLUtil.h\"\n"
      ++ "class GrGLSL").toList ++ env.fName
      ++ " : public GrGLSLFragmentProcessor \x7b\npublic:\n    GrGLSL".toList ++ env.fName
      ++ "() \x7b\x7d\n".toList)
    let r ← writeEmitCode env functions uniforms g6
    let g7 := r.2.write "private:\n".toList
    let g8 ← writeSetData env uniforms g7
    let g9 ← writePrivateVars env g8
    let g10 := writeUniformHandles env uniforms g9
    let g11 := writeParameterHandles env env.fParameters g10
    let g12 := g11.write ("\x7d;\nGrGLSLFragmentProcessor* ".toList ++ env.fFullName
      ++ "::onCreateGLSLInstance() const \x7b\n    return new GrGLSL".toList ++ env.fName
      ++ "();\n\x7d\n".toList)
    let g13 ← writeGetKey env g12
    let g14 := g13.write ("bool ".toList ++ env.fFullName
      ++ "::onIsEqual(const GrFragmentProcessor& other) const \x7b\n    const ".toList
      ++ env.fFullName ++ "& that = other.cast<".toList ++ env.fFullName
      ++ ">();\n    (void) that;\n".toList)
    let g15 := writeIsEqualFields env env.fParameters g14
    let g16 := g15.write "    return true;\n\x7d\n".toList
    let g17 := writeClone env g16
    let g18 ← writeDumpInfo env g17
    let g19 := writeOnTextureSampler env g18
    let g20 := writeTest env g19
    let g21 := (writeSection env SectionName.kCppEndSection [] g20).2
    pure (r.1 && decide (g21.fErrors.length = 0), g21)

/-- The parameter `layout(tracked) in half scale`: tracked, and not a uniform. -/
def trackedScaleVar : Variable :=
  { fAddr := 9, fName := "scale".toList, fType := halfType,
    fModifiers := { fUniform := false, fIn := true,
                    fLayout := { Layout.default with fTracked := true } },
    fGlobal := true }

/-- The program that declares `layout(tracked) in half scale` at offset 21. -/
def trackedConflictProgram : Environment :=
  environmentOf [.kVar_Kind [{ fOffset := 21, fVar := trackedScaleVar, fValue := none }]]
    [trackedScaleVar]

/-- The message of `generateCode` for a tracked variable that is not a "uniform in". -/
def trackedConflictMessage : Text := "Non-'in uniforms' cannot be tracked".toList

/-- Whether the first loops of `generateCode` pass a declaration: a "uniform in" variable
has a mapper, which supports tracking if the variable is tracked, and another variable is
not tracked. -/
def passesValidation (env : Environment) (decl : VarDeclaration) : Bool :=
  if is_uniform_in decl.fVar = true then
    match env.UniformCTypeMapper_Get decl.fVar with
    | none => false
    | some mapper => !(decl.fVar.fModifiers.fLayout.fTracked && !mapper.supportsTracking)
  else !decl.fVar.fModifiers.fLayout.fTracked

/-- The program without declarations, functions and sections, for the class `GrEmpty`. -/
def emptyProgram : Environment :=
  { environmentOf [] [] with fName := "Empty".toList, fFullName := "GrEmpty".toList }

/-- The generator after `generateCode` on the empty program. -/
def afterEmptyProgram : CPPCodeGenerator :=
  ((generateCode emptyProgram [] keyState).getD (false, keyState)).2

/-- The member initializers of the copy constructor that `writeClone` generates. -/
def cloneFieldsText (env : Environment) (params : List Variable) : Text :=
  params.flatMap (fun param =>
    if param.fType.nonnullable.fName ≠ "fragmentProcessor".toList then
      "\n, ".toList ++ env.FieldName param.fName ++ "(src.".toList
        ++ env.FieldName param.fName ++ ")".toList
    else [])

/-- The default that `writeClone` generates: the copy constructor and `clone()`; `direct`
is the member `fAccessSampleCoordsDirectly`. -/
def defaultClone (env : Environment) (direct : Bool) : Text :=
  env.fFullName ++ "::".toList ++ env.fFullName ++ "(const ".toList
    ++ env.fFullName ++ "& src)\n: INHERITED(k".toList ++ env.fFullName
    ++ "_ClassID, src.optimizationFlags())".toList
    ++ cloneFieldsText env env.fParameters
    ++ " \x7b\n".toList
    ++ "        this->cloneAndRegisterAllChildProcessors(src);\n".toList
    ++ (if countSamplers env.fParameters 0 ≠ 0 then
          "     this->setTextureSamplerCnt(".toList
            ++ to_string (countSamplers env.fParameters 0) ++ ");".toList
        else [])
    ++ (if direct = true then "    this->setUsesSampleCoordsDirectly();\n".toList else [])
    ++ "\x7d\n".toList
    ++ "std::unique_ptr<GrFragmentProcessor> ".toList ++ env.fFullName
    ++ "::clone() const \x7b\n".toList
    ++ "    return std::make_unique<".toList ++ env.fFullName ++ ">(*this);\n".toList
    ++ "\x7d\n".toList

/-- The lines before the body of `onDumpInfo`. -/
def dumpInfoOpen (env : Environment) : Text :=
  "#if GR_TEST_UTILS\nSkString ".toList ++ env.fFullName
    ++ "::onDumpInfo() const \x7b\n".toList

/-- The lines after the body of `onDumpInfo`. -/
def dumpInfoClose : Text := "\n\x7d\n#endif\n".toList

/-- The default body that `writeDumpInfo` generates from the format string and the
arguments collected over the parameters. -/
def defaultDumpInfo (formatString : Text) (argumentList : List Text) : Text :=
  if formatString ≠ [] then
    "    return SkStringPrintf(\"(".toList ++ formatString ++ ")\"".toList
      ++ argumentList.flatMap (fun argument => ", ".toList ++ argument) ++ ");".toList
  else "    return SkString();".toList

/-- The sections of a program with a fields section only. -/
def fieldsOnly (name : SectionName) : Option Section :=
  if name = SectionName.kFieldsSection then
    some { fArgument := [], fText := "int fCustom;".toList }
  else none

/-- The program of `in half scale` with a custom fields section, for the class
`GrScale`. -/
def fieldsProgram : Environment :=
  { scaleProgram with fFullName := "GrScale".toList, fName := "Scale".toList,
                      fParameters := [scaleVar], getSection := fieldsOnly }

/-- The first lines of the `emitCode` method that `writeEmitCode` writes. -/
def emitCodeOpen (env : Environment) : Text :=
  ("    void emitCode(EmitArgs& args) override \x7b\n"
    ++ "        GrGLSLFPFragmentBuilder* fragBuilder = args.fFragBuilder;\n").toList
    ++ ("        const ".toList ++ env.fFullName
      ++ "& _outer = args.fFp.cast<".toList ++ env.fFullName
      ++ ">();\n        (void) _outer;\n".toList)

/-- The local aliases of the accessible parameters among the declarations. -/
def parameterAliases (env : Environment) (decls : List VarDeclaration) : Text :=
  decls.flatMap (fun decl =>
    if env.IsParameter decl.fVar = true ∧ is_accessible decl.fVar = true then
      "        auto ".toList ++ decl.fVar.fName ++ " = _outer.".toList
        ++ decl.fVar.fName ++ ";\n        (void) ".toList ++ decl.fVar.fName
        ++ ";\n".toList
    else [])

/-- The text `addUniform` writes for one variable: nothing for a variable that needs no
uniform handle, else the `addUniform` call, inside its guard when the layout has one. -/
def uniformHandle (env : Environment) (var : Variable) : Text :=
  if needs_uniform_var var = false then []
  else
    (if var.fModifiers.fLayout.fWhen.length ≠ 0 then
      "        if (".toList ++ var.fModifiers.fLayout.fWhen ++ ") \x7b\n    ".toList
     else [])
    ++ ("        ".toList ++ env.FieldName var.fName
      ++ "Var = args.fUniformHandler->addUniform(&_outer, kFragment_GrShaderFlag, ".toList
      ++ (glsltype_string var.fType).getD [] ++ ", \"".toList ++ var.fName
      ++ "\");\n".toList)
    ++ (if var.fModifiers.fLayout.fWhen.length ≠ 0 then "        \x7d\n".toList else [])

/-- The text of a section, empty when the program has no such section. -/
def sectionText (env : Environment) (name : SectionName) : Text :=
  match env.getSection name with
  | some s => s.fText
  | none => []

/-- The parts of the `emitCode` method before the rendered body, in the order in which
`writeEmitCode` writes them: the first lines, the aliases of the parameters, the values
of the private variables, the `addUniform` calls, the custom emit-code section. -/
def emitCodeParts (env : Environment) (uniforms : List Variable) (privateValues : Text) :
    Text :=
  emitCodeOpen env ++ parameterAliases env (programDeclarations env.fProgram)
    ++ privateValues ++ uniforms.flatMap (uniformHandle env)
    ++ sectionText env SectionName.kEmitCodeSection

/-- The sections of a program with an emit-code section only. -/
def emitCodeSectionOnly (name : SectionName) : Option Section :=
  if name = SectionName.kEmitCodeSection then
    some { fArgument := [], fText := "// prologue\n".toList }
  else none

/-- The uniform `uniform half gain`, which is not a parameter. -/
def gainVar : Variable :=
  { fAddr := 10, fName := "gain".toList, fType := halfType,
    fModifiers := { fUniform := true, fIn := false, fLayout := Layout.default },
    fGlobal := true }

/-- The program of `uniform half gain` with a custom emit-code section and no function,
for the class `GrGain`. -/
def gainProgram : Environment :=
  { environmentOf [.kVar_Kind [{ fOffset := 3, fVar := gainVar, fValue := none }]] [] with
      fFullName := "GrGain".toList, fName := "Gain".toList,
      getSection := emitCodeSectionOnly }

/-- A local variable of type half4. -/
def half4Local (addr : Nat) (name : String) : Variable :=
  { fAddr := addr, fName := name.toList, fType := half4Type,
    fModifiers := { fUniform := false, fIn := false, fLayout := Layout.default },
    fGlobal := false }

/-- The function `void main() { half4 a = sample(fp0, coords); half4 b = sample(fp1); }`:
two sample() calls in consecutive statements, the first with explicit coordinates. The
base class renders a declaration statement as the type, the name, " = ", the initial
value through `writeVarInitializer`, and ";". -/
def twoSampleMain : FunctionDefinition :=
  { fDeclaration := { fBuiltin := false, fName := "main".toList }
    fParameters := []
    fReturnType := halfType
    fBody :=
      [.inherited 0
        (.text "half4 a = ".toList
          (.initializer (half4Local 20 "a")
            (.functionCall 10 half4Type sampleFunction
              (.cons (.variableReference 17 fp0Var)
                (.cons (.variableReference 22 coordsVar) .nil)))
            (.text ";".toList .nil))),
       .inherited 30
        (.text "half4 b = ".toList
          (.initializer (half4Local 21 "b") (sampleCall 40 fp1Var)
            (.text ";".toList .nil)))] }

/-- The generator after `writeFunction` has rendered `twoSampleMain` in the state that
`writeEmitCode` sets up: the token of each call stands inside its statement, right
before the placeholder of the call. -/
def twoSampleCalls : CPPCodeGenerator :=
  { emitCodeState "$\x7b0\x7dhalf4 a = $\x7b1\x7d%s;\nhalf4 b = $\x7b2\x7d%s;\n".toList
      ["_sample10.c_str()".toList, "_sample40.c_str()".toList]
      [[],
       ("        SkString _coords10(\"coords\");\n"
        ++ "        SkString _sample10 = this->invokeChild(0, args, _coords10.c_str());\n").toList,
       "        SkString _sample40 = this->invokeChild(1, args);\n".toList] with
    fStreams := 4 }

/-- The function `void main() { sample(fp0); }`, the call being an expression
statement. -/
def oneSampleMain : FunctionDefinition :=
  { fDeclaration := { fBuiltin := false, fName := "main".toList }
    fParameters := []
    fReturnType := halfType
    fBody := [.inherited 0 (.operand (sampleCall 10 fp0Var) kTopLevel_Precedence
      (.text ";".toList .nil))] }

/-- The generator after `writeFunction` has rendered `oneSampleMain` in the state that
`writeEmitCode` sets up: the token of the call follows the token of block 0. -/
def oneSampleCall : CPPCodeGenerator :=
  { emitCodeState "$\x7b0\x7d$\x7b1\x7d%s;\n".toList ["_sample10.c_str()".toList]
      [[], "        SkString _sample10 = this->invokeChild(0, args);\n".toList] with
    fStreams := 3 }

/-- What `flushEmittedCode` does after the loop: the return to the emptied sksl buffer
of `g`, with the cpp buffer as the loop left it and the block table cleared. -/
def afterFlush (g g1 : CPPCodeGenerator) : CPPCodeGenerator :=
  { g1 with fOut := { g.fOut with fText := [] }
            fCPPBuffer := some g1.fOut
            fExtraEmitCodeBlocks := [] }

/-! # Theorems -/

/-! ## Runs -/

theorem Run.bind_eq_ok {α β : Type} (x : Run α) (f : α → Run β) (b : β) :
    (x >>= f) = Except.ok b ↔ ∃ a, x = Except.ok a ∧ f a = Except.ok b := by
  cases x with
  | error e => simp [bind, Except.bind]
  | ok a => simp [bind, Except.bind]

theorem Run.pure_eq_ok {α : Type} (a b : α) :
    (pure a : Run α) = Except.ok b ↔ a = b := by
  simp [pure, Except.pure]

/-! ## What rendering may change -/

theorem Extends.refl (g : CPPCodeGenerator) : Extends g g :=
  ⟨rfl, ⟨[], by simp⟩, ⟨[], by simp⟩, ⟨[], by simp⟩, ⟨[], by simp⟩, rfl, rfl, rfl, le_rfl⟩

theorem Extends.trans {g₁ g₂ g₃ : CPPCodeGenerator} (h₁ : Extends g₁ g₂) (h₂ : Extends g₂ g₃) :
    Extends g₁ g₃ := by
  obtain ⟨s1, ⟨t1, ht1⟩, ⟨a1, ha1⟩, ⟨b1, hb1⟩, ⟨e1, he1⟩, c1, m1, i1, n1⟩ := h₁
  obtain ⟨s2, ⟨t2, ht2⟩, ⟨a2, ha2⟩, ⟨b2, hb2⟩, ⟨e2, he2⟩, c2, m2, i2, n2⟩ := h₂
  refine ⟨s2.trans s1, ⟨t1 ++ t2, ?_⟩, ⟨a1 ++ a2, ?_⟩, ⟨b1 ++ b2, ?_⟩, ⟨e1 ++ e2, ?_⟩,
    c2.trans c1, m2.trans m1, i2.trans i1, n1.trans n2⟩
  · rw [ht2, ht1, List.append_assoc]
  · rw [ha2, ha1, List.append_assoc]
  · rw [hb2, hb1, List.append_assoc]
  · rw [he2, he1, List.append_assoc]

theorem Extends.write (s : Text) (g : CPPCodeGenerator) : Extends g (g.write s) :=
  ⟨rfl, ⟨s, rfl⟩, ⟨[], by simp [CPPCodeGenerator.write]⟩, ⟨[], by simp [CPPCodeGenerator.write]⟩,
    ⟨[], by simp [CPPCodeGenerator.write]⟩, rfl, rfl, rfl, le_rfl⟩

theorem Extends.pushFormatArg (a : Text) (g : CPPCodeGenerator) :
    Extends g (g.pushFormatArg a) :=
  ⟨rfl, ⟨[], by simp [CPPCodeGenerator.pushFormatArg]⟩, ⟨[a], rfl⟩,
    ⟨[], by simp [CPPCodeGenerator.pushFormatArg]⟩,
    ⟨[], by simp [CPPCodeGenerator.pushFormatArg]⟩, rfl, rfl, rfl, le_rfl⟩

theorem Extends.error (o : Int) (m : Text) (g : CPPCodeGenerator) :
    Extends g (g.error o m) :=
  ⟨rfl, ⟨[], by simp [CPPCodeGenerator.error]⟩, ⟨[], by simp [CPPCodeGenerator.error]⟩,
    ⟨[], by simp [CPPCodeGenerator.error]⟩, ⟨[(o, m)], rfl⟩, rfl, rfl, rfl, le_rfl⟩

theorem Extends.newExtraEmitCodeBlock (g : CPPCodeGenerator) :
    Extends g (newExtraEmitCodeBlock g) :=
  ⟨rfl, ⟨_, rfl⟩, ⟨[], by simp [SkSL.newExtraEmitCodeBlock, CPPCodeGenerator.write]⟩,
    ⟨[[]], rfl⟩, ⟨[], by simp [SkSL.newExtraEmitCodeBlock, CPPCodeGenerator.write]⟩,
    rfl, rfl, rfl, le_rfl⟩

theorem writeRuntimeValue_extends (type : SkType) (layout : Layout) (cppCode : Text)
    (g g' : CPPCodeGenerator) (h : writeRuntimeValue type layout cppCode g = Except.ok g') :
    Extends g g' := by
  unfold writeRuntimeValue at h
  rw [Run.bind_eq_ok] at h
  obtain ⟨r, hr, h⟩ := h
  rw [Run.pure_eq_ok] at h
  subst h
  have hargs : ∃ a, r.2 = g.fFormatArgs ++ a := by
    unfold formatRuntimeValue at hr
    rw [Run.bind_eq_ok] at hr
    obtain ⟨q, _, hq⟩ := hr
    rw [Run.pure_eq_ok] at hq
    subst hq
    exact ⟨_, rfl⟩
  obtain ⟨a, ha⟩ := hargs
  exact ⟨rfl, ⟨r.1, rfl⟩, ⟨a, by simpa [CPPCodeGenerator.write] using ha⟩,
    ⟨[], by simp [CPPCodeGenerator.write]⟩, ⟨[], by simp [CPPCodeGenerator.write]⟩,
    rfl, rfl, rfl, le_rfl⟩

theorem writeVariableReference_extends (env : Environment) (v : Variable)
    (g g' : CPPCodeGenerator) (h : writeVariableReference env v g = Except.ok g') :
    Extends g g' := by
  unfold writeVariableReference at h
  repeat' split at h
  all_goals try (rw [Run.pure_eq_ok] at h; subst h)
  · exact Extends.write _ _
  · exact (Extends.write _ _).trans (Extends.pushFormatArg _ _)
  · exact (Extends.write _ g).trans
      ⟨rfl, ⟨[], by simp [CPPCodeGenerator.pushFormatArg]⟩, ⟨[_], rfl⟩,
        ⟨[], by simp [CPPCodeGenerator.pushFormatArg]⟩,
        ⟨[], by simp [CPPCodeGenerator.pushFormatArg]⟩, rfl, rfl, rfl, le_rfl⟩
  · exact Extends.write _ _
  · exact Extends.write _ _
  · rw [Run.bind_eq_ok] at h
    obtain ⟨hd, _, h⟩ := h
    rw [Run.pure_eq_ok] at h; subst h
    exact (Extends.write _ _).trans (Extends.pushFormatArg _ _)
  · rw [Run.bind_eq_ok] at h
    obtain ⟨hd, _, h⟩ := h
    rw [Run.pure_eq_ok] at h; subst h
    exact (Extends.write _ _).trans (Extends.pushFormatArg _ _)
  · exact (Extends.write _ _).trans (Extends.pushFormatArg _ _)
  · exact writeRuntimeValue_extends _ _ _ _ _ h
  · exact Extends.write _ _

/-! ## Characters and substrings by index -/

theorem charAt_of_lt (s : Text) (i : Nat) (h : i < s.length) : charAt s i = s[i] := by
  simp [charAt, List.getD, List.getElem?_eq_getElem h]

theorem charAt_append_cons (pre : Text) (c : Char) (suf : Text) :
    charAt (pre ++ c :: suf) pre.length = c := by
  rw [charAt_of_lt _ _ (by simp)]
  exact List.getElem_of_append rfl rfl

theorem drop_eq_charAt_cons (s : Text) (i : Nat) (h : i < s.length) :
    s.drop i = charAt s i :: s.drop (i + 1) := by
  rw [charAt_of_lt s i h]
  exact List.drop_eq_getElem_cons h

theorem mem_substr (s : Text) (a n : Nat) (c : Char) (h : c ∈ substr s a n) :
    ∃ j, a ≤ j ∧ j < a + n ∧ j < s.length ∧ c = charAt s j := by
  unfold substr at h
  obtain ⟨k, hk, rfl⟩ := List.getElem_of_mem h
  simp only [List.length_take, List.length_drop] at hk
  refine ⟨a + k, by omega, by omega, by omega, ?_⟩
  rw [charAt_of_lt s (a + k) (by omega)]
  simp [List.getElem_take, List.getElem_drop]

theorem substr_succ (s : Text) (a n : Nat) (h : a + n < s.length) :
    substr s a (n + 1) = substr s a n ++ [charAt s (a + n)] := by
  unfold substr
  rw [List.take_succ]
  congr 1
  rw [charAt_of_lt s _ h]
  simp [List.getElem?_drop, List.getElem?_eq_getElem h]

theorem substr_cons (s : Text) (a n : Nat) (h : a < s.length) :
    substr s a (n + 1) = charAt s a :: substr s (a + 1) n := by
  unfold substr
  rw [drop_eq_charAt_cons s a h]
  rfl

theorem isToken_substr (expr : Text) (ts i : Nat) (h2 : ts + 2 ≤ i) (hi : i < expr.length)
    (hd : charAt expr ts = '$') (hb : charAt expr (ts + 1) = '{') (hc : charAt expr i = '}')
    (hin : ∀ j, ts + 2 ≤ j → j < i → charAt expr j ≠ '}') :
    IsToken (substr expr ts (i - ts + 1)) := by
  obtain ⟨m, rfl⟩ : ∃ m, i = ts + 2 + m := ⟨i - (ts + 2), by omega⟩
  refine ⟨substr expr (ts + 2) m, ?_, ?_⟩
  · have e1 : ts + 2 + m - ts + 1 = (m + 1) + 1 + 1 := by omega
    rw [e1, substr_cons expr ts _ (by omega), substr_cons expr (ts + 1) _ (by omega),
      substr_succ expr (ts + 2) m (by omega), hd, hb, hc]
  · intro hmem
    obtain ⟨j, hj1, hj2, _, hj4⟩ := mem_substr _ _ _ _ hmem
    exact hin j hj1 (by omega) hj4.symm

theorem write_write (a b : Text) (g : CPPCodeGenerator) :
    (g.write a).write b = g.write (a ++ b) := by
  simp [CPPCodeGenerator.write, List.append_assoc]

theorem write_nil (g : CPPCodeGenerator) : g.write [] = g := by
  simp [CPPCodeGenerator.write]

theorem stripTokensLoop_tokens (expr : Text) :
    ∀ (n i : Nat) (tokenStart : Int) (exprFormat : Text) (g : CPPCodeGenerator),
      TokenOpen expr i tokenStart →
      ∃ toks : List Text, (∀ t ∈ toks, IsToken t) ∧
        (stripTokensLoop n expr i tokenStart exprFormat g).2 = g.write toks.flatten := by
  intro n
  induction n with
  | zero =>
    intro i ts fmt g _
    exact ⟨[], by simp, by simp [stripTokensLoop, write_nil]⟩
  | succ n ih =>
    intro i ts fmt g hinv
    unfold stripTokensLoop
    by_cases hi : i < expr.length
    · simp only [hi, if_true]
      by_cases hts : ts ≥ 0
      · simp only [hts, if_true]
        rcases hinv with hneg | ⟨tsn, rfl, h2, hd, hb, hin⟩
        · omega
        by_cases hc : charAt expr i = '}'
        · simp only [hc, if_true]
          obtain ⟨toks, htoks, heq⟩ := ih (i + 1) (-1) fmt
            (g.write (substr expr (tsn : Int).toNat (i - (tsn : Int).toNat + 1)))
            (Or.inl (by omega))
          refine ⟨substr expr tsn (i - tsn + 1) :: toks, ?_, ?_⟩
          · intro t ht
            rcases List.mem_cons.1 ht with rfl | ht
            · exact isToken_substr expr tsn i h2 hi hd hb hc hin
            · exact htoks t ht
          · rw [heq, write_write]
            simp
        · simp only [hc, if_false]
          apply ih
          refine Or.inr ⟨tsn, rfl, by omega, hd, hb, ?_⟩
          intro j hj1 hj2
          by_cases hji : j = i
          · subst hji; exact hc
          · exact hin j hj1 (by omega)
      · simp only [hts, if_false]
        by_cases htok : i < expr.length - 1 ∧ charAt expr i = '$' ∧ charAt expr (i + 1) = '{'
        · simp only [htok, and_self, if_true]
          apply ih
          exact Or.inr ⟨i, rfl, le_rfl, htok.2.1, htok.2.2, fun j h1 h2 => by omega⟩
        · simp only [htok, if_false]
          apply ih
          exact Or.inl (by omega)
    · simp only [hi, if_false]
      exact ⟨[], by simp, by simp [write_nil]⟩

/-! ## Isolated rendering and deferred lines -/

theorem buildCppExpr_starts (cppVar exprFormat : Text) (newArgs : List Text) :
    ∃ rest, buildCppExpr cppVar exprFormat newArgs = "SkString ".toList ++ cppVar ++ rest := by
  unfold buildCppExpr
  split
  · exact ⟨_, by simp only [List.append_assoc]; rfl⟩
  · split
    · exact ⟨_, by simp only [List.append_assoc]; rfl⟩
    · exact ⟨_, by simp only [List.append_assoc]; rfl⟩

theorem Inside.same (n : Nat) (g : CPPCodeGenerator) : Inside n g g :=
  ⟨⟨[], by simp, by simp⟩, rfl, rfl, ⟨[], by simp⟩, le_rfl, ⟨[], by simp⟩, rfl, rfl, rfl,
    le_rfl⟩

theorem Inside.andThen {n : Nat} {g₁ g₂ g₃ : CPPCodeGenerator} (h₁ : Inside n g₁ g₂)
    (h₂ : Inside n g₂ g₃) : Inside n g₁ g₃ := by
  obtain ⟨⟨t1, ht1, ho1⟩, a1, k1, ⟨x1, hx1⟩, s1, ⟨e1, he1⟩, c1, m1, i1, n1⟩ := h₁
  obtain ⟨⟨t2, ht2, ho2⟩, a2, k2, ⟨x2, hx2⟩, s2, ⟨e2, he2⟩, c2, m2, i2, n2⟩ := h₂
  refine ⟨⟨t1 ++ t2, ?_, ?_⟩, a2.trans a1, k2.trans k1, ⟨x1 ++ x2, ?_⟩, s1.trans s2,
    ⟨e1 ++ e2, ?_⟩, c2.trans c1, m2.trans m1, i2.trans i1, n1.trans n2⟩
  · intro t ht
    rcases List.mem_append.1 ht with h | h
    · exact ht1 t h
    · exact ht2 t h
  · rw [ho2, ho1]; simp
  · rw [hx2, hx1, List.append_assoc]
  · rw [he2, he1, List.append_assoc]

theorem Inside.extends_base {g₀ g g' : CPPCodeGenerator} (h₀ : Extends g₀ g)
    (h : Inside g₀.fExtraEmitCodeBlocks.length g g') : Extends g₀ g' := by
  obtain ⟨⟨t, _, ho⟩, a, k, _, _, ⟨e, he⟩, c, m, i, st⟩ := h
  obtain ⟨s0, ⟨t0, ht0⟩, ⟨a0, ha0⟩, ⟨b0, hb0⟩, ⟨e0, he0⟩, c0, m0, i0, st0⟩ := h₀
  refine ⟨by rw [ho, s0], ⟨t0 ++ t.flatten, by rw [ho, ht0]; simp⟩, ⟨a0, by rw [a, ha0]⟩, ?_,
    ⟨e0 ++ e, by rw [he, he0]; simp⟩, c.trans c0, m.trans m0, i.trans i0, st0.trans st⟩
  refine ⟨g'.fExtraEmitCodeBlocks.drop g₀.fExtraEmitCodeBlocks.length, ?_⟩
  conv_lhs =>
    rw [← List.take_append_drop g₀.fExtraEmitCodeBlocks.length g'.fExtraEmitCodeBlocks]
  rw [k, hb0, List.take_left']
  rfl

theorem convertWith_inside (n : Nat) (w : Writer)
    (hw : ∀ p g g', w p g = Except.ok g' → Extends g g') (cppVar : Text)
    (g : CPPCodeGenerator) (r : Text × CPPCodeGenerator)
    (hn : n ≤ g.fExtraEmitCodeBlocks.length)
    (h : convertSKSLExpressionToCPPWith w cppVar g = Except.ok r) :
    Inside n g r.2 ∧ (∃ rest, r.1 = "SkString ".toList ++ cppVar ++ rest) ∧
      ∃ b, r.2.fExtraEmitCodeBlocks = g.fExtraEmitCodeBlocks ++ b := by
  unfold convertSKSLExpressionToCPPWith at h
  rw [Run.bind_eq_ok] at h
  obtain ⟨g2, hg2, h⟩ := h
  rw [Run.pure_eq_ok] at h
  subst h
  obtain ⟨s2, _, _, ⟨b2, hb2⟩, ⟨e2, he2⟩, c2, m2, i2, st2⟩ := hw _ _ _ hg2
  obtain ⟨toks, htoks, hstrip⟩ := stripTokensLoop_tokens g2.fOut.fText g2.fOut.fText.length 0
    (-1) [] { g2 with fFormatArgs := g.fFormatArgs, fOut := g.fOut } (Or.inl (by omega))
  simp only at hb2 he2 c2 m2 i2 st2
  refine ⟨⟨⟨toks, htoks, ?_⟩, ?_, ?_, ⟨b2.flatten, ?_⟩, ?_, ⟨e2, ?_⟩, ?_, ?_, ?_, ?_⟩,
    buildCppExpr_starts _ _ _, ⟨b2, ?_⟩⟩
  all_goals simp only [hstrip, CPPCodeGenerator.write]
  · rw [hb2, List.take_append_of_le_length hn]
  · rw [hb2, List.drop_append_of_le_length hn]; simp
  · rw [hb2]; simp
  · exact he2
  · exact c2
  · exact m2
  · exact i2
  · omega
  · exact hb2

theorem addExtraEmitCodeLine_inside (n : Nat) (l : Text) (g : CPPCodeGenerator)
    (hn : n < g.fExtraEmitCodeBlocks.length) :
    ∃ g', addExtraEmitCodeLine l g = Except.ok g' ∧ Inside n g g' ∧
      g'.fOut = g.fOut ∧
      g'.fExtraEmitCodeBlocks.length = g.fExtraEmitCodeBlocks.length ∧
      (g'.fExtraEmitCodeBlocks.drop n).flatten
        = (g.fExtraEmitCodeBlocks.drop n).flatten ++ ("        ".toList ++ l ++ "\n".toList) ∧
      ∃ pre, g'.fExtraEmitCodeBlocks.getLast?
        = some (pre ++ ("        ".toList ++ l ++ "\n".toList)) := by
  obtain ⟨init, last, hblocks⟩ : ∃ init last, g.fExtraEmitCodeBlocks = init ++ [last] := by
    rcases List.eq_nil_or_concat g.fExtraEmitCodeBlocks with h | ⟨init, last, h⟩
    · rw [h] at hn; simp at hn
    · exact ⟨init, last, by simpa using h⟩
  have hlen : n ≤ init.length := by
    rw [hblocks] at hn; simp at hn; omega
  have hres : addExtraEmitCodeLine l g = Except.ok
      { g with fExtraEmitCodeBlocks :=
                 init ++ [last ++ ("        ".toList ++ l ++ "\n".toList)] } := by
    unfold addExtraEmitCodeLine
    rw [hblocks]
    simp [pure, Except.pure]
  refine ⟨_, hres, ⟨⟨[], by simp, by simp⟩, rfl, ?_,
    ⟨"        ".toList ++ l ++ "\n".toList, ?_⟩, ?_, ⟨[], by simp⟩, rfl, rfl, rfl,
    le_rfl⟩, rfl, ?_, ?_, ⟨last, by simp⟩⟩
  · simp only [hblocks, List.take_append_of_le_length hlen]
  · simp only [hblocks, List.drop_append_of_le_length hlen, List.flatten_append]
    simp
  · simp [hblocks]
  · simp [hblocks]
  · simp only [hblocks, List.drop_append_of_le_length hlen, List.flatten_append]
    simp

theorem addConvertedLine_inside (n : Nat) (w : Writer)
    (hw : ∀ p g g', w p g = Except.ok g' → Extends g g') (cppVar : Text)
    (g g' : CPPCodeGenerator) (hn : n < g.fExtraEmitCodeBlocks.length)
    (h : addConvertedLine w cppVar g = Except.ok g') :
    Inside n g g' ∧
      ∃ x rest pre, (g'.fExtraEmitCodeBlocks.drop n).flatten
          = (g.fExtraEmitCodeBlocks.drop n).flatten ++ x
              ++ ("        ".toList ++ ("SkString ".toList ++ cppVar ++ rest) ++ "\n".toList) ∧
        g'.fExtraEmitCodeBlocks.getLast?
          = some (pre ++ ("        ".toList ++ ("SkString ".toList ++ cppVar ++ rest)
              ++ "\n".toList)) := by
  unfold addConvertedLine at h
  rw [Run.bind_eq_ok] at h
  obtain ⟨r, hr, h⟩ := h
  obtain ⟨hin, ⟨rest, hrest⟩, ⟨b, hb⟩⟩ := convertWith_inside n w hw cppVar g r (by omega) hr
  have hn2 : n < r.2.fExtraEmitCodeBlocks.length := lt_of_lt_of_le hn hin.size
  obtain ⟨g2, hg2, hin2, _, _, hflat, ⟨pre, hlast⟩⟩ := addExtraEmitCodeLine_inside n r.1 r.2 hn2
  rw [hg2] at h
  cases h
  refine ⟨hin.andThen hin2, b.flatten, rest, pre, ?_, ?_⟩
  · rw [hflat, hb, List.drop_append_of_le_length (le_of_lt hn), hrest]
    simp
  · rw [hlast, hrest]

/-! ## The `sample` branch -/

theorem sampleInputColor_spec (n : Nat) (fOffset : Int)
    (fArguments : List (Expression × Writer))
    (hw : ∀ x ∈ fArguments, ∀ p g g', x.2 p g = Except.ok g' → Extends g g')
    (g : CPPCodeGenerator) (r : Text × CPPCodeGenerator)
    (hn : n < g.fExtraEmitCodeBlocks.length)
    (h : sampleInputColor fOffset fArguments g = Except.ok r) :
    Inside n g r.2 ∧ r.1 = sampleColorArgument fOffset (fArguments.map Prod.fst) ∧
      ∃ A line, (r.2.fExtraEmitCodeBlocks.drop n).flatten
          = (g.fExtraEmitCodeBlocks.drop n).flatten ++ A ++ line ∧
        (sampleColorArgument fOffset (fArguments.map Prod.fst) ≠ [] →
          ∃ rest, line = emitCodeLine
            ("SkString ".toList ++ ("_input".toList ++ to_string_int fOffset) ++ rest)) ∧
        (sampleColorArgument fOffset (fArguments.map Prod.fst) = [] → line = []) := by
  unfold sampleInputColor at h
  unfold sampleColorArgument
  rw [List.getElem?_map]
  cases ha : fArguments[1]? with
  | none =>
    rw [ha] at h
    simp only [Run.pure_eq_ok] at h
    subst h
    exact ⟨Inside.same _ _, rfl, [], [], by simp, by simp, by simp⟩
  | some a1 =>
    rw [ha] at h
    simp only [Option.map_some'] at h ⊢
    by_cases ht : a1.1.type.name = "half4".toList
    · simp only [ht, if_true] at h ⊢
      rw [Run.bind_eq_ok] at h
      obtain ⟨g1, hg1, h⟩ := h
      rw [Run.pure_eq_ok] at h
      subst h
      have hmem : a1 ∈ fArguments := List.getElem?_mem ha
      obtain ⟨hin, x, rest, pre, hflat, _⟩ :=
        addConvertedLine_inside n a1.2 (hw a1 hmem) _ g g1 hn hg1
      refine ⟨hin, rfl, x, _, hflat, fun _ => ⟨rest, rfl⟩, fun hc => ?_⟩
      simp at hc
    · simp only [ht, if_false] at h ⊢
      simp only [Run.pure_eq_ok] at h
      subst h
      exact ⟨Inside.same _ _, rfl, [], [], by simp, by simp, by simp⟩

theorem sampleInputCoord_spec (n : Nat) (env : Environment) (fOffset : Int)
    (fArguments : List (Expression × Writer)) (child : Variable)
    (hw : ∀ x ∈ fArguments, ∀ p g g', x.2 p g = Except.ok g' → Extends g g')
    (g : CPPCodeGenerator) (r : (Text × Text) × CPPCodeGenerator)
    (hn : n < g.fExtraEmitCodeBlocks.length)
    (h : sampleInputCoord env fOffset fArguments child g = Except.ok r) :
    Inside n g r.2 ∧
      r.1.1 = (if sampleCoordName env fOffset child (fArguments.map Prod.fst) ≠ [] then
                sampleCoordName env fOffset child (fArguments.map Prod.fst)
                  ++ ".c_str()".toList
               else []) ∧
      r.1.2 = sampleInvokeName (fArguments.map Prod.fst) ∧
      ∃ A line, (r.2.fExtraEmitCodeBlocks.drop n).flatten
          = (g.fExtraEmitCodeBlocks.drop n).flatten ++ A ++ line ∧
        (sampleCoordName env fOffset child (fArguments.map Prod.fst) ≠ [] →
          ∃ rest, line = emitCodeLine
            ("SkString ".toList ++ sampleCoordName env fOffset child (fArguments.map Prod.fst)
              ++ rest)) ∧
        (sampleCoordName env fOffset child (fArguments.map Prod.fst) = [] → line = []) := by
  unfold sampleInputCoord at h
  unfold sampleCoordName sampleInvokeName
  rw [List.getLast?_map]
  cases ha : fArguments.getLast? with
  | none =>
    rw [ha] at h
    cases h
  | some aLast =>
    rw [ha] at h
    have hmem : aLast ∈ fArguments := List.mem_of_getLast?_eq_some ha
    simp only [Option.map_some'] at h ⊢
    by_cases h2 : aLast.1.type.name = "float2".toList
    · have h3 : ¬ aLast.1.type.name = "float3x3".toList := by
        rw [h2]; decide
      simp only [h2, h3, if_true, if_false] at h ⊢
      rw [Run.bind_eq_ok] at h
      obtain ⟨g1, hg1, h⟩ := h
      rw [Run.pure_eq_ok] at h
      subst h
      obtain ⟨hin, x, rest, pre, hflat, _⟩ :=
        addConvertedLine_inside n aLast.2 (hw aLast hmem) _ g g1 hn hg1
      refine ⟨hin, ?_, rfl, x, _, hflat, fun _ => ⟨rest, rfl⟩, fun hc => ?_⟩
      · simp
      · simp at hc
    · simp only [h2, if_false] at h ⊢
      by_cases h3 : aLast.1.type.name = "float3x3".toList
      · simp only [h3, if_true, true_and] at h ⊢
        cases hu : env.hasUniformMatrix child with
        | true =>
          simp only [hu, not_true_eq_false, if_false] at h ⊢
          simp only [Run.pure_eq_ok] at h
          subst h
          exact ⟨Inside.same _ _, by simp, rfl, [], [], by simp, by simp, by simp⟩
        | false =>
          simp only [hu, Bool.false_eq_true, not_false_eq_true, if_true] at h ⊢
          rw [Run.bind_eq_ok] at h
          obtain ⟨g1, hg1, h⟩ := h
          rw [Run.pure_eq_ok] at h
          subst h
          obtain ⟨hin, x, rest, pre, hflat, _⟩ :=
            addConvertedLine_inside n aLast.2 (hw aLast hmem) _ g g1 hn hg1
          refine ⟨hin, ?_, rfl, x, _, hflat, fun _ => ⟨rest, rfl⟩, fun hc => ?_⟩
          · simp
          · simp at hc
      · simp only [h3, if_false, false_and] at h ⊢
        simp only [Run.pure_eq_ok] at h
        subst h
        exact ⟨Inside.same _ _, by simp, rfl, [], [], by simp, by simp, by simp⟩

theorem newExtraEmitCodeBlock_blocks (g : CPPCodeGenerator) :
    (newExtraEmitCodeBlock g).fExtraEmitCodeBlocks = g.fExtraEmitCodeBlocks ++ [[]] := rfl

theorem newExtraEmitCodeBlock_out (g : CPPCodeGenerator) :
    (newExtraEmitCodeBlock g).fOut
      = { fId := g.fOut.fId,
          fText := g.fOut.fText ++ blockToken g.fExtraEmitCodeBlocks.length } := by
  simp [newExtraEmitCodeBlock, CPPCodeGenerator.write, blockToken]

/-- Everything the `sample` branch does to the generator. -/
theorem writeSampleChild_spec (env : Environment) (fOffset : Int)
    (fArguments : List (Expression × Writer)) (child : Variable)
    (hw : ∀ x ∈ fArguments, ∀ p g g', x.2 p g = Except.ok g' → Extends g g')
    (g g' : CPPCodeGenerator)
    (h : writeSampleChild env fOffset fArguments child g = Except.ok g') :
    Extends g g' ∧
    (∃ toks : List Text, (∀ t ∈ toks, IsToken t) ∧
      g'.fOut = { fId := g.fOut.fId,
                  fText := g.fOut.fText ++ blockToken g.fExtraEmitCodeBlocks.length
                    ++ toks.flatten ++ "%s".toList }) ∧
    g'.fFormatArgs
      = g.fFormatArgs ++ ["_sample".toList ++ to_string_int fOffset ++ ".c_str()".toList] ∧
    g.fExtraEmitCodeBlocks.length < g'.fExtraEmitCodeBlocks.length ∧
    (∃ A inputLine B coordLine pre,
      (g'.fExtraEmitCodeBlocks.drop g.fExtraEmitCodeBlocks.length).flatten
        = A ++ inputLine ++ B ++ coordLine
            ++ emitCodeLine (sampleInvocationLine env fOffset child (fArguments.map Prod.fst)) ∧
      g'.fExtraEmitCodeBlocks.getLast?
        = some (pre
            ++ emitCodeLine (sampleInvocationLine env fOffset child (fArguments.map Prod.fst))) ∧
      (sampleColorArgument fOffset (fArguments.map Prod.fst) ≠ [] →
        ∃ rest, inputLine = emitCodeLine
          ("SkString ".toList ++ ("_input".toList ++ to_string_int fOffset) ++ rest)) ∧
      (sampleColorArgument fOffset (fArguments.map Prod.fst) = [] → inputLine = []) ∧
      (sampleCoordName env fOffset child (fArguments.map Prod.fst) ≠ [] →
        ∃ rest, coordLine = emitCodeLine
          ("SkString ".toList ++ sampleCoordName env fOffset child (fArguments.map Prod.fst)
            ++ rest)) ∧
      (sampleCoordName env fOffset child (fArguments.map Prod.fst) = [] → coordLine = [])) := by
  unfold writeSampleChild at h
  simp only [Run.bind_eq_ok] at h
  obtain ⟨color, hcolor, coord, hcoord, g2, hg2, h⟩ := h
  rw [Run.pure_eq_ok] at h
  have hn1 : g.fExtraEmitCodeBlocks.length < (newExtraEmitCodeBlock g).fExtraEmitCodeBlocks.length := by
    rw [newExtraEmitCodeBlock_blocks]; simp
  obtain ⟨hin1, hc1, A, inputLine, hflat1, hcol1, hcol2⟩ :=
    sampleInputColor_spec g.fExtraEmitCodeBlocks.length fOffset fArguments hw _ color hn1 hcolor
  have hn2 : g.fExtraEmitCodeBlocks.length < color.2.fExtraEmitCodeBlocks.length :=
    lt_of_lt_of_le hn1 hin1.size
  obtain ⟨hin2, hk1, hk2, B, coordLine, hflat2, hco1, hco2⟩ :=
    sampleInputCoord_spec g.fExtraEmitCodeBlocks.length env fOffset fArguments child hw _ coord
      hn2 hcoord
  have hn3 : g.fExtraEmitCodeBlocks.length < coord.2.fExtraEmitCodeBlocks.length :=
    lt_of_lt_of_le hn2 hin2.size
  obtain ⟨g2', hg2', hin3, hout3, hlen3, hflat3, ⟨pre, hlast3⟩⟩ :=
    addExtraEmitCodeLine_inside g.fExtraEmitCodeBlocks.length
      ("SkString ".toList ++ ("_sample".toList ++ to_string_int fOffset) ++ " = this->".toList
        ++ coord.1.2 ++ "(".toList ++ to_string (getChildFPIndex env child) ++ color.1
        ++ ", args".toList
        ++ (if coord.1.1 ≠ [] then ", ".toList ++ coord.1.1 else coord.1.1) ++ ");".toList)
      coord.2 hn3
  rw [hg2'] at hg2
  cases hg2
  have hline : ("SkString ".toList ++ ("_sample".toList ++ to_string_int fOffset)
        ++ " = this->".toList ++ coord.1.2 ++ "(".toList
        ++ to_string (getChildFPIndex env child) ++ color.1 ++ ", args".toList
        ++ (if coord.1.1 ≠ [] then ", ".toList ++ coord.1.1 else coord.1.1) ++ ");".toList)
      = sampleInvocationLine env fOffset child (fArguments.map Prod.fst) := by
    unfold sampleInvocationLine
    rw [hc1, hk1, hk2]
    by_cases hname : sampleCoordName env fOffset child (fArguments.map Prod.fst) = []
    · simp [hname]
    · simp [hname]
  rw [hline] at hflat3 hlast3
  have hall : Inside g.fExtraEmitCodeBlocks.length (newExtraEmitCodeBlock g) g2 :=
    (hin1.andThen hin2).andThen hin3
  have hext : Extends g g2 :=
    Inside.extends_base (Extends.newExtraEmitCodeBlock g) hall
  subst h
  refine ⟨hext.trans ((Extends.write _ _).trans (Extends.pushFormatArg _ _)), ?_, ?_, ?_, ?_⟩
  · obtain ⟨toks, htoks, hout⟩ := hall.out
    refine ⟨toks, htoks, ?_⟩
    simp only [CPPCodeGenerator.pushFormatArg, CPPCodeGenerator.write, hout,
      newExtraEmitCodeBlock_out]
  · simp only [CPPCodeGenerator.pushFormatArg, CPPCodeGenerator.write, hall.args]
    simp [newExtraEmitCodeBlock, CPPCodeGenerator.write]
  · simp only [CPPCodeGenerator.pushFormatArg, CPPCodeGenerator.write]
    exact lt_of_lt_of_le hn3 (le_of_eq hlen3.symm)
  · refine ⟨A, inputLine, B, coordLine, pre, ?_, ?_, hcol1, hcol2, hco1, hco2⟩
    · simp only [CPPCodeGenerator.pushFormatArg, CPPCodeGenerator.write]
      rw [hflat3, hflat2, hflat1, newExtraEmitCodeBlock_blocks]
      simp [emitCodeLine]
    · simp only [CPPCodeGenerator.pushFormatArg, CPPCodeGenerator.write]
      rw [hlast3]
      rfl

theorem writeArgumentList_extends :
    ∀ (fArguments : List (Expression × Writer)),
      (∀ x ∈ fArguments, ∀ p g g', x.2 p g = Except.ok g' → Extends g g') →
      ∀ (separator : Text) (g g' : CPPCodeGenerator),
        writeArgumentList fArguments separator g = Except.ok g' → Extends g g'
  | [], _, _, g, g', h => by
    unfold writeArgumentList at h
    rw [Run.pure_eq_ok] at h
    subst h
    exact Extends.refl g
  | x :: rest, hw, separator, g, g', h => by
    unfold writeArgumentList at h
    rw [Run.bind_eq_ok] at h
    obtain ⟨g1, hg1, h⟩ := h
    have h1 := hw x (List.mem_cons_self _ _) _ _ _ hg1
    have h2 := writeArgumentList_extends rest
      (fun y hy => hw y (List.mem_cons_of_mem _ hy)) _ _ _ h
    exact ((Extends.write _ _).trans h1).trans h2

theorem writeFunctionCallWith_extends (env : Environment) (fOffset : Int)
    (fFunction : FunctionDeclaration) (fArguments : List (Expression × Writer))
    (hw : ∀ x ∈ fArguments, ∀ p g g', x.2 p g = Except.ok g' → Extends g g')
    (g g' : CPPCodeGenerator)
    (h : writeFunctionCallWith env fOffset fFunction fArguments g = Except.ok g') :
    Extends g g' := by
  unfold writeFunctionCallWith at h
  split at h
  · split at h
    · cases h
    · split at h
      · split at h
        · rw [Run.pure_eq_ok] at h
          subst h
          exact Extends.error _ _ _
        · exact (writeSampleChild_spec env fOffset fArguments _ hw g g' h).1
      · simp only [Run.bind_eq_ok] at h
        obtain ⟨g2, hg2, h⟩ := h
        have h2 := writeArgumentList_extends fArguments hw _ _ _ hg2
        split at h
        · cases h
        · simp only [Run.bind_eq_ok] at h
          obtain ⟨sampler, _, h⟩ := h
          rw [Run.pure_eq_ok] at h
          subst h
          exact (((Extends.write _ _).trans h2).trans
            ((Extends.write _ _).trans (Extends.write _ _))).trans (Extends.pushFormatArg _ _)
  · split at h
    · simp only [Run.bind_eq_ok] at h
      obtain ⟨g2, hg2, h⟩ := h
      rw [Run.pure_eq_ok] at h
      subst h
      have h2 := writeArgumentList_extends fArguments hw _ _ _ hg2
      exact ((Extends.write _ _).trans h2).trans (Extends.write _ _)
    · simp only [Run.bind_eq_ok] at h
      obtain ⟨g2, hg2, h⟩ := h
      rw [Run.pure_eq_ok] at h
      subst h
      have h2 := writeArgumentList_extends fArguments hw _ _ _ hg2
      exact ((((Extends.write _ _).trans (Extends.pushFormatArg _ _)).trans
        (Extends.write _ _)).trans h2).trans (Extends.write _ _)

/-! ## The frame of expression rendering -/

theorem writeArguments_writer (env : Environment) :
    ∀ (args : Arguments), ∀ x ∈ writeArguments env args, x.2 = writeExpression env x.1
  | .nil => by simp [writeArguments]
  | .cons head tail => by
    intro x hx
    simp only [writeArguments, List.mem_cons] at hx
    rcases hx with rfl | hx
    · rfl
    · exact writeArguments_writer env tail x hx

theorem writeArguments_fst (env : Environment) :
    ∀ (args : Arguments), (writeArguments env args).map Prod.fst = args.toList
  | .nil => by simp [writeArguments, Arguments.toList]
  | .cons head tail => by
    simp [writeArguments, Arguments.toList, writeArguments_fst env tail]

theorem writeNullComparison_extends (env : Environment) (fLeft : Expression)
    (fOperator : TokenKind) (fRight : Expression) (g g' : CPPCodeGenerator)
    (h : writeNullComparison env fLeft fOperator fRight g = Except.ok g') : Extends g g' := by
  unfold writeNullComparison at h
  split at h
  · cases h
  · rw [Run.pure_eq_ok] at h
    subst h
    exact (Extends.write _ _).trans (Extends.pushFormatArg _ _)

theorem writeSamplerIndex_extends (fIndex : Expression) (g : CPPCodeGenerator) :
    Extends g (writeSamplerIndex fIndex g) := by
  unfold writeSamplerIndex
  split
  · exact (Extends.write _ _).trans (Extends.error _ _ _)
  · exact (Extends.write _ _).trans (Extends.pushFormatArg _ _)

theorem writeSwizzleAccessor_extends (fComponents : List Nat) (g g' : CPPCodeGenerator)
    (h : writeSwizzleAccessor fComponents g = Except.ok g') : Extends g g' := by
  unfold writeSwizzleAccessor at h
  split at h
  · cases h
  all_goals
    rw [Run.pure_eq_ok] at h
    subst h
    first
      | exact Extends.write _ _
      | exact Extends.refl _

theorem writeChildFieldAccess_extends (env : Environment) (fBase : Expression)
    (fFieldIndex : Nat) (g g' : CPPCodeGenerator)
    (h : writeChildFieldAccess env fBase fFieldIndex g = Except.ok g') : Extends g g' := by
  unfold writeChildFieldAccess at h
  split at h
  · rw [Run.pure_eq_ok] at h
    subst h
    exact Extends.error _ _ _
  · split at h
    · cases h
    · split at h
      · rw [Run.pure_eq_ok] at h
        subst h
        exact Extends.write _ _
      · exact writeRuntimeValue_extends _ _ _ _ _ h

theorem Extends.writeIf (c : Prop) [Decidable c] (s : Text) (g : CPPCodeGenerator) :
    Extends g (if c then g.write s else g) := by
  split
  · exact Extends.write _ _
  · exact Extends.refl _

mutual
/-- Rendering an expression only adds: text to the active sink, arguments to the queue,
blocks to the table, errors to the reporter. -/
theorem writeExpression_extends (env : Environment) :
    ∀ (e : Expression) (p : Precedence) (g g' : CPPCodeGenerator),
      writeExpression env e p g = Except.ok g' → Extends g g'
  | .binary _ _ fLeft fOperator fRight, p, g, g', h => by
    unfold writeExpression at h
    split at h
    · simp only [Run.bind_eq_ok] at h
      obtain ⟨g2, hg2, g4, hg4, h⟩ := h
      rw [Run.pure_eq_ok] at h
      subst h
      have h2 := writeExpression_extends env fLeft _ _ _ hg2
      have h4 := writeExpression_extends env fRight _ _ _ hg4
      exact ((((Extends.writeIf _ _ _).trans h2).trans (Extends.write _ _)).trans h4).trans
        (Extends.writeIf _ _ _)
    · split at h
      · exact writeNullComparison_extends _ _ _ _ _ _ h
      · simp only [Run.bind_eq_ok] at h
        obtain ⟨g2, hg2, g4, hg4, h⟩ := h
        rw [Run.pure_eq_ok] at h
        subst h
        have h2 := writeExpression_extends env fLeft _ _ _ hg2
        have h4 := writeExpression_extends env fRight _ _ _ hg4
        exact ((((Extends.writeIf _ _ _).trans h2).trans (Extends.write _ _)).trans h4).trans
          (Extends.writeIf _ _ _)
  | .nullLiteral _ _, _, _, _, h => by
    unfold writeExpression at h
    cases h
  | .intLiteral _ _ _, _, g, g', h => by
    unfold writeExpression at h
    rw [Run.pure_eq_ok] at h
    subst h
    exact Extends.write _ _
  | .variableReference _ v, _, g, g', h => by
    unfold writeExpression at h
    exact writeVariableReference_extends env v g g' h
  | .index _ _ fBase fIndex, _, g, g', h => by
    unfold writeExpression at h
    split at h
    · rw [Run.pure_eq_ok] at h
      subst h
      exact writeSamplerIndex_extends _ _
    · simp only [Run.bind_eq_ok] at h
      obtain ⟨g1, hg1, g2, hg2, h⟩ := h
      rw [Run.pure_eq_ok] at h
      subst h
      have h1 := writeExpression_extends env fBase _ _ _ hg1
      have h2 := writeExpression_extends env fIndex _ _ _ hg2
      exact ((h1.trans (Extends.write _ _)).trans h2).trans (Extends.write _ _)
  | .swizzle _ _ fBase fComponents, _, g, g', h => by
    unfold writeExpression at h
    split at h
    · simp only [Run.bind_eq_ok] at h
      obtain ⟨g1, hg1, h⟩ := h
      have h1 := writeExpression_extends env fBase _ _ _ hg1
      exact h1.trans (writeSwizzleAccessor_extends _ _ _ h)
    · simp only [Run.bind_eq_ok] at h
      obtain ⟨g1, hg1, h⟩ := h
      rw [Run.pure_eq_ok] at h
      subst h
      have h1 := writeExpression_extends env fBase _ _ _ hg1
      exact (h1.trans (Extends.write _ _)).trans (Extends.write _ _)
  | .fieldAccess _ _ fBase fFieldIndex fFieldName, _, g, g', h => by
    unfold writeExpression at h
    split at h
    · exact writeChildFieldAccess_extends _ _ _ _ _ h
    · simp only [Run.bind_eq_ok] at h
      obtain ⟨g1, hg1, h⟩ := h
      rw [Run.pure_eq_ok] at h
      subst h
      have h1 := writeExpression_extends env fBase _ _ _ hg1
      exact (h1.trans (Extends.write _ _)).trans (Extends.write _ _)
  | .functionCall fOffset _ fFunction fArguments, _, g, g', h => by
    unfold writeExpression at h
    exact writeFunctionCallWith_extends env fOffset fFunction _
      (writeArguments_extends env fArguments) g g' h
  | .setting _ _ _, _, g, g', h => by
    unfold writeExpression at h
    rw [Run.pure_eq_ok] at h
    subst h
    exact Extends.write _ _
  | .inherited _ _ fPieces, _, g, g', h => by
    unfold writeExpression at h
    exact writePieces_extends env fPieces g g' h
/-- The writers of the arguments of a call only add. -/
theorem writeArguments_extends (env : Environment) :
    ∀ (args : Arguments), ∀ x ∈ writeArguments env args,
      ∀ (p : Precedence) (g g' : CPPCodeGenerator), x.2 p g = Except.ok g' → Extends g g'
  | .nil => by simp [writeArguments]
  | .cons head tail => by
    intro x hx
    simp only [writeArguments, List.mem_cons] at hx
    rcases hx with rfl | hx
    · exact writeExpression_extends env head
    · exact writeArguments_extends env tail x hx
/-- The base class rendering text and operands only adds. -/
theorem writePieces_extends (env : Environment) :
    ∀ (ps : Pieces) (g g' : CPPCodeGenerator),
      writePieces env ps g = Except.ok g' → Extends g g'
  | .nil, g, g', h => by
    unfold writePieces at h
    rw [Run.pure_eq_ok] at h
    subst h
    exact Extends.refl _
  | .text t rest, g, g', h => by
    unfold writePieces at h
    exact (Extends.write _ _).trans (writePieces_extends env rest _ _ h)
  | .operand e p rest, g, g', h => by
    unfold writePieces at h
    rw [Run.bind_eq_ok] at h
    obtain ⟨g1, hg1, h⟩ := h
    exact (writeExpression_extends env e _ _ _ hg1).trans (writePieces_extends env rest _ _ h)
end

/-! ## Decimal numbers -/

theorem digitChar_toNat (d : Nat) (h : d < 10) : (Nat.digitChar d).toNat = 48 + d := by
  interval_cases d <;> rfl

theorem stoiDigits_digitChar (d : Nat) (h : d < 10) (rest : Text) (acc : Nat) :
    stoiDigits (Nat.digitChar d :: rest) acc = stoiDigits rest (acc * 10 + d) := by
  conv_lhs => rw [stoiDigits]
  have h1 := digitChar_toNat d h
  have h0 : '0'.toNat = 48 := rfl
  have h9 : '9'.toNat = 57 := rfl
  rw [h1, h0, h9]
  have : 48 ≤ 48 + d ∧ 48 + d ≤ 57 := ⟨by omega, by omega⟩
  simp only [this, and_self, if_true]
  congr 1
  omega

theorem stoiDigits_toDigitsCore :
    ∀ (fuel n : Nat), n < fuel → ∃ m, ∀ (ds : Text) (acc : Nat),
      stoiDigits (Nat.toDigitsCore 10 fuel n ds) acc = stoiDigits ds (acc * m + n) := by
  intro fuel
  induction fuel with
  | zero => intro n h; omega
  | succ fuel ih =>
    intro n hn
    by_cases hq : n / 10 = 0
    · refine ⟨10, fun ds acc => ?_⟩
      simp only [Nat.toDigitsCore, hq, if_true]
      rw [stoiDigits_digitChar _ (Nat.mod_lt _ (by decide))]
      congr 1
      have : n % 10 = n := Nat.mod_eq_of_lt (by omega)
      omega
    · obtain ⟨m, hm⟩ := ih (n / 10) (by omega)
      refine ⟨m * 10, fun ds acc => ?_⟩
      simp only [Nat.toDigitsCore, hq, if_false]
      rw [hm, stoiDigits_digitChar _ (Nat.mod_lt _ (by decide))]
      congr 1
      have := Nat.div_add_mod n 10
      nlinarith

/-- Reading back a printed block index gives the index. -/
theorem stoi_to_string (k : Nat) : stoi (to_string k) = k := by
  unfold stoi to_string Nat.toDigits
  obtain ⟨m, hm⟩ := stoiDigits_toDigitsCore (k + 1) k (by omega)
  rw [hm]
  simp [stoiDigits]

theorem toDigitsCore_digits (P : Char → Prop) (hP : ∀ d, d < 10 → P (Nat.digitChar d)) :
    ∀ (fuel n : Nat) (ds : Text), (∀ c ∈ ds, P c) →
      ∀ c ∈ Nat.toDigitsCore 10 fuel n ds, P c := by
  intro fuel
  induction fuel with
  | zero => intro n ds h; simpa [Nat.toDigitsCore] using h
  | succ fuel ih =>
    intro n ds h
    have hd : ∀ c ∈ Nat.digitChar (n % 10) :: ds, P c := by
      intro c hc
      rcases List.mem_cons.1 hc with rfl | hc
      · exact hP _ (Nat.mod_lt _ (by decide))
      · exact h c hc
    simp only [Nat.toDigitsCore]
    split
    · exact hd
    · exact ih _ _ hd

theorem to_string_ne_brace (k : Nat) :
    ∀ c ∈ to_string k, c ≠ '}' ∧ c ≠ '{' ∧ c ≠ '$' := by
  unfold to_string Nat.toDigits
  apply toDigitsCore_digits
  · intro d hd
    interval_cases d <;> decide
  · simp

theorem isToken_blockToken (k : Nat) : IsToken (blockToken k) :=
  ⟨to_string k, by simp [blockToken], fun h => (to_string_ne_brace k _ h).1 rfl⟩

/-! ## Characters of a concatenation -/

theorem charAt_append_left (a b : Text) (j : Nat) (h : j < a.length) :
    charAt (a ++ b) j = charAt a j := by
  simp [charAt, List.getD, List.getElem?_append_left h]

theorem charAt_append_right (a b : Text) (j : Nat) :
    charAt (a ++ b) (a.length + j) = charAt b j := by
  simp [charAt, List.getD, List.getElem?_append_right]

theorem charAt_mem (a : Text) (j : Nat) (h : j < a.length) : charAt a j ∈ a := by
  rw [charAt_of_lt a j h]
  exact List.getElem_mem _

theorem charAt_length_ne (a : Text) (j : Nat) (h : a.length ≤ j) (c : Char)
    (hc : c ≠ Char.ofNat 0) : charAt a j ≠ c := by
  unfold charAt
  rw [List.getD_eq_getElem?_getD, List.getElem?_eq_none h]
  exact fun e => hc e.symm

theorem substr_append_mid (a b c : Text) : substr (a ++ (b ++ c)) a.length b.length = b := by
  simp [substr]

/-! ## The token-stripping loop on a text of segments and tokens -/

theorem stripTokensLoop_plain (expr : Text) :
    ∀ (m i n : Nat) (exprFormat : Text) (g : CPPCodeGenerator), i + m ≤ expr.length →
      (∀ j, i ≤ j → j < i + m → ¬ (charAt expr j = '$' ∧ charAt expr (j + 1) = '{')) →
      stripTokensLoop (n + m) expr i (-1) exprFormat g
        = stripTokensLoop n expr (i + m) (-1) (exprFormat ++ substr expr i m) g := by
  intro m
  induction m with
  | zero => intro i n fmt g _ _; simp [substr]
  | succ m ih =>
    intro i n fmt g hlen hno
    have hi : i < expr.length := by omega
    have hstep : stripTokensLoop (n + (m + 1)) expr i (-1) fmt g
        = stripTokensLoop (n + m) expr (i + 1) (-1) (fmt ++ [charAt expr i]) g := by
      rw [show n + (m + 1) = (n + m) + 1 by omega, stripTokensLoop]
      have h1 : ¬ ((-1 : Int) ≥ 0) := by omega
      have h2 : ¬ (i < expr.length - 1 ∧ charAt expr i = '$' ∧ charAt expr (i + 1) = '{') :=
        fun h => hno i le_rfl (by omega) h.2
      simp only [hi, h1, h2, if_true, if_false]
    rw [hstep, ih (i + 1) n _ g (by omega) (fun j h1 h2 => hno j (by omega) (by omega)),
      substr_cons expr i m hi]
    simp [Nat.add_assoc, Nat.add_comm 1 m]

theorem stripTokensLoop_inner (expr : Text) (ts : Nat) :
    ∀ (m i n : Nat) (exprFormat : Text) (g : CPPCodeGenerator), i + m ≤ expr.length →
      (∀ j, i ≤ j → j < i + m → charAt expr j ≠ '}') →
      stripTokensLoop (n + m) expr i (ts : Int) exprFormat g
        = stripTokensLoop n expr (i + m) (ts : Int) exprFormat g := by
  intro m
  induction m with
  | zero => intro i n fmt g _ _; simp
  | succ m ih =>
    intro i n fmt g hlen hno
    have hi : i < expr.length := by omega
    have hstep : stripTokensLoop (n + (m + 1)) expr i (ts : Int) fmt g
        = stripTokensLoop (n + m) expr (i + 1) (ts : Int) fmt g := by
      rw [show n + (m + 1) = (n + m) + 1 by omega, stripTokensLoop]
      have h1 : ((ts : Int) ≥ 0) := by omega
      have h2 : ¬ (charAt expr i = '}') := hno i le_rfl (by omega)
      simp only [hi, h1, h2, if_true, if_false]
    rw [hstep, ih (i + 1) n _ g (by omega) (fun j h1 h2 => hno j (by omega) (by omega))]
    simp [Nat.add_assoc, Nat.add_comm 1 m]

theorem stripTokensLoop_token (expr : Text) (ts m n : Nat) (exprFormat : Text)
    (g : CPPCodeGenerator) (hlen : ts + 2 + m < expr.length) (hd : charAt expr ts = '$')
    (hb : charAt expr (ts + 1) = '{')
    (hin : ∀ j, ts + 2 ≤ j → j < ts + 2 + m → charAt expr j ≠ '}')
    (hc : charAt expr (ts + 2 + m) = '}') :
    stripTokensLoop (n + (m + 2)) expr ts (-1) exprFormat g
      = stripTokensLoop n expr (ts + 2 + m + 1) (-1) exprFormat
          (g.write (substr expr ts (m + 3))) := by
  have h1 : stripTokensLoop (n + (m + 2)) expr ts (-1) exprFormat g
      = stripTokensLoop (n + 1 + m) expr (ts + 2) (ts : Int) exprFormat g := by
    rw [show n + (m + 2) = (n + 1 + m) + 1 by omega, stripTokensLoop]
    have a1 : ts < expr.length := by omega
    have a2 : ¬ ((-1 : Int) ≥ 0) := by omega
    have a3 : ts < expr.length - 1 ∧ charAt expr ts = '$' ∧ charAt expr (ts + 1) = '{' :=
      ⟨by omega, hd, hb⟩
    simp only [a1, a2, a3, and_self, if_true, if_false]
  rw [h1, stripTokensLoop_inner expr ts m (ts + 2) (n + 1) exprFormat g (by omega) hin,
    stripTokensLoop]
  have a1 : ts + 2 + m < expr.length := hlen
  have a2 : ((ts : Int) ≥ 0) := by omega
  simp only [a1, a2, hc, if_true, Int.toNat_ofNat]
  rw [show ts + 2 + m - ts + 1 = m + 3 by omega]

/-- The loop on a text of segments without '{' and tokens "${k}": the segments are kept
as the template and the tokens are written to the sink, both in order. -/
theorem stripTokensLoop_spliceBuffer :
    ∀ (rest : List (Nat × Text)) (first pre exprFormat : Text) (g : CPPCodeGenerator)
      (n : Nat), '{' ∉ first → (∀ kt ∈ rest, '{' ∉ kt.2) →
      (spliceBuffer first rest).length ≤ n →
      stripTokensLoop n (pre ++ spliceBuffer first rest) pre.length (-1) exprFormat g
        = (exprFormat ++ first ++ rest.flatMap (fun kt => kt.2),
           g.write (rest.flatMap (fun kt => blockToken kt.1))) := by
  intro rest
  induction rest with
  | nil =>
    intro first pre fmt g n hf _ hn
    simp only [spliceBuffer, List.flatMap_nil, List.append_nil] at hn ⊢
    obtain ⟨n', rfl⟩ : ∃ n', n = n' + first.length := ⟨n - first.length, by omega⟩
    rw [stripTokensLoop_plain (pre ++ first) first.length pre.length n' fmt g (by simp)]
    · have hsub : substr (pre ++ first) pre.length first.length = first := by
        have := substr_append_mid pre first []
        simpa using this
      rw [hsub, write_nil]
      cases n' with
      | zero => rfl
      | succ k =>
        rw [stripTokensLoop]
        simp
    · intro j hj1 hj2 hcon
      by_cases hlast : j + 1 < pre.length + first.length
      · obtain ⟨q, hq⟩ : ∃ q, j + 1 = pre.length + q := ⟨j + 1 - pre.length, by omega⟩
        rw [hq, charAt_append_right] at hcon
        exact hf (hcon.2 ▸ charAt_mem first q (by omega))
      · exact charAt_length_ne (pre ++ first) (j + 1) (by simp; omega) '{' (by decide) hcon.2
  | cons kt rest ih =>
    intro first pre fmt g n hf hrest hn
    obtain ⟨k, t⟩ := kt
    have hexpr : pre ++ spliceBuffer first ((k, t) :: rest)
        = (pre ++ first ++ blockToken k) ++ spliceBuffer t rest := by
      simp [spliceBuffer, List.append_assoc]
    have hexpr2 : pre ++ spliceBuffer first ((k, t) :: rest)
        = pre ++ (first ++ ('$' :: '{' :: (to_string k ++ '}' :: spliceBuffer t rest))) := by
      simp [spliceBuffer, blockToken, List.append_assoc]
    have hlenT : (blockToken k).length = (to_string k).length + 3 := by
      simp [blockToken]
    have hlen : (spliceBuffer first ((k, t) :: rest)).length
        = first.length + ((to_string k).length + 3) + (spliceBuffer t rest).length := by
      simp [spliceBuffer, hlenT, List.length_append]; omega
    obtain ⟨n', rfl⟩ : ∃ n', n = n' + ((to_string k).length + 2) + first.length :=
      ⟨n - ((to_string k).length + 2) - first.length, by omega⟩
    have hat : ∀ q, charAt (pre ++ spliceBuffer first ((k, t) :: rest))
        (pre.length + first.length + q)
          = charAt ('$' :: '{' :: (to_string k ++ '}' :: spliceBuffer t rest)) q := by
      intro q
      rw [hexpr2, Nat.add_assoc, charAt_append_right, charAt_append_right]
    rw [stripTokensLoop_plain _ first.length pre.length _ fmt g
      (by rw [hexpr2]; simp)]
    · have hsub : substr (pre ++ spliceBuffer first ((k, t) :: rest)) pre.length first.length
          = first := by
        rw [hexpr2]; exact substr_append_mid _ _ _
      rw [hsub, stripTokensLoop_token _ (pre.length + first.length) (to_string k).length n'
        (fmt ++ first) g]
      · have htok : substr (pre ++ spliceBuffer first ((k, t) :: rest))
            (pre.length + first.length) ((to_string k).length + 3) = blockToken k := by
          rw [hexpr]
          have := substr_append_mid (pre ++ first) (blockToken k) (spliceBuffer t rest)
          simpa [List.append_assoc, hlenT] using this
        rw [htok, hexpr]
        have hpl : pre.length + first.length + 2 + (to_string k).length + 1
            = (pre ++ first ++ blockToken k).length := by
          simp [hlenT]; omega
        rw [hpl, ih t (pre ++ first ++ blockToken k) (fmt ++ first) _ n'
          (hrest (k, t) (List.mem_cons_self _ _))
          (fun kt hkt => hrest kt (List.mem_cons_of_mem _ hkt)) (by omega), write_write]
        simp [List.append_assoc]
      · rw [hexpr2]; simp; omega
      · rw [show pre.length + first.length = pre.length + first.length + 0 by omega, hat]
        rfl
      · rw [hat]; rfl
      · intro j hj1 hj2
        obtain ⟨q, rfl⟩ : ∃ q, j = pre.length + first.length + (q + 2) :=
          ⟨j - (pre.length + first.length) - 2, by omega⟩
        rw [hat]
        have hq : q < (to_string k).length := by omega
        show charAt (to_string k ++ '}' :: spliceBuffer t rest) q ≠ '}'
        rw [charAt_append_left _ _ _ hq]
        exact (to_string_ne_brace k _ (charAt_mem _ _ hq)).1
      · rw [show pre.length + first.length + 2 + (to_string k).length
            = pre.length + first.length + ((to_string k).length + 2) by omega, hat]
        show charAt (to_string k ++ '}' :: spliceBuffer t rest) (to_string k).length = '}'
        exact charAt_append_cons _ _ _
    · intro j hj1 hj2 hcon
      by_cases hlast : j + 1 < pre.length + first.length
      · obtain ⟨q, hq⟩ : ∃ q, j + 1 = pre.length + q := ⟨j + 1 - pre.length, by omega⟩
        rw [hq, hexpr2, charAt_append_right, charAt_append_left first _ q (by omega)] at hcon
        exact hf (hcon.2 ▸ charAt_mem first q (by omega))
      · have hj : j + 1 = pre.length + first.length + 0 := by omega
        rw [hj, hat, show charAt ('$' :: '{' :: (to_string k ++ '}' :: spliceBuffer t rest)) 0
          = '$' from rfl] at hcon
        exact absurd hcon.2 (by decide)

/-! ## C1, C2: placeholders counted by `writeCodeAppend` -/

/-- C1, evaluated at the buffer "x = a %% b;" (no unescaped placeholder) with the empty
queue: the flush counts the second '%' of "%%" as a placeholder and reads `fFormatArgs[0]`
of the empty queue, which the source leaves undefined, instead of ending with the queue
empty. -/
theorem C1_flush_escaped_percent_reads_past_queue :
    unescapedPlaceholders "x = a %% b;".toList = 0 ∧
      flushEmittedCode (emitCodeState "x = a %% b;".toList [] []) = Except.error Fault.undefined := by
  constructor
  · rfl
  · rfl

/-- C2, evaluated at the slices "a %% b" and "%s %% %d": `writeCodeAppend` counts one
placeholder in "a %% b" and three in "%s %% %d"; with the queue ["x"] it passes "x" to the
call emitted for "a %% b" and removes it from the queue. -/
theorem C2_escaped_percent_consumes_argument :
    countFormatSpecifiers "a %% b".toList = 1 ∧
      countFormatSpecifiers "%s %% %d".toList = 3 ∧
      (writeCodeAppend "a %% b".toList (emitCodeState [] ["x".toList] [])).map
          (fun g => (g.fOut.fText, g.fFormatArgs))
        = Except.ok ("        fragBuilder->codeAppendf(\nR\"SkSL(a %% b)SkSL\"\n, x);\n".toList, []) := by
  refine ⟨rfl, rfl, rfl⟩

/-! ## C5: child indices -/

/-- C5, evaluated at the program `in fragmentProcessor fp0, fp1;`: no child processor is
declared before `fp0`, yet `getChildFPIndex(fp0)` is 1, the same index as `fp1` gets: the
inner loop goes on counting after it has found the variable. -/
theorem C5_index_counts_later_children_of_statement :
    childProcessorsBefore twoChildrenInOneStatement.fProgram fp0Var = 0 ∧
      getChildFPIndex twoChildrenInOneStatement fp0Var = 1 ∧
      getChildFPIndex twoChildrenInOneStatement fp1Var = 1 := by
  refine ⟨by decide, by decide, by decide⟩

/-! ## C8: Scenario A -/

/-- C8 as stated fails: the host code generated for Scenario A invokes `fp1` and contains
no `if (` at all, so the invocation of the optional child `fp1` is not guarded by a
host-language condition. -/
theorem C8_fp1_invocation_not_guarded :
    ∃ code, emitCodeOfStatement scenarioA scenarioAMain = Except.ok code ∧
      occursIn "invokeChild(1, args)".toList code = true ∧
      occursIn "if (".toList code = false := by
  refine ⟨scenarioAHostCode, by rfl, by rfl, by rfl⟩

/-- C8, amended: the host code generated for Scenario A is exactly `scenarioAHostCode`: the
line invoking `fp0` and the line invoking `fp1` are both unconditional statements ahead of
the templated call, and "fp1 is bound" only supplies the placeholder of the shader-level
condition. -/
theorem C8_both_invocations_unconditional :
    emitCodeOfStatement scenarioA scenarioAMain = Except.ok scenarioAHostCode ∧
      startsWith ("        SkString _sample28 = this->invokeChild(0, args);\n"
        ++ "        SkString _sample55 = this->invokeChild(1, args);\n"
        ++ "        fragBuilder->codeAppendf(").toList scenarioAHostCode = true ∧
      occursIn ", _outer.childProcessor(1) ? \"true\" : \"false\", ".toList scenarioAHostCode
        = true := by
  refine ⟨by rfl, by rfl, by rfl⟩

/-! ## C3: the modulo operator -/

/-- C3: for a binary expression with the operator '%', `writeBinaryExpression` writes the
rendering `tL` of the left operand, then " %% ", then the rendering `tR` of the right
operand, in parentheses exactly when the precedence of '%' is at least the parent
precedence, and the queue grows by the arguments `aL` and `aR` of the two operands only. -/
theorem C3_modulo_writes_escaped_percent (env : Environment) (fOffset : Int) (fType : SkType)
    (fLeft fRight : Expression) (parentPrecedence : Precedence) (g g2 g4 : CPPCodeGenerator)
    (hl : writeExpression env fLeft (env.GetBinaryPrecedence .TK_PERCENT)
            (if env.GetBinaryPrecedence .TK_PERCENT ≥ parentPrecedence then g.write "(".toList
             else g) = Except.ok g2)
    (hr : writeExpression env fRight (env.GetBinaryPrecedence .TK_PERCENT)
            (g2.write " %% ".toList) = Except.ok g4) :
    ∃ (tL tR : Text) (aL aR : List Text) (g' : CPPCodeGenerator),
      g2.fOut.fText
        = g.fOut.fText
            ++ (if env.GetBinaryPrecedence .TK_PERCENT ≥ parentPrecedence then "(".toList
                else []) ++ tL ∧
      g2.fFormatArgs = g.fFormatArgs ++ aL ∧
      g4.fOut.fText = g2.fOut.fText ++ " %% ".toList ++ tR ∧
      g4.fFormatArgs = g2.fFormatArgs ++ aR ∧
      writeBinaryExpression env fOffset fType fLeft .TK_PERCENT fRight parentPrecedence g
        = Except.ok g' ∧
      g'.fOut.fText
        = g.fOut.fText
            ++ (if env.GetBinaryPrecedence .TK_PERCENT ≥ parentPrecedence then "(".toList
                else [])
            ++ tL ++ " %% ".toList ++ tR
            ++ (if env.GetBinaryPrecedence .TK_PERCENT ≥ parentPrecedence then ")".toList
                else []) ∧
      g'.fFormatArgs = g.fFormatArgs ++ aL ++ aR := by
  have hres : writeBinaryExpression env fOffset fType fLeft .TK_PERCENT fRight
      parentPrecedence g
        = Except.ok (if env.GetBinaryPrecedence .TK_PERCENT ≥ parentPrecedence then
            g4.write ")".toList else g4) := by
    unfold writeBinaryExpression
    rw [writeExpression]
    simp only [if_true, hl, hr, bind, Except.bind, pure, Except.pure]
  obtain ⟨_, ⟨tR, htR⟩, ⟨aR, haR⟩, _⟩ := writeExpression_extends env fRight _ _ _ hr
  simp only [CPPCodeGenerator.write] at htR haR
  by_cases hp : env.GetBinaryPrecedence .TK_PERCENT ≥ parentPrecedence
  · simp only [hp, if_true] at hl hres ⊢
    obtain ⟨_, ⟨tL, htL⟩, ⟨aL, haL⟩, _⟩ := writeExpression_extends env fLeft _ _ _ hl
    simp only [CPPCodeGenerator.write] at htL haL
    refine ⟨tL, tR, aL, aR, _, htL, haL, htR, haR, hres, ?_, ?_⟩
    · simp only [CPPCodeGenerator.write, htR, htL]
    · simp only [CPPCodeGenerator.write, haR, haL]
  · simp only [hp, if_false] at hl hres ⊢
    obtain ⟨_, ⟨tL, htL⟩, ⟨aL, haL⟩, _⟩ := writeExpression_extends env fLeft _ _ _ hl
    refine ⟨tL, tR, aL, aR, _, ?_, haL, htR, haR, hres, ?_, ?_⟩
    · simp only [htL, List.append_nil]
    · simp only [htR, htL, List.append_nil]
    · simp only [haR, haL]

/-- C3 at `weight % 2` below a postfix operator: the text is "(%s %% 2)" and the queue
holds the one argument of `weight`. -/
theorem C3_modulo_witness :
    ∃ g', writeBinaryExpression scenarioA 3 halfType moduloLeft .TK_PERCENT moduloRight
        kPostfix_Precedence (emitCodeState [] [] []) = Except.ok g' ∧
      g'.fOut.fText = "(%s %% 2)".toList ∧
      g'.fFormatArgs = ["args.fUniformHandler->getUniformCStr(weightVar)".toList] := by
  obtain ⟨tL, tR, aL, aR, g', _, _, _, _, h, _, _⟩ :=
    C3_modulo_writes_escaped_percent scenarioA 3 halfType moduloLeft moduloRight
      kPostfix_Precedence (emitCodeState [] [] [])
      ((writeExpression scenarioA moduloLeft 4
          ((emitCodeState [] [] []).write "(".toList)).getD (emitCodeState [] [] []))
      ((writeExpression scenarioA moduloRight 4
          ((emitCodeState "(%s".toList
              ["args.fUniformHandler->getUniformCStr(weightVar)".toList] []).write
            " %% ".toList)).getD (emitCodeState [] [] []))
      (by rfl) (by rfl)
  refine ⟨g', h, ?_, ?_⟩
  · have h' : writeBinaryExpression scenarioA 3 halfType moduloLeft .TK_PERCENT moduloRight
        kPostfix_Precedence (emitCodeState [] [] [])
          = Except.ok (emitCodeState "(%s %% 2)".toList
              ["args.fUniformHandler->getUniformCStr(weightVar)".toList] []) := by rfl
    rw [h'] at h
    cases h
    rfl
  · have h' : writeBinaryExpression scenarioA 3 halfType moduloLeft .TK_PERCENT moduloRight
        kPostfix_Precedence (emitCodeState [] [] [])
          = Except.ok (emitCodeState "(%s %% 2)".toList
              ["args.fUniformHandler->getUniformCStr(weightVar)".toList] []) := by rfl
    rw [h'] at h
    cases h
    rfl

/-! ## C9, C10: isolated rendering -/

/-- C9: when `convertSKSLExpressionToCPP` returns, the format-argument queue is what it was
before the call, the active sink is the same sink, and the text added to that sink is a
sequence of complete tokens; nothing else of the isolated rendering remains. -/
theorem C9_convert_restores_sink_and_queue (env : Environment) (e : Expression)
    (cppVar : Text) (g : CPPCodeGenerator) (r : Text × CPPCodeGenerator)
    (h : convertSKSLExpressionToCPP env e cppVar g = Except.ok r) :
    r.2.fFormatArgs = g.fFormatArgs ∧ r.2.fOut.fId = g.fOut.fId ∧
      ∃ toks : List Text, (∀ t ∈ toks, IsToken t) ∧
        r.2.fOut.fText = g.fOut.fText ++ toks.flatten := by
  obtain ⟨hin, _, _⟩ := convertWith_inside 0 (writeExpression env e)
    (writeExpression_extends env e) cppVar g r (Nat.zero_le _) h
  obtain ⟨toks, htoks, hout⟩ := hin.out
  exact ⟨hin.args, by rw [hout], toks, htoks, by rw [hout]⟩

/-- C9 at `sample(fp1)` rendered in isolation: the call returns, and its token "${1}" is
the only text added to the enclosing buffer. -/
theorem C9_convert_witness :
    convertSKSLExpressionToCPP scenarioA (sampleCall 55 fp1Var) "_input5".toList enclosingState
        = Except.ok ("SkString _input5(_sample55.c_str());".toList,
            { enclosingState with
                fOut := { fId := 1, fText := "$\x7b0\x7dx = $\x7b1\x7d".toList }
                fExtraEmitCodeBlocks :=
                  [[], "        SkString _sample55 = this->invokeChild(1, args);\n".toList]
                fStreams := 3 }) ∧
      ∃ toks : List Text, (∀ t ∈ toks, IsToken t) ∧
        "$\x7b0\x7dx = $\x7b1\x7d".toList = enclosingState.fOut.fText ++ toks.flatten :=
  ⟨by rfl,
   (C9_convert_restores_sink_and_queue scenarioA (sampleCall 55 fp1Var) "_input5".toList
      enclosingState
      ("SkString _input5(_sample55.c_str());".toList,
        { enclosingState with
            fOut := { fId := 1, fText := "$\x7b0\x7dx = $\x7b1\x7d".toList }
            fExtraEmitCodeBlocks :=
              [[], "        SkString _sample55 = this->invokeChild(1, args);\n".toList]
            fStreams := 3 })
      (by rfl)).2.2⟩

/-- C10: when the text of the isolated rendering is segments without '{' around complete
tokens "${k}", `convertSKSLExpressionToCPP` returns; it has appended exactly those tokens,
unchanged and in order, to the enclosing buffer, and the template of the returned snippet
is the segments in order, which hold no '{' and so no token. -/
theorem C10_tokens_relocated_in_order (env : Environment) (e : Expression) (cppVar : Text)
    (g g2 : CPPCodeGenerator) (first : Text) (rest : List (Nat × Text))
    (hrender : writeExpression env e kTopLevel_Precedence
        { g with fOut := { fId := g.fStreams, fText := [] }, fStreams := g.fStreams + 1,
                 fFormatArgs := [] } = Except.ok g2)
    (htext : g2.fOut.fText = spliceBuffer first rest)
    (hfirst : '{' ∉ first) (hrest : ∀ kt ∈ rest, '{' ∉ kt.2) :
    ∃ r, convertSKSLExpressionToCPP env e cppVar g = Except.ok r ∧
      r.2.fOut.fText = g.fOut.fText ++ rest.flatMap (fun kt => blockToken kt.1) ∧
      r.1 = buildCppExpr cppVar (first ++ rest.flatMap (fun kt => kt.2)) g2.fFormatArgs ∧
      '{' ∉ first ++ rest.flatMap (fun kt => kt.2) := by
  have hstrip := stripTokensLoop_spliceBuffer rest first [] []
    { g2 with fFormatArgs := g.fFormatArgs, fOut := g.fOut } (spliceBuffer first rest).length
    hfirst hrest le_rfl
  simp only [List.nil_append, List.length_nil] at hstrip
  have hconv : convertSKSLExpressionToCPP env e cppVar g
      = Except.ok (buildCppExpr cppVar (first ++ rest.flatMap (fun kt => kt.2)) g2.fFormatArgs,
          CPPCodeGenerator.write (rest.flatMap (fun kt => blockToken kt.1))
            { g2 with fFormatArgs := g.fFormatArgs, fOut := g.fOut }) := by
    unfold convertSKSLExpressionToCPP convertSKSLExpressionToCPPWith
    simp only [hrender, bind, Except.bind, pure, Except.pure, htext, hstrip]
  refine ⟨_, hconv, rfl, rfl, ?_⟩
  intro hmem
  rcases List.mem_append.1 hmem with h | h
  · exact hfirst h
  · obtain ⟨kt, hkt, hc⟩ := List.mem_flatMap.1 h
    exact hrest kt hkt hc

/-- C10 at `sample(fp1)` rendered in isolation: its text is "${1}%s"; the token goes to the
enclosing buffer and the template left is "%s". -/
theorem C10_tokens_witness :
    ∃ r, convertSKSLExpressionToCPP scenarioA (sampleCall 55 fp1Var) "_input5".toList
          enclosingState = Except.ok r ∧
      r.2.fOut.fText = "$\x7b0\x7dx = $\x7b1\x7d".toList := by
  obtain ⟨r, h1, h2, _, _⟩ :=
    C10_tokens_relocated_in_order scenarioA (sampleCall 55 fp1Var) "_input5".toList
      enclosingState
      { enclosingState with
          fOut := { fId := 2, fText := "$\x7b1\x7d%s".toList }
          fFormatArgs := ["_sample55.c_str()".toList]
          fExtraEmitCodeBlocks :=
            [[], "        SkString _sample55 = this->invokeChild(1, args);\n".toList]
          fStreams := 3 }
      [] [(1, "%s".toList)] (by rfl) (by rfl) (by decide) (by decide)
  exact ⟨r, h1, by rw [h2]; rfl⟩

/-! ## C6, C7: the `sample` call -/

theorem writeFunctionCall_sample (env : Environment) (fOffset : Int) (fType : SkType)
    (fFunction : FunctionDeclaration) (o : Int) (child : Variable) (tail : Arguments)
    (g : CPPCodeGenerator) (hb : fFunction.fBuiltin = true)
    (hname : fFunction.fName = "sample".toList)
    (hkind : child.fType.kind ≠ TypeKind.kSampler_Kind) :
    writeFunctionCall env fOffset fType fFunction (.cons (.variableReference o child) tail) g
      = writeSampleChild env fOffset
          (writeArguments env (.cons (.variableReference o child) tail)) child g := by
  unfold writeFunctionCall
  rw [writeExpression]
  unfold writeFunctionCallWith
  simp only [hb, hname, and_self, if_true, writeArguments, List.head?_cons, Expression.type,
    Expression.asVariableReference, hkind, ne_eq, not_false_eq_true]

/-- C6 as stated fails at `sample(fp0, sample(fp1))`: the call appends two entries to the
block table, not one, and writes the tokens of both before the placeholder. -/
theorem C6_nested_sample_opens_two_blocks :
    ∃ g', writeFunctionCall scenarioA 5 half4Type sampleFunction nestedSampleArguments
          (emitCodeState [] [] [[]]) = Except.ok g' ∧
      g'.fExtraEmitCodeBlocks.length = (emitCodeState [] [] [[]]).fExtraEmitCodeBlocks.length + 2 ∧
      g'.fOut.fText = "$\x7b1\x7d$\x7b2\x7d%s".toList :=
  ⟨{ emitCodeState "$\x7b1\x7d$\x7b2\x7d%s".toList ["_sample5.c_str()".toList]
        [[], [], ("        SkString _sample17 = this->invokeChild(1, args);\n"
                ++ "        SkString _input5(_sample17.c_str());\n"
                ++ "        SkString _sample5 = this->invokeChild(0, _input5.c_str(), args);\n").toList]
      with fStreams := 3 },
    by rfl, by rfl, by rfl⟩

/-- C6, amended: a call `sample(child, ...)` on a variable reference opens the block `k`
(the old size of the table) and writes its token "${k}" at the call site; after it come
only relocated tokens, of the blocks that sample() calls nested in its arguments opened,
and then the one placeholder "%s"; the table keeps its old entries and grows by at least
one; the queue is the old queue followed by "_sample<offset>.c_str()". With the child as
the only argument the call always returns, the table grows by exactly its one block and
the text written is "${k}%s". -/
theorem C6_sample_call_effects (env : Environment) (fOffset : Int) (fType : SkType)
    (fFunction : FunctionDeclaration) (o : Int) (child : Variable) (tail : Arguments)
    (g : CPPCodeGenerator) (hb : fFunction.fBuiltin = true)
    (hname : fFunction.fName = "sample".toList)
    (hkind : child.fType.kind ≠ TypeKind.kSampler_Kind) :
    (∀ g', writeFunctionCall env fOffset fType fFunction
              (.cons (.variableReference o child) tail) g = Except.ok g' →
        (∃ toks : List Text, (∀ t ∈ toks, IsToken t) ∧
          g'.fOut.fText = g.fOut.fText ++ blockToken g.fExtraEmitCodeBlocks.length
            ++ toks.flatten ++ "%s".toList) ∧
        g'.fOut.fId = g.fOut.fId ∧
        (∃ c, c ≠ [] ∧ g'.fExtraEmitCodeBlocks = g.fExtraEmitCodeBlocks ++ c) ∧
        g'.fFormatArgs
          = g.fFormatArgs ++ ["_sample".toList ++ to_string_int fOffset ++ ".c_str()".toList]) ∧
    (tail = .nil → child.fType.name ≠ "float2".toList → child.fType.name ≠ "float3x3".toList →
      ∃ g', writeFunctionCall env fOffset fType fFunction
              (.cons (.variableReference o child) tail) g = Except.ok g' ∧
        g'.fOut.fText = g.fOut.fText ++ blockToken g.fExtraEmitCodeBlocks.length
          ++ "%s".toList ∧
        g'.fExtraEmitCodeBlocks
          = g.fExtraEmitCodeBlocks
              ++ [emitCodeLine ("SkString ".toList ++ ("_sample".toList ++ to_string_int fOffset)
                    ++ " = this->invokeChild(".toList ++ to_string (getChildFPIndex env child)
                    ++ ", args);".toList)] ∧
        g'.fFormatArgs
          = g.fFormatArgs ++ ["_sample".toList ++ to_string_int fOffset ++ ".c_str()".toList]) := by
  constructor
  · intro g' h
    rw [writeFunctionCall_sample env fOffset fType fFunction o child tail g hb hname hkind] at h
    obtain ⟨hext, ⟨toks, htoks, hout⟩, hargs, hlt, _⟩ :=
      writeSampleChild_spec env fOffset _ child (writeArguments_extends env _) g g' h
    obtain ⟨c, hc⟩ := hext.blocks
    refine ⟨⟨toks, htoks, by rw [hout]⟩, by rw [hout], ⟨c, ?_, hc⟩, hargs⟩
    intro hnil
    rw [hc, hnil] at hlt
    simp at hlt
  · intro htail h2 h3
    subst htail
    rw [writeFunctionCall_sample env fOffset fType fFunction o child .nil g hb hname hkind]
    have h2' : ¬ child.fType.fName = "float2".toList := h2
    have h3' : ¬ child.fType.fName = "float3x3".toList := h3
    have hres : writeSampleChild env fOffset
        (writeArguments env (.cons (.variableReference o child) .nil)) child g
          = Except.ok
              (({ newExtraEmitCodeBlock g with
                    fExtraEmitCodeBlocks := g.fExtraEmitCodeBlocks
                      ++ [emitCodeLine ("SkString ".toList
                            ++ ("_sample".toList ++ to_string_int fOffset)
                            ++ " = this->invokeChild(".toList
                            ++ to_string (getChildFPIndex env child)
                            ++ ", args);".toList)] }.write "%s".toList).pushFormatArg
                ("_sample".toList ++ to_string_int fOffset ++ ".c_str()".toList)) := by
      have hcolor : sampleInputColor fOffset
          (writeArguments env (.cons (.variableReference o child) .nil))
          (newExtraEmitCodeBlock g) = Except.ok ([], newExtraEmitCodeBlock g) := by
        unfold sampleInputColor
        simp only [writeArguments, List.getElem?_cons_succ, List.getElem?_nil]
        rfl
      have hcoord : sampleInputCoord env fOffset
          (writeArguments env (.cons (.variableReference o child) .nil)) child
          (newExtraEmitCodeBlock g)
            = Except.ok (([], "invokeChild".toList), newExtraEmitCodeBlock g) := by
        unfold sampleInputCoord
        simp only [writeArguments, List.getLast?_singleton, Expression.type, SkType.name, h2',
          h3', if_false]
        rfl
      have hadd : ∀ l, addExtraEmitCodeLine l (newExtraEmitCodeBlock g)
          = Except.ok { newExtraEmitCodeBlock g with
              fExtraEmitCodeBlocks := g.fExtraEmitCodeBlocks ++ [emitCodeLine l] } := by
        intro l
        unfold addExtraEmitCodeLine
        rw [newExtraEmitCodeBlock_blocks]
        simp [emitCodeLine, pure, Except.pure]
      unfold writeSampleChild
      simp only [hcolor, hcoord, hadd, bind, Except.bind, pure, Except.pure, ne_eq,
        not_true_eq_false, if_false, List.append_nil, List.append_assoc]
      rfl
    refine ⟨_, hres, ?_, ?_, ?_⟩
    · simp [CPPCodeGenerator.write, CPPCodeGenerator.pushFormatArg, newExtraEmitCodeBlock,
        blockToken]
    · simp [CPPCodeGenerator.write, CPPCodeGenerator.pushFormatArg]
    · simp [CPPCodeGenerator.write, CPPCodeGenerator.pushFormatArg, newExtraEmitCodeBlock]

/-- C6 at `sample(fp0)` with one block in the table: the call returns, opens block 1 and
writes "${1}%s". -/
theorem C6_sample_call_witness :
    ∃ g', writeFunctionCall scenarioA 28 half4Type sampleFunction
            (.cons (.variableReference 35 fp0Var) .nil) (emitCodeState [] [] [[]])
          = Except.ok g' ∧
      g'.fOut.fText = "$\x7b1\x7d%s".toList ∧
      g'.fExtraEmitCodeBlocks
        = [[], "        SkString _sample28 = this->invokeChild(0, args);\n".toList] ∧
      g'.fFormatArgs = ["_sample28.c_str()".toList] := by
  obtain ⟨g', h, ht, hb, ha⟩ :=
    (C6_sample_call_effects scenarioA 28 half4Type sampleFunction 35 fp0Var .nil
      (emitCodeState [] [] [[]]) rfl rfl (by decide)).2 rfl (by decide) (by decide)
  exact ⟨g', h, ht.trans (by rfl), hb.trans (by rfl), ha.trans (by rfl)⟩

/-- C7: after a call `sample(child, ...)` on a variable reference, the last block of the
table ends with the line "SkString _sample<off> = this-><fn>(<idx><color>, args<coord>);"
(`sampleInvocationLine`), and the text of the blocks opened by the call, read in order, is
some text `A`, the line declaring `_input<off>` (present exactly when `<color>` is not
empty), some text `B`, the line declaring the coordinate local (present exactly when there
is one), and then the invocation line. -/
theorem C7_invocation_line_last (env : Environment) (fOffset : Int) (fType : SkType)
    (fFunction : FunctionDeclaration) (o : Int) (child : Variable) (tail : Arguments)
    (g g' : CPPCodeGenerator) (hb : fFunction.fBuiltin = true)
    (hname : fFunction.fName = "sample".toList)
    (hkind : child.fType.kind ≠ TypeKind.kSampler_Kind)
    (h : writeFunctionCall env fOffset fType fFunction
           (.cons (.variableReference o child) tail) g = Except.ok g') :
    ∃ A inputLine B coordLine pre,
      g'.fExtraEmitCodeBlocks.getLast?
        = some (pre ++ emitCodeLine (sampleInvocationLine env fOffset child
            (Arguments.cons (.variableReference o child) tail).toList)) ∧
      (g'.fExtraEmitCodeBlocks.drop g.fExtraEmitCodeBlocks.length).flatten
        = A ++ inputLine ++ B ++ coordLine
            ++ emitCodeLine (sampleInvocationLine env fOffset child
                (Arguments.cons (.variableReference o child) tail).toList) ∧
      (sampleColorArgument fOffset (Arguments.cons (.variableReference o child) tail).toList ≠ [] →
        ∃ rest, inputLine = emitCodeLine
          ("SkString ".toList ++ ("_input".toList ++ to_string_int fOffset) ++ rest)) ∧
      (sampleColorArgument fOffset (Arguments.cons (.variableReference o child) tail).toList = [] →
        inputLine = []) ∧
      (sampleCoordName env fOffset child
          (Arguments.cons (.variableReference o child) tail).toList ≠ [] →
        ∃ rest, coordLine = emitCodeLine
          ("SkString ".toList ++ sampleCoordName env fOffset child
              (Arguments.cons (.variableReference o child) tail).toList ++ rest)) ∧
      (sampleCoordName env fOffset child
          (Arguments.cons (.variableReference o child) tail).toList = [] → coordLine = []) := by
  rw [writeFunctionCall_sample env fOffset fType fFunction o child tail g hb hname hkind] at h
  obtain ⟨_, _, _, _, A, inputLine, B, coordLine, pre, hflat, hlast, h1, h2, h3, h4⟩ :=
    writeSampleChild_spec env fOffset _ child (writeArguments_extends env _) g g' h
  rw [writeArguments_fst] at hflat hlast h1 h2 h3 h4
  exact ⟨A, inputLine, B, coordLine, pre, hlast, hflat, h1, h2, h3, h4⟩

/-- C7 at `sample(fp0, sk_InColor, coords)` at offset 5: the call returns, and the last
block ends with the invocation line, which passes `_input5` and `_coords5`. -/
theorem C7_invocation_line_witness :
    (∃ g', writeFunctionCall scenarioA 5 half4Type sampleFunction sampleWithColorAndCoords
            (emitCodeState [] [] [[]]) = Except.ok g') ∧
      sampleInvocationLine scenarioA 5 fp0Var sampleWithColorAndCoords.toList
        = "SkString _sample5 = this->invokeChild(0, _input5.c_str(), args, _coords5.c_str());".toList ∧
      ∃ pre, (writeFunctionCall scenarioA 5 half4Type sampleFunction sampleWithColorAndCoords
              (emitCodeState [] [] [[]])).map (fun g' => g'.fExtraEmitCodeBlocks.getLast?)
        = Except.ok (some (pre ++ emitCodeLine
            (sampleInvocationLine scenarioA 5 fp0Var sampleWithColorAndCoords.toList))) := by
  have hrun : writeFunctionCall scenarioA 5 half4Type sampleFunction sampleWithColorAndCoords
      (emitCodeState [] [] [[]])
        = Except.ok ((writeFunctionCall scenarioA 5 half4Type sampleFunction
            sampleWithColorAndCoords (emitCodeState [] [] [[]])).getD
              (emitCodeState [] [] [])) := by rfl
  obtain ⟨_, _, _, _, pre, hlast, _⟩ :=
    C7_invocation_line_last scenarioA 5 half4Type sampleFunction 12 fp0Var
      (.cons (.variableReference 17 inColorVar) (.cons (.variableReference 29 coordsVar) .nil))
      (emitCodeState [] [] [[]]) _ rfl rfl (by decide) hrun
  refine ⟨⟨_, hrun⟩, by rfl, pre, ?_⟩
  rw [hrun]
  exact congrArg Except.ok hlast

/-! ## The splice on tokens at statement boundaries -/

theorem hasTokenStart_charAt :
    ∀ (s : Text), hasTokenStart s = false →
      ∀ q, q + 1 < s.length → ¬ (charAt s q = '$' ∧ charAt s (q + 1) = '{')
  | [], _, q, hq => by simp at hq
  | [_], _, q, hq => by simp at hq
  | c :: d :: rest, h, q, hq => by
    simp only [hasTokenStart, Bool.or_eq_false_iff, Bool.and_eq_false_iff] at h
    cases q with
    | zero =>
      intro hcon
      have h0 : charAt (c :: d :: rest) 0 = c := rfl
      have h1 : charAt (c :: d :: rest) 1 = d := rfl
      rw [h0, h1] at hcon
      rcases h.1 with hc | hd
      · simp [hcon.1] at hc
      · simp [hcon.2] at hd
    | succ q =>
      have ih := hasTokenStart_charAt (d :: rest) h.2 q (by simpa using hq)
      have e1 : charAt (c :: d :: rest) (q + 1) = charAt (d :: rest) q := rfl
      have e2 : charAt (c :: d :: rest) (q + 1 + 1) = charAt (d :: rest) (q + 1) := rfl
      rw [e1, e2]
      exact ih

theorem flushLoop_plain (sksl : Text) :
    ∀ (m i n : Nat) (flushPoint : Int) (g : CPPCodeGenerator), i + m ≤ sksl.length →
      (∀ j, i ≤ j → j < i + m → ¬ (charAt sksl j = '$' ∧ charAt sksl (j + 1) = '{')) →
      ∃ flushPoint' : Int,
        flushLoop (n + m) sksl i flushPoint (-1) g
          = flushLoop n sksl (i + m) flushPoint' (-1) g ∧
        (m = 0 → flushPoint' = flushPoint) ∧
        (0 < m → isStatementEnd (charAt sksl (i + m - 1)) → flushPoint' = ((i + m - 1 : Nat) : Int)) := by
  intro m
  induction m with
  | zero => intro i n fp g _ _; exact ⟨fp, by simp, fun _ => rfl, fun h => absurd h (by omega)⟩
  | succ m ih =>
    intro i n fp g hlen hno
    have hi : i < sksl.length := by omega
    have h1 : ¬ ((-1 : Int) ≥ 0) := by omega
    have h2 : ¬ (i < sksl.length - 1 ∧ charAt sksl i = '$' ∧ charAt sksl (i + 1) = '{') :=
      fun h => hno i le_rfl (by omega) h.2
    have hstep : ∃ fp1 : Int, flushLoop (n + (m + 1)) sksl i fp (-1) g
        = flushLoop (n + m) sksl (i + 1) fp1 (-1) g ∧
          (isStatementEnd (charAt sksl i) → fp1 = (i : Int)) := by
      rw [show n + (m + 1) = (n + m) + 1 by omega, flushLoop]
      by_cases hs : charAt sksl i = ';' ∨ charAt sksl i = '{' ∨ charAt sksl i = '}'
      · exact ⟨(i : Int), by simp only [hi, h1, hs, if_true, if_false], fun _ => rfl⟩
      · exact ⟨fp, by simp only [hi, h1, hs, h2, if_true, if_false], fun h => absurd h hs⟩
    obtain ⟨fp1, hfp1, hfp1'⟩ := hstep
    obtain ⟨fp2, hfp2, hz, hp⟩ := ih (i + 1) n fp1 g (by omega)
      (fun j h1 h2 => hno j (by omega) (by omega))
    refine ⟨fp2, ?_, fun h => absurd h (by omega), fun _ hend => ?_⟩
    · rw [hfp1, hfp2]
      simp [Nat.add_assoc, Nat.add_comm 1 m]
    · cases m with
      | zero =>
        rw [hz rfl]
        simp only [Nat.zero_add, Nat.add_sub_cancel] at hend ⊢
        exact hfp1' hend
      | succ m' =>
        have := hp (by omega) (by
          rw [show i + 1 + (m' + 1) - 1 = i + (m' + 1 + 1) - 1 by omega]; exact hend)
        rw [this]
        congr 1
        omega

theorem flushLoop_inner (sksl : Text) (ts : Nat) :
    ∀ (m i n : Nat) (flushPoint : Int) (g : CPPCodeGenerator), i + m ≤ sksl.length →
      (∀ j, i ≤ j → j < i + m → charAt sksl j ≠ '}') →
      flushLoop (n + m) sksl i flushPoint (ts : Int) g
        = flushLoop n sksl (i + m) flushPoint (ts : Int) g := by
  intro m
  induction m with
  | zero => intro i n fp g _ _; simp
  | succ m ih =>
    intro i n fp g hlen hno
    have hi : i < sksl.length := by omega
    have hstep : flushLoop (n + (m + 1)) sksl i fp (ts : Int) g
        = flushLoop (n + m) sksl (i + 1) fp (ts : Int) g := by
      rw [show n + (m + 1) = (n + m) + 1 by omega, flushLoop]
      have h1 : ((ts : Int) ≥ 0) := by omega
      have h2 : ¬ (charAt sksl i = '}') := hno i le_rfl (by omega)
      simp only [hi, h1, h2, if_true, if_false]
    rw [hstep, ih (i + 1) n _ g (by omega) (fun j h1 h2 => hno j (by omega) (by omega))]
    simp [Nat.add_assoc, Nat.add_comm 1 m]

theorem flushLoop_tokenStart (sksl : Text) (n i : Nat) (flushPoint : Int)
    (g : CPPCodeGenerator) (hi : i + 1 < sksl.length) (hd : charAt sksl i = '$')
    (hb : charAt sksl (i + 1) = '{') :
    flushLoop (n + 1) sksl i flushPoint (-1) g
      = flushLoop n sksl (i + 2) flushPoint (i : Int) g := by
  rw [flushLoop]
  have a1 : i < sksl.length := by omega
  have a2 : ¬ ((-1 : Int) ≥ 0) := by omega
  have a3 : ¬ (charAt sksl i = ';' ∨ charAt sksl i = '{' ∨ charAt sksl i = '}') := by
    rw [hd]; decide
  have a4 : i < sksl.length - 1 ∧ charAt sksl i = '$' ∧ charAt sksl (i + 1) = '{' :=
    ⟨by omega, hd, hb⟩
  simp only [a1, a2, if_true, if_false]
  rw [if_neg a3, if_pos a4]

theorem flushLoop_done (sksl : Text) (n i : Nat) (flushPoint tokenStart : Int)
    (g : CPPCodeGenerator) (hi : sksl.length ≤ i) :
    flushLoop (n + 1) sksl i flushPoint tokenStart g = writeCodeAppend sksl g := by
  rw [flushLoop]
  have a1 : ¬ (i < sksl.length) := by omega
  simp only [a1, if_false]

theorem flushLoop_close (n : Nat) (first : Text) (k : Nat) (after : Text)
    (g : CPPCodeGenerator) :
    flushLoop (n + 1) (first ++ (blockToken k ++ after))
        (first.length + 2 + (to_string k).length) ((first.length : Nat) - 1 : Int)
        (first.length : Int) g
      = (writeCodeAppend first g >>= fun g1 =>
          match g1.fExtraEmitCodeBlocks[k]? with
          | none => throw Fault.undefined
          | some block => flushLoop n after 0 (-1) (-1) (g1.write block)) := by
  have hlenT : (blockToken k).length = (to_string k).length + 3 := by simp [blockToken]
  have hlen : (first ++ (blockToken k ++ after)).length
      = first.length + ((to_string k).length + 3) + after.length := by
    simp [hlenT]; omega
  have hexpr : first ++ (blockToken k ++ after)
      = first ++ ('$' :: '{' :: (to_string k ++ '}' :: after)) := by
    simp [blockToken]
  rw [flushLoop]
  have a1 : first.length + 2 + (to_string k).length < (first ++ (blockToken k ++ after)).length := by
    rw [hlen]; omega
  have a2 : ((first.length : Int) ≥ 0) := by omega
  have a3 : charAt (first ++ (blockToken k ++ after)) (first.length + 2 + (to_string k).length)
      = '}' := by
    rw [hexpr, Nat.add_assoc, charAt_append_right, Nat.add_comm 2]
    show charAt (to_string k ++ '}' :: after) (to_string k).length = '}'
    exact charAt_append_cons _ _ _
  simp only [a1, a2, a3, if_true]
  have e1 : ((first.length : Nat) - 1 + 1 : Int).toNat = first.length := by omega
  have e2 : ((first.length : Int) + 2).toNat = first.length + 2 := by omega
  have e3 : ((first.length : Int) - ((first.length : Nat) - 1 : Int) - 1).toNat = 0 := by omega
  have s1 : substr (first ++ (blockToken k ++ after)) 0 first.length = first := by
    simp [substr]
  have s2 : substr (first ++ (blockToken k ++ after)) (first.length + 2)
      (first.length + 2 + (to_string k).length - (first.length + 2)) = to_string k := by
    rw [hexpr, Nat.add_sub_cancel_left]
    have : first ++ ('$' :: '{' :: (to_string k ++ '}' :: after))
        = (first ++ ['$', '{']) ++ (to_string k ++ '}' :: after) := by simp
    rw [this]
    have h2 := substr_append_mid (first ++ ['$', '{']) (to_string k) ('}' :: after)
    simpa using h2
  have s3 : (if first.length + 2 + (to_string k).length
        < (first ++ (blockToken k ++ after)).length - 1 then
        substr (first ++ (blockToken k ++ after)) first.length 0
          ++ substr (first ++ (blockToken k ++ after))
              (first.length + 2 + (to_string k).length + 1)
              ((first ++ (blockToken k ++ after)).length
                - (first.length + 2 + (to_string k).length) - 1)
      else substr (first ++ (blockToken k ++ after)) first.length 0) = after := by
    have hdrop : substr (first ++ (blockToken k ++ after))
        (first.length + 2 + (to_string k).length + 1)
        ((first ++ (blockToken k ++ after)).length
          - (first.length + 2 + (to_string k).length) - 1) = after := by
      have : first ++ (blockToken k ++ after) = (first ++ blockToken k) ++ (after ++ []) := by
        simp
      have hl : first.length + 2 + (to_string k).length + 1 = (first ++ blockToken k).length := by
        simp [hlenT]; omega
      have hl2 : (first ++ (blockToken k ++ after)).length
          - (first.length + 2 + (to_string k).length) - 1 = after.length := by
        rw [hlen]; omega
      rw [hl2, hl, this]
      exact substr_append_mid _ _ _
    split
    · rw [hdrop]; simp [substr]
    · rename_i hnot
      have : after.length = 0 := by rw [hlen] at hnot; omega
      simp [substr, List.length_eq_zero.1 this]
  rw [e1, e2, e3, s1, s2, stoi_to_string, s3]
  congr 1
  funext g1
  cases hblock : g1.fExtraEmitCodeBlocks[k]? with
  | none => rfl
  | some block =>
    simp only
    by_cases hb : block.length > 0
    · simp only [hb, if_true]
    · have : block = [] := List.length_eq_zero.1 (by omega)
      subst this
      simp [write_nil]

theorem getLast?_eq_charAt (s : Text) (h : 0 < s.length) :
    s.getLast? = some (charAt s (s.length - 1)) := by
  rw [charAt_of_lt s _ (by omega), List.getLast?_eq_getElem?, List.getElem?_eq_getElem (by omega)]

/-- No token starts inside a segment whose end is the end of the buffer or a statement
end. -/
theorem segment_no_tokenStart (first after : Text) (hseg : hasTokenStart first = false)
    (hend : after = [] ∨ EndsStatement first) :
    ∀ j, 0 ≤ j → j < 0 + first.length →
      ¬ (charAt (first ++ after) j = '$' ∧ charAt (first ++ after) (j + 1) = '{') := by
  intro j _ hj hcon
  have hj' : j < first.length := by omega
  rw [charAt_append_left _ _ _ hj'] at hcon
  by_cases hlast : j + 1 < first.length
  · rw [charAt_append_left _ _ _ hlast] at hcon
    exact hasTokenStart_charAt first hseg j hlast hcon
  · have hjl : j = first.length - 1 := by omega
    rcases hend with hnil | hends
    · subst hnil
      rw [List.append_nil] at hcon
      exact charAt_length_ne first (j + 1) (by omega) '{' (by decide) hcon.2
    · have h1 := hends _ (getLast?_eq_charAt first (by omega))
      rw [← hjl, hcon.1] at h1
      revert h1
      unfold isStatementEnd
      decide

/-- The scan loop on a buffer whose tokens stand at statement boundaries is the manual
concatenation, when the fuel covers the buffer. -/
theorem flushLoop_spliceBuffer :
    ∀ (rest : List (Nat × Text)) (first : Text) (g : CPPCodeGenerator) (n : Nat),
      hasTokenStart first = false → (∀ kt ∈ rest, hasTokenStart kt.2 = false) →
      TokensAtBoundaries first rest → (spliceBuffer first rest).length + 1 ≤ n →
      flushLoop n (spliceBuffer first rest) 0 (-1) (-1) g = manualSplice first rest g := by
  intro rest
  induction rest with
  | nil =>
    intro first g n hseg _ _ hn
    simp only [spliceBuffer, List.flatMap_nil, List.append_nil] at hn ⊢
    obtain ⟨n', rfl⟩ : ∃ n', n = (n' + 1) + first.length := ⟨n - 1 - first.length, by omega⟩
    have hno := segment_no_tokenStart first [] hseg (Or.inl rfl)
    rw [List.append_nil] at hno
    obtain ⟨fp, hfp, _, _⟩ := flushLoop_plain first first.length 0 (n' + 1) (-1) g
      (by omega) hno
    rw [hfp, flushLoop_done _ _ _ _ _ _ (by omega)]
    rfl
  | cons kt rest ih =>
    intro first g n hseg hrest hbound hn
    obtain ⟨k, t⟩ := kt
    have hsplice : spliceBuffer first ((k, t) :: rest)
        = first ++ (blockToken k ++ spliceBuffer t rest) := by
      simp [spliceBuffer, List.append_assoc]
    have hexpr : spliceBuffer first ((k, t) :: rest)
        = first ++ ('$' :: '{' :: (to_string k ++ '}' :: spliceBuffer t rest)) := by
      simp [spliceBuffer, blockToken, List.append_assoc]
    have hlenT : (blockToken k).length = (to_string k).length + 3 := by simp [blockToken]
    have hlen : (spliceBuffer first ((k, t) :: rest)).length
        = first.length + ((to_string k).length + 3) + (spliceBuffer t rest).length := by
      rw [hsplice]; simp [hlenT]; omega
    obtain ⟨n', rfl⟩ : ∃ n', n = (((n' + 1) + (to_string k).length) + 1) + first.length :=
      ⟨n - 1 - (to_string k).length - 1 - first.length, by omega⟩
    have hno := segment_no_tokenStart first (blockToken k ++ spliceBuffer t rest) hseg
      (Or.inr hbound.1)
    rw [← hsplice] at hno
    obtain ⟨fp, hfp, hz, hp⟩ := flushLoop_plain (spliceBuffer first ((k, t) :: rest))
      first.length 0 (((n' + 1) + (to_string k).length) + 1) (-1) g (by rw [hlen]; omega) hno
    have hfpv : fp = ((first.length : Nat) - 1 : Int) := by
      by_cases h0 : first.length = 0
      · rw [hz h0, h0]; rfl
      · have hend : isStatementEnd (charAt (spliceBuffer first ((k, t) :: rest))
            (0 + first.length - 1)) := by
          rw [hsplice, Nat.zero_add, charAt_append_left _ _ _ (by omega)]
          exact hbound.1 _ (getLast?_eq_charAt first (by omega))
        rw [hp (by omega) hend]
        omega
    have hat : ∀ q, charAt (spliceBuffer first ((k, t) :: rest)) (first.length + q)
        = charAt ('$' :: '{' :: (to_string k ++ '}' :: spliceBuffer t rest)) q := by
      intro q
      rw [hexpr, charAt_append_right]
    rw [hfp, Nat.zero_add, flushLoop_tokenStart _ _ _ _ _ (by rw [hlen]; omega)
      (by rw [show first.length = first.length + 0 by omega, hat]; rfl)
      (by rw [hat]; rfl),
      flushLoop_inner _ first.length (to_string k).length (first.length + 2) (n' + 1) fp g
        (by rw [hlen]; omega)
        (by
          intro j hj1 hj2
          obtain ⟨q, hq⟩ : ∃ q, j = first.length + (q + 2) := ⟨j - first.length - 2, by omega⟩
          rw [hq, hat]
          have hq' : q < (to_string k).length := by omega
          show charAt (to_string k ++ '}' :: spliceBuffer t rest) q ≠ '}'
          rw [charAt_append_left _ _ _ hq']
          exact (to_string_ne_brace k _ (charAt_mem _ _ hq')).1),
      hfpv, hsplice, flushLoop_close n' first k (spliceBuffer t rest) g]
    simp only [manualSplice]
    congr 1
    funext g1
    cases hblock : g1.fExtraEmitCodeBlocks[k]? with
    | none => rfl
    | some block =>
      simp only
      exact ih t (g1.write block) (n' ) (hrest (k, t) (List.mem_cons_self _ _))
        (fun kt hkt => hrest kt (List.mem_cons_of_mem _ hkt)) hbound.2 (by rw [hlen] at hn; omega)

/-- For a buffer `first ${k1} t1 ${k2} t2 ...` whose segments hold no "${" and whose
tokens stand at statement boundaries, `flushEmittedCode` is the manual concatenation in
document order (`manualSplice`) run on the cpp buffer, followed by the return to the
emptied sksl buffer and the clearing of the block table. -/
theorem flushEmittedCode_manualSplice (g : CPPCodeGenerator) (cppBuffer : OutputStream)
    (first : Text) (rest : List (Nat × Text)) (hcpp : g.fCPPBuffer = some cppBuffer)
    (hbuf : g.fOut.fText = spliceBuffer first rest) (hfirst : hasTokenStart first = false)
    (hrest : ∀ kt ∈ rest, hasTokenStart kt.2 = false)
    (hbound : TokensAtBoundaries first rest) :
    flushEmittedCode g
      = (manualSplice first rest { g with fOut := cppBuffer }).map (fun g1 =>
          { g1 with fOut := { g.fOut with fText := [] }
                    fCPPBuffer := some g1.fOut
                    fExtraEmitCodeBlocks := [] }) := by
  unfold flushEmittedCode
  rw [hcpp]
  simp only
  rw [hbuf, flushLoop_spliceBuffer rest first _ _ hfirst hrest hbound
    (by nlinarith [Nat.zero_le (spliceBuffer first rest).length])]
  cases manualSplice first rest { g with fOut := cppBuffer } with
  | error e => rfl
  | ok g1 => rfl

/-! ## C11: the three forms of the converted expression -/

/-- C11 (counterexample): the reference to the parameter `in half scale` renders in
isolation to the single placeholder "%f" with the single argument "_outer.scale", and
`convertSKSLExpressionToCPP` returns the formatted construction, not the direct value
reference "SkString _v(_outer.scale);". -/
theorem C11_float_placeholder_is_formatted :
    (writeExpression scaleProgram (.variableReference 5 scaleVar) kTopLevel_Precedence
        { emitCodeState [] [] [] with fOut := { fId := 2, fText := [] }, fStreams := 3 }).map
      (fun g => (g.fOut.fText, g.fFormatArgs))
        = Except.ok ("%f".toList, ["_outer.scale".toList]) ∧
      (convertSKSLExpressionToCPP scaleProgram (.variableReference 5 scaleVar) "_v".toList
        (emitCodeState [] [] [])).map Prod.fst
        = Except.ok "SkString _v = SkStringPrintf(\"%f\", _outer.scale);".toList ∧
      (convertSKSLExpressionToCPP scaleProgram (.variableReference 5 scaleVar) "_v".toList
        (emitCodeState [] [] [])).map Prod.fst
        ≠ Except.ok "SkString _v(_outer.scale);".toList := by
  refine ⟨by rfl, by rfl, by decide⟩

/-- C11 (amended): when the isolated rendering of `e` returns, with `t` its text without
the tokens and `a1, ..., an` the arguments it pushed, `convertSKSLExpressionToCPP` returns:
for n = 0 the static literal `SkString v("t");`; for n = 1 and `t` equal to "%s" the direct
value reference `SkString v(a1);`; in every other case the formatted construction
`SkString v = SkStringPrintf("t", a1, ..., an);` with the arguments in the order of the
pushes. -/
theorem C11_converted_expression_forms (env : Environment) (e : Expression) (cppVar : Text)
    (g g2 : CPPCodeGenerator)
    (hrender : writeExpression env e kTopLevel_Precedence
        { g with fOut := { fId := g.fStreams, fText := [] }, fStreams := g.fStreams + 1,
                 fFormatArgs := [] } = Except.ok g2) :
    ∃ r, convertSKSLExpressionToCPP env e cppVar g = Except.ok r ∧
      (g2.fFormatArgs = [] →
        r.1 = "SkString ".toList ++ cppVar ++ "(\"".toList
          ++ (stripTokensLoop g2.fOut.fText.length g2.fOut.fText 0 (-1) []
                { g2 with fFormatArgs := g.fFormatArgs, fOut := g.fOut }).1
          ++ "\");".toList) ∧
      (∀ a1, g2.fFormatArgs = [a1] →
        (stripTokensLoop g2.fOut.fText.length g2.fOut.fText 0 (-1) []
            { g2 with fFormatArgs := g.fFormatArgs, fOut := g.fOut }).1 = "%s".toList →
        r.1 = "SkString ".toList ++ cppVar ++ "(".toList ++ a1 ++ ");".toList) ∧
      (g2.fFormatArgs ≠ [] →
        ¬ (g2.fFormatArgs.length = 1 ∧
            (stripTokensLoop g2.fOut.fText.length g2.fOut.fText 0 (-1) []
              { g2 with fFormatArgs := g.fFormatArgs, fOut := g.fOut }).1 = "%s".toList) →
        r.1 = "SkString ".toList ++ cppVar ++ " = SkStringPrintf(\"".toList
          ++ (stripTokensLoop g2.fOut.fText.length g2.fOut.fText 0 (-1) []
                { g2 with fFormatArgs := g.fFormatArgs, fOut := g.fOut }).1
          ++ "\"".toList ++ g2.fFormatArgs.flatMap (fun a => ", ".toList ++ a)
          ++ ");".toList) := by
  have hconv : convertSKSLExpressionToCPP env e cppVar g
      = Except.ok (buildCppExpr cppVar
          (stripTokensLoop g2.fOut.fText.length g2.fOut.fText 0 (-1) []
            { g2 with fFormatArgs := g.fFormatArgs, fOut := g.fOut }).1 g2.fFormatArgs,
          (stripTokensLoop g2.fOut.fText.length g2.fOut.fText 0 (-1) []
            { g2 with fFormatArgs := g.fFormatArgs, fOut := g.fOut }).2) := by
    unfold convertSKSLExpressionToCPP convertSKSLExpressionToCPPWith
    simp only [hrender, bind, Except.bind, pure, Except.pure]
  refine ⟨_, hconv, ?_, ?_, ?_⟩
  · intro h0
    simp only [buildCppExpr, h0, if_true]
  · intro a1 h1 ht
    simp only [buildCppExpr, h1, ht]
    simp
  · intro hne hnot
    simp only [buildCppExpr, if_neg hne, if_neg hnot]

/-- C11 at three expressions of Scenario A rendered from the empty state: the uniform
`weight` gives the direct value reference, `weight % 2` gives the formatted construction,
and the setting `sk_Caps.x`, which pushes no argument, gives the static literal. -/
theorem C11_forms_witness :
    (∃ r, convertSKSLExpressionToCPP scenarioA (.variableReference 81 weightVar) "_v".toList
          (emitCodeState [] [] []) = Except.ok r ∧
        r.1 = "SkString _v(args.fUniformHandler->getUniformCStr(weightVar));".toList) ∧
    (∃ r, convertSKSLExpressionToCPP scenarioA
          (.binary 3 halfType moduloLeft .TK_PERCENT moduloRight) "_v".toList
          (emitCodeState [] [] []) = Except.ok r ∧
        r.1 = ("SkString _v = SkStringPrintf(\"%s %% 2\", "
                ++ "args.fUniformHandler->getUniformCStr(weightVar));").toList) ∧
    (∃ r, convertSKSLExpressionToCPP scenarioA (.setting 3 halfType "sk_Caps.x".toList)
          "_v".toList (emitCodeState [] [] []) = Except.ok r ∧
        r.1 = "SkString _v(\"sk_Caps.x\");".toList) := by
  refine ⟨?_, ?_, ?_⟩
  · obtain ⟨r, h, _, h1, _⟩ :=
      C11_converted_expression_forms scenarioA (.variableReference 81 weightVar) "_v".toList
        (emitCodeState [] [] [])
        { emitCodeState [] [] [] with
            fOut := { fId := 2, fText := "%s".toList }
            fFormatArgs := ["args.fUniformHandler->getUniformCStr(weightVar)".toList]
            fStreams := 3 } (by rfl)
    exact ⟨r, h, h1 _ rfl (by rfl)⟩
  · obtain ⟨r, h, _, _, h3⟩ :=
      C11_converted_expression_forms scenarioA
        (.binary 3 halfType moduloLeft .TK_PERCENT moduloRight) "_v".toList
        (emitCodeState [] [] [])
        { emitCodeState [] [] [] with
            fOut := { fId := 2, fText := "%s %% 2".toList }
            fFormatArgs := ["args.fUniformHandler->getUniformCStr(weightVar)".toList]
            fStreams := 3 } (by rfl)
    exact ⟨r, h, h3 (by decide) (by decide)⟩
  · obtain ⟨r, h, h0, _, _⟩ :=
      C11_converted_expression_forms scenarioA (.setting 3 halfType "sk_Caps.x".toList)
        "_v".toList (emitCodeState [] [] [])
        { emitCodeState [] [] [] with
            fOut := { fId := 2, fText := "sk_Caps.x".toList }
            fStreams := 3 } (by rfl)
    exact ⟨r, h, h0 rfl⟩

/-! ## C12: the runtime-value table -/

/-- C12: for every type that has a row in the runtime-value table (a floating-point
scalar, int, bool, a 2-, 3- or 4-vector of floats with one of the five layouts, an enum,
int4, short4 or byte4) and every host expression `x`, `formatRuntimeValue` returns the
template of the row, and the argument list it leaves is the list it was given followed by
exactly the values of the row, in order. -/
theorem C12_runtime_value_table (type : SkType) (layout : Layout) (x : Text)
    (formatArgs : List Text) (template : Text) (values : List Text)
    (htype : type.Consistent)
    (hrow : runtimeValueRow type layout x = some (template, values)) :
    formatRuntimeValue type layout x formatArgs = Except.ok (template, formatArgs ++ values) := by
  obtain ⟨hfloat, hkind⟩ := htype
  unfold formatRuntimeValue runtimeValueTemplate
  unfold runtimeValueRow at hrow
  simp only [runtimeValueTypeNames, List.mem_cons, List.mem_singleton, List.not_mem_nil,
    or_false, SkType.kind, SkType.name] at hkind ⊢
  by_cases h1 : type.fName = "float".toList ∨ type.fName = "half".toList
  · rw [if_pos h1] at hrow
    rw [if_pos (hfloat.2 h1)]
    cases hrow
    rfl
  · rw [if_neg h1] at hrow
    have hnf : ¬ type.fIsFloat = true := fun h => h1 (hfloat.1 h)
    rw [if_neg hnf]
    split at hrow
    · rename_i h
      rw [if_pos h]; cases hrow; rfl
    · rename_i h2
      rw [if_neg h2]
      split at hrow
      · rename_i h
        rw [if_pos h]; cases hrow; rfl
      · rename_i h3
        rw [if_neg h3]
        split at hrow
        · rename_i h
          rw [if_pos h]; cases hrow; rfl
        · rename_i h4
          rw [if_neg h4]
          split at hrow
          · rename_i h
            rw [if_pos h]; cases hrow; rfl
          · rename_i h5
            rw [if_neg h5]
            split at hrow
            · rename_i h
              rw [if_pos h]
              cases hc : layout.fCType <;> simp only [hc] at hrow ⊢ <;>
                first
                  | (cases hrow; rfl)
                  | cases hrow
            · rename_i h6
              rw [if_neg h6]
              split at hrow
              · rename_i h
                have hk := hkind (Or.inr (Or.inr (Or.inr (Or.inr (Or.inr (Or.inr (Or.inr (Or.inr
                  (Or.inr (Or.inr h))))))))))
                rw [if_neg hk.1, if_neg hk.2, if_pos h]; cases hrow; rfl
              · rename_i h7
                split at hrow
                · rename_i h
                  have hm : ¬ type.fTypeKind = TypeKind.kMatrix_Kind := by
                    rw [h]; decide
                  rw [if_neg hm, if_pos h]; cases hrow; rfl
                · cases hrow

/-- C12 at a `half4` parameter stored as `SkPMColor4f`: the template is
"half4(%f, %f, %f, %f)", and the four fields follow the argument already queued. -/
theorem C12_table_witness :
    formatRuntimeValue half4Type colorLayout "_outer.color".toList ["args.fOutputColor".toList]
      = Except.ok ("half4(%f, %f, %f, %f)".toList,
          ["args.fOutputColor".toList, "_outer.color.fR".toList, "_outer.color.fG".toList,
           "_outer.color.fB".toList, "_outer.color.fA".toList]) :=
  C12_runtime_value_table half4Type colorLayout "_outer.color".toList
    ["args.fOutputColor".toList] "half4(%f, %f, %f, %f)".toList
    ["_outer.color.fR".toList, "_outer.color.fG".toList, "_outer.color.fB".toList,
     "_outer.color.fA".toList]
    ⟨by decide, by decide⟩ (by rfl)

/-! ## C13: matrices -/

theorem matrixCells_eq_range (rows : Nat) (hr : 0 < rows) (f : Nat → Nat → Text) :
    ∀ columns : Nat,
      (matrixCells columns rows).map (fun rc => f rc.1 rc.2)
        = (List.range (rows * columns)).map (fun k => f (k % rows) (k / rows))
  | 0 => by simp [matrixCells]
  | columns + 1 => by
    have ih := matrixCells_eq_range rows hr f columns
    unfold matrixCells at ih ⊢
    rw [List.range_succ, List.flatMap_append, List.map_append, ih, Nat.mul_succ,
      List.range_add, List.map_append]
    congr 1
    simp only [List.flatMap_singleton, List.map_map, List.flatMap_nil, List.append_nil,
      List.flatMap_cons]
    apply List.map_congr_left
    intro i hi
    have hi' : i < rows := List.mem_range.1 hi
    simp only [Function.comp]
    have h1 : (rows * columns + i) % rows = i := by
      rw [Nat.mul_add_mod, Nat.mod_eq_of_lt hi']
    have h2 : (rows * columns + i) / rows = columns := by
      rw [Nat.mul_add_div hr, Nat.div_eq_of_lt hi', Nat.add_zero]
    rw [h1, h2]

theorem flatten_replicate_placeholder (m : Nat) :
    (List.replicate (m + 1) "%f, ".toList).flatten
      = separatedPlaceholders (m + 1) ++ ", ".toList := by
  induction m with
  | zero => rfl
  | succ m ih =>
    rw [List.replicate_succ, List.flatten_cons, ih]
    simp only [separatedPlaceholders, Nat.add_sub_cancel, List.replicate_succ,
      List.flatten_cons, List.append_assoc]
    rfl

theorem flatMap_const_eq_replicate {α : Type} (t : Text) :
    ∀ l : List α, l.flatMap (fun _ => t) = (List.replicate l.length t).flatten
  | [] => rfl
  | _ :: l => by
    simp [List.flatMap_cons, List.replicate_succ, flatMap_const_eq_replicate t l]

theorem matrixCells_length (columns rows : Nat) :
    (matrixCells columns rows).length = rows * columns := by
  unfold matrixCells
  induction columns with
  | zero => simp
  | succ n ih =>
    rw [List.range_succ, List.flatMap_append, List.length_append, ih]
    simp [Nat.mul_succ]

/-- C13 (counterexample): for the 2x2 matrix parameter `m` the code pushes the cell of
row 1, column 0 second and the cell of row 0, column 1 third, which is not the row-major
order. -/
theorem C13_matrix_cells_not_row_major :
    formatRuntimeValue float2x2Type Layout.default "_outer.m".toList []
        = Except.ok ("float2x2(%f, %f, %f, %f)".toList,
            ["_outer.m.rc(0, 0)".toList, "_outer.m.rc(1, 0)".toList,
             "_outer.m.rc(0, 1)".toList, "_outer.m.rc(1, 1)".toList]) ∧
      rowMajorAccessors "_outer.m".toList 2 2
        = ["_outer.m.rc(0, 0)".toList, "_outer.m.rc(0, 1)".toList,
           "_outer.m.rc(1, 0)".toList, "_outer.m.rc(1, 1)".toList] ∧
      formatRuntimeValue float2x2Type Layout.default "_outer.m".toList []
        ≠ Except.ok ("float2x2(%f, %f, %f, %f)".toList,
            rowMajorAccessors "_outer.m".toList 2 2) := by
  refine ⟨by rfl, by rfl, by decide⟩

/-- C13 (amended): for every matrix type named T with r ≥ 1 rows and c ≥ 1 columns and
every host expression `x`, `formatRuntimeValue` returns "T(" followed by exactly r*c
placeholders "%f" separated by ", " and closed by ")", and appends exactly the r*c cell
accessors of `x` in column-major order: all cells of column 0 by increasing row, then
column 1, and so on. -/
theorem C13_matrix_template_column_major (type : SkType) (layout : Layout) (x : Text)
    (formatArgs : List Text) (htype : type.Consistent)
    (hkind : type.kind = TypeKind.kMatrix_Kind) (hrows : 1 ≤ type.fRows)
    (hcolumns : 1 ≤ type.fColumns) :
    formatRuntimeValue type layout x formatArgs
      = Except.ok (type.fName ++ "(".toList
            ++ separatedPlaceholders (type.fRows * type.fColumns) ++ ")".toList,
          formatArgs ++ columnMajorAccessors x type.fRows type.fColumns) := by
  obtain ⟨hfloat, hnames⟩ := htype
  have hno : type.fName ∉ runtimeValueTypeNames := fun h => (hnames h).1 hkind
  simp only [runtimeValueTypeNames, List.mem_cons, List.mem_singleton, List.not_mem_nil,
    or_false, not_or] at hno
  obtain ⟨n1, n2, n3, n4, n5, n6, n7, n8, n9, n10, _, _, _⟩ := hno
  have hnf : ¬ type.fIsFloat = true := fun h => (hfloat.1 h).elim n1 n2
  obtain ⟨m, hm⟩ : ∃ m, type.fRows * type.fColumns = m + 1 :=
    ⟨type.fRows * type.fColumns - 1, by
      have : 0 < type.fRows * type.fColumns := Nat.mul_pos hrows hcolumns
      omega⟩
  have htext : type.fName ++ "(".toList
        ++ (matrixCells type.fColumns type.fRows).flatMap (fun _ => "%f, ".toList)
      = (type.fName ++ "(".toList ++ separatedPlaceholders (m + 1)) ++ [','] ++ [' '] := by
    rw [flatMap_const_eq_replicate, matrixCells_length, hm, flatten_replicate_placeholder]
    simp only [List.append_assoc]
    rfl
  have hvals : (matrixCells type.fColumns type.fRows).map (fun rc =>
        x ++ ".rc(".toList ++ to_string rc.1 ++ ", ".toList ++ to_string rc.2 ++ ")".toList)
      = columnMajorAccessors x type.fRows type.fColumns :=
    matrixCells_eq_range type.fRows hrows (cellAccessor x) type.fColumns
  unfold formatRuntimeValue runtimeValueTemplate
  simp only [SkType.name]
  rw [if_neg hnf, if_neg n3, if_neg n4, if_neg (not_or.2 ⟨n5, n6⟩),
    if_neg (not_or.2 ⟨n7, n8⟩), if_neg (not_or.2 ⟨n9, n10⟩), if_pos hkind, htext, hvals]
  rw [List.dropLast_concat]
  rw [if_neg (by simp), List.dropLast_concat, hm]
  rfl

/-- C13 at the 2x2 matrix parameter `m`: four placeholders, and the cells column by
column. -/
theorem C13_matrix_witness :
    formatRuntimeValue float2x2Type Layout.default "_outer.m".toList []
      = Except.ok ("float2x2(%f, %f, %f, %f)".toList,
          ["_outer.m.rc(0, 0)".toList, "_outer.m.rc(1, 0)".toList,
           "_outer.m.rc(0, 1)".toList, "_outer.m.rc(1, 1)".toList]) :=
  C13_matrix_template_column_major float2x2Type Layout.default "_outer.m".toList []
    ⟨by decide, by decide⟩ (by rfl) (by decide) (by decide)

/-! ## C14: types outside the runtime-value table -/

/-- C14: for every type that is not a matrix and has no row in the runtime-value table,
`formatRuntimeValue` returns without a fault and pushes nothing: a 4-vector of floats with
a layout outside the five gets its template of four placeholders, every other type the
empty template. -/
theorem C14_unsupported_type_returns_template (type : SkType) (layout : Layout) (x : Text)
    (formatArgs : List Text) (htype : type.Consistent)
    (hkind : type.kind ≠ TypeKind.kMatrix_Kind)
    (hrow : runtimeValueRow type layout x = none) :
    formatRuntimeValue type layout x formatArgs
      = Except.ok
          (if type.fName = "float4".toList ∨ type.fName = "half4".toList then
             type.fName ++ "(%f, %f, %f, %f)".toList
           else [], formatArgs) := by
  obtain ⟨hfloat, _⟩ := htype
  unfold formatRuntimeValue runtimeValueTemplate
  unfold runtimeValueRow at hrow
  simp only [SkType.kind, SkType.name] at hkind ⊢
  split at hrow
  · cases hrow
  · rename_i h1
    have hnf : ¬ type.fIsFloat = true := fun h => h1 (hfloat.1 h)
    rw [if_neg hnf]
    split at hrow
    · cases hrow
    · rename_i h2
      rw [if_neg h2]
      split at hrow
      · cases hrow
      · rename_i h3
        rw [if_neg h3]
        split at hrow
        · cases hrow
        · rename_i h4
          rw [if_neg h4]
          split at hrow
          · cases hrow
          · rename_i h5
            rw [if_neg h5]
            split at hrow
            · rename_i h
              rw [if_pos h, if_pos h]
              cases hc : layout.fCType <;> simp only [hc] at hrow ⊢ <;>
                first
                  | contradiction
                  | simp [bind, Except.bind, pure, Except.pure]
            · rename_i h6
              rw [if_neg h6, if_neg h6, if_neg hkind]
              split at hrow
              · cases hrow
              · rename_i h7
                split at hrow
                · cases hrow
                · rename_i h8
                  rw [if_neg h8, if_neg h7]
                  simp [bind, Except.bind, pure, Except.pure]

/-- C14 at the parameter `in int2 size` and at a `half4` with another host type: both
calls return, the first with the empty template; a reference to `size` in `main` is
rendered as nothing and generation goes on. -/
theorem C14_unsupported_witness :
    formatRuntimeValue int2Type Layout.default "_outer.size".toList ["args.fOutputColor".toList]
        = Except.ok ([], ["args.fOutputColor".toList]) ∧
      formatRuntimeValue half4Type otherLayout "_outer.color".toList []
        = Except.ok ("half4(%f, %f, %f, %f)".toList, []) ∧
      writeExpression sizeProgram (.variableReference 30 sizeVar) kTopLevel_Precedence
          (emitCodeState "x = ".toList [] [])
        = Except.ok (emitCodeState "x = ".toList [] []) :=
  ⟨C14_unsupported_type_returns_template int2Type Layout.default "_outer.size".toList
      ["args.fOutputColor".toList] ⟨by decide, by decide⟩ (by decide) (by rfl),
   C14_unsupported_type_returns_template half4Type otherLayout "_outer.color".toList []
      ⟨by decide, by decide⟩ (by decide) (by rfl),
   by rfl⟩

/-! ## C15: comparison of a child with null -/

/-- C15: for a binary expression with operator `==` or `!=` that compares the reference to
a variable `v` with a null literal, on either side, `writeBinaryExpression` returns; it has
written exactly the placeholder "%s" and pushed exactly one argument, which for `!=` is
`_outer.childProcessor(i) ? "true" : "false"` with `i = getChildFPIndex(v)` and for `==`
the same text after a leading '!'; nothing else of the generator has changed. -/
theorem C15_null_comparison_is_presence_test (env : Environment) (fOffset : Int)
    (fType : SkType) (fLeft : Expression) (fOperator : TokenKind) (fRight : Expression)
    (parentPrecedence : Precedence) (g : CPPCodeGenerator) (v : Variable)
    (o₁ o₂ : Int) (t : SkType)
    (hop : fOperator = TokenKind.TK_EQEQ ∨ fOperator = TokenKind.TK_NEQ)
    (hsides : (fLeft = .variableReference o₁ v ∧ fRight = .nullLiteral o₂ t) ∨
      (fLeft = .nullLiteral o₂ t ∧ fRight = .variableReference o₁ v)) :
    writeBinaryExpression env fOffset fType fLeft fOperator fRight parentPrecedence g
      = Except.ok { g with
          fOut := { g.fOut with fText := g.fOut.fText ++ "%s".toList }
          fFormatArgs := g.fFormatArgs ++ [nullComparisonArgument env fOperator v] } := by
  have hne : ¬ fOperator = TokenKind.TK_PERCENT := by
    rcases hop with h | h <;> rw [h] <;> decide
  unfold writeBinaryExpression writeExpression
  rw [if_neg hne]
  rcases hsides with ⟨hl, hr⟩ | ⟨hl, hr⟩
  · subst hl hr
    rcases hop with h | h <;> subst h <;> rfl
  · subst hl hr
    rcases hop with h | h <;> subst h <;> rfl

/-- C15 at `fp1 != null` and `null == fp1` of Scenario A, where `fp1` has index 1. -/
theorem C15_null_comparison_witness :
    writeBinaryExpression scenarioA 41 boolType (.variableReference 41 fp1Var) .TK_NEQ
        (.nullLiteral 48 nullableFragmentProcessorType) kTernary_Precedence
        (emitCodeState [] [] [])
      = Except.ok (emitCodeState "%s".toList
          ["_outer.childProcessor(1) ? \"true\" : \"false\"".toList] []) ∧
    writeBinaryExpression scenarioA 41 boolType (.nullLiteral 41 nullableFragmentProcessorType)
        .TK_EQEQ (.variableReference 49 fp1Var) kTernary_Precedence (emitCodeState [] [] [])
      = Except.ok (emitCodeState "%s".toList
          ["!_outer.childProcessor(1) ? \"true\" : \"false\"".toList] []) :=
  ⟨C15_null_comparison_is_presence_test scenarioA 41 boolType _ _ _ kTernary_Precedence
      (emitCodeState [] [] []) fp1Var 41 48 nullableFragmentProcessorType (Or.inr rfl)
      (Or.inl ⟨rfl, rfl⟩),
   C15_null_comparison_is_presence_test scenarioA 41 boolType _ _ _ kTernary_Precedence
      (emitCodeState [] [] []) fp1Var 49 41 nullableFragmentProcessorType (Or.inl rfl)
      (Or.inr ⟨rfl, rfl⟩)⟩

/-! ## C16: index into the texture samplers -/

/-- C16: for an index expression whose base is the reference to a variable with the
builtin `SK_TEXTURESAMPLERS_BUILTIN`, `writeIndexExpression` returns. When the index is
the integer literal `k` it has written the one placeholder "%s" and pushed the one argument
that names `args.fTexSamplers[k]`, and the errors are as they were; when the index is not
an integer literal it has reported exactly one error, at the offset of the index. -/
theorem C16_sampler_index_literal_or_error (env : Environment) (fOffset : Int)
    (fType : SkType) (o : Int) (v : Variable) (fIndex : Expression) (g : CPPCodeGenerator)
    (hbuiltin : v.fModifiers.fLayout.fBuiltin = env.SK_TEXTURESAMPLERS_BUILTIN) :
    (∀ k, fIndex.asIntLiteral = some k →
      writeIndexExpression env fOffset fType (.variableReference o v) fIndex g
        = Except.ok { g with
            fOut := { g.fOut with fText := g.fOut.fText ++ "%s".toList }
            fFormatArgs := g.fFormatArgs ++
              [("        fragBuilder->getProgramBuilder()->samplerVariable("
                  ++ "args.fTexSamplers[").toList ++ to_string_int k ++ "])".toList] }) ∧
    (fIndex.asIntLiteral = none →
      writeIndexExpression env fOffset fType (.variableReference o v) fIndex g
        = Except.ok { g with
            fOut := { g.fOut with fText := g.fOut.fText ++ "%s".toList }
            fErrors := g.fErrors ++
              [(fIndex.offset,
                "index into sk_TextureSamplers must be an integer literal".toList)] }) := by
  have hts : isTextureSamplers env (.variableReference o v) = true := by
    simp [isTextureSamplers, Expression.asVariableReference, hbuiltin]
  constructor
  · intro k hk
    unfold writeIndexExpression writeExpression
    rw [if_pos hts]
    unfold writeSamplerIndex
    rw [hk]
    rfl
  · intro hk
    unfold writeIndexExpression writeExpression
    rw [if_pos hts]
    unfold writeSamplerIndex
    rw [hk]
    rfl

/-- C16 at `sk_TextureSamplers[2]` and at `sk_TextureSamplers[i]` with a variable `i`. -/
theorem C16_sampler_index_witness :
    writeIndexExpression scenarioA 60 samplerArrayType (.variableReference 60 textureSamplersVar)
        (.intLiteral 79 intType 2) (emitCodeState [] [] [])
      = Except.ok (emitCodeState "%s".toList
          [("        fragBuilder->getProgramBuilder()->samplerVariable("
              ++ "args.fTexSamplers[2])").toList] []) ∧
    writeIndexExpression scenarioA 60 samplerArrayType (.variableReference 60 textureSamplersVar)
        (.variableReference 79 loopIndexVar) (emitCodeState [] [] [])
      = Except.ok { emitCodeState "%s".toList [] [] with
          fErrors := [(79, "index into sk_TextureSamplers must be an integer literal".toList)] } :=
  ⟨(C16_sampler_index_literal_or_error scenarioA 60 samplerArrayType 60 textureSamplersVar
      (.intLiteral 79 intType 2) (emitCodeState [] [] []) (by rfl)).1 2 rfl,
   (C16_sampler_index_literal_or_error scenarioA 60 samplerArrayType 60 textureSamplersVar
      (.variableReference 79 loopIndexVar) (emitCodeState [] [] []) (by rfl)).2 rfl⟩

/-! ## C18, C20: the key code of one variable -/

theorem afterErrors_write (X : List (Int × Text)) (s : Text) (g : CPPCodeGenerator) :
    (g.afterErrors X).write s = (g.write s).afterErrors X := rfl

theorem afterErrors_pushFormatArg (X : List (Int × Text)) (a : Text) (g : CPPCodeGenerator) :
    (g.afterErrors X).pushFormatArg a = (g.pushFormatArg a).afterErrors X := rfl

theorem afterErrors_error (X : List (Int × Text)) (o : Int) (m : Text)
    (g : CPPCodeGenerator) : (g.afterErrors X).error o m = (g.error o m).afterErrors X := by
  unfold CPPCodeGenerator.afterErrors CPPCodeGenerator.error
  simp only [List.append_assoc]

theorem afterErrors_writeIf (X : List (Int × Text)) (c : Prop) [Decidable c] (s : Text)
    (g : CPPCodeGenerator) :
    (if c then (g.afterErrors X).write s else g.afterErrors X)
      = (if c then g.write s else g).afterErrors X := by
  by_cases h : c
  · rw [if_pos h, if_pos h]; rfl
  · rw [if_neg h, if_neg h]

theorem writeRuntimeValue_afterErrors (X : List (Int × Text)) (type : SkType)
    (layout : Layout) (cppCode : Text) (g : CPPCodeGenerator) :
    writeRuntimeValue type layout cppCode (g.afterErrors X)
      = (writeRuntimeValue type layout cppCode g).map (CPPCodeGenerator.afterErrors X) := by
  unfold writeRuntimeValue
  show (formatRuntimeValue type layout cppCode g.fFormatArgs >>= _) = _
  cases formatRuntimeValue type layout cppCode g.fFormatArgs <;> rfl

theorem writeVariableReference_afterErrors (X : List (Int × Text)) (env : Environment)
    (v : Variable) (g : CPPCodeGenerator) :
    writeVariableReference env v (g.afterErrors X)
      = (writeVariableReference env v g).map (CPPCodeGenerator.afterErrors X) := by
  unfold writeVariableReference
  show (if g.fCPPMode = true then _ else _) = _
  by_cases h1 : g.fCPPMode = true
  · rw [if_pos h1, if_pos h1]; rfl
  rw [if_neg h1, if_neg h1]
  by_cases h2 : v.fModifiers.fLayout.fBuiltin = env.SK_OUTCOLOR_BUILTIN
  · rw [if_pos h2, if_pos h2]; rfl
  rw [if_neg h2, if_neg h2]
  by_cases h3 : v.fModifiers.fLayout.fBuiltin = env.SK_MAIN_COORDS_BUILTIN
  · rw [if_pos h3, if_pos h3]; rfl
  rw [if_neg h3, if_neg h3]
  by_cases h4 : v.fModifiers.fLayout.fBuiltin = env.SK_WIDTH_BUILTIN
  · rw [if_pos h4, if_pos h4]; rfl
  rw [if_neg h4, if_neg h4]
  by_cases h5 : v.fModifiers.fLayout.fBuiltin = env.SK_HEIGHT_BUILTIN
  · rw [if_pos h5, if_pos h5]; rfl
  rw [if_neg h5, if_neg h5]
  by_cases h6 : v.fType.kind = TypeKind.kSampler_Kind
  · rw [if_pos h6, if_pos h6]
    cases getSamplerHandle env v <;> rfl
  rw [if_neg h6, if_neg h6]
  by_cases h7 : v.fModifiers.fUniform = true
  · rw [if_pos h7, if_pos h7]
    by_cases h8 : v.fModifiers.fLayout.fWhen.length ≠ 0
    · rw [if_pos h8, if_pos h8]
      cases default_value v.fType <;> rfl
    · rw [if_neg h8, if_neg h8]; rfl
  rw [if_neg h7, if_neg h7]
  by_cases h9 : env.IsParameter v = true
  · rw [if_pos h9, if_pos h9]
    exact writeRuntimeValue_afterErrors X _ _ _ g
  · rw [if_neg h9, if_neg h9]; rfl

theorem addExtraEmitCodeLine_afterErrors (X : List (Int × Text)) (l : Text)
    (g : CPPCodeGenerator) :
    addExtraEmitCodeLine l (g.afterErrors X)
      = (addExtraEmitCodeLine l g).map (CPPCodeGenerator.afterErrors X) := by
  unfold addExtraEmitCodeLine
  show (match g.fExtraEmitCodeBlocks.getLast? with
        | none => _
        | some currentBlock => _) = _
  cases g.fExtraEmitCodeBlocks.getLast? <;> rfl

theorem stripTokensLoop_afterErrors (X : List (Int × Text)) (expr : Text) :
    ∀ (n i : Nat) (tokenStart : Int) (exprFormat : Text) (g : CPPCodeGenerator),
      stripTokensLoop n expr i tokenStart exprFormat (g.afterErrors X)
        = ((stripTokensLoop n expr i tokenStart exprFormat g).1,
           (stripTokensLoop n expr i tokenStart exprFormat g).2.afterErrors X)
  | 0, _, _, _, _ => by
    unfold stripTokensLoop
    rfl
  | n + 1, i, tokenStart, exprFormat, g => by
    unfold stripTokensLoop
    split
    · split
      · split
        · rw [afterErrors_write, stripTokensLoop_afterErrors X expr n]
        · rw [stripTokensLoop_afterErrors X expr n]
      · split
        · rw [stripTokensLoop_afterErrors X expr n]
        · rw [stripTokensLoop_afterErrors X expr n]
    · rfl

theorem convertWith_afterErrors (X : List (Int × Text)) (w : Writer)
    (hw : ∀ p g, w p (g.afterErrors X) = (w p g).map (CPPCodeGenerator.afterErrors X))
    (cppVar : Text) (g : CPPCodeGenerator) :
    convertSKSLExpressionToCPPWith w cppVar (g.afterErrors X)
      = (convertSKSLExpressionToCPPWith w cppVar g).map
          (fun r => (r.1, r.2.afterErrors X)) := by
  unfold convertSKSLExpressionToCPPWith
  have h := hw kTopLevel_Precedence
    { g with fOut := { fId := g.fStreams, fText := [] }, fStreams := g.fStreams + 1,
             fFormatArgs := [] }
  show (w kTopLevel_Precedence
      (CPPCodeGenerator.afterErrors X
        { g with fOut := { fId := g.fStreams, fText := [] }, fStreams := g.fStreams + 1,
                 fFormatArgs := [] }) >>= _)
    = Except.map _ (w kTopLevel_Precedence
        { g with fOut := { fId := g.fStreams, fText := [] }, fStreams := g.fStreams + 1,
                 fFormatArgs := [] } >>= _)
  rw [h]
  cases w kTopLevel_Precedence
      { g with fOut := { fId := g.fStreams, fText := [] }, fStreams := g.fStreams + 1,
               fFormatArgs := [] } with
  | error f => rfl
  | ok g2 =>
    have hs := stripTokensLoop_afterErrors X g2.fOut.fText g2.fOut.fText.length 0 (-1) []
      { g2 with fFormatArgs := g.fFormatArgs, fOut := g.fOut }
    exact congrArg
      (fun r : Text × CPPCodeGenerator => Except.ok (buildCppExpr cppVar r.1 g2.fFormatArgs, r.2))
      hs

theorem addConvertedLine_afterErrors (X : List (Int × Text)) (w : Writer)
    (hw : ∀ p g, w p (g.afterErrors X) = (w p g).map (CPPCodeGenerator.afterErrors X))
    (cppVar : Text) (g : CPPCodeGenerator) :
    addConvertedLine w cppVar (g.afterErrors X)
      = (addConvertedLine w cppVar g).map (CPPCodeGenerator.afterErrors X) := by
  unfold addConvertedLine
  rw [convertWith_afterErrors X w hw]
  cases convertSKSLExpressionToCPPWith w cppVar g with
  | error f => rfl
  | ok r => exact addExtraEmitCodeLine_afterErrors X r.1 r.2

theorem sampleInputColor_afterErrors (X : List (Int × Text)) (fOffset : Int)
    (fArguments : List (Expression × Writer))
    (hw : ∀ x ∈ fArguments, ∀ p g,
      x.2 p (g.afterErrors X) = (x.2 p g).map (CPPCodeGenerator.afterErrors X))
    (g : CPPCodeGenerator) :
    sampleInputColor fOffset fArguments (g.afterErrors X)
      = (sampleInputColor fOffset fArguments g).map (fun r => (r.1, r.2.afterErrors X)) := by
  unfold sampleInputColor
  cases h : fArguments[1]? with
  | none => rfl
  | some a1 =>
    have hmem : a1 ∈ fArguments := List.getElem?_mem h
    show (if a1.1.type.name = "half4".toList then _ else _) = _
    by_cases ht : a1.1.type.name = "half4".toList
    · rw [if_pos ht]
      show _ = Except.map _ (if a1.1.type.name = "half4".toList then _ else _)
      rw [if_pos ht]
      show (addConvertedLine a1.2 _ (CPPCodeGenerator.afterErrors X g) >>= _)
        = Except.map _ (addConvertedLine a1.2 _ g >>= _)
      rw [addConvertedLine_afterErrors X a1.2 (hw a1 hmem)]
      cases addConvertedLine a1.2 ("_input".toList ++ to_string_int fOffset) g <;> rfl
    · rw [if_neg ht]
      show _ = Except.map _ (if a1.1.type.name = "half4".toList then _ else _)
      rw [if_neg ht]
      rfl

theorem sampleInputCoord_afterErrors (X : List (Int × Text)) (env : Environment)
    (fOffset : Int) (fArguments : List (Expression × Writer)) (child : Variable)
    (hw : ∀ x ∈ fArguments, ∀ p g,
      x.2 p (g.afterErrors X) = (x.2 p g).map (CPPCodeGenerator.afterErrors X))
    (g : CPPCodeGenerator) :
    sampleInputCoord env fOffset fArguments child (g.afterErrors X)
      = (sampleInputCoord env fOffset fArguments child g).map
          (fun r => (r.1, r.2.afterErrors X)) := by
  unfold sampleInputCoord
  cases h : fArguments.getLast? with
  | none => rfl
  | some aLast =>
    have hmem : aLast ∈ fArguments := List.mem_of_getLast?_eq_some h
    show (if aLast.1.type.name = "float2".toList then _ else _)
      = Except.map _ (if aLast.1.type.name = "float2".toList then _ else _)
    by_cases h2 : aLast.1.type.name = "float2".toList
    · rw [if_pos h2, if_pos h2]
      show (addConvertedLine aLast.2 _ (CPPCodeGenerator.afterErrors X g) >>= _)
        = Except.map _ (addConvertedLine aLast.2 _ g >>= _)
      rw [addConvertedLine_afterErrors X aLast.2 (hw aLast hmem)]
      cases addConvertedLine aLast.2 ("_coords".toList ++ to_string_int fOffset) g <;> rfl
    · rw [if_neg h2, if_neg h2]
      by_cases h3 : aLast.1.type.name = "float3x3".toList
      · rw [if_pos h3, if_pos h3]
        by_cases hm : ¬ env.hasUniformMatrix child = true
        · rw [if_pos hm, if_pos hm]
          show (addConvertedLine aLast.2 _ (CPPCodeGenerator.afterErrors X g) >>= _)
            = Except.map _ (addConvertedLine aLast.2 _ g >>= _)
          rw [addConvertedLine_afterErrors X aLast.2 (hw aLast hmem)]
          cases addConvertedLine aLast.2 ("_matrix".toList ++ to_string_int fOffset) g <;> rfl
        · rw [if_neg hm, if_neg hm]; rfl
      · rw [if_neg h3, if_neg h3]; rfl

theorem writeSampleChild_afterErrors (X : List (Int × Text)) (env : Environment)
    (fOffset : Int) (fArguments : List (Expression × Writer)) (child : Variable)
    (hw : ∀ x ∈ fArguments, ∀ p g,
      x.2 p (g.afterErrors X) = (x.2 p g).map (CPPCodeGenerator.afterErrors X))
    (g : CPPCodeGenerator) :
    writeSampleChild env fOffset fArguments child (g.afterErrors X)
      = (writeSampleChild env fOffset fArguments child g).map
          (CPPCodeGenerator.afterErrors X) := by
  unfold writeSampleChild
  show (sampleInputColor fOffset fArguments
      (CPPCodeGenerator.afterErrors X (newExtraEmitCodeBlock g)) >>= _)
    = Except.map _ (sampleInputColor fOffset fArguments (newExtraEmitCodeBlock g) >>= _)
  rw [sampleInputColor_afterErrors X fOffset fArguments hw]
  cases sampleInputColor fOffset fArguments (newExtraEmitCodeBlock g) with
  | error f => rfl
  | ok color =>
    show (sampleInputCoord env fOffset fArguments child
        (CPPCodeGenerator.afterErrors X color.2) >>= _)
      = Except.map _ (sampleInputCoord env fOffset fArguments child color.2 >>= _)
    rw [sampleInputCoord_afterErrors X env fOffset fArguments child hw]
    cases sampleInputCoord env fOffset fArguments child color.2 with
    | error f => rfl
    | ok coord =>
      show (addExtraEmitCodeLine _ (CPPCodeGenerator.afterErrors X coord.2) >>= _)
        = Except.map _ (addExtraEmitCodeLine _ coord.2 >>= _)
      rw [addExtraEmitCodeLine_afterErrors X]
      cases addExtraEmitCodeLine
        ("SkString ".toList ++ ("_sample".toList ++ to_string_int fOffset)
          ++ " = this->".toList ++ coord.1.2 ++ "(".toList
          ++ to_string (getChildFPIndex env child) ++ color.1 ++ ", args".toList
          ++ (if coord.1.1 ≠ [] then ", ".toList ++ coord.1.1 else coord.1.1)
          ++ ");".toList) coord.2 <;> rfl

theorem writeArgumentList_afterErrors (X : List (Int × Text)) :
    ∀ (fArguments : List (Expression × Writer)),
      (∀ x ∈ fArguments, ∀ p g,
        x.2 p (g.afterErrors X) = (x.2 p g).map (CPPCodeGenerator.afterErrors X)) →
      ∀ (separator : Text) (g : CPPCodeGenerator),
        writeArgumentList fArguments separator (g.afterErrors X)
          = (writeArgumentList fArguments separator g).map (CPPCodeGenerator.afterErrors X)
  | [], _, _, _ => rfl
  | (e, w) :: rest, hw, separator, g => by
    unfold writeArgumentList
    have h : w kSequence_Precedence (CPPCodeGenerator.afterErrors X (g.write separator))
        = (w kSequence_Precedence (g.write separator)).map (CPPCodeGenerator.afterErrors X) :=
      hw (e, w) (List.mem_cons_self _ _) _ _
    rw [afterErrors_write, h]
    cases w kSequence_Precedence (g.write separator) with
    | error f => rfl
    | ok g1 =>
      exact writeArgumentList_afterErrors X rest
        (fun y hy => hw y (List.mem_cons_of_mem _ hy)) _ g1

theorem writeFunctionCallWith_afterErrors (X : List (Int × Text)) (env : Environment)
    (fOffset : Int) (fFunction : FunctionDeclaration)
    (fArguments : List (Expression × Writer))
    (hw : ∀ x ∈ fArguments, ∀ p g,
      x.2 p (g.afterErrors X) = (x.2 p g).map (CPPCodeGenerator.afterErrors X))
    (g : CPPCodeGenerator) :
    writeFunctionCallWith env fOffset fFunction fArguments (g.afterErrors X)
      = (writeFunctionCallWith env fOffset fFunction fArguments g).map
          (CPPCodeGenerator.afterErrors X) := by
  unfold writeFunctionCallWith
  by_cases h1 : fFunction.fBuiltin = true ∧ fFunction.fName = "sample".toList
  · rw [if_pos h1, if_pos h1]
    cases h0 : fArguments.head? with
    | none => rfl
    | some arg0 =>
      show (if arg0.1.type.kind ≠ TypeKind.kSampler_Kind then _ else _)
        = Except.map _ (if arg0.1.type.kind ≠ TypeKind.kSampler_Kind then _ else _)
      by_cases h2 : arg0.1.type.kind ≠ TypeKind.kSampler_Kind
      · rw [if_pos h2, if_pos h2]
        cases h3 : arg0.1.asVariableReference with
        | none =>
          show Except.ok ((CPPCodeGenerator.afterErrors X g).error _ _) = _
          rw [afterErrors_error]
          rfl
        | some child => exact writeSampleChild_afterErrors X env fOffset fArguments child hw g
      · rw [if_neg h2, if_neg h2]
        show (writeArgumentList fArguments []
            ((CPPCodeGenerator.afterErrors X g).write _) >>= _)
          = Except.map _ (writeArgumentList fArguments [] (g.write _) >>= _)
        rw [afterErrors_write, writeArgumentList_afterErrors X fArguments hw]
        cases writeArgumentList fArguments [] (g.write (fFunction.fName ++ "(".toList)) with
        | error f => rfl
        | ok g2 =>
          cases h3 : arg0.1.asVariableReference with
          | none => rfl
          | some v =>
            show (getSamplerHandle env v >>= _) = Except.map _ (getSamplerHandle env v >>= _)
            cases getSamplerHandle env v <;> rfl
  · rw [if_neg h1, if_neg h1]
    by_cases h2 : fFunction.fBuiltin = true
    · rw [if_pos h2, if_pos h2]
      show (writeArgumentList fArguments []
          ((CPPCodeGenerator.afterErrors X g).write _) >>= _)
        = Except.map _ (writeArgumentList fArguments [] (g.write _) >>= _)
      rw [afterErrors_write, writeArgumentList_afterErrors X fArguments hw]
      cases writeArgumentList fArguments [] (g.write (fFunction.fName ++ "(".toList)) <;> rfl
    · rw [if_neg h2, if_neg h2]
      show (writeArgumentList fArguments []
          (CPPCodeGenerator.afterErrors X
            (((g.write "%s".toList).pushFormatArg
              (fFunction.fName ++ "_name.c_str()".toList)).write "(".toList)) >>= _)
        = Except.map _ (writeArgumentList fArguments []
            (((g.write "%s".toList).pushFormatArg
              (fFunction.fName ++ "_name.c_str()".toList)).write "(".toList) >>= _)
      rw [writeArgumentList_afterErrors X fArguments hw]
      cases writeArgumentList fArguments []
        (((g.write "%s".toList).pushFormatArg
          (fFunction.fName ++ "_name.c_str()".toList)).write "(".toList) <;> rfl

theorem writeNullComparison_afterErrors (X : List (Int × Text)) (env : Environment)
    (fLeft : Expression) (fOperator : TokenKind) (fRight : Expression)
    (g : CPPCodeGenerator) :
    writeNullComparison env fLeft fOperator fRight (g.afterErrors X)
      = (writeNullComparison env fLeft fOperator fRight g).map
          (CPPCodeGenerator.afterErrors X) := by
  unfold writeNullComparison
  cases (if ¬ fLeft.isNullLiteral = true then fLeft.asVariableReference
         else fRight.asVariableReference) <;> rfl

theorem writeSamplerIndex_afterErrors (X : List (Int × Text)) (fIndex : Expression)
    (g : CPPCodeGenerator) :
    writeSamplerIndex fIndex (g.afterErrors X)
      = (writeSamplerIndex fIndex g).afterErrors X := by
  unfold writeSamplerIndex
  cases fIndex.asIntLiteral with
  | none =>
    exact afterErrors_error X fIndex.offset
      "index into sk_TextureSamplers must be an integer literal".toList (g.write "%s".toList)
  | some k => rfl

theorem writeSwizzleAccessor_afterErrors (X : List (Int × Text)) (fComponents : List Nat)
    (g : CPPCodeGenerator) :
    writeSwizzleAccessor fComponents (g.afterErrors X)
      = (writeSwizzleAccessor fComponents g).map (CPPCodeGenerator.afterErrors X) := by
  unfold writeSwizzleAccessor
  cases fComponents[0]? with
  | none => rfl
  | some c =>
    match c with
    | 0 => rfl
    | 1 => rfl
    | 2 => rfl
    | 3 => rfl
    | _ + 4 => rfl

theorem writeChildFieldAccess_afterErrors (X : List (Int × Text)) (env : Environment)
    (fBase : Expression) (fFieldIndex : Nat) (g : CPPCodeGenerator) :
    writeChildFieldAccess env fBase fFieldIndex (g.afterErrors X)
      = (writeChildFieldAccess env fBase fFieldIndex g).map
          (CPPCodeGenerator.afterErrors X) := by
  unfold writeChildFieldAccess
  cases fBase.asVariableReference with
  | none =>
    show Except.ok ((CPPCodeGenerator.afterErrors X g).error _ _) = _
    rw [afterErrors_error]
    rfl
  | some var =>
    cases env.fFragmentProcessorFields[fFieldIndex]? with
    | none => rfl
    | some field =>
      show (if g.fCPPMode = true then _ else _)
        = Except.map _ (if g.fCPPMode = true then _ else _)
      by_cases hc : g.fCPPMode = true
      · rw [if_pos hc, if_pos hc]; rfl
      · rw [if_neg hc, if_neg hc]
        exact writeRuntimeValue_afterErrors X _ _ _ g

mutual
/-- Rendering an expression does not read the errors reported before it: from a generator
with the errors `X` in front it does what it does without them, and leaves `X` in front. -/
theorem writeExpression_afterErrors (X : List (Int × Text)) (env : Environment) :
    ∀ (e : Expression) (p : Precedence) (g : CPPCodeGenerator),
      writeExpression env e p (g.afterErrors X)
        = (writeExpression env e p g).map (CPPCodeGenerator.afterErrors X)
  | .binary _ _ fLeft fOperator fRight, p, g => by
    unfold writeExpression
    by_cases h1 : fOperator = TokenKind.TK_PERCENT
    · rw [if_pos h1, if_pos h1, afterErrors_writeIf, writeExpression_afterErrors X env fLeft]
      generalize writeExpression env fLeft _ _ = x
      cases x with
      | error f => rfl
      | ok g2 =>
        show (writeExpression env fRight _ ((CPPCodeGenerator.afterErrors X g2).write _) >>= _)
          = Except.map _ (writeExpression env fRight _ (g2.write _) >>= _)
        rw [afterErrors_write, writeExpression_afterErrors X env fRight]
        generalize writeExpression env fRight _ _ = y
        cases y with
        | error f => rfl
        | ok g4 =>
          exact congrArg Except.ok
            (afterErrors_writeIf X (env.GetBinaryPrecedence fOperator ≥ p) ")".toList g4)
    · rw [if_neg h1, if_neg h1]
      by_cases h2 : fLeft.isNullLiteral = true ∨ fRight.isNullLiteral = true
      · rw [if_pos h2, if_pos h2]
        exact writeNullComparison_afterErrors X env fLeft fOperator fRight g
      · rw [if_neg h2, if_neg h2, afterErrors_writeIf,
          writeExpression_afterErrors X env fLeft]
        generalize writeExpression env fLeft _ _ = x
        cases x with
        | error f => rfl
        | ok g2 =>
          show (writeExpression env fRight _
              ((CPPCodeGenerator.afterErrors X g2).write _) >>= _)
            = Except.map _ (writeExpression env fRight _ (g2.write _) >>= _)
          rw [afterErrors_write, writeExpression_afterErrors X env fRight]
          generalize writeExpression env fRight _ _ = y
          cases y with
          | error f => rfl
          | ok g4 =>
            exact congrArg Except.ok
              (afterErrors_writeIf X (env.GetBinaryPrecedence fOperator ≥ p) ")".toList g4)
  | .nullLiteral _ _, _, _ => by
    unfold writeExpression
    rfl
  | .intLiteral _ _ _, _, _ => by
    unfold writeExpression
    rfl
  | .variableReference _ v, _, g => by
    unfold writeExpression
    exact writeVariableReference_afterErrors X env v g
  | .index _ _ fBase fIndex, _, g => by
    unfold writeExpression
    by_cases h1 : isTextureSamplers env fBase = true
    · rw [if_pos h1, if_pos h1]
      show Except.ok _ = Except.ok _
      rw [writeSamplerIndex_afterErrors]
    · rw [if_neg h1, if_neg h1, writeExpression_afterErrors X env fBase]
      generalize writeExpression env fBase _ _ = x
      cases x with
      | error f => rfl
      | ok g1 =>
        show (writeExpression env fIndex _ ((CPPCodeGenerator.afterErrors X g1).write _) >>= _)
          = Except.map _ (writeExpression env fIndex _ (g1.write _) >>= _)
        rw [afterErrors_write, writeExpression_afterErrors X env fIndex]
        generalize writeExpression env fIndex _ _ = y
        cases y <;> rfl
  | .swizzle _ _ fBase fComponents, _, g => by
    unfold writeExpression
    show (if g.fCPPMode = true then _ else _) = Except.map _ (if g.fCPPMode = true then _ else _)
    by_cases h1 : g.fCPPMode = true
    · rw [if_pos h1, if_pos h1, writeExpression_afterErrors X env fBase]
      generalize writeExpression env fBase _ _ = x
      cases x with
      | error f => rfl
      | ok g1 => exact writeSwizzleAccessor_afterErrors X fComponents g1
    · rw [if_neg h1, if_neg h1, writeExpression_afterErrors X env fBase]
      generalize writeExpression env fBase _ _ = x
      cases x <;> rfl
  | .fieldAccess _ _ fBase fFieldIndex fFieldName, _, g => by
    unfold writeExpression
    by_cases h1 : fBase.type.name = "fragmentProcessor".toList
    · rw [if_pos h1, if_pos h1]
      exact writeChildFieldAccess_afterErrors X env fBase fFieldIndex g
    · rw [if_neg h1, if_neg h1, writeExpression_afterErrors X env fBase]
      generalize writeExpression env fBase _ _ = x
      cases x <;> rfl
  | .functionCall fOffset _ fFunction fArguments, _, g => by
    unfold writeExpression
    exact writeFunctionCallWith_afterErrors X env fOffset fFunction _
      (writeArguments_afterErrors X env fArguments) g
  | .setting _ _ _, _, _ => by
    unfold writeExpression
    rfl
  | .inherited _ _ fPieces, _, g => by
    unfold writeExpression
    exact writePieces_afterErrors X env fPieces g
/-- The writers of the arguments of a call do not read the errors reported before. -/
theorem writeArguments_afterErrors (X : List (Int × Text)) (env : Environment) :
    ∀ (args : Arguments), ∀ x ∈ writeArguments env args,
      ∀ (p : Precedence) (g : CPPCodeGenerator),
        x.2 p (g.afterErrors X) = (x.2 p g).map (CPPCodeGenerator.afterErrors X)
  | .nil => by simp [writeArguments]
  | .cons head tail => by
    intro x hx
    simp only [writeArguments, List.mem_cons] at hx
    rcases hx with rfl | hx
    · exact writeExpression_afterErrors X env head
    · exact writeArguments_afterErrors X env tail x hx
/-- The base class rendering text and operands does not read the errors reported before. -/
theorem writePieces_afterErrors (X : List (Int × Text)) (env : Environment) :
    ∀ (ps : Pieces) (g : CPPCodeGenerator),
      writePieces env ps (g.afterErrors X)
        = (writePieces env ps g).map (CPPCodeGenerator.afterErrors X)
  | .nil, _ => by
    unfold writePieces
    rfl
  | .text t rest, g => by
    unfold writePieces
    rw [afterErrors_write]
    exact writePieces_afterErrors X env rest _
  | .operand e p rest, g => by
    unfold writePieces
    rw [writeExpression_afterErrors X env e]
    generalize writeExpression env e _ _ = x
    cases x with
    | error f => rfl
    | ok g1 => exact writePieces_afterErrors X env rest g1
end

/-! ## The key code and the reported errors -/

theorem returnErrors_error (o : Int) (m : Text) (g : CPPCodeGenerator)
    (hm : m ≠ returnInMainMessage) : (g.error o m).returnErrors = g.returnErrors := by
  unfold CPPCodeGenerator.returnErrors CPPCodeGenerator.error
  simp [List.filter_append, hm]

theorem returnErrors_error_return (o : Int) (g : CPPCodeGenerator) :
    (g.error o returnInMainMessage).returnErrors = g.returnErrors ++ [o] := by
  unfold CPPCodeGenerator.returnErrors CPPCodeGenerator.error
  simp [List.filter_append]

theorem writeRuntimeValue_errors (type : SkType) (layout : Layout) (cppCode : Text)
    (g g' : CPPCodeGenerator) (h : writeRuntimeValue type layout cppCode g = Except.ok g') :
    g'.fErrors = g.fErrors := by
  unfold writeRuntimeValue at h
  rw [Run.bind_eq_ok] at h
  obtain ⟨r, _, h⟩ := h
  rw [Run.pure_eq_ok] at h
  subst h
  rfl

theorem writeVariableReference_errors (env : Environment) (v : Variable)
    (g g' : CPPCodeGenerator) (h : writeVariableReference env v g = Except.ok g') :
    g'.fErrors = g.fErrors := by
  unfold writeVariableReference at h
  repeat' split at h
  all_goals try (rw [Run.pure_eq_ok] at h; subst h)
  · rfl
  · rfl
  · rfl
  · rfl
  · rfl
  · rw [Run.bind_eq_ok] at h
    obtain ⟨hd, _, h⟩ := h
    rw [Run.pure_eq_ok] at h; subst h
    rfl
  · rw [Run.bind_eq_ok] at h
    obtain ⟨hd, _, h⟩ := h
    rw [Run.pure_eq_ok] at h; subst h
    rfl
  · rfl
  · exact writeRuntimeValue_errors _ _ _ _ _ h
  · rfl

theorem stripTokensLoop_errors (expr : Text) :
    ∀ (n i : Nat) (tokenStart : Int) (exprFormat : Text) (g : CPPCodeGenerator),
      (stripTokensLoop n expr i tokenStart exprFormat g).2.fErrors = g.fErrors
  | 0, _, _, _, _ => by
    unfold stripTokensLoop
    rfl
  | n + 1, i, tokenStart, exprFormat, g => by
    unfold stripTokensLoop
    split
    · split
      · split
        · rw [stripTokensLoop_errors expr n]; rfl
        · rw [stripTokensLoop_errors expr n]
      · split
        · rw [stripTokensLoop_errors expr n]
        · rw [stripTokensLoop_errors expr n]
    · rfl

theorem convertWith_returnErrors (w : Writer)
    (hw : ∀ p g g', w p g = Except.ok g' → g'.returnErrors = g.returnErrors)
    (cppVar : Text) (g : CPPCodeGenerator) (r : Text × CPPCodeGenerator)
    (h : convertSKSLExpressionToCPPWith w cppVar g = Except.ok r) :
    r.2.returnErrors = g.returnErrors := by
  unfold convertSKSLExpressionToCPPWith at h
  simp only [Run.bind_eq_ok, Run.pure_eq_ok] at h
  obtain ⟨g2, hg2, h⟩ := h
  subst h
  have h2 := hw _ _ _ hg2
  unfold CPPCodeGenerator.returnErrors at h2 ⊢
  rw [stripTokensLoop_errors]
  exact h2

theorem addExtraEmitCodeLine_errors (l : Text) (g g' : CPPCodeGenerator)
    (h : addExtraEmitCodeLine l g = Except.ok g') : g'.fErrors = g.fErrors := by
  unfold addExtraEmitCodeLine at h
  split at h
  · cases h
  · rw [Run.pure_eq_ok] at h
    subst h
    rfl

theorem addConvertedLine_returnErrors (w : Writer)
    (hw : ∀ p g g', w p g = Except.ok g' → g'.returnErrors = g.returnErrors)
    (cppVar : Text) (g g' : CPPCodeGenerator)
    (h : addConvertedLine w cppVar g = Except.ok g') :
    g'.returnErrors = g.returnErrors := by
  unfold addConvertedLine at h
  rw [Run.bind_eq_ok] at h
  obtain ⟨r, hr, h⟩ := h
  have h1 := convertWith_returnErrors w hw cppVar g r hr
  have h2 := addExtraEmitCodeLine_errors _ _ _ h
  unfold CPPCodeGenerator.returnErrors at h1 ⊢
  rw [h2]
  exact h1

theorem sampleInputColor_returnErrors (fOffset : Int)
    (fArguments : List (Expression × Writer))
    (hw : ∀ x ∈ fArguments, ∀ p g g', x.2 p g = Except.ok g' →
      g'.returnErrors = g.returnErrors)
    (g : CPPCodeGenerator) (r : Text × CPPCodeGenerator)
    (h : sampleInputColor fOffset fArguments g = Except.ok r) :
    r.2.returnErrors = g.returnErrors := by
  unfold sampleInputColor at h
  cases ha : fArguments[1]? with
  | none =>
    rw [ha] at h
    simp only [Run.pure_eq_ok] at h
    subst h
    rfl
  | some a1 =>
    rw [ha] at h
    by_cases ht : a1.1.type.name = "half4".toList
    · simp only [ht, if_true, Run.bind_eq_ok, Run.pure_eq_ok] at h
      obtain ⟨g1, hg1, h⟩ := h
      subst h
      exact addConvertedLine_returnErrors a1.2 (hw a1 (List.getElem?_mem ha)) _ _ _ hg1
    · simp only [ht, if_false, Run.pure_eq_ok] at h
      subst h
      rfl

theorem sampleInputCoord_returnErrors (env : Environment) (fOffset : Int)
    (fArguments : List (Expression × Writer)) (child : Variable)
    (hw : ∀ x ∈ fArguments, ∀ p g g', x.2 p g = Except.ok g' →
      g'.returnErrors = g.returnErrors)
    (g : CPPCodeGenerator) (r : (Text × Text) × CPPCodeGenerator)
    (h : sampleInputCoord env fOffset fArguments child g = Except.ok r) :
    r.2.returnErrors = g.returnErrors := by
  unfold sampleInputCoord at h
  cases ha : fArguments.getLast? with
  | none =>
    rw [ha] at h
    cases h
  | some aLast =>
    rw [ha] at h
    have hmem : aLast ∈ fArguments := List.mem_of_getLast?_eq_some ha
    by_cases h2 : aLast.1.type.name = "float2".toList
    · simp only [h2, if_true, Run.bind_eq_ok, Run.pure_eq_ok] at h
      obtain ⟨g1, hg1, h⟩ := h
      subst h
      exact addConvertedLine_returnErrors aLast.2 (hw aLast hmem) _ _ _ hg1
    · simp only [h2, if_false] at h
      by_cases h3 : aLast.1.type.name = "float3x3".toList
      · simp only [h3, if_true] at h
        by_cases hm : ¬ env.hasUniformMatrix child = true
        · rw [if_pos hm] at h
          simp only [Run.bind_eq_ok, Run.pure_eq_ok] at h
          obtain ⟨g1, hg1, h⟩ := h
          subst h
          exact addConvertedLine_returnErrors aLast.2 (hw aLast hmem) _ _ _ hg1
        · rw [if_neg hm] at h
          simp only [Run.pure_eq_ok] at h
          subst h
          rfl
      · simp only [h3, if_false, Run.pure_eq_ok] at h
        subst h
        rfl

theorem writeSampleChild_returnErrors (env : Environment) (fOffset : Int)
    (fArguments : List (Expression × Writer)) (child : Variable)
    (hw : ∀ x ∈ fArguments, ∀ p g g', x.2 p g = Except.ok g' →
      g'.returnErrors = g.returnErrors)
    (g g' : CPPCodeGenerator)
    (h : writeSampleChild env fOffset fArguments child g = Except.ok g') :
    g'.returnErrors = g.returnErrors := by
  unfold writeSampleChild at h
  simp only [Run.bind_eq_ok, Run.pure_eq_ok] at h
  obtain ⟨color, hcolor, coord, hcoord, g2, hg2, h⟩ := h
  subst h
  have h1 := sampleInputColor_returnErrors fOffset fArguments hw _ _ hcolor
  have h2 := sampleInputCoord_returnErrors env fOffset fArguments child hw _ _ hcoord
  have h3 := addExtraEmitCodeLine_errors _ _ _ hg2
  have h4 : g2.returnErrors = coord.2.returnErrors := by
    unfold CPPCodeGenerator.returnErrors
    rw [h3]
  exact ((h4.trans h2).trans h1)

theorem writeArgumentList_returnErrors :
    ∀ (fArguments : List (Expression × Writer)),
      (∀ x ∈ fArguments, ∀ p g g', x.2 p g = Except.ok g' →
        g'.returnErrors = g.returnErrors) →
      ∀ (separator : Text) (g g' : CPPCodeGenerator),
        writeArgumentList fArguments separator g = Except.ok g' →
        g'.returnErrors = g.returnErrors
  | [], _, _, g, g', h => by
    unfold writeArgumentList at h
    rw [Run.pure_eq_ok] at h
    subst h
    rfl
  | x :: rest, hw, separator, g, g', h => by
    unfold writeArgumentList at h
    rw [Run.bind_eq_ok] at h
    obtain ⟨g1, hg1, h⟩ := h
    have h1 := hw x (List.mem_cons_self _ _) _ _ _ hg1
    have h2 := writeArgumentList_returnErrors rest
      (fun y hy => hw y (List.mem_cons_of_mem _ hy)) _ _ _ h
    exact h2.trans h1

theorem writeFunctionCallWith_returnErrors (env : Environment) (fOffset : Int)
    (fFunction : FunctionDeclaration) (fArguments : List (Expression × Writer))
    (hw : ∀ x ∈ fArguments, ∀ p g g', x.2 p g = Except.ok g' →
      g'.returnErrors = g.returnErrors)
    (g g' : CPPCodeGenerator)
    (h : writeFunctionCallWith env fOffset fFunction fArguments g = Except.ok g') :
    g'.returnErrors = g.returnErrors := by
  unfold writeFunctionCallWith at h
  split at h
  · split at h
    · cases h
    · split at h
      · split at h
        · rw [Run.pure_eq_ok] at h
          subst h
          exact returnErrors_error _ _ _ (by decide)
        · exact writeSampleChild_returnErrors env fOffset fArguments _ hw g g' h
      · simp only [Run.bind_eq_ok] at h
        obtain ⟨g2, hg2, h⟩ := h
        have h2 := writeArgumentList_returnErrors fArguments hw _ _ _ hg2
        split at h
        · cases h
        · simp only [Run.bind_eq_ok] at h
          obtain ⟨sampler, _, h⟩ := h
          rw [Run.pure_eq_ok] at h
          subst h
          exact h2
  · split at h
    · simp only [Run.bind_eq_ok] at h
      obtain ⟨g2, hg2, h⟩ := h
      rw [Run.pure_eq_ok] at h
      subst h
      have h2 := writeArgumentList_returnErrors fArguments hw _ _ _ hg2
      exact h2
    · simp only [Run.bind_eq_ok] at h
      obtain ⟨g2, hg2, h⟩ := h
      rw [Run.pure_eq_ok] at h
      subst h
      have h2 := writeArgumentList_returnErrors fArguments hw _ _ _ hg2
      exact h2

theorem writeNullComparison_errors (env : Environment) (fLeft : Expression)
    (fOperator : TokenKind) (fRight : Expression) (g g' : CPPCodeGenerator)
    (h : writeNullComparison env fLeft fOperator fRight g = Except.ok g') :
    g'.fErrors = g.fErrors := by
  unfold writeNullComparison at h
  split at h
  · cases h
  · rw [Run.pure_eq_ok] at h
    subst h
    rfl

theorem writeSamplerIndex_returnErrors (fIndex : Expression) (g : CPPCodeGenerator) :
    (writeSamplerIndex fIndex g).returnErrors = g.returnErrors := by
  unfold writeSamplerIndex
  split
  · exact returnErrors_error _ _ _ (by decide)
  · rfl

theorem writeSwizzleAccessor_errors (fComponents : List Nat) (g g' : CPPCodeGenerator)
    (h : writeSwizzleAccessor fComponents g = Except.ok g') : g'.fErrors = g.fErrors := by
  unfold writeSwizzleAccessor at h
  split at h
  · cases h
  all_goals
    rw [Run.pure_eq_ok] at h
    subst h
    rfl

theorem writeChildFieldAccess_returnErrors (env : Environment) (fBase : Expression)
    (fFieldIndex : Nat) (g g' : CPPCodeGenerator)
    (h : writeChildFieldAccess env fBase fFieldIndex g = Except.ok g') :
    g'.returnErrors = g.returnErrors := by
  unfold writeChildFieldAccess at h
  split at h
  · rw [Run.pure_eq_ok] at h
    subst h
    exact returnErrors_error _ _ _ (by decide)
  · split at h
    · cases h
    · split at h
      · rw [Run.pure_eq_ok] at h
        subst h
        rfl
      · unfold CPPCodeGenerator.returnErrors
        rw [writeRuntimeValue_errors _ _ _ _ _ h]

theorem returnErrors_writeIf (c : Prop) [Decidable c] (s : Text) (g : CPPCodeGenerator) :
    (if c then g.write s else g).returnErrors = g.returnErrors := by
  split <;> rfl

mutual
/-- Rendering an expression reports no error with the message of a return in `main`. -/
theorem writeExpression_returnErrors (env : Environment) :
    ∀ (e : Expression) (p : Precedence) (g g' : CPPCodeGenerator),
      writeExpression env e p g = Except.ok g' → g'.returnErrors = g.returnErrors
  | .binary _ _ fLeft fOperator fRight, p, g, g', h => by
    unfold writeExpression at h
    split at h
    · simp only [Run.bind_eq_ok] at h
      obtain ⟨g2, hg2, g4, hg4, h⟩ := h
      rw [Run.pure_eq_ok] at h
      subst h
      have h2 := writeExpression_returnErrors env fLeft _ _ _ hg2
      have h4 := writeExpression_returnErrors env fRight _ _ _ hg4
      exact (((returnErrors_writeIf _ _ _).trans h4).trans h2).trans
        (returnErrors_writeIf _ _ _)
    · split at h
      · unfold CPPCodeGenerator.returnErrors
        rw [writeNullComparison_errors _ _ _ _ _ _ h]
      · simp only [Run.bind_eq_ok] at h
        obtain ⟨g2, hg2, g4, hg4, h⟩ := h
        rw [Run.pure_eq_ok] at h
        subst h
        have h2 := writeExpression_returnErrors env fLeft _ _ _ hg2
        have h4 := writeExpression_returnErrors env fRight _ _ _ hg4
        exact (((returnErrors_writeIf _ _ _).trans h4).trans h2).trans
          (returnErrors_writeIf _ _ _)
  | .nullLiteral _ _, _, _, _, h => by
    unfold writeExpression at h
    cases h
  | .intLiteral _ _ _, _, g, g', h => by
    unfold writeExpression at h
    rw [Run.pure_eq_ok] at h
    subst h
    rfl
  | .variableReference _ v, _, g, g', h => by
    unfold writeExpression at h
    unfold CPPCodeGenerator.returnErrors
    rw [writeVariableReference_errors env v g g' h]
  | .index _ _ fBase fIndex, _, g, g', h => by
    unfold writeExpression at h
    split at h
    · rw [Run.pure_eq_ok] at h
      subst h
      exact writeSamplerIndex_returnErrors _ _
    · simp only [Run.bind_eq_ok] at h
      obtain ⟨g1, hg1, g2, hg2, h⟩ := h
      rw [Run.pure_eq_ok] at h
      subst h
      have h1 := writeExpression_returnErrors env fBase _ _ _ hg1
      have h2 := writeExpression_returnErrors env fIndex _ _ _ hg2
      exact h2.trans h1
  | .swizzle _ _ fBase fComponents, _, g, g', h => by
    unfold writeExpression at h
    split at h
    · simp only [Run.bind_eq_ok] at h
      obtain ⟨g1, hg1, h⟩ := h
      have h1 := writeExpression_returnErrors env fBase _ _ _ hg1
      have h2 := writeSwizzleAccessor_errors _ _ _ h
      unfold CPPCodeGenerator.returnErrors at h1 ⊢
      rw [h2]
      exact h1
    · simp only [Run.bind_eq_ok] at h
      obtain ⟨g1, hg1, h⟩ := h
      rw [Run.pure_eq_ok] at h
      subst h
      have h1 := writeExpression_returnErrors env fBase _ _ _ hg1
      exact h1
  | .fieldAccess _ _ fBase fFieldIndex fFieldName, _, g, g', h => by
    unfold writeExpression at h
    split at h
    · exact writeChildFieldAccess_returnErrors _ _ _ _ _ h
    · simp only [Run.bind_eq_ok] at h
      obtain ⟨g1, hg1, h⟩ := h
      rw [Run.pure_eq_ok] at h
      subst h
      have h1 := writeExpression_returnErrors env fBase _ _ _ hg1
      exact h1
  | .functionCall fOffset _ fFunction fArguments, _, g, g', h => by
    unfold writeExpression at h
    exact writeFunctionCallWith_returnErrors env fOffset fFunction _
      (writeArguments_returnErrors env fArguments) g g' h
  | .setting _ _ _, _, g, g', h => by
    unfold writeExpression at h
    rw [Run.pure_eq_ok] at h
    subst h
    rfl
  | .inherited _ _ fPieces, _, g, g', h => by
    unfold writeExpression at h
    exact writePieces_returnErrors env fPieces g g' h
/-- The writers of the arguments of a call report no error with that message. -/
theorem writeArguments_returnErrors (env : Environment) :
    ∀ (args : Arguments), ∀ x ∈ writeArguments env args,
      ∀ (p : Precedence) (g g' : CPPCodeGenerator), x.2 p g = Except.ok g' →
        g'.returnErrors = g.returnErrors
  | .nil => by simp [writeArguments]
  | .cons head tail => by
    intro x hx
    simp only [writeArguments, List.mem_cons] at hx
    rcases hx with rfl | hx
    · exact writeExpression_returnErrors env head
    · exact writeArguments_returnErrors env tail x hx
/-- The base class rendering text and operands reports no error with that message. -/
theorem writePieces_returnErrors (env : Environment) :
    ∀ (ps : Pieces) (g g' : CPPCodeGenerator),
      writePieces env ps g = Except.ok g' → g'.returnErrors = g.returnErrors
  | .nil, g, g', h => by
    unfold writePieces at h
    rw [Run.pure_eq_ok] at h
    subst h
    rfl
  | .text t rest, g, g', h => by
    unfold writePieces at h
    have h1 := writePieces_returnErrors env rest _ _ h
    exact h1
  | .operand e p rest, g, g', h => by
    unfold writePieces at h
    rw [Run.bind_eq_ok] at h
    obtain ⟨g1, hg1, h⟩ := h
    exact (writePieces_returnErrors env rest _ _ h).trans
      (writeExpression_returnErrors env e _ _ _ hg1)
end

theorem writeVarInitializer_returnErrors (env : Environment) (var : Variable)
    (value : Expression) (g g' : CPPCodeGenerator)
    (h : writeVarInitializer env var value g = Except.ok g') :
    g'.fInMain = g.fInMain ∧ g'.returnErrors = g.returnErrors := by
  unfold writeVarInitializer at h
  split at h
  · refine ⟨(writeRuntimeValue_extends _ _ _ _ _ h).inMain, ?_⟩
    unfold CPPCodeGenerator.returnErrors
    rw [writeRuntimeValue_errors _ _ _ _ _ h]
  · exact ⟨(writeExpression_extends env _ _ _ _ h).inMain,
      writeExpression_returnErrors env _ _ _ _ h⟩

theorem writeReturnStatement_spec (env : Environment) (fOffset : Int)
    (fExpression : Option Expression) (g g' : CPPCodeGenerator)
    (h : writeReturnStatement env fOffset fExpression g = Except.ok g') :
    g'.fInMain = g.fInMain ∧
      g'.returnErrors = g.returnErrors ++ (if g.fInMain = true then [fOffset] else []) ∧
      ∃ mid, g'.fOut.fText = g.fOut.fText ++ "return".toList ++ mid ++ ";".toList := by
  have hstart : (if g.fInMain = true then g.error fOffset returnInMainMessage else g).fInMain
        = g.fInMain ∧
      (if g.fInMain = true then g.error fOffset returnInMainMessage else g).returnErrors
        = g.returnErrors ++ (if g.fInMain = true then [fOffset] else []) ∧
      (if g.fInMain = true then g.error fOffset returnInMainMessage else g).fOut.fText
        = g.fOut.fText := by
    by_cases hm : g.fInMain = true
    · rw [if_pos hm, if_pos hm]
      exact ⟨rfl, returnErrors_error_return _ _, rfl⟩
    · rw [if_neg hm, if_neg hm, List.append_nil]
      exact ⟨rfl, rfl, rfl⟩
  obtain ⟨hs1, hs2, hs3⟩ := hstart
  unfold writeReturnStatement at h
  cases fExpression with
  | none =>
    simp only [Run.pure_eq_ok] at h
    subst h
    refine ⟨hs1, hs2, [], ?_⟩
    show (_ ++ "return".toList) ++ ";".toList = _
    rw [hs3, List.append_nil]
  | some e =>
    simp only [Run.bind_eq_ok, Run.pure_eq_ok] at h
    obtain ⟨g3, hg3, h⟩ := h
    subst h
    have hext := writeExpression_extends env e _ _ _ hg3
    have hret := writeExpression_returnErrors env e _ _ _ hg3
    obtain ⟨t, ht⟩ := hext.text
    refine ⟨hext.inMain.trans hs1, hret.trans hs2, " ".toList ++ t, ?_⟩
    show g3.fOut.fText ++ ";".toList = _
    rw [ht]
    show ((_ ++ "return".toList) ++ " ".toList) ++ t ++ ";".toList = _
    rw [hs3]
    simp only [List.append_assoc]

mutual
/-- Rendering a statement leaves the in-main flag as it was and reports, when the flag is
set, exactly the return statements inside it. -/
theorem writeStatement_returnErrors (env : Environment) :
    ∀ (s : Statement) (g g' : CPPCodeGenerator),
      writeStatement env s g = Except.ok g' →
      g'.fInMain = g.fInMain ∧
        g'.returnErrors = g.returnErrors ++ (if g.fInMain = true then s.returnOffsets else [])
  | .returnStatement fOffset fExpression, g, g', h => by
    unfold writeStatement at h
    obtain ⟨h1, h2, _⟩ := writeReturnStatement_spec env fOffset fExpression g g' h
    exact ⟨h1, by rw [h2]; rfl⟩
  | .ifStatement _ fIsStatic fPieces, g, g', h => by
    unfold writeStatement at h
    obtain ⟨h1, h2⟩ := writeStatementPieces_returnErrors env fPieces _ _ h
    have hf : (if fIsStatic = true then g.write "@".toList else g).fInMain = g.fInMain := by
      split <;> rfl
    rw [hf] at h1 h2
    rw [returnErrors_writeIf] at h2
    exact ⟨h1, by rw [h2]; rfl⟩
  | .switchStatement _ fIsStatic fPieces, g, g', h => by
    unfold writeStatement at h
    obtain ⟨h1, h2⟩ := writeStatementPieces_returnErrors env fPieces _ _ h
    have hf : (if fIsStatic = true then g.write "@".toList else g).fInMain = g.fInMain := by
      split <;> rfl
    rw [hf] at h1 h2
    rw [returnErrors_writeIf] at h2
    exact ⟨h1, by rw [h2]; rfl⟩
  | .inherited _ fPieces, g, g', h => by
    unfold writeStatement at h
    obtain ⟨h1, h2⟩ := writeStatementPieces_returnErrors env fPieces _ _ h
    exact ⟨h1, by rw [h2]; rfl⟩
/-- The parts of a statement, rendered in order, do the same. -/
theorem writeStatementPieces_returnErrors (env : Environment) :
    ∀ (ps : StatementPieces) (g g' : CPPCodeGenerator),
      writeStatementPieces env ps g = Except.ok g' →
      g'.fInMain = g.fInMain ∧
        g'.returnErrors = g.returnErrors ++ (if g.fInMain = true then ps.returnOffsets else [])
  | .nil, g, g', h => by
    unfold writeStatementPieces at h
    rw [Run.pure_eq_ok] at h
    subst h
    refine ⟨rfl, ?_⟩
    simp [StatementPieces.returnOffsets]
  | .text t rest, g, g', h => by
    unfold writeStatementPieces at h
    obtain ⟨h1, h2⟩ := writeStatementPieces_returnErrors env rest _ _ h
    exact ⟨h1, by rw [h2]; rfl⟩
  | .operand e p rest, g, g', h => by
    unfold writeStatementPieces at h
    rw [Run.bind_eq_ok] at h
    obtain ⟨g1, hg1, h⟩ := h
    obtain ⟨h1, h2⟩ := writeStatementPieces_returnErrors env rest _ _ h
    have he := (writeExpression_extends env e _ _ _ hg1).inMain
    have hr := writeExpression_returnErrors env e _ _ _ hg1
    rw [he] at h1 h2
    rw [hr] at h2
    exact ⟨h1, by rw [h2]; rfl⟩
  | .initializer fVar fValue rest, g, g', h => by
    unfold writeStatementPieces at h
    rw [Run.bind_eq_ok] at h
    obtain ⟨g1, hg1, h⟩ := h
    obtain ⟨h1, h2⟩ := writeStatementPieces_returnErrors env rest _ _ h
    obtain ⟨he, hr⟩ := writeVarInitializer_returnErrors env fVar fValue _ _ hg1
    rw [he] at h1 h2
    rw [hr] at h2
    exact ⟨h1, by rw [h2]; rfl⟩
  | .statement s rest, g, g', h => by
    unfold writeStatementPieces at h
    rw [Run.bind_eq_ok] at h
    obtain ⟨g1, hg1, h⟩ := h
    obtain ⟨h1, h2⟩ := writeStatementPieces_returnErrors env rest _ _ h
    obtain ⟨he, hr⟩ := writeStatement_returnErrors env s _ _ hg1
    rw [he] at h1 h2
    rw [hr] at h2
    refine ⟨h1, ?_⟩
    rw [h2]
    by_cases hm : g.fInMain = true
    · simp only [hm, if_true, StatementPieces.returnOffsets, List.append_assoc]
    · rw [if_neg hm, if_neg hm, if_neg hm, List.append_nil, List.append_nil]
end

theorem writeStatements_returnErrors (env : Environment) :
    ∀ (body : List Statement) (g g' : CPPCodeGenerator),
      writeStatements env body g = Except.ok g' →
      g'.fInMain = g.fInMain ∧
        g'.returnErrors = g.returnErrors
          ++ (if g.fInMain = true then body.flatMap Statement.returnOffsets else [])
  | [], g, g', h => by
    unfold writeStatements at h
    rw [Run.pure_eq_ok] at h
    subst h
    refine ⟨rfl, ?_⟩
    simp
  | s :: rest, g, g', h => by
    unfold writeStatements at h
    rw [Run.bind_eq_ok] at h
    obtain ⟨g1, hg1, h⟩ := h
    obtain ⟨h1, h2⟩ := writeStatements_returnErrors env rest _ _ h
    obtain ⟨he, hr⟩ := writeStatement_returnErrors env s _ _ hg1
    have h1' : g'.fInMain = g1.fInMain := h1
    have h2' : g'.returnErrors = g1.returnErrors
        ++ (if g1.fInMain = true then rest.flatMap Statement.returnOffsets else []) := h2
    rw [he] at h1' h2'
    rw [hr] at h2'
    refine ⟨h1', ?_⟩
    rw [h2']
    by_cases hm : g.fInMain = true
    · simp only [hm, if_true, List.flatMap_cons, List.append_assoc]
    · rw [if_neg hm, if_neg hm, if_neg hm, List.append_nil, List.append_nil]

theorem addExtraEmitCodeLine_inMain (l : Text) (g g' : CPPCodeGenerator)
    (h : addExtraEmitCodeLine l g = Except.ok g') : g'.fInMain = g.fInMain := by
  unfold addExtraEmitCodeLine at h
  split at h
  · cases h
  · rw [Run.pure_eq_ok] at h
    subst h
    rfl

/-- C17: `writeFunction` on a function that is not builtin, called with the in-main flag
clear, leaves the flag clear and, when it returns, has reported the error "main() may not
contain return statements" exactly at the offsets of the return statements of the body, in
order, when the function is `main`, and at no offset when it is another function. A return
statement itself reports that error exactly when the flag is set, and in both cases writes
"return", its expression and ";". -/
theorem C17_return_error_exactly_in_main (env : Environment) (f : FunctionDefinition)
    (g g' : CPPCodeGenerator) (hbuiltin : f.fDeclaration.fBuiltin = false)
    (hflag : g.fInMain = false) (h : writeFunction env f g = Except.ok g') :
    g'.fInMain = false ∧
      g'.returnErrors = g.returnErrors
        ++ (if f.fDeclaration.fName = "main".toList then
              f.fBody.flatMap Statement.returnOffsets
            else []) ∧
      ∀ (fOffset : Int) (fExpression : Option Expression) (s s' : CPPCodeGenerator),
        writeReturnStatement env fOffset fExpression s = Except.ok s' →
        s'.returnErrors = s.returnErrors ++ (if s.fInMain = true then [fOffset] else []) ∧
          ∃ mid, s'.fOut.fText = s.fOut.fText ++ "return".toList ++ mid ++ ";".toList := by
  refine ⟨?_, ?_, fun fOffset fExpression s s' hs =>
    (writeReturnStatement_spec env fOffset fExpression s s' hs).2⟩
  · unfold writeFunction at h
    rw [if_neg (by rw [hbuiltin]; decide)] at h
    by_cases hmain : f.fDeclaration.fName = "main".toList
    · rw [if_pos hmain] at h
      simp only [Run.bind_eq_ok, Run.pure_eq_ok] at h
      obtain ⟨g1, _, h⟩ := h
      subst h
      rfl
    · rw [if_neg hmain] at h
      simp only [Run.bind_eq_ok] at h
      obtain ⟨g1, hg1, params, _, g2, hg2, g3, hg3, h⟩ := h
      have h1 := addExtraEmitCodeLine_inMain _ _ _ hg1
      have h2 := addExtraEmitCodeLine_inMain _ _ _ hg2
      have h3 := (writeStatements_returnErrors env _ _ _ hg3).1
      split at h
      · cases h
      · have h4 := addExtraEmitCodeLine_inMain _ _ _ h
        rw [h4]
        show g3.fInMain = false
        rw [h3, h2, h1]
        exact hflag
  · unfold writeFunction at h
    rw [if_neg (by rw [hbuiltin]; decide)] at h
    by_cases hmain : f.fDeclaration.fName = "main".toList
    · rw [if_pos hmain] at h
      rw [if_pos hmain]
      simp only [Run.bind_eq_ok, Run.pure_eq_ok] at h
      obtain ⟨g1, hg1, h⟩ := h
      subst h
      have hb := (writeStatements_returnErrors env _ _ _ hg1).2
      rw [if_pos rfl] at hb
      exact hb
    · rw [if_neg hmain] at h
      rw [if_neg hmain, List.append_nil]
      simp only [Run.bind_eq_ok] at h
      obtain ⟨g1, hg1, params, _, g2, hg2, g3, hg3, h⟩ := h
      have e1 := addExtraEmitCodeLine_errors _ _ _ hg1
      have i1 := addExtraEmitCodeLine_inMain _ _ _ hg1
      have e2 := addExtraEmitCodeLine_errors _ _ _ hg2
      have i2 := addExtraEmitCodeLine_inMain _ _ _ hg2
      have hb := (writeStatements_returnErrors env _ _ _ hg3).2
      have hf : ¬ g2.fInMain = true := by
        rw [i2, i1]
        show ¬ g.fInMain = true
        rw [hflag]
        decide
      rw [if_neg hf, List.append_nil] at hb
      split at h
      · cases h
      · have e4 := addExtraEmitCodeLine_errors _ _ _ h
        unfold CPPCodeGenerator.returnErrors at hb ⊢
        rw [e4]
        show List.map Prod.fst (List.filter _ g3.fErrors) = _
        rw [hb, e2, e1]

/-- C17 at a body with a nested return at offset 40 and a return with a value at offset
70: as `main` it is rendered with the two errors, as the function `helper` without any;
both calls return. -/
theorem C17_return_error_witness :
    (writeFunction scenarioA returningMain (emitCodeState [] [] [[]])).map
        (fun g => (g.fOut.fText, g.fErrors))
      = Except.ok ("if (%s) \x7b\nreturn;\n\x7d\nreturn %s;\n".toList,
          [(40, returnInMainMessage), (70, returnInMainMessage)]) ∧
    (Run.getD (writeFunction scenarioA returningMain (emitCodeState [] [] [[]]))
        (emitCodeState [] [] [])).returnErrors = [40, 70] ∧
    (writeFunction scenarioA returningHelper (emitCodeState [] [] [[]])).map
        (fun g => g.fErrors) = Except.ok [] ∧
    (Run.getD (writeFunction scenarioA returningHelper (emitCodeState [] [] [[]]))
        (emitCodeState [] [] [])).returnErrors = [] :=
  ⟨by rfl,
   (C17_return_error_exactly_in_main scenarioA returningMain (emitCodeState [] [] [[]])
      (Run.getD (writeFunction scenarioA returningMain (emitCodeState [] [] [[]]))
        (emitCodeState [] [] [])) (by rfl) (by rfl) (by rfl)).2.1,
   by rfl,
   (C17_return_error_exactly_in_main scenarioA returningHelper (emitCodeState [] [] [[]])
      (Run.getD (writeFunction scenarioA returningHelper (emitCodeState [] [] [[]]))
        (emitCodeState [] [] [])) (by rfl) (by rfl) (by rfl)).2.1⟩

/-! ## C31: a slice with more placeholders than the queue holds -/

theorem writeCodeAppendArgs_short :
    ∀ (n i : Nat) (g : CPPCodeGenerator), g.fFormatArgs.length < i + n → 0 < n →
      writeCodeAppendArgs n i g = Except.error Fault.undefined
  | 0, _, _, _, h0 => absurd h0 (by omega)
  | n + 1, i, g, hlen, _ => by
    rw [writeCodeAppendArgs]
    cases hget : g.fFormatArgs[i]? with
    | none => rfl
    | some a =>
      simp only
      have hi : i < g.fFormatArgs.length := by
        by_contra hcon
        rw [List.getElem?_eq_none (by omega)] at hget
        cases hget
      have hn : 0 < n := by omega
      exact writeCodeAppendArgs_short n (i + 1) (g.write (", ".toList ++ a))
        (by show g.fFormatArgs.length < i + 1 + n; omega) hn

/-- C31: a slice in which `writeCodeAppend` counts more placeholders than the queue holds
entries is not detected: the loop that writes the arguments reads `fFormatArgs[i]` past the
end of the queue, which the source leaves undefined; nothing aborts and no error is
reported. -/
theorem C31_short_queue_is_read_past_its_end (code : Text) (g : CPPCodeGenerator)
    (hcode : code ≠ []) (hshort : g.fFormatArgs.length < countFormatSpecifiers code) :
    writeCodeAppend code g = Except.error Fault.undefined := by
  unfold writeCodeAppend
  rw [if_pos hcode]
  have h := writeCodeAppendArgs_short (countFormatSpecifiers code) 0
    (g.write ("        fragBuilder->codeAppendf(\nR\"SkSL(".toList ++ code ++ ")SkSL\"\n".toList))
    (by show g.fFormatArgs.length < 0 + countFormatSpecifiers code; omega) (by omega)
  show (writeCodeAppendArgs (countFormatSpecifiers code) 0 _ >>= _) = _
  rw [h]
  rfl

/-- C31 at the statement `sk_TextureSamplers[i];`: its rendering reports the error for the
index and leaves the slice "%s;\n" (one unescaped placeholder) with the empty queue; the
flush of that slice reads past the end of the queue. -/
theorem C31_short_queue_witness :
    ("%s;\n".toList ≠ [] ∧
      (emitCodeState [] [] []).fFormatArgs.length < countFormatSpecifiers "%s;\n".toList) ∧
    unescapedPlaceholders "%s;\n".toList = 1 ∧
    writeCodeAppend "%s;\n".toList (emitCodeState [] [] []) = Except.error Fault.undefined ∧
    emitCodeOfStatement scenarioA samplerIndexByVariable = Except.error Fault.undefined :=
  ⟨⟨by decide, by decide⟩, by rfl,
   C31_short_queue_is_read_past_its_end "%s;\n".toList (emitCodeState [] [] []) (by decide)
     (by decide), by rfl⟩

/-! ## C34: `sample` on an argument that is not a variable reference -/

/-- C34: for a call to the builtin `sample` whose first argument is not of sampler kind
(as every argument of a child-processor type) and is not a variable reference, `writeFunctionCall`
returns the state in which the one error with the message of the source has been reported
at the offset of that argument, and nothing else has changed: the buffer, the queue, the
block table and every other member are as they were. -/
theorem C34_sample_of_non_variable_reports_one_error (env : Environment) (fOffset : Int)
    (fType : SkType) (fFunction : FunctionDeclaration) (arg0 : Expression)
    (rest : Arguments) (g : CPPCodeGenerator)
    (hbuiltin : fFunction.fBuiltin = true) (hname : fFunction.fName = "sample".toList)
    (hkind : arg0.type.kind ≠ TypeKind.kSampler_Kind)
    (hnotVar : arg0.asVariableReference = none) :
    writeFunctionCall env fOffset fType fFunction (.cons arg0 rest) g
      = Except.ok (g.error arg0.offset sampleArgumentMessage) ∧
    (g.error arg0.offset sampleArgumentMessage).fErrors
      = g.fErrors ++ [(arg0.offset, sampleArgumentMessage)] ∧
    (g.error arg0.offset sampleArgumentMessage).fOut = g.fOut ∧
    (g.error arg0.offset sampleArgumentMessage).fFormatArgs = g.fFormatArgs ∧
    (g.error arg0.offset sampleArgumentMessage).fExtraEmitCodeBlocks
      = g.fExtraEmitCodeBlocks := by
  refine ⟨?_, rfl, rfl, rfl, rfl⟩
  unfold writeFunctionCall writeExpression writeFunctionCallWith
  rw [if_pos ⟨hbuiltin, hname⟩]
  simp only [writeArguments, List.head?_cons]
  rw [if_pos hkind, hnotVar]
  rfl

/-- C34 at `sample(pick())` in the state whose buffer holds "x = " and whose queue and
table hold one entry each. -/
theorem C34_sample_of_non_variable_witness :
    writeFunctionCall scenarioA 5 half4Type sampleFunction sampleOfExpression
        (emitCodeState "x = ".toList ["a".toList] [[]])
      = Except.ok { emitCodeState "x = ".toList ["a".toList] [[]] with
          fErrors := [(12, sampleArgumentMessage)] } :=
  (C34_sample_of_non_variable_reports_one_error scenarioA 5 half4Type sampleFunction
    (.inherited 12 fragmentProcessorType (.text "pick()".toList .nil)) .nil
    (emitCodeState "x = ".toList ["a".toList] [[]]) rfl rfl (by decide) rfl).1

/-! ## C36: the queue after `writeFunction` -/

theorem writeVarInitializer_extends (env : Environment) (var : Variable)
    (value : Expression) (g g' : CPPCodeGenerator)
    (h : writeVarInitializer env var value g = Except.ok g') : Extends g g' := by
  unfold writeVarInitializer at h
  split at h
  · exact writeRuntimeValue_extends _ _ _ _ _ h
  · exact writeExpression_extends env _ _ _ _ h

theorem writeReturnStatement_extends (env : Environment) (fOffset : Int)
    (fExpression : Option Expression) (g g' : CPPCodeGenerator)
    (h : writeReturnStatement env fOffset fExpression g = Except.ok g') : Extends g g' := by
  have hstart : Extends g (if g.fInMain = true then g.error fOffset returnInMainMessage else g) := by
    split
    · exact Extends.error _ _ _
    · exact Extends.refl _
  unfold writeReturnStatement at h
  cases fExpression with
  | none =>
    simp only [Run.pure_eq_ok] at h
    subst h
    exact (hstart.trans (Extends.write _ _)).trans (Extends.write _ _)
  | some e =>
    simp only [Run.bind_eq_ok, Run.pure_eq_ok] at h
    obtain ⟨g3, hg3, h⟩ := h
    subst h
    exact (((hstart.trans (Extends.write _ _)).trans (Extends.write _ _)).trans
      (writeExpression_extends env e _ _ _ hg3)).trans (Extends.write _ _)

mutual
/-- Rendering a statement only adds: text to the active sink, arguments to the queue,
blocks to the table, errors to the reporter. -/
theorem writeStatement_extends (env : Environment) :
    ∀ (s : Statement) (g g' : CPPCodeGenerator),
      writeStatement env s g = Except.ok g' → Extends g g'
  | .returnStatement fOffset fExpression, g, g', h => by
    unfold writeStatement at h
    exact writeReturnStatement_extends env fOffset fExpression g g' h
  | .ifStatement _ fIsStatic fPieces, g, g', h => by
    unfold writeStatement at h
    exact (Extends.writeIf _ _ _).trans (writeStatementPieces_extends env fPieces _ _ h)
  | .switchStatement _ fIsStatic fPieces, g, g', h => by
    unfold writeStatement at h
    exact (Extends.writeIf _ _ _).trans (writeStatementPieces_extends env fPieces _ _ h)
  | .inherited _ fPieces, g, g', h => by
    unfold writeStatement at h
    exact writeStatementPieces_extends env fPieces _ _ h
/-- The parts of a statement, rendered in order, only add. -/
theorem writeStatementPieces_extends (env : Environment) :
    ∀ (ps : StatementPieces) (g g' : CPPCodeGenerator),
      writeStatementPieces env ps g = Except.ok g' → Extends g g'
  | .nil, g, g', h => by
    unfold writeStatementPieces at h
    rw [Run.pure_eq_ok] at h
    subst h
    exact Extends.refl _
  | .text t rest, g, g', h => by
    unfold writeStatementPieces at h
    exact (Extends.write _ _).trans (writeStatementPieces_extends env rest _ _ h)
  | .operand e p rest, g, g', h => by
    unfold writeStatementPieces at h
    rw [Run.bind_eq_ok] at h
    obtain ⟨g1, hg1, h⟩ := h
    exact (writeExpression_extends env e _ _ _ hg1).trans
      (writeStatementPieces_extends env rest _ _ h)
  | .initializer fVar fValue rest, g, g', h => by
    unfold writeStatementPieces at h
    rw [Run.bind_eq_ok] at h
    obtain ⟨g1, hg1, h⟩ := h
    exact (writeVarInitializer_extends env fVar fValue _ _ hg1).trans
      (writeStatementPieces_extends env rest _ _ h)
  | .statement s rest, g, g', h => by
    unfold writeStatementPieces at h
    rw [Run.bind_eq_ok] at h
    obtain ⟨g1, hg1, h⟩ := h
    exact (writeStatement_extends env s _ _ hg1).trans
      (writeStatementPieces_extends env rest _ _ h)
end

theorem writeStatements_extends (env : Environment) :
    ∀ (body : List Statement) (g g' : CPPCodeGenerator),
      writeStatements env body g = Except.ok g' → Extends g g'
  | [], g, g', h => by
    unfold writeStatements at h
    rw [Run.pure_eq_ok] at h
    subst h
    exact Extends.refl _
  | s :: rest, g, g', h => by
    unfold writeStatements at h
    rw [Run.bind_eq_ok] at h
    obtain ⟨g1, hg1, h⟩ := h
    exact ((writeStatement_extends env s _ _ hg1).trans (Extends.write _ _)).trans
      (writeStatements_extends env rest _ _ h)

theorem addExtraEmitCodeLine_frame (l : Text) (g g' : CPPCodeGenerator)
    (h : addExtraEmitCodeLine l g = Except.ok g') :
    g'.fOut = g.fOut ∧ g'.fFormatArgs = g.fFormatArgs ∧ g'.fStreams = g.fStreams ∧
      g'.fErrors = g.fErrors ∧ g'.fCPPBuffer = g.fCPPBuffer := by
  unfold addExtraEmitCodeLine at h
  split at h
  · cases h
  · rw [Run.pure_eq_ok] at h
    subst h
    exact ⟨rfl, rfl, rfl, rfl, rfl⟩

/-- C36: when `writeFunction` returns for a function that is neither builtin nor `main`,
the active sink is the one of before the call with its text unchanged, and the queue is
the queue of before the call followed by every argument `pushed` that the rendering of
the body has pushed: the body was rendered into the local stream, whose text `body` ends
up in the `emitFunction` line, but its arguments stay in the enclosing queue. -/
theorem C36_function_body_arguments_stay_in_queue (env : Environment)
    (f : FunctionDefinition) (g g' : CPPCodeGenerator)
    (hbuiltin : f.fDeclaration.fBuiltin = false)
    (hname : f.fDeclaration.fName ≠ "main".toList)
    (h : writeFunction env f g = Except.ok g') :
    g'.fOut = g.fOut ∧
    ∃ (g2 g3 : CPPCodeGenerator) (body : Text) (pushed : List Text),
      g2.fOut = { fId := g.fStreams, fText := [] } ∧ g2.fFormatArgs = g.fFormatArgs ∧
      writeStatements env f.fBody g2 = Except.ok g3 ∧
      g3.fOut.fText = body ∧ g3.fFormatArgs = g.fFormatArgs ++ pushed ∧
      g'.fFormatArgs = g.fFormatArgs ++ pushed := by
  unfold writeFunction at h
  rw [if_neg (by rw [hbuiltin]; decide), if_neg hname] at h
  simp only [Run.bind_eq_ok] at h
  obtain ⟨g1, hg1, params, _, g2, hg2, g3, hg3, h⟩ := h
  obtain ⟨o1, a1, _, _, _⟩ := addExtraEmitCodeLine_frame _ _ _ hg1
  obtain ⟨o2, a2, _, _, _⟩ := addExtraEmitCodeLine_frame _ _ _ hg2
  have hext := writeStatements_extends env f.fBody g2 g3 hg3
  obtain ⟨pushed, hpushed⟩ := hext.args
  cases hret : glsltype_string f.fReturnType with
  | none => rw [hret] at h; cases h
  | some returnType =>
    rw [hret] at h
    simp only at h
    obtain ⟨o4, a4, _, _, _⟩ := addExtraEmitCodeLine_frame _ _ _ h
    have hargs2 : g2.fFormatArgs = g.fFormatArgs := by rw [a2, a1]
    refine ⟨o4, g2, g3, g3.fOut.fText, pushed, by rw [o2, o1], hargs2, hg3, rfl, ?_, ?_⟩
    · rw [hpushed, hargs2]
    · rw [a4]
      show g3.fFormatArgs = _
      rw [hpushed, hargs2]

/-- C36 at `half scaled() { return weight; }` followed by
`void main() { sk_OutColor = scaled(); }`: `writeFunction(scaled)` returns, the sink is
unchanged and the queue holds the argument of the reference to `weight`; the slice of
`main` then takes that argument for its first placeholder, the output colour for the
placeholder of the function name, and the name of the function is left in the queue. -/
theorem C36_function_body_arguments_witness :
    writeFunction scenarioA uniformHelper (newExtraEmitCodeBlock (emitCodeState [] [] []))
      = Except.ok afterUniformHelper ∧
    afterUniformHelper.fOut = (newExtraEmitCodeBlock (emitCodeState [] [] [])).fOut ∧
    afterUniformHelper.fFormatArgs
      = ["args.fUniformHandler->getUniformCStr(weightVar)".toList] ∧
    emitCodeOfFunctions scenarioA uniformHelper callingMain
      = Except.ok
          (("        SkString scaled_name;\n"
            ++ "        const GrShaderVar scaled_args[] = \x7b \x7d;\n"
            ++ "        fragBuilder->emitFunction(kHalf_GrSLType, \"scaled\", 0, scaled_args,\n"
            ++ "R\"SkSL(return %s;\n)SkSL\", &scaled_name);\n"
            ++ "        fragBuilder->codeAppendf(\nR\"SkSL(%s = %s();\n)SkSL\"\n"
            ++ ", args.fUniformHandler->getUniformCStr(weightVar), args.fOutputColor);\n").toList,
           ["scaled_name.c_str()".toList]) :=
  ⟨by rfl,
   (C36_function_body_arguments_stay_in_queue scenarioA uniformHelper
      (newExtraEmitCodeBlock (emitCodeState [] [] [])) afterUniformHelper rfl (by decide)
      (by rfl)).1,
   by rfl, by rfl⟩

/-! ## C38: placeholders and pushed arguments -/

/-- C38: on the path of `writeIndexExpression` that reports the error for an index into
`sk_TextureSamplers` that is not an integer literal, the writer has added the text "%s",
which is one unescaped placeholder, and has pushed no argument: the queue is as it was,
and only the error has been added. -/
theorem C38_sampler_index_error_pushes_no_argument (env : Environment) (fOffset : Int)
    (fType : SkType) (o : Int) (v : Variable) (fIndex : Expression) (g : CPPCodeGenerator)
    (hbuiltin : v.fModifiers.fLayout.fBuiltin = env.SK_TEXTURESAMPLERS_BUILTIN)
    (hindex : fIndex.asIntLiteral = none) :
    ∃ g', writeIndexExpression env fOffset fType (.variableReference o v) fIndex g
          = Except.ok g' ∧
      g'.fOut.fText = g.fOut.fText ++ "%s".toList ∧
      unescapedPlaceholders "%s".toList = 1 ∧
      g'.fFormatArgs = g.fFormatArgs ∧
      g'.fErrors = g.fErrors ++
        [(fIndex.offset, "index into sk_TextureSamplers must be an integer literal".toList)] := by
  have hts : isTextureSamplers env (.variableReference o v) = true := by
    simp [isTextureSamplers, Expression.asVariableReference, hbuiltin]
  refine ⟨{ g with
      fOut := { g.fOut with fText := g.fOut.fText ++ "%s".toList }
      fErrors := g.fErrors ++
        [(fIndex.offset, "index into sk_TextureSamplers must be an integer literal".toList)] },
    ?_, rfl, rfl, rfl, rfl⟩
  unfold writeIndexExpression writeExpression
  rw [if_pos hts]
  unfold writeSamplerIndex
  rw [hindex]
  rfl

/-- C38 at `sk_TextureSamplers[i]` with the empty buffer and queue: one placeholder, no
argument, one error; the flush of the statement `sk_TextureSamplers[i];` then reads the
queue past its end. -/
theorem C38_sampler_index_error_witness :
    (∃ g', writeIndexExpression scenarioA 60 samplerArrayType
          (.variableReference 60 textureSamplersVar) (.variableReference 79 loopIndexVar)
          (emitCodeState [] [] []) = Except.ok g' ∧
      g'.fOut.fText = [] ++ "%s".toList ∧
      unescapedPlaceholders "%s".toList = 1 ∧
      g'.fFormatArgs = [] ∧
      g'.fErrors = [] ++
        [(79, "index into sk_TextureSamplers must be an integer literal".toList)]) ∧
    emitCodeOfStatement scenarioA samplerIndexByVariable = Except.error Fault.undefined :=
  ⟨C38_sampler_index_error_pushes_no_argument scenarioA 60 samplerArrayType 60
      textureSamplersVar (.variableReference 79 loopIndexVar) (emitCodeState [] [] [])
      (by rfl) rfl,
   by rfl⟩

/-! ## The scan of `flushEmittedCode` on a buffer with tokens anywhere -/

theorem isStatementEndChar_iff (c : Char) : isStatementEndChar c = true ↔ isStatementEnd c := by
  simp [isStatementEndChar, isStatementEnd, or_assoc]

theorem flushPrefix_append_heldBack (cur : Text) : flushPrefix cur ++ heldBack cur = cur := by
  unfold flushPrefix heldBack
  rw [← List.reverse_append, List.takeWhile_append_dropWhile, List.reverse_reverse]

theorem heldBack_no_statementEnd (cur : Text) : ∀ c ∈ heldBack cur, ¬ isStatementEnd c := by
  intro c hc
  unfold heldBack at hc
  rw [List.mem_reverse] at hc
  have := List.mem_takeWhile_imp hc
  rw [← isStatementEndChar_iff]
  simpa using this

theorem flushPrefix_ends (cur : Text) :
    flushPrefix cur = [] ∨ ∃ c, (flushPrefix cur).getLast? = some c ∧ isStatementEnd c := by
  unfold flushPrefix
  cases h : cur.reverse.dropWhile (fun c => !isStatementEndChar c) with
  | nil => exact Or.inl rfl
  | cons c rest =>
    refine Or.inr ⟨c, by simp, ?_⟩
    have hne : cur.reverse.dropWhile (fun c => !isStatementEndChar c) ≠ [] := by
      rw [h]; exact List.cons_ne_nil _ _
    have := List.head_dropWhile_not (fun c => !isStatementEndChar c) cur.reverse hne
    simp only [h, List.head_cons] at this
    rw [← isStatementEndChar_iff]
    simpa using this

theorem flushPrefix_snoc (done : Text) (c : Char) :
    flushPrefix (done ++ [c])
      = if isStatementEndChar c = true then done ++ [c] else flushPrefix done := by
  unfold flushPrefix
  rw [List.reverse_append]
  simp only [List.reverse_cons, List.reverse_nil, List.nil_append, List.singleton_append,
    List.dropWhile_cons]
  by_cases hc : isStatementEndChar c = true
  · simp [hc]
  · simp [hc]

theorem flushLoop_scan (sksl after : Text) :
    ∀ (todo done : Text) (n : Nat) (g : CPPCodeGenerator),
      sksl = done ++ (todo ++ after) →
      (∀ j, done.length ≤ j → j < done.length + todo.length →
        ¬ (charAt sksl j = '$' ∧ charAt sksl (j + 1) = '{')) →
      flushLoop (n + todo.length) sksl done.length (((flushPrefix done).length : Int) - 1) (-1) g
        = flushLoop n sksl (done.length + todo.length)
            (((flushPrefix (done ++ todo)).length : Int) - 1) (-1) g := by
  intro todo
  induction todo with
  | nil => intro done n g _ _; simp
  | cons c todo ih =>
    intro done n g hs hno
    have hlen : sksl.length = done.length + (todo.length + 1 + after.length) := by
      rw [hs]; simp; omega
    have hi : done.length < sksl.length := by omega
    have hc : charAt sksl done.length = c := by
      rw [hs]; exact charAt_append_cons _ _ _
    have h1 : ¬ ((-1 : Int) ≥ 0) := by omega
    have h2 : ¬ (done.length < sksl.length - 1 ∧ charAt sksl done.length = '$'
        ∧ charAt sksl (done.length + 1) = '{') :=
      fun h => hno done.length le_rfl (by simp) h.2
    have hstep : flushLoop (n + (c :: todo).length) sksl done.length
          (((flushPrefix done).length : Int) - 1) (-1) g
        = flushLoop (n + todo.length) sksl (done ++ [c]).length
            (((flushPrefix (done ++ [c])).length : Int) - 1) (-1) g := by
      rw [show n + (c :: todo).length = (n + todo.length) + 1 by simp; omega, flushLoop]
      rw [flushPrefix_snoc]
      have hl : (done ++ [c]).length = done.length + 1 := by simp
      rw [hl]
      by_cases hend : isStatementEndChar c = true
      · have hs' : charAt sksl done.length = ';' ∨ charAt sksl done.length = '{'
            ∨ charAt sksl done.length = '}' := by
          rw [hc]; exact (isStatementEndChar_iff c).1 hend
        rw [if_pos hend, hl]
        simp only [hi, h1, hs', if_true, if_false]
        congr 1
        omega
      · have hs' : ¬ (charAt sksl done.length = ';' ∨ charAt sksl done.length = '{'
            ∨ charAt sksl done.length = '}') := by
          rw [hc]; exact fun h => hend ((isStatementEndChar_iff c).2 h)
        rw [if_neg hend]
        simp only [hi, h1, hs', h2, if_true, if_false]
    rw [hstep, ih (done ++ [c]) n g (by rw [hs]; simp)
      (fun j hj1 hj2 => hno j (by simp at hj1; omega) (by simp at hj1 hj2 ⊢; omega))]
    simp [Nat.add_assoc, Nat.add_comm 1]

theorem flushLoop_closeAt (n : Nat) (pre held : Text) (k : Nat) (after : Text)
    (g : CPPCodeGenerator) :
    flushLoop (n + 1) ((pre ++ held) ++ (blockToken k ++ after))
        ((pre ++ held).length + 2 + (to_string k).length) ((pre.length : Int) - 1)
        (((pre ++ held).length : Nat) : Int) g
      = (writeCodeAppend pre g >>= fun g1 =>
          match g1.fExtraEmitCodeBlocks[k]? with
          | none => throw Fault.undefined
          | some block => flushLoop n (held ++ after) 0 (-1) (-1) (g1.write block)) := by
  have hlenT : (blockToken k).length = (to_string k).length + 3 := by simp [blockToken]
  have hlenF : (pre ++ held).length = pre.length + held.length := by simp
  have hlen : ((pre ++ held) ++ (blockToken k ++ after)).length
      = (pre ++ held).length + ((to_string k).length + 3) + after.length := by
    simp [hlenT]; omega
  have hexpr : (pre ++ held) ++ (blockToken k ++ after)
      = (pre ++ held) ++ ('$' :: '{' :: (to_string k ++ '}' :: after)) := by
    simp [blockToken]
  rw [flushLoop]
  have a1 : (pre ++ held).length + 2 + (to_string k).length
      < ((pre ++ held) ++ (blockToken k ++ after)).length := by
    rw [hlen]; omega
  have a2 : ((((pre ++ held).length : Nat) : Int) ≥ 0) := by omega
  have a3 : charAt ((pre ++ held) ++ (blockToken k ++ after))
      ((pre ++ held).length + 2 + (to_string k).length) = '}' := by
    rw [hexpr, Nat.add_assoc, charAt_append_right, Nat.add_comm 2]
    show charAt (to_string k ++ '}' :: after) (to_string k).length = '}'
    exact charAt_append_cons _ _ _
  simp only [a1, a2, a3, if_true]
  have e1 : ((pre.length : Int) - 1 + 1).toNat = pre.length := by omega
  have e2 : ((((pre ++ held).length : Nat) : Int) + 2).toNat = (pre ++ held).length + 2 := by
    omega
  have e3 : ((((pre ++ held).length : Nat) : Int) - ((pre.length : Int) - 1) - 1).toNat
      = held.length := by
    rw [hlenF]; push_cast; omega
  have s1 : substr ((pre ++ held) ++ (blockToken k ++ after)) 0 pre.length = pre := by
    simp [substr]
  have s2 : substr ((pre ++ held) ++ (blockToken k ++ after)) ((pre ++ held).length + 2)
      ((pre ++ held).length + 2 + (to_string k).length - ((pre ++ held).length + 2))
        = to_string k := by
    rw [hexpr, Nat.add_sub_cancel_left]
    have : (pre ++ held) ++ ('$' :: '{' :: (to_string k ++ '}' :: after))
        = ((pre ++ held) ++ ['$', '{']) ++ (to_string k ++ '}' :: after) := by simp
    rw [this]
    have h2 := substr_append_mid ((pre ++ held) ++ ['$', '{']) (to_string k) ('}' :: after)
    simpa using h2
  have s4 : substr ((pre ++ held) ++ (blockToken k ++ after)) pre.length held.length
      = held := by
    rw [List.append_assoc]
    exact substr_append_mid _ _ _
  have s3 : (if (pre ++ held).length + 2 + (to_string k).length
        < ((pre ++ held) ++ (blockToken k ++ after)).length - 1 then
        substr ((pre ++ held) ++ (blockToken k ++ after)) pre.length held.length
          ++ substr ((pre ++ held) ++ (blockToken k ++ after))
              ((pre ++ held).length + 2 + (to_string k).length + 1)
              (((pre ++ held) ++ (blockToken k ++ after)).length
                - ((pre ++ held).length + 2 + (to_string k).length) - 1)
      else substr ((pre ++ held) ++ (blockToken k ++ after)) pre.length held.length)
        = held ++ after := by
    have hdrop : substr ((pre ++ held) ++ (blockToken k ++ after))
        ((pre ++ held).length + 2 + (to_string k).length + 1)
        (((pre ++ held) ++ (blockToken k ++ after)).length
          - ((pre ++ held).length + 2 + (to_string k).length) - 1) = after := by
      have : (pre ++ held) ++ (blockToken k ++ after)
          = ((pre ++ held) ++ blockToken k) ++ (after ++ []) := by
        simp
      have hl : (pre ++ held).length + 2 + (to_string k).length + 1
          = ((pre ++ held) ++ blockToken k).length := by
        simp [hlenT]; omega
      have hl2 : ((pre ++ held) ++ (blockToken k ++ after)).length
          - ((pre ++ held).length + 2 + (to_string k).length) - 1 = after.length := by
        rw [hlen]; omega
      rw [hl2, hl, this]
      exact substr_append_mid _ _ _
    rw [s4]
    split
    · rw [hdrop]
    · rename_i hnot
      have : after.length = 0 := by rw [hlen] at hnot; omega
      simp [List.length_eq_zero.1 this]
  rw [e1, e2, e3, s1, s2, stoi_to_string, s3]
  congr 1
  funext g1
  cases hblock : g1.fExtraEmitCodeBlocks[k]? with
  | none => rfl
  | some block =>
    simp only
    by_cases hb : block.length > 0
    · simp only [hb, if_true]
    · have : block = [] := List.length_eq_zero.1 (by omega)
      subst this
      simp [write_nil]

/-- No token starts inside a text without "${" that is followed by a token. -/
theorem segment_before_token (cur : Text) (k : Nat) (after : Text)
    (hseg : hasTokenStart cur = false) :
    ∀ j, ([] : Text).length ≤ j → j < ([] : Text).length + cur.length →
      ¬ (charAt (cur ++ (blockToken k ++ after)) j = '$'
          ∧ charAt (cur ++ (blockToken k ++ after)) (j + 1) = '{') := by
  intro j _ hj hcon
  have hj' : j < cur.length := by simpa using hj
  rw [charAt_append_left _ _ _ hj'] at hcon
  by_cases hlast : j + 1 < cur.length
  · rw [charAt_append_left _ _ _ hlast] at hcon
    exact hasTokenStart_charAt cur hseg j hlast hcon
  · have hjl : j + 1 = cur.length + 0 := by omega
    rw [hjl, charAt_append_right] at hcon
    have h0 : charAt (blockToken k ++ after) 0 = '$' := rfl
    rw [h0] at hcon
    exact absurd hcon.2 (by decide)

/-- One token of the scan: on the buffer `cur ++ "${k}" ++ after`, where `cur` holds no
"${", the loop emits `cur` up to its last statement end, then block `k`, and goes on from
position zero on the held-back rest of `cur` followed by `after`. -/
theorem flushLoop_step (n : Nat) (cur : Text) (k : Nat) (after : Text)
    (g : CPPCodeGenerator) (hcur : hasTokenStart cur = false) :
    flushLoop (n + (cur.length + (to_string k).length + 2))
        (cur ++ (blockToken k ++ after)) 0 (-1) (-1) g
      = (writeCodeAppend (flushPrefix cur) g >>= fun g1 =>
          match g1.fExtraEmitCodeBlocks[k]? with
          | none => throw Fault.undefined
          | some block => flushLoop n (heldBack cur ++ after) 0 (-1) (-1) (g1.write block)) := by
  have hlenT : (blockToken k).length = (to_string k).length + 3 := by simp [blockToken]
  have hlen : (cur ++ (blockToken k ++ after)).length
      = cur.length + ((to_string k).length + 3) + after.length := by
    simp [hlenT]; omega
  have hexpr : cur ++ (blockToken k ++ after)
      = cur ++ ('$' :: '{' :: (to_string k ++ '}' :: after)) := by
    simp [blockToken]
  have hat : ∀ q, charAt (cur ++ (blockToken k ++ after)) (cur.length + q)
      = charAt ('$' :: '{' :: (to_string k ++ '}' :: after)) q := by
    intro q
    rw [hexpr, charAt_append_right]
  have hscan := flushLoop_scan (cur ++ (blockToken k ++ after)) (blockToken k ++ after) cur []
    (((n + 1) + (to_string k).length) + 1) g (by simp)
    (segment_before_token cur k after hcur)
  have hfp0 : ((((flushPrefix ([] : Text)).length : Nat) : Int) - 1) = -1 := by
    simp [flushPrefix]
  rw [hfp0] at hscan
  simp only [List.length_nil, Nat.zero_add, List.nil_append] at hscan
  rw [show n + (cur.length + (to_string k).length + 2)
      = (((n + 1) + (to_string k).length) + 1) + cur.length by omega, hscan,
    flushLoop_tokenStart _ _ _ _ _ (by rw [hlen]; omega)
      (by rw [show cur.length = cur.length + 0 by omega, hat]; rfl)
      (by rw [hat]; rfl),
    flushLoop_inner _ cur.length (to_string k).length (cur.length + 2) (n + 1) _ g
      (by rw [hlen]; omega)
      (by
        intro j hj1 hj2
        obtain ⟨q, hq⟩ : ∃ q, j = cur.length + (q + 2) := ⟨j - cur.length - 2, by omega⟩
        rw [hq, hat]
        have hq' : q < (to_string k).length := by omega
        show charAt (to_string k ++ '}' :: after) q ≠ '}'
        rw [charAt_append_left _ _ _ hq']
        exact (to_string_ne_brace k _ (charAt_mem _ _ hq')).1)]
  have hcat := flushPrefix_append_heldBack cur
  have hc := flushLoop_closeAt n (flushPrefix cur) (heldBack cur) k after g
  rw [hcat] at hc
  exact hc

theorem hasTokenStart_tail (c : Char) (s : Text) (h : hasTokenStart (c :: s) = false) :
    hasTokenStart s = false := by
  cases s with
  | nil => rfl
  | cons d r =>
    simp only [hasTokenStart, Bool.or_eq_false_iff] at h
    exact h.2

theorem hasTokenStart_suffix (a b : Text) (h : hasTokenStart (a ++ b) = false) :
    hasTokenStart b = false := by
  induction a with
  | nil => exact h
  | cons c a ih => exact ih (hasTokenStart_tail c _ h)

theorem hasTokenStart_initial :
    ∀ (a b : Text), hasTokenStart (a ++ b) = false → hasTokenStart a = false
  | [], _, _ => rfl
  | [_], _, _ => rfl
  | c :: d :: r, b, h => by
    have h' : hasTokenStart (c :: d :: (r ++ b)) = false := h
    simp only [hasTokenStart, Bool.or_eq_false_iff] at h' ⊢
    exact ⟨h'.1, hasTokenStart_initial (d :: r) b h'.2⟩

/-- The scan of a buffer without "${" ends with one templated call for all of it. -/
theorem flushLoop_remainder (n : Nat) (cur : Text) (g : CPPCodeGenerator)
    (hcur : hasTokenStart cur = false) :
    flushLoop (n + 1 + cur.length) cur 0 (-1) (-1) g = writeCodeAppend cur g := by
  have hno := segment_no_tokenStart cur [] hcur (Or.inl rfl)
  rw [List.append_nil] at hno
  have hscan := flushLoop_scan cur [] cur [] (n + 1) g (by simp)
    (by simpa using hno)
  have hfp0 : ((((flushPrefix ([] : Text)).length : Nat) : Int) - 1) = -1 := by
    simp [flushPrefix]
  rw [hfp0] at hscan
  simp only [List.length_nil, Nat.zero_add, List.nil_append] at hscan
  rw [hscan, flushLoop_done _ _ _ _ _ _ (by omega)]

theorem heldBack_length_le (cur : Text) : (heldBack cur).length ≤ cur.length := by
  have h := congrArg List.length (flushPrefix_append_heldBack cur)
  simp only [List.length_append] at h
  omega

theorem spliceBuffer_cons (cur : Text) (k : Nat) (t : Text) (rest : List (Nat × Text)) :
    spliceBuffer cur ((k, t) :: rest) = cur ++ (blockToken k ++ spliceBuffer t rest) := by
  simp [spliceBuffer, List.append_assoc]

theorem spliceBuffer_append_left (a cur : Text) (rest : List (Nat × Text)) :
    spliceBuffer (a ++ cur) rest = a ++ spliceBuffer cur rest := by
  simp [spliceBuffer, List.append_assoc]

/-- The scan loop on a buffer of text and tokens whose text holds no "${" is the splice
with held-back text, when the fuel covers the restarts. -/
theorem flushLoop_heldBack :
    ∀ (rest : List (Nat × Text)) (cur : Text) (g : CPPCodeGenerator) (n : Nat),
      hasTokenStart (cur ++ rest.flatMap Prod.snd) = false →
      (spliceBuffer cur rest).length * (spliceBuffer cur rest).length
        + (spliceBuffer cur rest).length + 1 ≤ n →
      flushLoop n (spliceBuffer cur rest) 0 (-1) (-1) g = heldBackSplice cur rest g := by
  intro rest
  induction rest with
  | nil =>
    intro cur g n hplain hn
    simp only [spliceBuffer, List.flatMap_nil, List.append_nil] at hn hplain ⊢
    obtain ⟨n', rfl⟩ : ∃ n', n = n' + 1 + cur.length := ⟨n - 1 - cur.length, by omega⟩
    rw [flushLoop_remainder n' cur g hplain]
    rfl
  | cons kt rest ih =>
    intro cur g n hplain hn
    obtain ⟨k, t⟩ := kt
    have hflat : cur ++ ((k, t) :: rest).flatMap Prod.snd
        = cur ++ (t ++ rest.flatMap Prod.snd) := by simp
    rw [hflat] at hplain
    have hcur : hasTokenStart cur = false := hasTokenStart_initial _ _ hplain
    have hnext : hasTokenStart ((heldBack cur ++ t) ++ rest.flatMap Prod.snd) = false := by
      have : cur ++ (t ++ rest.flatMap Prod.snd)
          = flushPrefix cur ++ ((heldBack cur ++ t) ++ rest.flatMap Prod.snd) := by
        conv_lhs => rw [← flushPrefix_append_heldBack cur]
        simp [List.append_assoc]
      rw [this] at hplain
      exact hasTokenStart_suffix _ _ hplain
    have hlenT : (blockToken k).length = (to_string k).length + 3 := by simp [blockToken]
    have hlen : (spliceBuffer cur ((k, t) :: rest)).length
        = cur.length + ((to_string k).length + 3) + (spliceBuffer t rest).length := by
      rw [spliceBuffer_cons]; simp [hlenT]; omega
    have hlen' : (spliceBuffer (heldBack cur ++ t) rest).length
        ≤ cur.length + (spliceBuffer t rest).length := by
      rw [spliceBuffer_append_left]
      simp only [List.length_append]
      have := heldBack_length_le cur
      omega
    rw [hlen] at hn
    obtain ⟨n', rfl⟩ : ∃ n', n = n' + (cur.length + (to_string k).length + 2) :=
      ⟨n - (cur.length + (to_string k).length + 2), by
        have : cur.length + (to_string k).length + 2 ≤ n := by nlinarith
        omega⟩
    rw [spliceBuffer_cons, flushLoop_step n' cur k (spliceBuffer t rest) g hcur]
    simp only [heldBackSplice]
    congr 1
    funext g1
    cases hblock : g1.fExtraEmitCodeBlocks[k]? with
    | none => rfl
    | some block =>
      simp only
      rw [← spliceBuffer_append_left]
      exact ih (heldBack cur ++ t) (g1.write block) n' hnext (by nlinarith)

theorem heldBackSplice_eq_manualSplice :
    ∀ (rest : List (Nat × Text)) (cur : Text) (g : CPPCodeGenerator),
      heldBackSplice cur rest g
        = manualSplice (flushedSlices cur rest).1 (flushedSlices cur rest).2 g
  | [], cur, g => rfl
  | kt :: rest, cur, g => by
    simp only [heldBackSplice, flushedSlices, manualSplice]
    congr 1
    funext g1
    cases hblock : g1.fExtraEmitCodeBlocks[kt.1]? with
    | none => rfl
    | some block =>
      simp only
      exact heldBackSplice_eq_manualSplice rest _ _

theorem flushedSlices_flatten :
    ∀ (rest : List (Nat × Text)) (cur : Text),
      (flushedSlices cur rest).1 ++ (flushedSlices cur rest).2.flatMap Prod.snd
        = cur ++ rest.flatMap Prod.snd
  | [], cur => rfl
  | kt :: rest, cur => by
    simp only [flushedSlices, List.flatMap_cons]
    rw [flushedSlices_flatten rest (heldBack cur ++ kt.2)]
    conv_rhs => rw [← flushPrefix_append_heldBack cur]
    simp [List.append_assoc]

theorem flushedSlices_indices :
    ∀ (rest : List (Nat × Text)) (cur : Text),
      (flushedSlices cur rest).2.map Prod.fst = rest.map Prod.fst
  | [], _ => rfl
  | kt :: rest, cur => by
    simp only [flushedSlices, List.map_cons]
    rw [flushedSlices_indices rest (heldBack cur ++ kt.2)]

theorem flushedSlices_plain :
    ∀ (rest : List (Nat × Text)) (cur : Text),
      hasTokenStart (cur ++ rest.flatMap Prod.snd) = false →
      hasTokenStart (flushedSlices cur rest).1 = false ∧
        ∀ kt ∈ (flushedSlices cur rest).2, hasTokenStart kt.2 = false
  | [], cur, h => by
    simp only [List.flatMap_nil, List.append_nil] at h
    exact ⟨h, by simp [flushedSlices]⟩
  | kt :: rest, cur, h => by
    have hflat : cur ++ (kt :: rest).flatMap Prod.snd
        = flushPrefix cur ++ ((heldBack cur ++ kt.2) ++ rest.flatMap Prod.snd) := by
      conv_lhs => rw [← flushPrefix_append_heldBack cur]
      simp [List.append_assoc]
    rw [hflat] at h
    obtain ⟨h1, h2⟩ := flushedSlices_plain rest (heldBack cur ++ kt.2)
      (hasTokenStart_suffix _ _ h)
    refine ⟨hasTokenStart_initial _ _ h, ?_⟩
    intro x hx
    simp only [flushedSlices, List.mem_cons] at hx
    rcases hx with rfl | hx
    · exact h1
    · exact h2 x hx

/-! ## Termination of the scan and what the flush leaves alone -/

theorem writeCodeAppendArgs_frame :
    ∀ (n i : Nat) (g g' : CPPCodeGenerator), writeCodeAppendArgs n i g = Except.ok g' →
      g'.fErrors = g.fErrors ∧ g'.fExtraEmitCodeBlocks = g.fExtraEmitCodeBlocks ∧
        g'.fFormatArgs = g.fFormatArgs ∧ g'.fOut.fId = g.fOut.fId ∧
        g'.fCPPBuffer = g.fCPPBuffer
  | 0, _, g, g', h => by
    rw [writeCodeAppendArgs, Run.pure_eq_ok] at h
    subst h
    exact ⟨rfl, rfl, rfl, rfl, rfl⟩
  | n + 1, i, g, g', h => by
    rw [writeCodeAppendArgs] at h
    cases hget : g.fFormatArgs[i]? with
    | none => rw [hget] at h; cases h
    | some a =>
      rw [hget] at h
      simp only at h
      have h1 := writeCodeAppendArgs_frame n (i + 1) _ g' h
      exact h1

theorem writeCodeAppendArgs_ne_outOfFuel :
    ∀ (n i : Nat) (g : CPPCodeGenerator),
      writeCodeAppendArgs n i g ≠ Except.error Fault.outOfFuel
  | 0, _, g => by
    rw [writeCodeAppendArgs]
    intro h
    cases h
  | n + 1, i, g => by
    rw [writeCodeAppendArgs]
    cases hget : g.fFormatArgs[i]? with
    | none =>
      intro h
      cases h
    | some a => exact writeCodeAppendArgs_ne_outOfFuel n (i + 1) _

theorem writeCodeAppend_frame (code : Text) (g g' : CPPCodeGenerator)
    (h : writeCodeAppend code g = Except.ok g') :
    g'.fErrors = g.fErrors ∧ g'.fExtraEmitCodeBlocks = g.fExtraEmitCodeBlocks ∧
      g'.fOut.fId = g.fOut.fId ∧ g'.fCPPBuffer = g.fCPPBuffer := by
  unfold writeCodeAppend at h
  by_cases hcode : code ≠ []
  · rw [if_pos hcode] at h
    simp only [Run.bind_eq_ok] at h
    obtain ⟨g2, hg2, h⟩ := h
    obtain ⟨f1, f2, _, f4, f5⟩ := writeCodeAppendArgs_frame _ _ _ _ hg2
    by_cases hc : countFormatSpecifiers code > 0
    · rw [if_pos hc, Run.pure_eq_ok] at h
      subst h
      exact ⟨f1, f2, f4, f5⟩
    · rw [if_neg hc, Run.pure_eq_ok] at h
      subst h
      exact ⟨f1, f2, f4, f5⟩
  · rw [if_neg hcode, Run.pure_eq_ok] at h
    subst h
    exact ⟨rfl, rfl, rfl, rfl⟩

theorem writeCodeAppend_ne_outOfFuel (code : Text) (g : CPPCodeGenerator) :
    writeCodeAppend code g ≠ Except.error Fault.outOfFuel := by
  unfold writeCodeAppend
  by_cases hcode : code ≠ []
  · rw [if_pos hcode]
    have h := writeCodeAppendArgs_ne_outOfFuel (countFormatSpecifiers code) 0
      (g.write ("        fragBuilder->codeAppendf(\nR\"SkSL(".toList ++ code
        ++ ")SkSL\"\n".toList))
    show (writeCodeAppendArgs (countFormatSpecifiers code) 0 _ >>= _) ≠ _
    generalize writeCodeAppendArgs (countFormatSpecifiers code) 0 _ = x at h ⊢
    cases x with
    | error e =>
      intro hcon
      have : e = Fault.outOfFuel := by
        have h2 : (Except.error e : Run CPPCodeGenerator) = Except.error Fault.outOfFuel := hcon
        exact Except.error.inj h2
      exact h (by rw [this])
    | ok g2 =>
      by_cases hc : countFormatSpecifiers code > 0
      · show (if countFormatSpecifiers code > 0 then _ else _) ≠ _
        rw [if_pos hc]
        intro hcon
        cases hcon
      · show (if countFormatSpecifiers code > 0 then _ else _) ≠ _
        rw [if_neg hc]
        intro hcon
        cases hcon
  · rw [if_neg hcode]
    intro hcon
    cases hcon

theorem compactedBuffer_length (sksl : Text) (i : Nat) (flushPoint tokenStart : Int)
    (hi : i < sksl.length) (hinv : ScanInvariant i flushPoint tokenStart)
    (hts : tokenStart ≥ 0) :
    (compactedBuffer sksl i flushPoint tokenStart).length + 3 ≤ sksl.length := by
  obtain ⟨h1, _, h3⟩ := hinv
  obtain ⟨h4, h5⟩ := h3 hts
  have hsub : ∀ a n, (substr sksl a n).length ≤ n := by
    intro a n
    simp [substr]
  unfold compactedBuffer
  split
  · rw [List.length_append]
    have a := hsub (flushPoint + 1).toNat (tokenStart - flushPoint - 1).toNat
    have b := hsub (i + 1) (sksl.length - i - 1)
    omega
  · have a := hsub (flushPoint + 1).toNat (tokenStart - flushPoint - 1).toNat
    omega

/-- The scan loop never uses up a fuel of `size² + size + 1 - i`: every iteration moves
the index on or restarts on a buffer at least three characters shorter. -/
theorem flushLoop_fuel :
    ∀ (n : Nat) (sksl : Text) (i : Nat) (flushPoint tokenStart : Int) (g : CPPCodeGenerator),
      ScanInvariant i flushPoint tokenStart → i ≤ sksl.length →
      sksl.length * sksl.length + (sksl.length - i) + 1 ≤ n →
      flushLoop n sksl i flushPoint tokenStart g ≠ Except.error Fault.outOfFuel := by
  intro n
  induction n with
  | zero => intro sksl i fp ts g _ _ hn; omega
  | succ n ih =>
    intro sksl i fp ts g hinv hile hn
    rw [flushLoop]
    by_cases hi : i < sksl.length
    · rw [if_pos hi]
      by_cases hts : ts ≥ 0
      · rw [if_pos hts]
        by_cases hc : charAt sksl i = '}'
        · rw [if_pos hc]
          have hlen := compactedBuffer_length sksl i fp ts hi hinv hts
          have hw := writeCodeAppend_ne_outOfFuel (substr sksl 0 (fp + 1).toNat) g
          show (writeCodeAppend (substr sksl 0 (fp + 1).toNat) g >>= _) ≠ _
          generalize writeCodeAppend (substr sksl 0 (fp + 1).toNat) g = x at hw ⊢
          cases x with
          | error e =>
            intro hcon
            have h2 : (Except.error e : Run CPPCodeGenerator)
                = Except.error Fault.outOfFuel := hcon
            exact hw (by rw [Except.error.inj h2])
          | ok g1 =>
            show (match g1.fExtraEmitCodeBlocks[stoi (substr sksl (ts + 2).toNat
                (i - (ts + 2).toNat))]? with
              | none => throw Fault.undefined
              | some block => flushLoop n (compactedBuffer sksl i fp ts) 0 (-1) (-1)
                  (if block.length > 0 then g1.write block else g1)) ≠ _
            cases g1.fExtraEmitCodeBlocks[stoi (substr sksl (ts + 2).toNat
                (i - (ts + 2).toNat))]? with
            | none =>
              intro hcon
              cases hcon
            | some block =>
              have hsq : ((compactedBuffer sksl i fp ts).length + 3)
                    * ((compactedBuffer sksl i fp ts).length + 3)
                  ≤ sksl.length * sksl.length := Nat.mul_le_mul hlen hlen
              have hexp : ((compactedBuffer sksl i fp ts).length + 3)
                    * ((compactedBuffer sksl i fp ts).length + 3)
                  = (compactedBuffer sksl i fp ts).length
                      * (compactedBuffer sksl i fp ts).length
                    + 6 * (compactedBuffer sksl i fp ts).length + 9 := by ring
              exact ih _ 0 (-1) (-1) _ ⟨le_rfl, by omega, fun h => absurd h (by omega)⟩
                (Nat.zero_le _) (by omega)
        · rw [if_neg hc]
          obtain ⟨h1, h2, h3⟩ := hinv
          exact ih sksl (i + 1) fp ts g
            ⟨h1, by omega, fun h => ⟨(h3 h).1, by have := (h3 h).2; omega⟩⟩ (by omega)
            (by omega)
      · rw [if_neg hts]
        obtain ⟨h1, h2, h3⟩ := hinv
        by_cases hs : charAt sksl i = ';' ∨ charAt sksl i = '{' ∨ charAt sksl i = '}'
        · rw [if_pos hs]
          exact ih sksl (i + 1) (i : Int) ts g
            ⟨by omega, by omega, fun h => absurd h hts⟩ (by omega) (by omega)
        · rw [if_neg hs]
          by_cases ht : i < sksl.length - 1 ∧ charAt sksl i = '$' ∧ charAt sksl (i + 1) = '{'
          · rw [if_pos ht]
            exact ih sksl (i + 2) fp (i : Int) g
              ⟨h1, by omega, fun _ => ⟨h2, by omega⟩⟩ (by omega) (by omega)
          · rw [if_neg ht]
            exact ih sksl (i + 1) fp ts g
              ⟨h1, by omega, fun h => absurd h hts⟩ (by omega) (by omega)
    · rw [if_neg hi]
      exact writeCodeAppend_ne_outOfFuel sksl g

theorem flushLoop_frame :
    ∀ (n : Nat) (sksl : Text) (i : Nat) (flushPoint tokenStart : Int)
      (g g' : CPPCodeGenerator),
      flushLoop n sksl i flushPoint tokenStart g = Except.ok g' →
      g'.fErrors = g.fErrors ∧ g'.fExtraEmitCodeBlocks = g.fExtraEmitCodeBlocks ∧
        g'.fOut.fId = g.fOut.fId ∧ g'.fCPPBuffer = g.fCPPBuffer := by
  intro n
  induction n with
  | zero =>
    intro sksl i fp ts g g' h
    rw [flushLoop] at h
    cases h
  | succ n ih =>
    intro sksl i fp ts g g' h
    rw [flushLoop] at h
    by_cases hi : i < sksl.length
    · rw [if_pos hi] at h
      by_cases hts : ts ≥ 0
      · rw [if_pos hts] at h
        by_cases hc : charAt sksl i = '}'
        · rw [if_pos hc] at h
          simp only [Run.bind_eq_ok] at h
          obtain ⟨g1, hg1, h⟩ := h
          obtain ⟨f1, f2, f3, f4⟩ := writeCodeAppend_frame _ _ _ hg1
          cases hb : g1.fExtraEmitCodeBlocks[stoi (substr sksl (ts + 2).toNat
                (i - (ts + 2).toNat))]? with
          | none => rw [hb] at h; cases h
          | some block =>
            rw [hb] at h
            simp only at h
            obtain ⟨e1, e2, e3, e4⟩ := ih _ _ _ _ _ _ h
            have hw : ∀ (c : Prop) [Decidable c],
                (if c then g1.write block else g1).fErrors = g1.fErrors ∧
                (if c then g1.write block else g1).fExtraEmitCodeBlocks
                  = g1.fExtraEmitCodeBlocks ∧
                (if c then g1.write block else g1).fOut.fId = g1.fOut.fId ∧
                (if c then g1.write block else g1).fCPPBuffer = g1.fCPPBuffer := by
              intro c _
              split
              · exact ⟨rfl, rfl, rfl, rfl⟩
              · exact ⟨rfl, rfl, rfl, rfl⟩
            obtain ⟨w1, w2, w3, w4⟩ := hw (block.length > 0)
            exact ⟨e1.trans (w1.trans f1), e2.trans (w2.trans f2), e3.trans (w3.trans f3),
              e4.trans (w4.trans f4)⟩
        · rw [if_neg hc] at h
          exact ih _ _ _ _ _ _ h
      · rw [if_neg hts] at h
        by_cases hs : charAt sksl i = ';' ∨ charAt sksl i = '{' ∨ charAt sksl i = '}'
        · rw [if_pos hs] at h
          exact ih _ _ _ _ _ _ h
        · rw [if_neg hs] at h
          by_cases ht : i < sksl.length - 1 ∧ charAt sksl i = '$' ∧ charAt sksl (i + 1) = '{'
          · rw [if_pos ht] at h
            exact ih _ _ _ _ _ _ h
          · rw [if_neg ht] at h
            exact ih _ _ _ _ _ _ h
    · rw [if_neg hi] at h
      exact writeCodeAppend_frame _ _ _ h

theorem flushEmittedCode_heldBack (g : CPPCodeGenerator) (cppBuffer : OutputStream)
    (first : Text) (rest : List (Nat × Text)) (hcpp : g.fCPPBuffer = some cppBuffer)
    (hbuf : g.fOut.fText = spliceBuffer first rest)
    (hplain : hasTokenStart (first ++ rest.flatMap Prod.snd) = false) :
    flushEmittedCode g
      = (heldBackSplice first rest { g with fOut := cppBuffer }).map (fun g1 =>
          { g1 with fOut := { g.fOut with fText := [] }
                    fCPPBuffer := some g1.fOut
                    fExtraEmitCodeBlocks := [] }) := by
  unfold flushEmittedCode
  rw [hcpp]
  simp only
  rw [hbuf, flushLoop_heldBack rest first _ _ hplain (by nlinarith)]
  cases heldBackSplice first rest { g with fOut := cppBuffer } with
  | error e => rfl
  | ok g1 => rfl

/-! ## C32, C33, C37, C40: the flush on tokens anywhere in the buffer -/

/-- C32: for a pending buffer `first ${k1} t1 ${k2} t2 ...` whose text outside the tokens
holds no "${", `flushEmittedCode` emits the slices `flushedSlices first rest` as templated
calls, one before each block and one at the end; the concatenation of these slices in
emission order is the buffer without its tokens, `first ++ t1 ++ t2 ++ ...`; the blocks
come in the order of the tokens; and no slice holds a "${". -/
theorem C32_slices_are_the_buffer_without_tokens (g : CPPCodeGenerator)
    (cppBuffer : OutputStream) (first : Text) (rest : List (Nat × Text))
    (hcpp : g.fCPPBuffer = some cppBuffer)
    (hbuf : g.fOut.fText = spliceBuffer first rest)
    (hplain : hasTokenStart (first ++ rest.flatMap Prod.snd) = false) :
    flushEmittedCode g
      = (manualSplice (flushedSlices first rest).1 (flushedSlices first rest).2
            { g with fOut := cppBuffer }).map (fun g1 =>
          { g1 with fOut := { g.fOut with fText := [] }
                    fCPPBuffer := some g1.fOut
                    fExtraEmitCodeBlocks := [] }) ∧
    (flushedSlices first rest).1 ++ (flushedSlices first rest).2.flatMap Prod.snd
      = first ++ rest.flatMap Prod.snd ∧
    (flushedSlices first rest).2.map Prod.fst = rest.map Prod.fst ∧
    hasTokenStart (flushedSlices first rest).1 = false ∧
    ∀ kt ∈ (flushedSlices first rest).2, hasTokenStart kt.2 = false := by
  refine ⟨?_, flushedSlices_flatten rest first, flushedSlices_indices rest first,
    (flushedSlices_plain rest first hplain).1, (flushedSlices_plain rest first hplain).2⟩
  rw [flushEmittedCode_heldBack g cppBuffer first rest hcpp hbuf hplain,
    heldBackSplice_eq_manualSplice]

/-- C32 at the buffer "half4 a = %s;half4 b = ${0}%s;": the slices are "half4 a = %s;" and
"half4 b = %s;", their concatenation is the buffer without the token, and the cpp buffer
holds the first slice, block 0 and the second slice. -/
theorem C32_slices_witness :
    (flushEmittedCode midStatementToken
        = (manualSplice
              (flushedSlices "half4 a = %s;half4 b = ".toList [(0, "%s;".toList)]).1
              (flushedSlices "half4 a = %s;half4 b = ".toList [(0, "%s;".toList)]).2
              { midStatementToken with fOut := { fId := 0, fText := [] } }).map (fun g1 =>
            { g1 with fOut := { midStatementToken.fOut with fText := [] }
                      fCPPBuffer := some g1.fOut
                      fExtraEmitCodeBlocks := [] }) ∧
      (flushedSlices "half4 a = %s;half4 b = ".toList [(0, "%s;".toList)]).1
          ++ (flushedSlices "half4 a = %s;half4 b = ".toList [(0, "%s;".toList)]).2.flatMap
              Prod.snd
        = "half4 a = %s;half4 b = ".toList ++ [(0, "%s;".toList)].flatMap Prod.snd ∧
      (flushedSlices "half4 a = %s;half4 b = ".toList [(0, "%s;".toList)]).2.map Prod.fst
        = [(0, "%s;".toList)].map Prod.fst ∧
      hasTokenStart (flushedSlices "half4 a = %s;half4 b = ".toList [(0, "%s;".toList)]).1
        = false ∧
      ∀ kt ∈ (flushedSlices "half4 a = %s;half4 b = ".toList [(0, "%s;".toList)]).2,
        hasTokenStart kt.2 = false) ∧
    flushedSlices "half4 a = %s;half4 b = ".toList [(0, "%s;".toList)]
      = ("half4 a = %s;".toList, [(0, "half4 b = %s;".toList)]) ∧
    (flushEmittedCode midStatementToken).map (fun g1 => (g1.fCPPBuffer, g1.fFormatArgs))
      = Except.ok (some { fId := 0, fText :=
          ("        fragBuilder->codeAppendf(\nR\"SkSL(half4 a = %s;)SkSL\"\n"
            ++ ", args.fInputColor);\n"
            ++ "        SkString _sample30 = this->invokeChild(0, args);\n"
            ++ "        fragBuilder->codeAppendf(\nR\"SkSL(half4 b = %s;)SkSL\"\n"
            ++ ", _sample30.c_str());\n").toList }, []) :=
  ⟨C32_slices_are_the_buffer_without_tokens midStatementToken { fId := 0, fText := [] }
      "half4 a = %s;half4 b = ".toList [(0, "%s;".toList)] rfl (by rfl) (by rfl),
   by rfl, by rfl⟩

/-- C33: for a pending buffer `first ${k1} t1 ${k2} t2 ...` whose text outside the tokens
holds no "${", `flushEmittedCode` is the splice with held-back text: for each token in
turn, one templated call with the current text up to and including its last ';', '{' or
'}' (`flushPrefix`; nothing is written for the empty text), then the text of block `k`
as it stands, while the rest of the current text (`heldBack`, which holds no statement
end) is put in front of the text after the token and so comes after the block. -/
theorem C33_prefix_then_block_then_held_back (g : CPPCodeGenerator)
    (cppBuffer : OutputStream) (first : Text) (rest : List (Nat × Text))
    (hcpp : g.fCPPBuffer = some cppBuffer)
    (hbuf : g.fOut.fText = spliceBuffer first rest)
    (hplain : hasTokenStart (first ++ rest.flatMap Prod.snd) = false) :
    flushEmittedCode g
      = (heldBackSplice first rest { g with fOut := cppBuffer }).map (fun g1 =>
          { g1 with fOut := { g.fOut with fText := [] }
                    fCPPBuffer := some g1.fOut
                    fExtraEmitCodeBlocks := [] }) ∧
    (∀ cur : Text, flushPrefix cur ++ heldBack cur = cur ∧
      (∀ c ∈ heldBack cur, ¬ isStatementEnd c) ∧
      (flushPrefix cur = [] ∨
        ∃ c, (flushPrefix cur).getLast? = some c ∧ isStatementEnd c)) ∧
    (∀ g0 : CPPCodeGenerator, writeCodeAppend [] g0 = Except.ok g0) :=
  ⟨flushEmittedCode_heldBack g cppBuffer first rest hcpp hbuf hplain,
   fun cur => ⟨flushPrefix_append_heldBack cur, heldBack_no_statementEnd cur,
     flushPrefix_ends cur⟩,
   fun _ => rfl⟩

/-- C33 at the buffer "half4 a = %s;half4 b = ${0}%s;": the slice before block 0 is
"half4 a = %s;", the text "half4 b = " is held back and comes after the block. -/
theorem C33_prefix_then_block_witness :
    (flushEmittedCode midStatementToken
        = (heldBackSplice "half4 a = %s;half4 b = ".toList [(0, "%s;".toList)]
              { midStatementToken with fOut := { fId := 0, fText := [] } }).map (fun g1 =>
            { g1 with fOut := { midStatementToken.fOut with fText := [] }
                      fCPPBuffer := some g1.fOut
                      fExtraEmitCodeBlocks := [] })) ∧
    flushPrefix "half4 a = %s;half4 b = ".toList = "half4 a = %s;".toList ∧
    heldBack "half4 a = %s;half4 b = ".toList = "half4 b = ".toList ∧
    flushPrefix "half4 b = ".toList = [] :=
  ⟨(C33_prefix_then_block_then_held_back midStatementToken { fId := 0, fText := [] }
      "half4 a = %s;half4 b = ".toList [(0, "%s;".toList)] rfl (by rfl) (by rfl)).1,
   by rfl, by rfl, by rfl⟩

/-- C37: when the scan, at position zero of the current buffer `cur ++ "${k}" ++ after`
(`cur` holds no "${"), meets a token whose block is empty, it emits the slice of `cur` up
to its last statement end, writes nothing for the block, and goes on with the held-back
text followed by `after`; and whatever the loop returns has the errors of before. -/
theorem C37_empty_block_writes_nothing (n : Nat) (cur : Text) (k : Nat) (after : Text)
    (g : CPPCodeGenerator) (hcur : hasTokenStart cur = false)
    (hempty : g.fExtraEmitCodeBlocks[k]? = some []) :
    flushLoop (n + (cur.length + (to_string k).length + 2))
        (cur ++ (blockToken k ++ after)) 0 (-1) (-1) g
      = (writeCodeAppend (flushPrefix cur) g >>= fun g1 =>
          flushLoop n (heldBack cur ++ after) 0 (-1) (-1) g1) ∧
    ∀ g', flushLoop (n + (cur.length + (to_string k).length + 2))
        (cur ++ (blockToken k ++ after)) 0 (-1) (-1) g = Except.ok g' →
      g'.fErrors = g.fErrors := by
  refine ⟨?_, fun g' h => (flushLoop_frame _ _ _ _ _ _ _ h).1⟩
  rw [flushLoop_step n cur k after g hcur]
  cases hw : writeCodeAppend (flushPrefix cur) g with
  | error e => rfl
  | ok g1 =>
    have hb := (writeCodeAppend_frame _ _ _ hw).2.1
    show (match g1.fExtraEmitCodeBlocks[k]? with
      | none => throw Fault.undefined
      | some block => flushLoop n (heldBack cur ++ after) 0 (-1) (-1) (g1.write block)) = _
    rw [hb, hempty]
    simp only [write_nil]
    rfl

/-- C37 at the buffer "half4 a = %s;half4 b = ${0}%s;" with an empty block 0: the flush
returns without an error, and the cpp buffer holds the two slices and nothing between
them. -/
theorem C37_empty_block_witness :
    (flushLoop (60 + (("half4 a = %s;half4 b = ".toList).length + (to_string 0).length + 2))
          ("half4 a = %s;half4 b = ".toList ++ (blockToken 0 ++ "%s;".toList)) 0 (-1) (-1)
          { emptyBlockToken with fOut := { fId := 0, fText := [] } }
        = (writeCodeAppend (flushPrefix "half4 a = %s;half4 b = ".toList)
              { emptyBlockToken with fOut := { fId := 0, fText := [] } } >>= fun g1 =>
            flushLoop 60 (heldBack "half4 a = %s;half4 b = ".toList ++ "%s;".toList) 0 (-1) (-1)
              g1)) ∧
    (flushEmittedCode emptyBlockToken).map (fun g1 => (g1.fCPPBuffer, g1.fErrors))
      = Except.ok (some { fId := 0, fText :=
          ("        fragBuilder->codeAppendf(\nR\"SkSL(half4 a = %s;)SkSL\"\n"
            ++ ", args.fInputColor);\n"
            ++ "        fragBuilder->codeAppendf(\nR\"SkSL(half4 b = %s;)SkSL\"\n"
            ++ ", x);\n").toList }, []) :=
  ⟨(C37_empty_block_writes_nothing 60 "half4 a = %s;half4 b = ".toList 0 "%s;".toList
      { emptyBlockToken with fOut := { fId := 0, fText := [] } } (by rfl) (by rfl)).1,
   by rfl⟩

theorem bind_ne_outOfFuel {α β : Type} (x : Run α) (f : α → Run β)
    (hx : x ≠ Except.error Fault.outOfFuel)
    (hf : ∀ a, f a ≠ Except.error Fault.outOfFuel) :
    (x >>= f) ≠ Except.error Fault.outOfFuel := by
  cases x with
  | error e =>
    intro hcon
    have h2 : (Except.error e : Run β) = Except.error Fault.outOfFuel := hcon
    exact hx (by rw [Except.error.inj h2])
  | ok a => exact hf a

theorem segment_before_dollar (cur rest : Text) (hseg : hasTokenStart cur = false) :
    ∀ j, ([] : Text).length ≤ j → j < ([] : Text).length + cur.length →
      ¬ (charAt (cur ++ ('$' :: rest)) j = '$' ∧ charAt (cur ++ ('$' :: rest)) (j + 1) = '{') := by
  intro j _ hj hcon
  have hj' : j < cur.length := by simpa using hj
  rw [charAt_append_left _ _ _ hj'] at hcon
  by_cases hlast : j + 1 < cur.length
  · rw [charAt_append_left _ _ _ hlast] at hcon
    exact hasTokenStart_charAt cur hseg j hlast hcon
  · have hjl : j + 1 = cur.length + 0 := by omega
    rw [hjl, charAt_append_right] at hcon
    have h0 : charAt ('$' :: rest) 0 = '$' := rfl
    rw [h0] at hcon
    exact absurd hcon.2 (by decide)

/-- A "${" that no '}' follows: the scan reaches the end of the buffer with the token
open, and the whole buffer is the final remainder. -/
theorem flushLoop_unterminated (n : Nat) (pre tail : Text) (g : CPPCodeGenerator)
    (hpre : hasTokenStart pre = false) (htail : '}' ∉ tail) :
    flushLoop (n + 1 + tail.length + 1 + pre.length) (pre ++ ('$' :: '{' :: tail)) 0 (-1) (-1) g
      = writeCodeAppend (pre ++ ('$' :: '{' :: tail)) g := by
  have hlen : (pre ++ ('$' :: '{' :: tail)).length = pre.length + 2 + tail.length := by
    simp; omega
  have hat : ∀ q, charAt (pre ++ ('$' :: '{' :: tail)) (pre.length + q)
      = charAt ('$' :: '{' :: tail) q := fun q => charAt_append_right _ _ _
  have hscan := flushLoop_scan (pre ++ ('$' :: '{' :: tail)) ('$' :: '{' :: tail) pre []
    (n + 1 + tail.length + 1) g (by simp) (segment_before_dollar pre ('{' :: tail) hpre)
  have hfp0 : ((((flushPrefix ([] : Text)).length : Nat) : Int) - 1) = -1 := by
    simp [flushPrefix]
  rw [hfp0] at hscan
  simp only [List.length_nil, Nat.zero_add, List.nil_append] at hscan
  rw [hscan, flushLoop_tokenStart _ _ _ _ _ (by rw [hlen]; omega)
      (by rw [show pre.length = pre.length + 0 by omega, hat]; rfl)
      (by rw [hat]; rfl),
    flushLoop_inner _ pre.length tail.length (pre.length + 2) (n + 1) _ g
      (by rw [hlen])
      (by
        intro j hj1 hj2
        obtain ⟨q, hq⟩ : ∃ q, j = pre.length + (q + 2) := ⟨j - pre.length - 2, by omega⟩
        rw [hq, hat]
        have hq' : q < tail.length := by omega
        show charAt tail q ≠ '}'
        exact fun h => htail (h ▸ charAt_mem _ _ hq')),
    flushLoop_done _ _ _ _ _ _ (by rw [hlen])]

/-- C40: the scan loop of `flushEmittedCode` terminates on every buffer. From the start of
the scan a fuel of `(size + 1)²` iterations is never used up, so `flushEmittedCode` never
stops for lack of fuel. The iteration at the '}' that ends a token restarts the loop at
position zero on the local `compacted`, which is at least three characters shorter than
the buffer. On a buffer `pre ++ "${" ++ tail`, where `pre` holds no "${" and `tail` no
'}', the loop ends with the one templated call for the whole buffer, the "${" included. -/
theorem C40_flush_scan_terminates (sksl : Text) (g : CPPCodeGenerator) :
    (∀ n, (sksl.length + 1) * (sksl.length + 1) ≤ n →
      flushLoop n sksl 0 (-1) (-1) g ≠ Except.error Fault.outOfFuel) ∧
    flushEmittedCode g ≠ Except.error Fault.outOfFuel ∧
    (∀ (n i : Nat) (flushPoint tokenStart : Int), i < sksl.length → tokenStart ≥ 0 →
      charAt sksl i = '}' →
      flushLoop (n + 1) sksl i flushPoint tokenStart g
        = (writeCodeAppend (substr sksl 0 (flushPoint + 1).toNat) g >>= fun g1 =>
            match g1.fExtraEmitCodeBlocks[stoi (substr sksl (tokenStart + 2).toNat
                (i - (tokenStart + 2).toNat))]? with
            | none => throw Fault.undefined
            | some block =>
              flushLoop n (compactedBuffer sksl i flushPoint tokenStart) 0 (-1) (-1)
                (if block.length > 0 then g1.write block else g1))) ∧
    (∀ (i : Nat) (flushPoint tokenStart : Int), i < sksl.length →
      ScanInvariant i flushPoint tokenStart → tokenStart ≥ 0 →
      (compactedBuffer sksl i flushPoint tokenStart).length + 3 ≤ sksl.length) ∧
    (∀ pre tail n, sksl = pre ++ ('$' :: '{' :: tail) → hasTokenStart pre = false →
      '}' ∉ tail → sksl.length + 1 ≤ n →
      flushLoop n sksl 0 (-1) (-1) g = writeCodeAppend sksl g) := by
  have hstart : ScanInvariant 0 (-1) (-1) :=
    ⟨le_rfl, by decide, fun h => absurd h (by decide)⟩
  refine ⟨?_, ?_, ?_, ?_, ?_⟩
  · intro n hn
    have hsq : (sksl.length + 1) * (sksl.length + 1)
        = sksl.length * sksl.length + 2 * sksl.length + 1 := by ring
    exact flushLoop_fuel n sksl 0 (-1) (-1) g hstart (Nat.zero_le _) (by omega)
  · unfold flushEmittedCode
    cases hcpp : g.fCPPBuffer with
    | none =>
      intro h
      cases h
    | some cppBuffer =>
      simp only
      have hsq : (g.fOut.fText.length + 1) * (g.fOut.fText.length + 1)
          = g.fOut.fText.length * g.fOut.fText.length + 2 * g.fOut.fText.length + 1 := by
        ring
      exact bind_ne_outOfFuel _ _
        (flushLoop_fuel ((g.fOut.fText.length + 1) * (g.fOut.fText.length + 1))
          g.fOut.fText 0 (-1) (-1) _ hstart (Nat.zero_le _) (by omega))
        (fun _ h => by cases h)
  · intro n i fp ts hi hts hc
    rw [flushLoop, if_pos hi, if_pos hts, if_pos hc]
    rfl
  · intro i fp ts hi hinv hts
    exact compactedBuffer_length sksl i fp ts hi hinv hts
  · intro pre tail n hs hpre htail hn
    subst hs
    have hlen : (pre ++ ('$' :: '{' :: tail)).length = pre.length + 2 + tail.length := by
      simp; omega
    obtain ⟨n', rfl⟩ : ∃ n', n = n' + 1 + tail.length + 1 + pre.length :=
      ⟨n - (1 + tail.length + 1 + pre.length), by omega⟩
    exact flushLoop_unterminated n' pre tail g hpre htail

/-- C40 at the buffers "x = ${1" and "a;b${0}c${1": the first is emitted whole; in the
second the token of block 0 is consumed, and the "${1" that no '}' follows is part of the
last slice. -/
theorem C40_flush_scan_witness :
    flushLoop 100 "x = $\x7b1".toList 0 (-1) (-1) (emitCodeState [] [] [])
      = writeCodeAppend "x = $\x7b1".toList (emitCodeState [] [] []) ∧
    (flushEmittedCode (emitCodeState "a;b$\x7b0\x7dc$\x7b1".toList [] ["B\n".toList])).map
        (fun g1 => g1.fCPPBuffer)
      = Except.ok (some { fId := 0, fText :=
          ("        fragBuilder->codeAppendf(\nR\"SkSL(a;)SkSL\"\n);\n"
            ++ "B\n"
            ++ "        fragBuilder->codeAppendf(\nR\"SkSL(bc$\x7b1)SkSL\"\n);\n").toList }) :=
  ⟨(C40_flush_scan_terminates "x = $\x7b1".toList (emitCodeState [] [] [])).2.2.2.2
      "x = ".toList "1".toList 100 rfl (by rfl) (by decide) (by decide),
   by rfl⟩

/-! ## C39: the tokens written and the block table -/

theorem hasTokenStart_of_no_dollar :
    ∀ (s : Text), '$' ∉ s → hasTokenStart s = false
  | [], _ => rfl
  | [_], _ => rfl
  | c :: d :: r, h => by
    simp only [hasTokenStart, Bool.or_eq_false_iff, Bool.and_eq_false_iff]
    refine ⟨Or.inl ?_, hasTokenStart_of_no_dollar (d :: r) (fun hm => h (List.mem_cons_of_mem _ hm))⟩
    have : c ≠ '$' := fun e => h (e ▸ List.mem_cons_self _ _)
    simpa using this

theorem spliceBuffer_snoc (first : Text) (rest : List (Nat × Text)) (k : Nat) (t : Text) :
    spliceBuffer first (rest ++ [(k, t)]) = spliceBuffer first rest ++ (blockToken k ++ t) := by
  simp [spliceBuffer, List.append_assoc]

theorem spliceBuffer_append (first : Text) (rest more : List (Nat × Text)) :
    spliceBuffer first (rest ++ more)
      = spliceBuffer first rest ++ more.flatMap (fun kt => blockToken kt.1 ++ kt.2) := by
  simp [spliceBuffer, List.append_assoc]

/-- The token-stripping loop on a text of segments without '$' and tokens "${k}". -/
theorem stripTokensLoop_dollarFree :
    ∀ (rest : List (Nat × Text)) (first pre exprFormat : Text) (g : CPPCodeGenerator)
      (n : Nat), '$' ∉ first → (∀ kt ∈ rest, '$' ∉ kt.2) →
      (spliceBuffer first rest).length ≤ n →
      stripTokensLoop n (pre ++ spliceBuffer first rest) pre.length (-1) exprFormat g
        = (exprFormat ++ first ++ rest.flatMap (fun kt => kt.2),
           g.write (rest.flatMap (fun kt => blockToken kt.1))) := by
  intro rest
  induction rest with
  | nil =>
    intro first pre fmt g n hf _ hn
    simp only [spliceBuffer, List.flatMap_nil, List.append_nil] at hn ⊢
    obtain ⟨n', rfl⟩ : ∃ n', n = n' + first.length := ⟨n - first.length, by omega⟩
    rw [stripTokensLoop_plain (pre ++ first) first.length pre.length n' fmt g (by simp)]
    · have hsub : substr (pre ++ first) pre.length first.length = first := by
        have := substr_append_mid pre first []
        simpa using this
      rw [hsub, write_nil]
      cases n' with
      | zero => rfl
      | succ k =>
        rw [stripTokensLoop]
        simp
    · intro j hj1 hj2 hcon
      obtain ⟨q, hq⟩ : ∃ q, j = pre.length + q := ⟨j - pre.length, by omega⟩
      rw [hq, charAt_append_right] at hcon
      exact hf (hcon.1 ▸ charAt_mem first q (by omega))
  | cons kt rest ih =>
    intro first pre fmt g n hf hrest hn
    obtain ⟨k, t⟩ := kt
    have hexpr : pre ++ spliceBuffer first ((k, t) :: rest)
        = (pre ++ first ++ blockToken k) ++ spliceBuffer t rest := by
      simp [spliceBuffer, List.append_assoc]
    have hexpr2 : pre ++ spliceBuffer first ((k, t) :: rest)
        = pre ++ (first ++ ('$' :: '{' :: (to_string k ++ '}' :: spliceBuffer t rest))) := by
      simp [spliceBuffer, blockToken, List.append_assoc]
    have hlenT : (blockToken k).length = (to_string k).length + 3 := by
      simp [blockToken]
    have hlen : (spliceBuffer first ((k, t) :: rest)).length
        = first.length + ((to_string k).length + 3) + (spliceBuffer t rest).length := by
      simp [spliceBuffer, hlenT, List.length_append]; omega
    obtain ⟨n', rfl⟩ : ∃ n', n = n' + ((to_string k).length + 2) + first.length :=
      ⟨n - ((to_string k).length + 2) - first.length, by omega⟩
    have hat : ∀ q, charAt (pre ++ spliceBuffer first ((k, t) :: rest))
        (pre.length + first.length + q)
          = charAt ('$' :: '{' :: (to_string k ++ '}' :: spliceBuffer t rest)) q := by
      intro q
      rw [hexpr2, Nat.add_assoc, charAt_append_right, charAt_append_right]
    rw [stripTokensLoop_plain _ first.length pre.length _ fmt g
      (by rw [hexpr2]; simp)]
    · have hsub : substr (pre ++ spliceBuffer first ((k, t) :: rest)) pre.length first.length
          = first := by
        rw [hexpr2]; exact substr_append_mid _ _ _
      rw [hsub, stripTokensLoop_token _ (pre.length + first.length) (to_string k).length n'
        (fmt ++ first) g]
      · have htok : substr (pre ++ spliceBuffer first ((k, t) :: rest))
            (pre.length + first.length) ((to_string k).length + 3) = blockToken k := by
          rw [hexpr]
          have := substr_append_mid (pre ++ first) (blockToken k) (spliceBuffer t rest)
          simpa [List.append_assoc, hlenT] using this
        rw [htok, hexpr]
        have hpl : pre.length + first.length + 2 + (to_string k).length + 1
            = (pre ++ first ++ blockToken k).length := by
          simp [hlenT]; omega
        rw [hpl, ih t (pre ++ first ++ blockToken k) (fmt ++ first) _ n'
          (hrest (k, t) (List.mem_cons_self _ _))
          (fun kt hkt => hrest kt (List.mem_cons_of_mem _ hkt)) (by omega), write_write]
        simp [List.append_assoc]
      · rw [hexpr2]; simp; omega
      · rw [show pre.length + first.length = pre.length + first.length + 0 by omega, hat]
        rfl
      · rw [hat]; rfl
      · intro j hj1 hj2
        obtain ⟨q, rfl⟩ : ∃ q, j = pre.length + first.length + (q + 2) :=
          ⟨j - (pre.length + first.length) - 2, by omega⟩
        rw [hat]
        have hq : q < (to_string k).length := by omega
        show charAt (to_string k ++ '}' :: spliceBuffer t rest) q ≠ '}'
        rw [charAt_append_left _ _ _ hq]
        exact (to_string_ne_brace k _ (charAt_mem _ _ hq)).1
      · rw [show pre.length + first.length + 2 + (to_string k).length
            = pre.length + first.length + ((to_string k).length + 2) by omega, hat]
        show charAt (to_string k ++ '}' :: spliceBuffer t rest) (to_string k).length = '}'
        exact charAt_append_cons _ _ _
    · intro j hj1 hj2 hcon
      obtain ⟨q, hq⟩ : ∃ q, j = pre.length + q := ⟨j - pre.length, by omega⟩
      rw [hq, hexpr2, charAt_append_right, charAt_append_left first _ q (by omega)] at hcon
      exact hf (hcon.1 ▸ charAt_mem first q (by omega))

theorem range'_split (a b c : Nat) (h1 : a ≤ b) (h2 : b ≤ c) :
    List.range' a (b - a) ++ List.range' b (c - b) = List.range' a (c - a) := by
  have e : a + 1 * (b - a) = b := by omega
  have h := List.range'_append a (b - a) (c - b) 1
  rw [e] at h
  rw [h]
  congr 1
  omega

theorem addExtraEmitCodeLine_blocks (l : Text) (g g' : CPPCodeGenerator)
    (h : addExtraEmitCodeLine l g = Except.ok g') :
    g'.fExtraEmitCodeBlocks.length = g.fExtraEmitCodeBlocks.length ∧
      (∀ i, i + 1 < g.fExtraEmitCodeBlocks.length →
        g'.fExtraEmitCodeBlocks[i]? = g.fExtraEmitCodeBlocks[i]?) ∧
      g'.fExtraEmitCodeBlocks.getLast?
        = g.fExtraEmitCodeBlocks.getLast?.map
            (fun b => b ++ ("        ".toList ++ l ++ "\n".toList)) := by
  unfold addExtraEmitCodeLine at h
  cases hlast : g.fExtraEmitCodeBlocks.getLast? with
  | none => rw [hlast] at h; cases h
  | some currentBlock =>
    rw [hlast] at h
    simp only [Run.pure_eq_ok] at h
    subst h
    have hne : g.fExtraEmitCodeBlocks ≠ [] := by
      intro hnil
      rw [hnil] at hlast
      cases hlast
    have hpos : 0 < g.fExtraEmitCodeBlocks.length := List.length_pos.2 hne
    refine ⟨?_, ?_, ?_⟩
    · simp only [List.length_append, List.length_dropLast, List.length_singleton]
      omega
    · intro i hi
      show (g.fExtraEmitCodeBlocks.dropLast ++ _)[i]? = _
      rw [List.getElem?_append_left (by simp; omega), List.getElem?_dropLast]
      simp [show i < g.fExtraEmitCodeBlocks.length - 1 by omega]
    · show (g.fExtraEmitCodeBlocks.dropLast ++ [_]).getLast? = _
      simp

theorem Renders.invariant {g₀ g : CPPCodeGenerator} (h : Renders g₀ g) :
    g₀.fOut.fText = [] →
    g.fOut.fId = g₀.fOut.fId ∧
      g₀.fExtraEmitCodeBlocks.length ≤ g.fExtraEmitCodeBlocks.length ∧
      TokensInOrder g₀.fExtraEmitCodeBlocks.length g := by
  induction h with
  | start g =>
    intro hbuf
    refine ⟨rfl, le_rfl, [], [], ?_, by simp, by simp, by simp⟩
    rw [hbuf]
    rfl
  | @text g₀ g t _ ht ih =>
    intro hbuf
    obtain ⟨hid, hle, first, rest, htext, hf, hr, hidx⟩ := ih hbuf
    refine ⟨hid, hle, ?_⟩
    rcases List.eq_nil_or_concat rest with hnil | ⟨init, last, hcat⟩
    · subst hnil
      refine ⟨first ++ t, [], ?_, ?_, by simp, hidx⟩
      · show g.fOut.fText ++ t = _
        rw [htext]
        simp [spliceBuffer]
      · intro hm
        rcases List.mem_append.1 hm with h1 | h1
        · exact hf h1
        · exact ht h1
    · obtain ⟨k, s⟩ := last
      rw [List.concat_eq_append] at hcat
      subst hcat
      refine ⟨first, init ++ [(k, s ++ t)], ?_, hf, ?_, ?_⟩
      · show g.fOut.fText ++ t = _
        rw [htext, spliceBuffer_snoc, spliceBuffer_snoc]
        simp [List.append_assoc]
      · intro kt hkt
        rcases List.mem_append.1 hkt with h1 | h1
        · exact hr kt (List.mem_append_left _ h1)
        · simp only [List.mem_singleton] at h1
          subst h1
          intro hm
          rcases List.mem_append.1 hm with h2 | h2
          · exact hr (k, s) (List.mem_append_right _ (List.mem_singleton_self _)) h2
          · exact ht h2
      · simpa using hidx
  | @newBlock g₀ g _ ih =>
    intro hbuf
    obtain ⟨hid, hle, first, rest, htext, hf, hr, hidx⟩ := ih hbuf
    have hlen : (newExtraEmitCodeBlock g).fExtraEmitCodeBlocks.length
        = g.fExtraEmitCodeBlocks.length + 1 := by
      simp [newExtraEmitCodeBlock, CPPCodeGenerator.write]
    refine ⟨hid, by rw [hlen]; omega, first, rest ++ [(g.fExtraEmitCodeBlocks.length, [])],
      ?_, hf, ?_, ?_⟩
    · rw [spliceBuffer_snoc, ← htext, List.append_nil]
      simp [newExtraEmitCodeBlock, CPPCodeGenerator.write, blockToken]
    · intro kt hkt
      rcases List.mem_append.1 hkt with h1 | h1
      · exact hr kt h1
      · simp only [List.mem_singleton] at h1
        subst h1
        simp
    · rw [hlen, List.map_append, hidx]
      have : g.fExtraEmitCodeBlocks.length + 1 - g₀.fExtraEmitCodeBlocks.length
          = (g.fExtraEmitCodeBlocks.length - g₀.fExtraEmitCodeBlocks.length) + 1 := by omega
      rw [this, List.range'_concat]
      simp only [List.map_cons, List.map_nil, Nat.one_mul]
      congr 2
      omega
  | @addLine g₀ g g' l _ hl ih =>
    intro hbuf
    obtain ⟨hid, hle, first, rest, htext, hf, hr, hidx⟩ := ih hbuf
    obtain ⟨ho, _, _, _, _⟩ := addExtraEmitCodeLine_frame l g g' hl
    obtain ⟨hb, _, _⟩ := addExtraEmitCodeLine_blocks l g g' hl
    exact ⟨by rw [ho]; exact hid, by rw [hb]; exact hle, first, rest, by rw [ho]; exact htext,
      hf, hr, by rw [hb]; exact hidx⟩
  | @convert g₀ g g₂ _ _ ih₁ ih₂ =>
    intro hbuf
    obtain ⟨hid, hle, first, rest, htext, hf, hr, hidx⟩ := ih₁ hbuf
    obtain ⟨_, hle2, first2, rest2, htext2, hf2, hr2, hidx2⟩ := ih₂ rfl
    have hle2' : g.fExtraEmitCodeBlocks.length ≤ g₂.fExtraEmitCodeBlocks.length := hle2
    have hidx2' : rest2.map Prod.fst = List.range' g.fExtraEmitCodeBlocks.length
        (g₂.fExtraEmitCodeBlocks.length - g.fExtraEmitCodeBlocks.length) := hidx2
    have hstrip := stripTokensLoop_dollarFree rest2 first2 [] []
      { g₂ with fFormatArgs := g.fFormatArgs, fOut := g.fOut } g₂.fOut.fText.length hf2 hr2
      (by rw [htext2])
    simp only [List.nil_append, List.length_nil] at hstrip
    rw [htext2] at hstrip
    rw [htext2, hstrip]
    refine ⟨hid, le_trans hle hle2', first,
      rest ++ rest2.map (fun (kt : Nat × Text) => ((kt.1, []) : Nat × Text)), ?_, hf,
      ?_, ?_⟩
    · show g.fOut.fText ++ rest2.flatMap (fun kt => blockToken kt.1) = _
      rw [htext, spliceBuffer_append]
      congr 1
      simp [List.flatMap_map]
    · intro kt hkt
      rcases List.mem_append.1 hkt with h1 | h1
      · exact hr kt h1
      · obtain ⟨x, _, rfl⟩ := List.mem_map.1 h1
        simp
    · show (rest ++ rest2.map (fun (kt : Nat × Text) => ((kt.1, []) : Nat × Text))).map Prod.fst
        = List.range' g₀.fExtraEmitCodeBlocks.length
            (g₂.fExtraEmitCodeBlocks.length - g₀.fExtraEmitCodeBlocks.length)
      rw [List.map_append, hidx, List.map_map]
      have hm : rest2.map (Prod.fst ∘ fun (kt : Nat × Text) => ((kt.1, []) : Nat × Text))
          = rest2.map Prod.fst := by
        apply List.map_congr_left
        intro x _
        rfl
      rw [hm, hidx2']
      exact range'_split _ _ _ hle hle2'

theorem heldBackSplice_eq_total :
    ∀ (rest : List (Nat × Text)) (cur : Text) (g : CPPCodeGenerator),
      (∀ k ∈ rest.map Prod.fst, k < g.fExtraEmitCodeBlocks.length) →
      heldBackSplice cur rest g = heldBackSpliceTotal cur rest g
  | [], _, _, _ => rfl
  | kt :: rest, cur, g, h => by
    simp only [heldBackSplice, heldBackSpliceTotal]
    cases hw : writeCodeAppend (flushPrefix cur) g with
    | error e => rfl
    | ok g1 =>
      have hb := (writeCodeAppend_frame _ _ _ hw).2.1
      have hk : kt.1 < g1.fExtraEmitCodeBlocks.length := by
        rw [hb]
        exact h kt.1 (by simp)
      show (match g1.fExtraEmitCodeBlocks[kt.1]? with
        | none => throw Fault.undefined
        | some block => heldBackSplice (heldBack cur ++ kt.2) rest (g1.write block))
        = heldBackSpliceTotal (heldBack cur ++ kt.2) rest
            (g1.write (g1.fExtraEmitCodeBlocks.getD kt.1 []))
      rw [List.getD_eq_getElem?_getD, List.getElem?_eq_getElem hk]
      simp only [Option.getD_some]
      exact heldBackSplice_eq_total rest _ _ (by
        intro k hkm
        show k < g1.fExtraEmitCodeBlocks.length
        rw [hb]
        exact h k (by simp only [List.map_cons, List.mem_cons]; exact Or.inr hkm))

/-- The call `convertSKSLExpressionToCPP` around a rendering of the same kind is a step of
`Renders`. -/
theorem Renders.convertWith {g₀ g g₂ : CPPCodeGenerator} (writeE : Writer) (cppVar : Text)
    (r : Text × CPPCodeGenerator) (h : Renders g₀ g)
    (hw : writeE kTopLevel_Precedence
        { g with fOut := { fId := g.fStreams, fText := [] }
                 fStreams := g.fStreams + 1
                 fFormatArgs := [] } = Except.ok g₂)
    (hr : Renders { g with fOut := { fId := g.fStreams, fText := [] }
                           fStreams := g.fStreams + 1
                           fFormatArgs := [] } g₂)
    (hc : convertSKSLExpressionToCPPWith writeE cppVar g = Except.ok r) :
    Renders g₀ r.2 := by
  unfold convertSKSLExpressionToCPPWith at hc
  simp only [Run.bind_eq_ok, Run.pure_eq_ok] at hc
  obtain ⟨g2', hg2', hc⟩ := hc
  rw [hw] at hg2'
  cases hg2'
  subst hc
  exact Renders.convert h hr

/-- C39: in every state `g` reached from a state `g₀` with an empty buffer and an empty
block table by template text without '$', `newExtraEmitCodeBlock`, `addExtraEmitCodeLine`
and the token relocation of `convertSKSLExpressionToCPP`, the buffer is text around the
tokens "${0}", "${1}", ..., one for each block of the table and in this order: every
token's index is below the number of blocks and no index occurs twice. The flush of such a
state never finds a block index out of range: it is the splice in which a lookup cannot
fail. And `addExtraEmitCodeLine` keeps the number of blocks and every block but the last,
to which it appends "        " ++ line ++ "\n"; it returns once the table has a block. -/
theorem C39_tokens_index_the_block_table (g₀ g : CPPCodeGenerator)
    (hreach : Renders g₀ g) (hbuf : g₀.fOut.fText = [])
    (htable : g₀.fExtraEmitCodeBlocks = []) :
    (∃ (first : Text) (rest : List (Nat × Text)),
      g.fOut.fText = spliceBuffer first rest ∧
      hasTokenStart (first ++ rest.flatMap Prod.snd) = false ∧
      rest.map Prod.fst = List.range g.fExtraEmitCodeBlocks.length ∧
      (∀ k ∈ rest.map Prod.fst, k < g.fExtraEmitCodeBlocks.length) ∧
      (rest.map Prod.fst).Nodup ∧
      ∀ cppBuffer, g.fCPPBuffer = some cppBuffer →
        flushEmittedCode g
          = (heldBackSpliceTotal first rest { g with fOut := cppBuffer }).map (fun g1 =>
              { g1 with fOut := { g.fOut with fText := [] }
                        fCPPBuffer := some g1.fOut
                        fExtraEmitCodeBlocks := [] })) ∧
    (∀ l g', addExtraEmitCodeLine l g = Except.ok g' →
      g'.fExtraEmitCodeBlocks.length = g.fExtraEmitCodeBlocks.length ∧
      (∀ i, i + 1 < g.fExtraEmitCodeBlocks.length →
        g'.fExtraEmitCodeBlocks[i]? = g.fExtraEmitCodeBlocks[i]?) ∧
      g'.fExtraEmitCodeBlocks.getLast?
        = g.fExtraEmitCodeBlocks.getLast?.map
            (fun b => b ++ ("        ".toList ++ l ++ "\n".toList))) ∧
    (0 < g.fExtraEmitCodeBlocks.length → ∀ l, ∃ g', addExtraEmitCodeLine l g = Except.ok g') := by
  obtain ⟨_, _, first, rest, htext, hf, hr, hidx⟩ := hreach.invariant hbuf
  rw [htable] at hidx
  simp only [List.length_nil, Nat.sub_zero] at hidx
  rw [← List.range_eq_range'] at hidx
  have hlt : ∀ k ∈ rest.map Prod.fst, k < g.fExtraEmitCodeBlocks.length := by
    intro k hk
    rw [hidx] at hk
    exact List.mem_range.1 hk
  have hplain : hasTokenStart (first ++ rest.flatMap Prod.snd) = false := by
    apply hasTokenStart_of_no_dollar
    intro hm
    rcases List.mem_append.1 hm with h1 | h1
    · exact hf h1
    · obtain ⟨kt, hkt, hin⟩ := List.mem_flatMap.1 h1
      exact hr kt hkt hin
  refine ⟨⟨first, rest, htext, hplain, hidx, hlt, ?_, ?_⟩, ?_, ?_⟩
  · rw [hidx]
    exact List.nodup_range _
  · intro cppBuffer hcpp
    rw [flushEmittedCode_heldBack g cppBuffer first rest hcpp htext hplain,
      heldBackSplice_eq_total rest first { g with fOut := cppBuffer } hlt]
  · intro l g' hl
    exact addExtraEmitCodeLine_blocks l g g' hl
  · intro hpos l
    unfold addExtraEmitCodeLine
    cases hlast : g.fExtraEmitCodeBlocks.getLast? with
    | none =>
      rw [List.getLast?_eq_none_iff] at hlast
      rw [hlast] at hpos
      simp at hpos
    | some b => exact ⟨_, rfl⟩

theorem twoBlocksState_renders : Renders (emitCodeState [] [] []) twoBlocksState :=
  Renders.text _
    (Renders.addLine "SkString _sample10 = this->invokeChild(0, args);".toList
      (Renders.convert
        (Renders.text "a = ".toList (Renders.newBlock (Renders.start (emitCodeState [] [] [])))
          (by decide))
        (Renders.newBlock (Renders.start _)))
      (by rfl))
    (by decide)

/-- C39 at the state reached by a new block, the text "a = ", an isolated rendering that
opens a second block, a line for that block and the text "x;": the buffer holds the
tokens of the blocks 0 and 1 in this order, only block 1 has received the line, and the
flush returns. -/
theorem C39_tokens_witness :
    twoBlocksState.fOut.fText = "$\x7b0\x7da = $\x7b1\x7dx;".toList ∧
    twoBlocksState.fExtraEmitCodeBlocks
      = [[], "        SkString _sample10 = this->invokeChild(0, args);\n".toList] ∧
    (∃ (first : Text) (rest : List (Nat × Text)),
      twoBlocksState.fOut.fText = spliceBuffer first rest ∧
      hasTokenStart (first ++ rest.flatMap Prod.snd) = false ∧
      rest.map Prod.fst = List.range twoBlocksState.fExtraEmitCodeBlocks.length ∧
      (∀ k ∈ rest.map Prod.fst, k < twoBlocksState.fExtraEmitCodeBlocks.length) ∧
      (rest.map Prod.fst).Nodup ∧
      ∀ cppBuffer, twoBlocksState.fCPPBuffer = some cppBuffer →
        flushEmittedCode twoBlocksState
          = (heldBackSpliceTotal first rest { twoBlocksState with fOut := cppBuffer }).map
              (fun g1 =>
                { g1 with fOut := { twoBlocksState.fOut with fText := [] }
                          fCPPBuffer := some g1.fOut
                          fExtraEmitCodeBlocks := [] })) ∧
    (flushEmittedCode twoBlocksState).map (fun g1 => g1.fCPPBuffer)
      = Except.ok (some { fId := 0, fText :=
          ("        SkString _sample10 = this->invokeChild(0, args);\n"
            ++ "        fragBuilder->codeAppendf(\nR\"SkSL(a = x;)SkSL\"\n);\n").toList }) :=
  ⟨by rfl, by rfl,
   (C39_tokens_index_the_block_table (emitCodeState [] [] []) twoBlocksState
      twoBlocksState_renders rfl rfl).1,
   by rfl⟩

/-! ## The driver: endings of the paths -/

theorem endsWith_append_self (stem e : Text) : endsWith (stem ++ e) e = true := by
  unfold endsWith
  rw [List.isSuffixOf_iff_suffix]
  exact List.suffix_append _ _

theorem endsWith_getLast (s e : Text) (he : e ≠ []) (h : endsWith s e = true) :
    s.getLast? = e.getLast? := by
  unfold endsWith at h
  rw [List.isSuffixOf_iff_suffix] at h
  obtain ⟨t, rfl⟩ := h
  rw [List.getLast?_append_of_ne_nil _ he]

theorem endsWith_append_ne (stem e e' : Text) (he : e ≠ []) (he' : e' ≠ [])
    (hne : e.getLast? ≠ e'.getLast?) : endsWith (stem ++ e) e' = false := by
  by_contra hcon
  have h : endsWith (stem ++ e) e' = true := by simpa using hcon
  have h1 := endsWith_getLast _ _ he' h
  rw [List.getLast?_append_of_ne_nil _ he] at h1
  exact hne h1

theorem endsWith_length (s e : Text) (h : endsWith s e = true) : e.length ≤ s.length := by
  unfold endsWith at h
  rw [List.isSuffixOf_iff_suffix] at h
  exact h.length_le

theorem programKind_length (input : Text) (kind : ProgramKind)
    (h : programKind input = some kind) : 3 ≤ input.length := by
  unfold programKind at h
  by_cases h1 : endsWith input ".vert".toList = true
  · exact le_trans (by decide) (endsWith_length _ _ h1)
  · by_cases h2 : endsWith input ".frag".toList = true
    · exact le_trans (by decide) (endsWith_length _ _ h2)
    · by_cases h3 : endsWith input ".sksl".toList = true
      · exact le_trans (by decide) (endsWith_length _ _ h3)
      · by_cases h4 : endsWith input ".geom".toList = true
        · exact le_trans (by decide) (endsWith_length _ _ h4)
        · by_cases h5 : endsWith input ".fp".toList = true
          · exact le_trans (by decide) (endsWith_length _ _ h5)
          · by_cases h6 : endsWith input ".stage".toList = true
            · exact le_trans (by decide) (endsWith_length _ _ h6)
            · rw [if_neg h1, if_neg (not_or.2 ⟨h2, h3⟩), if_neg h4, if_neg h5, if_neg h6] at h
              cases h

/-! ## C24: the program kind and the usage errors -/

/-- C24: the chain of tests on the input path gives the kind by the ending alone: vertex
for ".vert", fragment for ".frag" and ".sksl", geometry for ".geom", fragment processor
for ".fp", pipeline stage for ".stage", whatever precedes the ending, and no kind for a
path without any of these endings. With an argument count other than 3 (the program name
and two arguments), and with an input path without a kind, the driver exits with code 1
after a single `printf`: the input is not read and no output is opened. The kind given to
the front end and to `processIncludeFile` is the kind of the input path. -/
theorem C24_kind_from_input_ending (w : DriverWorld) (argv : List Text) :
    (∀ stem, programKind (stem ++ ".vert".toList) = some .kVertex_Kind) ∧
    (∀ stem, programKind (stem ++ ".frag".toList) = some .kFragment_Kind) ∧
    (∀ stem, programKind (stem ++ ".sksl".toList) = some .kFragment_Kind) ∧
    (∀ stem, programKind (stem ++ ".geom".toList) = some .kGeometry_Kind) ∧
    (∀ stem, programKind (stem ++ ".fp".toList) = some .kFragmentProcessor_Kind) ∧
    (∀ stem, programKind (stem ++ ".stage".toList) = some .kPipelineStage_Kind) ∧
    (∀ input, endsWith input ".vert".toList = false → endsWith input ".frag".toList = false →
      endsWith input ".sksl".toList = false → endsWith input ".geom".toList = false →
      endsWith input ".fp".toList = false → endsWith input ".stage".toList = false →
      programKind input = none) ∧
    (argv.length ≠ 3 →
      main w argv = (.exit 1, [.print "usage: skslc <input> <output>\n".toList])) ∧
    (argv.length = 3 → programKind (argv.getD 1 []) = none →
      main w argv = (.exit 1, [.print inputUsage])) ∧
    (∀ kind text p r, DriverEvent.convertProgram kind text p r ∈ (main w argv).2 →
      programKind (argv.getD 1 []) = some kind ∧ w.readFile (argv.getD 1 []) = some text) ∧
    (∀ kind path, DriverEvent.processIncludeFile kind path ∈ (main w argv).2 →
      programKind (argv.getD 1 []) = some kind) := by
  have ne : ∀ (stem : Text) (e e' : String), e.toList ≠ [] → e'.toList ≠ [] →
      e.toList.getLast? ≠ e'.toList.getLast? → endsWith (stem ++ e.toList) e'.toList = false :=
    fun stem e e' h1 h2 h3 => endsWith_append_ne stem _ _ h1 h2 h3
  refine ⟨?_, ?_, ?_, ?_, ?_, ?_, ?_, ?_, ?_, ?_, ?_⟩
  · intro stem
    unfold programKind
    rw [endsWith_append_self]
    rfl
  · intro stem
    unfold programKind
    rw [ne stem ".frag" ".vert" (by decide) (by decide) (by decide), endsWith_append_self]
    rfl
  · intro stem
    unfold programKind
    rw [ne stem ".sksl" ".vert" (by decide) (by decide) (by decide), endsWith_append_self]
    simp
  · intro stem
    unfold programKind
    rw [ne stem ".geom" ".vert" (by decide) (by decide) (by decide),
      ne stem ".geom" ".frag" (by decide) (by decide) (by decide),
      ne stem ".geom" ".sksl" (by decide) (by decide) (by decide), endsWith_append_self]
    simp
  · intro stem
    unfold programKind
    rw [ne stem ".fp" ".vert" (by decide) (by decide) (by decide),
      ne stem ".fp" ".frag" (by decide) (by decide) (by decide),
      ne stem ".fp" ".sksl" (by decide) (by decide) (by decide),
      ne stem ".fp" ".geom" (by decide) (by decide) (by decide), endsWith_append_self]
    simp
  · intro stem
    unfold programKind
    rw [ne stem ".stage" ".vert" (by decide) (by decide) (by decide),
      ne stem ".stage" ".frag" (by decide) (by decide) (by decide),
      ne stem ".stage" ".sksl" (by decide) (by decide) (by decide),
      ne stem ".stage" ".geom" (by decide) (by decide) (by decide),
      ne stem ".stage" ".fp" (by decide) (by decide) (by decide), endsWith_append_self]
    simp
  · intro input h1 h2 h3 h4 h5 h6
    unfold programKind
    rw [if_neg (by rw [h1]; decide), if_neg (by rw [h2, h3]; decide),
      if_neg (by rw [h4]; decide), if_neg (by rw [h5]; decide), if_neg (by rw [h6]; decide)]
  · intro h
    unfold main
    rw [if_pos h]
  · intro h hk
    unfold main
    rw [if_neg (by omega), hk]
    rfl
  · intro kind text p r hmem
    unfold main at hmem
    by_cases hlen : argv.length ≠ 3
    · rw [if_pos hlen] at hmem
      simp at hmem
    · rw [if_neg hlen] at hmem
      cases hk : programKind (argv.getD 1 []) with
      | none =>
        rw [hk] at hmem
        simp at hmem
      | some kind' =>
        rw [hk] at hmem
        cases hr : w.readFile (argv.getD 1 []) with
        | none =>
          rw [hr] at hmem
          simp at hmem
        | some text' =>
          rw [hr] at hmem
          simp only at hmem
          have hb : ∀ b pf rs wn,
              DriverEvent.convertProgram kind text p r
                ∈ (compileBranch w kind' text' (argv.getD 1 []) (argv.getD 2 []) b pf rs wn
                    [.readInput (argv.getD 1 [])]).2 →
              kind' = kind ∧ text' = text := by
            intro b pf rs wn hm
            unfold compileBranch at hm
            split at hm
            · simp at hm
            · split at hm
              · simp at hm
                exact ⟨hm.1.symm, hm.2.1.symm⟩
              · split at hm
                · simp at hm
                  exact ⟨hm.1.symm, hm.2.1.symm⟩
                · split at hm
                  · simp at hm
                    exact ⟨hm.1.symm, hm.2.1.symm⟩
                  · split at hm
                    · simp at hm
                      exact ⟨hm.1.symm, hm.2.1.symm⟩
                    · simp at hm
                      exact ⟨hm.1.symm, hm.2.1.symm⟩
          have hd : DriverEvent.convertProgram kind text p r
              ∉ (dehydrateBranch w kind' (argv.getD 1 []) (argv.getD 2 [])
                  [.readInput (argv.getD 1 [])]).2 := by
            unfold dehydrateBranch
            split
            · simp
            · split
              · simp
              · split <;> simp
          repeat' split at hmem
          · obtain ⟨a, b⟩ := hb _ _ _ _ hmem; exact ⟨by rw [a], by rw [b]⟩
          · obtain ⟨a, b⟩ := hb _ _ _ _ hmem; exact ⟨by rw [a], by rw [b]⟩
          · obtain ⟨a, b⟩ := hb _ _ _ _ hmem; exact ⟨by rw [a], by rw [b]⟩
          · obtain ⟨a, b⟩ := hb _ _ _ _ hmem; exact ⟨by rw [a], by rw [b]⟩
          · obtain ⟨a, b⟩ := hb _ _ _ _ hmem; exact ⟨by rw [a], by rw [b]⟩
          · exact absurd hmem hd
          · simp at hmem
  · intro kind path hmem
    unfold main at hmem
    by_cases hlen : argv.length ≠ 3
    · rw [if_pos hlen] at hmem
      simp at hmem
    · rw [if_neg hlen] at hmem
      cases hk : programKind (argv.getD 1 []) with
      | none =>
        rw [hk] at hmem
        simp at hmem
      | some kind' =>
        rw [hk] at hmem
        cases hr : w.readFile (argv.getD 1 []) with
        | none =>
          rw [hr] at hmem
          simp at hmem
        | some text' =>
          rw [hr] at hmem
          simp only at hmem
          have hb : ∀ b pf rs wn,
              DriverEvent.processIncludeFile kind path
                ∉ (compileBranch w kind' text' (argv.getD 1 []) (argv.getD 2 []) b pf rs wn
                    [.readInput (argv.getD 1 [])]).2 := by
            intro b pf rs wn
            unfold compileBranch
            split
            · simp
            · split
              · simp
              · split
                · simp
                · split
                  · simp
                  · split <;> simp
          have hd : DriverEvent.processIncludeFile kind path
              ∈ (dehydrateBranch w kind' (argv.getD 1 []) (argv.getD 2 [])
                  [.readInput (argv.getD 1 [])]).2 → kind' = kind := by
            intro hm
            unfold dehydrateBranch at hm
            split at hm
            · simp at hm
            · split at hm
              · simp at hm
                exact hm.1.symm
              · split at hm
                · simp at hm
                  exact hm.1.symm
                · simp at hm
                  exact hm.1.symm
          repeat' split at hmem
          · exact absurd hmem (hb _ _ _ _)
          · exact absurd hmem (hb _ _ _ _)
          · exact absurd hmem (hb _ _ _ _)
          · exact absurd hmem (hb _ _ _ _)
          · exact absurd hmem (hb _ _ _ _)
          · rw [hd hmem]
          · simp at hmem

/-- C24 at `skslc a.txt out.glsl`, at `skslc a.frag` and at `skslc a.fp out.cpp`: exit
code 1 with the usage message for the input, exit code 1 with the usage line, and the
kind "fragment processor" given to the front end. -/
theorem C24_kind_witness :
    main goodWorld ["skslc".toList, "a.txt".toList, "out.glsl".toList]
      = (.exit 1, [.print inputUsage]) ∧
    main goodWorld ["skslc".toList, "a.frag".toList]
      = (.exit 1, [.print "usage: skslc <input> <output>\n".toList]) ∧
    programKind ("a".toList ++ ".fp".toList) = some .kFragmentProcessor_Kind ∧
    main goodWorld ["skslc".toList, "GrA.fp".toList, "out.cpp".toList]
      = (.exit 0, [.readInput "GrA.fp".toList, .openOutput "out.cpp".toList,
          .convertProgram .kFragmentProcessor_Kind "void main() \x7b\x7d".toList true false,
          .backend .toCPP 7 "A".toList, .closeOutput "out.cpp".toList]) :=
  ⟨(C24_kind_from_input_ending goodWorld
      ["skslc".toList, "a.txt".toList, "out.glsl".toList]).2.2.2.2.2.2.2.2.1 (by decide)
      (by rfl),
   (C24_kind_from_input_ending goodWorld ["skslc".toList, "a.frag".toList]).2.2.2.2.2.2.2.1
      (by decide),
   (C24_kind_from_input_ending goodWorld []).2.2.2.2.1 "a".toList,
   by rfl⟩

/-! ## The function `base_name` -/

theorem strncmp_append (b t : Text) : strncmp (b ++ t) b b.length = 0 := by
  induction b with
  | nil =>
    show strncmp t [] 0 = 0
    cases t <;> rfl
  | cons c bs ih =>
    show strncmp (c :: (bs ++ t)) (c :: bs) (bs.length + 1) = 0
    rw [strncmp, if_pos rfl]
    exact ih

theorem strncmp_self (b : Text) : strncmp b b b.length = 0 := by
  have h := strncmp_append b []
  rwa [List.append_nil] at h

theorem char_eq_of_toNat (a b : Char) (h : (a.toNat : Int) - (b.toNat : Int) = 0) : a = b := by
  have h1 : a.toNat = b.toNat := by omega
  have h2 := congrArg Char.ofNat h1
  rwa [Char.ofNat_toNat, Char.ofNat_toNat] at h2

theorem strncmp_zero :
    ∀ (b a : Text), Char.ofNat 0 ∉ b → strncmp a b b.length = 0 → ∃ t, a = b ++ t
  | [], a, _, _ => ⟨a, rfl⟩
  | c :: bs, [], hb, h => by
    exfalso
    have h' : strncmp [] (c :: bs) (bs.length + 1) = 0 := h
    rw [strncmp] at h'
    have h1 : c.toNat = 0 := by omega
    have h2 := congrArg Char.ofNat h1
    rw [Char.ofNat_toNat] at h2
    exact hb (h2 ▸ List.mem_cons_self _ _)
  | c :: bs, x :: as, hb, h => by
    have h' : strncmp (x :: as) (c :: bs) (bs.length + 1) = 0 := h
    rw [strncmp] at h'
    by_cases hx : x = c
    · rw [if_pos hx] at h'
      obtain ⟨t, ht⟩ := strncmp_zero bs as (fun hm => hb (List.mem_cons_of_mem _ hm)) h'
      exact ⟨t, by rw [hx, ht]; rfl⟩
    · rw [if_neg hx] at h'
      exact absurd (char_eq_of_toNat _ _ h') hx

theorem fileNameStart_eq (fpPath : Text) :
    ∀ n, n ≤ fpPath.length →
      fileNameStart fpPath n
        = n - ((fpPath.take n).reverse.takeWhile
                (fun c => decide ('/' ≠ c ∧ '\\' ≠ c))).length := by
  intro n
  induction n with
  | zero => intro _; simp [fileNameStart]
  | succ n ih =>
    intro hn
    have hlt : n < fpPath.length := by omega
    have htake : fpPath.take (n + 1) = fpPath.take n ++ [charAt fpPath n] := by
      rw [List.take_succ, charAt_of_lt _ _ hlt, List.getElem?_eq_getElem hlt]
      rfl
    rw [fileNameStart, htake, List.reverse_append]
    simp only [List.reverse_cons, List.reverse_nil, List.nil_append, List.singleton_append,
      List.takeWhile_cons]
    by_cases hc : '/' ≠ charAt fpPath n ∧ '\\' ≠ charAt fpPath n
    · rw [if_pos hc, ih (by omega)]
      have hd : decide ('/' ≠ charAt fpPath n ∧ '\\' ≠ charAt fpPath n) = true :=
        decide_eq_true hc
      rw [hd]
      simp only [if_true, List.length_cons]
      omega
    · rw [if_neg hc]
      have hd : decide ('/' ≠ charAt fpPath n ∧ '\\' ≠ charAt fpPath n) = false :=
        decide_eq_false hc
      rw [hd]
      simp

/-- The loop of `base_name` stops at the start of the final component. -/
theorem drop_fileNameStart (fpPath : Text) :
    fpPath.drop (fileNameStart fpPath fpPath.length) = finalComponent fpPath := by
  rw [fileNameStart_eq fpPath fpPath.length le_rfl, List.take_length]
  unfold finalComponent
  have hpre := List.takeWhile_prefix (fun c => decide ('/' ≠ c ∧ '\\' ≠ c)) (l := fpPath.reverse)
  have htake := List.prefix_iff_eq_take.1 hpre
  conv_rhs => rw [htake]
  rw [List.take_reverse, List.reverse_reverse]

theorem fileNameStart_le (fpPath : Text) :
    fileNameStart fpPath fpPath.length ≤ fpPath.length := by
  rw [fileNameStart_eq fpPath fpPath.length le_rfl]
  omega

/-- On a path of at least three characters `base_name(path, "Gr", ".fp")` returns. -/
theorem base_name_Gr_fp (fpPath : Text) (h3 : 3 ≤ fpPath.length) :
    ∃ name, base_name fpPath "Gr".toList ".fp".toList = Except.ok name := by
  unfold base_name
  by_cases h1 : strncmp (fpPath.drop (fileNameStart fpPath fpPath.length)) "Gr".toList
      "Gr".toList.length = 0
  · rw [if_pos h1]
    have hlen : ¬ (fpPath.length < ".fp".toList.length) := by
      show ¬ (fpPath.length < 3)
      omega
    rw [if_neg hlen]
    by_cases h2 : strncmp (fpPath.drop (fpPath.length - ".fp".toList.length)) ".fp".toList
        ".fp".toList.length = 0
    · rw [if_pos h2]
      obtain ⟨t1, ht1⟩ := strncmp_zero _ _ (by decide) h1
      obtain ⟨t2, ht2⟩ := strncmp_zero _ _ (by decide) h2
      have hf := fileNameStart_le fpPath
      have hl1 := congrArg List.length ht1
      simp only [List.length_drop, List.length_append] at hl1
      have hG : fpPath[fileNameStart fpPath fpPath.length]? = some 'G' := by
        have := congrArg (fun l => l[0]?) ht1
        simpa [List.getElem?_drop] using this
      have hr : fpPath[fileNameStart fpPath fpPath.length + 1]? = some 'r' := by
        have := congrArg (fun l => l[1]?) ht1
        simpa [List.getElem?_drop] using this
      have hdot : fpPath[fpPath.length - 3]? = some '.' := by
        have := congrArg (fun l => l[0]?) ht2
        simpa [List.getElem?_drop] using this
      have hF : fpPath[fpPath.length - 3 + 1]? = some 'f' := by
        have := congrArg (fun l => l[1]?) ht2
        simpa [List.getElem?_drop] using this
      have hnot : ¬ (fpPath.length
          < fileNameStart fpPath fpPath.length + "Gr".toList.length + ".fp".toList.length) := by
        show ¬ (fpPath.length < fileNameStart fpPath fpPath.length + 2 + 3)
        intro hcon
        have h2le : fileNameStart fpPath fpPath.length + 2 ≤ fpPath.length := by
          have : ("Gr".toList).length = 2 := rfl
          omega
        have hcases : fileNameStart fpPath fpPath.length = fpPath.length - 3 + 1
            ∨ fileNameStart fpPath fpPath.length = fpPath.length - 3
            ∨ fileNameStart fpPath fpPath.length + 1 = fpPath.length - 3 := by omega
        rcases hcases with e | e | e
        · rw [e, hF] at hG
          exact absurd hG (by decide)
        · rw [e, hdot] at hG
          exact absurd hG (by decide)
        · rw [e, hdot] at hr
          exact absurd hr (by decide)
      rw [if_neg hnot]
      exact ⟨_, rfl⟩
    · rw [if_neg h2]
      exact ⟨_, rfl⟩
  · rw [if_neg h1]
    exact ⟨_, rfl⟩

/-! ## C27: the base name of a path -/

/-- C27: for a prefix and a suffix without NUL: when the final component of the path is
prefix ++ B ++ suffix, `base_name` returns B; when the final component does not start
with the prefix it returns the empty string, and so it does when the path is at least as
long as the suffix and does not end with it. But when the final component starts with the
prefix and the path is shorter than the suffix, the comparison of the suffix starts
before the path: the behaviour is undefined and nothing is returned. -/
theorem C27_base_name_of_final_component (fpPath namePrefix nameSuffix : Text)
    (hp : Char.ofNat 0 ∉ namePrefix) (hs : Char.ofNat 0 ∉ nameSuffix) :
    (∀ B, finalComponent fpPath = namePrefix ++ B ++ nameSuffix →
      base_name fpPath namePrefix nameSuffix = Except.ok B) ∧
    (¬ namePrefix <+: finalComponent fpPath →
      base_name fpPath namePrefix nameSuffix = Except.ok []) ∧
    (nameSuffix.length ≤ fpPath.length → ¬ nameSuffix <:+ fpPath →
      base_name fpPath namePrefix nameSuffix = Except.ok []) ∧
    (namePrefix <+: finalComponent fpPath → fpPath.length < nameSuffix.length →
      base_name fpPath namePrefix nameSuffix = Except.error Fault.undefined) := by
  have hf := fileNameStart_le fpPath
  have hdrop := drop_fileNameStart fpPath
  have hsuf : nameSuffix.length ≤ fpPath.length →
      strncmp (fpPath.drop (fpPath.length - nameSuffix.length)) nameSuffix nameSuffix.length = 0 →
      nameSuffix <:+ fpPath := by
    intro hle h0
    obtain ⟨t, ht⟩ := strncmp_zero _ _ hs h0
    have hl := congrArg List.length ht
    simp only [List.length_drop, List.length_append] at hl
    have : t = [] := List.length_eq_zero.1 (by omega)
    subst this
    rw [List.append_nil] at ht
    rw [← ht]
    exact List.drop_suffix _ _
  refine ⟨?_, ?_, ?_, ?_⟩
  · intro B hB
    rw [← hdrop] at hB
    have hl := congrArg List.length hB
    simp only [List.length_drop, List.length_append] at hl
    have hsufdrop : fpPath.drop (fpPath.length - nameSuffix.length) = nameSuffix := by
      have h1 : fpPath.length - nameSuffix.length
          = fileNameStart fpPath fpPath.length + (namePrefix ++ B).length := by
        simp only [List.length_append]
        omega
      have h2 := congrArg (List.drop (namePrefix ++ B).length) hB
      rw [List.drop_drop, List.drop_left] at h2
      rw [h1]
      exact h2
    have hmid : fpPath.drop (fileNameStart fpPath fpPath.length + namePrefix.length)
        = B ++ nameSuffix := by
      have h2 := congrArg (List.drop namePrefix.length) hB
      rw [List.drop_drop, List.append_assoc, List.drop_left] at h2
      exact h2
    unfold base_name
    rw [hB, List.append_assoc, strncmp_append, if_pos rfl, if_neg (by omega), hsufdrop,
      strncmp_self, if_pos rfl, if_neg (by omega)]
    unfold substr
    rw [hmid, show fpPath.length - fileNameStart fpPath fpPath.length - namePrefix.length
      - nameSuffix.length = B.length by omega, List.take_left]
    rfl
  · intro hnot
    unfold base_name
    rw [if_neg]
    · rfl
    · intro h0
      obtain ⟨t, ht⟩ := strncmp_zero _ _ hp h0
      rw [hdrop] at ht
      exact hnot ⟨t, ht.symm⟩
  · intro hle hnot
    unfold base_name
    by_cases h1 : strncmp (fpPath.drop (fileNameStart fpPath fpPath.length)) namePrefix
        namePrefix.length = 0
    · rw [if_pos h1, if_neg (by omega), if_neg (fun h0 => hnot (hsuf hle h0))]
      rfl
    · rw [if_neg h1]
      rfl
  · intro hpre hlt
    obtain ⟨t, ht⟩ := hpre
    unfold base_name
    rw [hdrop, ← ht, strncmp_append, if_pos rfl, if_pos hlt]
    rfl

/-- C27 at the path of the comment of the source, at a path without the prefix, and at
`base_name("a.fp", "", ".sksl")`, the call made by `skslc a.fp out.dehydrated.sksl`: the
path is shorter than the suffix and the run of the driver is undefined. -/
theorem C27_base_name_witness :
    base_name "src/gpu/effects/GrFooFragmentProcessor.fp".toList "Gr".toList ".fp".toList
      = Except.ok "FooFragmentProcessor".toList ∧
    base_name "src/gpu/effects/FooFragmentProcessor.fp".toList "Gr".toList ".fp".toList
      = Except.ok [] ∧
    base_name "a.fp".toList [] ".sksl".toList = Except.error Fault.undefined ∧
    main plainWorld ["skslc".toList, "a.fp".toList, "out.dehydrated.sksl".toList]
      = (.undefined, [.readInput "a.fp".toList, .openOutput "out.dehydrated.sksl".toList,
          .processIncludeFile .kFragmentProcessor_Kind "a.fp".toList]) :=
  ⟨(C27_base_name_of_final_component "src/gpu/effects/GrFooFragmentProcessor.fp".toList
      "Gr".toList ".fp".toList (by decide) (by decide)).1 "FooFragmentProcessor".toList
      (by rfl),
   by rfl,
   (C27_base_name_of_final_component "a.fp".toList [] ".sksl".toList (by decide)
      (by decide)).2.2.2 (by decide) (by decide),
   by rfl⟩

/-! ## C25, C26: the exit codes of the driver -/

theorem main_unrecognised_output (w : DriverWorld) (argv : List Text)
    (hlen : argv.length = 3)
    (h1 : endsWith (argv.getD 2 []) ".spirv".toList = false)
    (h2 : endsWith (argv.getD 2 []) ".glsl".toList = false)
    (h3 : endsWith (argv.getD 2 []) ".metal".toList = false)
    (h4 : endsWith (argv.getD 2 []) ".h".toList = false)
    (h5 : endsWith (argv.getD 2 []) ".cpp".toList = false)
    (h6 : endsWith (argv.getD 2 []) ".dehydrated.sksl".toList = false) :
    main w argv
      = match programKind (argv.getD 1 []) with
        | none => (.exit 1, [.print inputUsage])
        | some _ =>
          match w.readFile (argv.getD 1 []) with
          | none =>
            (.exit 2, [.readInput (argv.getD 1 []),
              .print ("error reading '".toList ++ argv.getD 1 [] ++ "'\n".toList)])
          | some _ => (.exit 1, [.readInput (argv.getD 1 []), .print outputUsage]) := by
  unfold main
  rw [if_neg (by omega)]
  cases programKind (argv.getD 1 []) with
  | none => rfl
  | some kind =>
    simp only
    cases w.readFile (argv.getD 1 []) with
    | none => rfl
    | some text =>
      simp only
      rw [if_neg (by rw [h1]; decide), if_neg (by rw [h2]; decide),
        if_neg (by rw [h3]; decide), if_neg (by rw [h4]; decide),
        if_neg (by rw [h5]; decide), if_neg (by rw [h6]; decide)]
      rfl

/-- C25 (counterexample): `skslc a.frag out.xyz` when "a.frag" cannot be read exits with
code 2 after the message "error reading 'a.frag'": the output ending is not looked at. -/
theorem C25_unreadable_input_exits_with_2 :
    main unreadableWorld ["skslc".toList, "a.frag".toList, "out.xyz".toList]
      = (.exit 2, [.readInput "a.frag".toList, .print "error reading 'a.frag'\n".toList]) := by
  rfl

/-- C25: for every invocation with two arguments whose output path has none of the endings
".spirv", ".glsl", ".metal", ".h", ".cpp", ".dehydrated.sksl": the driver exits with code
1 and the usage message for the input when the input path has no kind; with code 2 and
the message "error reading" when the input cannot be read; and otherwise with code 1 and
the usage message for the output. In every case no output is opened or written. -/
theorem C25_unrecognised_output_opens_nothing (w : DriverWorld) (argv : List Text)
    (hlen : argv.length = 3)
    (h1 : endsWith (argv.getD 2 []) ".spirv".toList = false)
    (h2 : endsWith (argv.getD 2 []) ".glsl".toList = false)
    (h3 : endsWith (argv.getD 2 []) ".metal".toList = false)
    (h4 : endsWith (argv.getD 2 []) ".h".toList = false)
    (h5 : endsWith (argv.getD 2 []) ".cpp".toList = false)
    (h6 : endsWith (argv.getD 2 []) ".dehydrated.sksl".toList = false) :
    (programKind (argv.getD 1 []) = none → main w argv = (.exit 1, [.print inputUsage])) ∧
    (∀ kind, programKind (argv.getD 1 []) = some kind → w.readFile (argv.getD 1 []) = none →
      main w argv = (.exit 2, [.readInput (argv.getD 1 []),
        .print ("error reading '".toList ++ argv.getD 1 [] ++ "'\n".toList)])) ∧
    (∀ kind text, programKind (argv.getD 1 []) = some kind →
      w.readFile (argv.getD 1 []) = some text →
      main w argv = (.exit 1, [.readInput (argv.getD 1 []), .print outputUsage])) ∧
    (∀ e ∈ (main w argv).2, (∀ p, e ≠ .openOutput p) ∧ (∀ t, e ≠ .writeOutput t)) := by
  have hm := main_unrecognised_output w argv hlen h1 h2 h3 h4 h5 h6
  refine ⟨?_, ?_, ?_, ?_⟩
  · intro hk
    rw [hm, hk]
  · intro kind hk hr
    rw [hm, hk]
    simp only
    rw [hr]
  · intro kind text hk hr
    rw [hm, hk]
    simp only
    rw [hr]
  · intro e he
    rw [hm] at he
    cases hk : programKind (argv.getD 1 []) with
    | none =>
      rw [hk] at he
      simp only [List.mem_singleton] at he
      subst he
      exact ⟨fun p h => (by cases h), fun t h => (by cases h)⟩
    | some kind =>
      rw [hk] at he
      simp only at he
      cases hr : w.readFile (argv.getD 1 []) with
      | none =>
        rw [hr] at he
        simp only [List.mem_cons, List.mem_singleton, List.not_mem_nil, or_false] at he
        rcases he with rfl | rfl
        · exact ⟨fun p h => (by cases h), fun t h => (by cases h)⟩
        · exact ⟨fun p h => (by cases h), fun t h => (by cases h)⟩
      | some text =>
        rw [hr] at he
        simp only [List.mem_cons, List.mem_singleton, List.not_mem_nil, or_false] at he
        rcases he with rfl | rfl
        · exact ⟨fun p h => (by cases h), fun t h => (by cases h)⟩
        · exact ⟨fun p h => (by cases h), fun t h => (by cases h)⟩

/-- C25 at `skslc a.frag out.xyz` with a readable input: exit code 1 and the usage message
for the output, after the input has been read. -/
theorem C25_unrecognised_output_witness :
    main goodWorld ["skslc".toList, "a.frag".toList, "out.xyz".toList]
      = (.exit 1, [.readInput "a.frag".toList, .print outputUsage]) :=
  (C25_unrecognised_output_opens_nothing goodWorld
    ["skslc".toList, "a.frag".toList, "out.xyz".toList] rfl (by rfl) (by rfl) (by rfl)
    (by rfl) (by rfl) (by rfl)).2.2.1 .kFragment_Kind "void main() \x7b\x7d".toList (by rfl)
    rfl

theorem main_selected_backend (w : DriverWorld) (argv : List Text) (kind : ProgramKind)
    (text : Text) (b : Backend) (hlen : argv.length = 3)
    (hkind : programKind (argv.getD 1 []) = some kind)
    (hread : w.readFile (argv.getD 1 []) = some text)
    (hb : selectedBackend (argv.getD 2 []) = some b) :
    main w argv
      = compileBranch w kind text (argv.getD 1 []) (argv.getD 2 []) b b.writesProcessor
          (!b.writesProcessor) b.writesProcessor [.readInput (argv.getD 1 [])] := by
  unfold main
  rw [if_neg (by omega), hkind]
  simp only
  rw [hread]
  simp only
  unfold selectedBackend at hb
  by_cases h1 : endsWith (argv.getD 2 []) ".spirv".toList = true
  · rw [if_pos h1] at hb ⊢
    cases hb
    rfl
  · rw [if_neg h1] at hb ⊢
    by_cases h2 : endsWith (argv.getD 2 []) ".glsl".toList = true
    · rw [if_pos h2] at hb ⊢
      cases hb
      rfl
    · rw [if_neg h2] at hb ⊢
      by_cases h3 : endsWith (argv.getD 2 []) ".metal".toList = true
      · rw [if_pos h3] at hb ⊢
        cases hb
        rfl
      · rw [if_neg h3] at hb ⊢
        by_cases h4 : endsWith (argv.getD 2 []) ".h".toList = true
        · rw [if_pos h4] at hb ⊢
          cases hb
          rfl
        · rw [if_neg h4] at hb ⊢
          by_cases h5 : endsWith (argv.getD 2 []) ".cpp".toList = true
          · rw [if_pos h5] at hb ⊢
            cases hb
            rfl
          · rw [if_neg h5] at hb
            cases hb

/-- C26 (counterexample): `skslc a.frag out.glsl` when "a.frag" cannot be read exits with
code 2 and has called neither the front end nor a back end. -/
theorem C26_unreadable_input_calls_no_front_end :
    main unreadableWorld ["skslc".toList, "a.frag".toList, "out.glsl".toList]
      = (.exit 2, [.readInput "a.frag".toList, .print "error reading 'a.frag'\n".toList]) := by
  rfl

/-- C26: for every invocation with two arguments, an input path with a kind and an output
path that selects the back end `b` by one of the endings ".spirv", ".glsl", ".metal", ".h",
".cpp": the exit code is 2 when the input cannot be read; else 4 when the output stream is
not valid; else 3, after the error text of the compiler, when the front end gives no
program or `b` fails; else 4 when closing fails; else 0. The front end is called once when
the input was read and the output opened, and not at all before; `b`, and no other back
end, is called once when the front end gave a program, with the base name of the input
when `b` is `toH` or `toCPP`. -/
theorem C26_exit_codes_and_calls (w : DriverWorld) (argv : List Text) (kind : ProgramKind)
    (b : Backend) (hlen : argv.length = 3)
    (hkind : programKind (argv.getD 1 []) = some kind)
    (hb : selectedBackend (argv.getD 2 []) = some b) :
    ∃ name,
      (if b.writesProcessor = true then base_name (argv.getD 1 []) "Gr".toList ".fp".toList
        else pure []) = Except.ok name ∧
      (w.readFile (argv.getD 1 []) = none →
        main w argv = (.exit 2, [.readInput (argv.getD 1 []),
          .print ("error reading '".toList ++ argv.getD 1 [] ++ "'\n".toList)])) ∧
      (∀ text, w.readFile (argv.getD 1 []) = some text →
        (w.outputValid (argv.getD 2 []) = false →
          main w argv = (.exit 4, [.readInput (argv.getD 1 []), .openOutput (argv.getD 2 []),
            .print ("error writing '".toList ++ argv.getD 2 [] ++ "'\n".toList)])) ∧
        (w.outputValid (argv.getD 2 []) = true →
          (w.convertProgram kind text b.writesProcessor (!b.writesProcessor) = none →
            main w argv
              = (.exit 3, eventsToFrontEnd kind text (argv.getD 1 []) (argv.getD 2 []) b
                  ++ [.print (w.errorText kind text)])) ∧
          (∀ program,
            w.convertProgram kind text b.writesProcessor (!b.writesProcessor)
              = some program →
            (w.backendOk b program name = false →
              main w argv
                = (.exit 3, eventsToFrontEnd kind text (argv.getD 1 []) (argv.getD 2 []) b
                    ++ [.backend b program name, .print (w.errorText kind text)])) ∧
            (w.backendOk b program name = true → w.closeOk (argv.getD 2 []) = false →
              main w argv
                = (.exit 4, eventsToFrontEnd kind text (argv.getD 1 []) (argv.getD 2 []) b
                    ++ [.backend b program name, .closeOutput (argv.getD 2 []),
                        .print ("error writing '".toList ++ argv.getD 2 []
                          ++ "'\n".toList)])) ∧
            (w.backendOk b program name = true → w.closeOk (argv.getD 2 []) = true →
              main w argv
                = (.exit 0, eventsToFrontEnd kind text (argv.getD 1 []) (argv.getD 2 []) b
                    ++ [.backend b program name, .closeOutput (argv.getD 2 [])]))))) := by
  have hname : ∃ name,
      (if b.writesProcessor = true then base_name (argv.getD 1 []) "Gr".toList ".fp".toList
        else pure []) = Except.ok name := by
    by_cases hw : b.writesProcessor = true
    · rw [if_pos hw]
      exact base_name_Gr_fp _ (programKind_length _ _ hkind)
    · rw [if_neg hw]
      exact ⟨[], rfl⟩
  obtain ⟨name, hname⟩ := hname
  refine ⟨name, hname, ?_, ?_⟩
  · intro hread
    unfold main
    rw [if_neg (by omega), hkind]
    simp only
    rw [hread]
  · intro text hread
    rw [main_selected_backend w argv kind text b hlen hkind hread hb]
    unfold compileBranch
    refine ⟨?_, ?_⟩
    · intro hv
      rw [if_pos (by rw [hv]; decide)]
      rfl
    · intro hv
      rw [if_neg (by rw [hv]; decide)]
      refine ⟨?_, ?_⟩
      · intro hc
        rw [hc]
        rfl
      · intro program hc
        rw [hc]
        simp only
        rw [hname]
        simp only
        refine ⟨?_, ?_, ?_⟩
        · intro hbk
          rw [if_pos (by rw [hbk]; decide)]
          rfl
        · intro hbk hcl
          rw [if_neg (by rw [hbk]; decide), if_pos (by rw [hcl]; decide)]
          rfl
        · intro hbk hcl
          rw [if_neg (by rw [hbk]; decide), if_neg (by rw [hcl]; decide)]
          rfl

/-- C26 at `skslc GrA.fp out.h` in a world where everything succeeds: exit code 0, the
front end called once for a fragment processor and `toH` called once with the name "A". -/
theorem C26_exit_codes_witness :
    main goodWorld ["skslc".toList, "GrA.fp".toList, "out.h".toList]
      = (.exit 0, eventsToFrontEnd .kFragmentProcessor_Kind "void main() \x7b\x7d".toList
            "GrA.fp".toList "out.h".toList .toH
          ++ [.backend .toH 7 "A".toList, .closeOutput "out.h".toList]) := by
  obtain ⟨name, hname, _, h⟩ := C26_exit_codes_and_calls goodWorld
    ["skslc".toList, "GrA.fp".toList, "out.h".toList] .kFragmentProcessor_Kind .toH rfl
    (by rfl) (by rfl)
  have hn : name = "A".toList := by
    have h1 : base_name "GrA.fp".toList "Gr".toList ".fp".toList = Except.ok name := hname
    have h2 : base_name "GrA.fp".toList "Gr".toList ".fp".toList = Except.ok "A".toList := by
      rfl
    rw [h2] at h1
    exact (Except.ok.inj h1).symm
  subst hn
  exact ((h "void main() \x7b\x7d".toList rfl).2 rfl).2 7 rfl |>.2.2 rfl rfl

/-! ## Clones of statement nodes -/

theorem nodeAt_append (h more : IRHeap) (p : NodePtr) (hv : (h.nodeAt p).isSome) :
    (h ++ more).nodeAt p = h.nodeAt p := by
  cases p with
  | none => simp [IRHeap.nodeAt] at hv
  | some a =>
    simp only [IRHeap.nodeAt] at hv ⊢
    have ha : a < h.length := by
      by_contra hcon
      rw [List.getElem?_eq_none (by omega)] at hv
      simp at hv
    rw [List.getElem?_append_left ha]

theorem nodeAt_lt (h : IRHeap) (a : Nat) (hv : (h.nodeAt (some a)).isSome) : a < h.length := by
  simp only [IRHeap.nodeAt] at hv
  by_contra hcon
  rw [List.getElem?_eq_none (by omega)] at hv
  simp at hv

theorem nodeAt_new (h : IRHeap) (n : IRNode) (more : IRHeap) :
    (h ++ n :: more).nodeAt (some h.length) = some n := by
  show (h ++ n :: more)[h.length]? = some n
  rw [List.getElem?_append_right (Nat.le_refl _)]
  simp

theorem clone_of_node (h : IRHeap) (p : NodePtr) (n : IRNode) (hn : h.nodeAt p = some n) :
    p.clone h = Except.ok (some h.length, h ++ [n]) := by
  unfold NodePtr.clone
  rw [hn]
  rfl

theorem switchCloneLoop_spec :
    ∀ (cases cloned : List NodePtr) (h : IRHeap), (∀ c ∈ cases, (h.nodeAt c).isSome) →
      ∃ nodes : List IRNode,
        switchCloneLoop cases cloned h
          = Except.ok (cloned ++ (List.range' h.length cases.length).map some, h ++ nodes) ∧
        List.Forall₂ (fun c n => h.nodeAt c = some n) cases nodes
  | [], cloned, h, _ => ⟨[], by simp [switchCloneLoop]; rfl, List.Forall₂.nil⟩
  | c :: rest, cloned, h, hv => by
    obtain ⟨n, hn⟩ := Option.isSome_iff_exists.1 (hv c (List.mem_cons_self _ _))
    obtain ⟨nodes, hloop, hall⟩ := switchCloneLoop_spec rest (cloned ++ [some h.length])
      (h ++ [n]) (fun c' hc' => by
        rw [nodeAt_append _ _ _ (hv c' (List.mem_cons_of_mem _ hc'))]
        exact hv c' (List.mem_cons_of_mem _ hc'))
    refine ⟨n :: nodes, ?_, List.Forall₂.cons hn ?_⟩
    · rw [switchCloneLoop, clone_of_node h c n hn]
      show switchCloneLoop rest (cloned ++ [some h.length]) (h ++ [n]) = _
      rw [hloop]
      simp [List.range'_succ, List.append_assoc]
    · have hmem : ∀ c' ∈ rest, (h.nodeAt c').isSome :=
        fun c' hc' => hv c' (List.mem_cons_of_mem _ hc')
      clear hloop
      induction hall with
      | nil => exact List.Forall₂.nil
      | @cons c' n' cs ns hhead _ ih =>
        refine List.Forall₂.cons ?_ (ih (fun x hx => hv x (by
            rcases List.mem_cons.1 hx with rfl | hx
            · exact List.mem_cons_self _ _
            · exact List.mem_cons_of_mem _ (List.mem_cons_of_mem _ hx)))
          (fun x hx => hmem x (List.mem_cons_of_mem _ hx)))
        rw [← nodeAt_append h [n] c' (hmem c' (List.mem_cons_self _ _))]
        exact hhead

theorem forall₂_cloned (extra : IRHeap) :
    ∀ (nodes h : IRHeap),
      List.Forall₂ (fun c n => (h ++ nodes ++ extra).nodeAt c = some n)
        ((List.range' h.length nodes.length).map some) nodes
  | [], _ => List.Forall₂.nil
  | n :: ns, h => by
    simp only [List.length_cons, List.range'_succ, List.map_cons]
    refine List.Forall₂.cons ?_ ?_
    · rw [List.append_assoc]
      exact nodeAt_new h n (ns ++ extra)
    · have h1 := forall₂_cloned extra ns (h ++ [n])
      have e1 : h ++ [n] ++ ns ++ extra = h ++ n :: ns ++ extra := by simp
      have e2 : (h ++ [n]).length = h.length + 1 := by simp
      rw [e1, e2] at h1
      exact h1

theorem switchDescriptionLoop_nodes (h : IRHeap) :
    ∀ (cs : List NodePtr) (nodes : List IRNode) (acc : Text),
      List.Forall₂ (fun c n => h.nodeAt c = some n) cs nodes →
      switchDescriptionLoop h cs acc
        = Except.ok (acc ++ nodes.flatMap (fun n => n.fDescription))
  | _, _, acc, List.Forall₂.nil => by simp [switchDescriptionLoop]; rfl
  | _, _, acc, @List.Forall₂.cons _ _ _ c n cs ns hc hrest => by
    rw [switchDescriptionLoop]
    unfold NodePtr.description
    rw [hc]
    show switchDescriptionLoop h cs (acc ++ n.fDescription) = _
    rw [switchDescriptionLoop_nodes h cs ns _ hrest]
    simp [List.append_assoc]

theorem switchNodeCountLoop_nodes (h : IRHeap) :
    ∀ (cs : List NodePtr) (nodes : List IRNode) (acc : Int),
      List.Forall₂ (fun c n => h.nodeAt c = some n) cs nodes →
      switchNodeCountLoop h cs acc
        = Except.ok (acc + (nodes.map (fun n => n.fNodeCount)).sum)
  | _, _, acc, List.Forall₂.nil => by simp [switchNodeCountLoop]; rfl
  | _, _, acc, @List.Forall₂.cons _ _ _ c n cs ns hc hrest => by
    rw [switchNodeCountLoop]
    unfold NodePtr.nodeCount
    rw [hc]
    show switchNodeCountLoop h cs (acc + n.fNodeCount) = _
    rw [switchNodeCountLoop_nodes h cs ns _ hrest]
    simp [Int.add_assoc]

/-- The clone of a switch statement whose pointers are valid: the new statement, the new
free store, and the nodes the old pointers point to. -/
theorem switchClone_spec (h : IRHeap) (s : SwitchStatement)
    (hv : (h.nodeAt s.fValue).isSome) (hc : ∀ c ∈ s.fCases, (h.nodeAt c).isSome) :
    ∃ (v : IRNode) (nodes : List IRNode),
      h.nodeAt s.fValue = some v ∧
      List.Forall₂ (fun c n => h.nodeAt c = some n) s.fCases nodes ∧
      s.clone h
        = Except.ok
            ({ fOffset := s.fOffset, fIsStatic := s.fIsStatic,
               fValue := some (h.length + s.fCases.length), fSymbols := s.fSymbols,
               fCases := (List.range' h.length s.fCases.length).map some },
             h ++ nodes ++ [v]) := by
  obtain ⟨v, hval⟩ := Option.isSome_iff_exists.1 hv
  obtain ⟨nodes, hloop, hall⟩ := switchCloneLoop_spec s.fCases [] h hc
  refine ⟨v, nodes, hval, hall, ?_⟩
  unfold SwitchStatement.clone
  rw [hloop]
  have hlen : nodes.length = s.fCases.length := hall.length_eq.symm
  have hval' : (h ++ nodes).nodeAt s.fValue = some v := by
    rw [nodeAt_append _ _ _ hv, hval]
  show (NodePtr.clone (h ++ nodes) s.fValue >>= _) = _
  rw [clone_of_node _ _ _ hval']
  simp [hlen]

theorem forall₂_agree (h H : IRHeap)
    (hagree : ∀ p, (h.nodeAt p).isSome → H.nodeAt p = h.nodeAt p) :
    ∀ (cs : List NodePtr) (nodes : List IRNode),
      List.Forall₂ (fun c n => h.nodeAt c = some n) cs nodes →
      List.Forall₂ (fun c n => H.nodeAt c = some n) cs nodes
  | _, _, List.Forall₂.nil => List.Forall₂.nil
  | _, _, List.Forall₂.cons hc hrest =>
    List.Forall₂.cons (by rw [hagree _ (by rw [hc]; rfl), hc]) (forall₂_agree h H hagree _ _ hrest)

theorem switchDescription_nodes (h : IRHeap) (s : SwitchStatement) (v : IRNode)
    (nodes : List IRNode) (hv : h.nodeAt s.fValue = some v)
    (hc : List.Forall₂ (fun c n => h.nodeAt c = some n) s.fCases nodes) :
    s.description h
      = Except.ok ((if s.fIsStatic then "@".toList else []) ++ ("switch (".toList
          ++ v.fDescription ++ ") \x7b\n".toList)
          ++ nodes.flatMap (fun n => n.fDescription) ++ "\x7d".toList) := by
  unfold SwitchStatement.description NodePtr.description
  rw [hv]
  show (switchDescriptionLoop h s.fCases _ >>= _) = _
  rw [switchDescriptionLoop_nodes h _ _ _ hc]
  rfl

theorem switchNodeCount_nodes (h : IRHeap) (s : SwitchStatement) (v : IRNode)
    (nodes : List IRNode) (hv : h.nodeAt s.fValue = some v)
    (hc : List.Forall₂ (fun c n => h.nodeAt c = some n) s.fCases nodes) :
    s.nodeCount h
      = Except.ok (1 + v.fNodeCount + (nodes.map (fun n => n.fNodeCount)).sum) := by
  unfold SwitchStatement.nodeCount NodePtr.nodeCount
  rw [hv]
  show switchNodeCountLoop h s.fCases _ = _
  rw [switchNodeCountLoop_nodes h _ _ _ hc]

theorem nodeAt_value_cloned (h nodes : IRHeap) (v : IRNode) (k : Nat)
    (hk : nodes.length = k) :
    (h ++ nodes ++ [v]).nodeAt (some (h.length + k)) = some v := by
  have h1 := nodeAt_new (h ++ nodes) v []
  rw [List.length_append, hk] at h1
  exact h1

theorem returnClone_spec (h : IRHeap) (o : Int) (e : NodePtr) (n : IRNode)
    (hn : h.nodeAt e = some n) :
    ReturnStatement.clone h { fOffset := o, fExpression := e }
      = Except.ok ({ fOffset := n.fOffset, fExpression := some h.length }, h ++ [n]) := by
  have hne : e ≠ none := by
    rintro rfl
    simp [IRHeap.nodeAt] at hn
  unfold ReturnStatement.clone
  rw [if_pos hne]
  show (NodePtr.clone h e >>= _) = _
  rw [clone_of_node h e n hn]
  show (match (h ++ [n]).nodeAt (some h.length) with
        | none => _
        | some n => _) = _
  rw [nodeAt_new h n []]
  rfl

theorem store_nodeAt (h more : IRHeap) (a : Nat) (n : IRNode) (ha : h.length ≤ a)
    (p : NodePtr) (hp : (h.nodeAt p).isSome) :
    ((h ++ more).store a n).nodeAt p = h.nodeAt p := by
  cases p with
  | none => simp [IRHeap.nodeAt] at hp
  | some b =>
    have hb := nodeAt_lt h b hp
    show ((h ++ more).set a n)[b]? = h[b]?
    rw [List.getElem?_set_ne (by omega), List.getElem?_append_left hb]

theorem forall₂_copies (h H : IRHeap) :
    ∀ (cs : List NodePtr) (nodes : List IRNode) (cs' : List NodePtr),
      List.Forall₂ (fun c n => h.nodeAt c = some n) cs nodes →
      List.Forall₂ (fun c n => H.nodeAt c = some n) cs' nodes →
      List.Forall₂ (fun c c' => H.nodeAt c' = h.nodeAt c) cs cs'
  | _, _, _, List.Forall₂.nil, List.Forall₂.nil => List.Forall₂.nil
  | _, _, _, List.Forall₂.cons hc hrest, List.Forall₂.cons hc' hrest' =>
    List.Forall₂.cons (by rw [hc', hc]) (forall₂_copies h H _ _ _ hrest hrest')

/-- C28. A continue, return or switch statement whose pointers point to nodes (the
expression of a return statement may be null) is cloned, and the description of the clone
is the description of the statement; that of a switch statement is the "@" of a static
one, "switch (", the description of the value, ") {", a line end, the descriptions of the
cases in their order, and "}". -/
theorem C28_clone_keeps_description (h : IRHeap) (s : IRStatement) (hv : s.Valid h) :
    ∃ (s' : IRStatement) (h' : IRHeap) (text : Text),
      s.clone h = Except.ok (s', h') ∧
      s.description h = Except.ok text ∧
      s'.description h' = Except.ok text ∧
      (∀ sw, s = .switchStatement sw →
        ∃ (v : IRNode) (nodes : List IRNode),
          h.nodeAt sw.fValue = some v ∧
          List.Forall₂ (fun c n => h.nodeAt c = some n) sw.fCases nodes ∧
          text = (if sw.fIsStatic then "@".toList else []) ++ ("switch (".toList
            ++ v.fDescription ++ ") \x7b\n".toList)
            ++ nodes.flatMap (fun n => n.fDescription) ++ "\x7d".toList) := by
  cases s with
  | continueStatement c =>
    exact ⟨_, _, _, rfl, rfl, rfl, fun sw hsw => by cases hsw⟩
  | returnStatement r =>
    obtain ⟨o, e⟩ := r
    cases e with
    | none => exact ⟨_, _, _, rfl, rfl, rfl, fun sw hsw => by cases hsw⟩
    | some a =>
      have hsome : (h.nodeAt (some a)).isSome := by
        rcases hv with hv | hv
        · cases hv
        · exact hv
      obtain ⟨n, hn⟩ := Option.isSome_iff_exists.1 hsome
      refine ⟨.returnStatement { fOffset := n.fOffset, fExpression := some h.length },
        h ++ [n], "return ".toList ++ n.fDescription ++ ";".toList, ?_, ?_, ?_,
        fun sw hsw => by cases hsw⟩
      · show (ReturnStatement.clone h _ >>= _) = _
        rw [returnClone_spec h o (some a) n hn]
        rfl
      · show ReturnStatement.description h _ = _
        unfold ReturnStatement.description NodePtr.description
        rw [if_pos (by simp)]
        simp only [hn]
        rfl
      · show ReturnStatement.description (h ++ [n]) _ = _
        unfold ReturnStatement.description NodePtr.description
        rw [if_pos (by simp)]
        simp only [nodeAt_new h n []]
        rfl
  | switchStatement sw =>
    obtain ⟨v, nodes, hval, hall, hclone⟩ := switchClone_spec h sw hv.1 hv.2
    refine ⟨.switchStatement
        { fOffset := sw.fOffset, fIsStatic := sw.fIsStatic,
          fValue := some (h.length + sw.fCases.length), fSymbols := sw.fSymbols,
          fCases := (List.range' h.length sw.fCases.length).map some },
      h ++ nodes ++ [v], _, ?_, switchDescription_nodes h sw v nodes hval hall,
      ?_, ?_⟩
    · show (SwitchStatement.clone h sw >>= _) = _
      rw [hclone]
      rfl
    · show SwitchStatement.description (h ++ nodes ++ [v]) _ = _
      have hlen : nodes.length = sw.fCases.length := hall.length_eq.symm
      have h1 := forall₂_cloned [v] nodes h
      rw [hlen] at h1
      rw [switchDescription_nodes (h ++ nodes ++ [v]) _ v nodes
        (nodeAt_value_cloned h nodes v _ hlen) h1]
    · intro sw' hsw'
      cases hsw'
      exact ⟨v, nodes, hval, hall, rfl⟩

/-- The static switch of the worked case is valid in its free store; its description and
that of its clone are "@switch (x) {", the two cases, and "}". -/
theorem C28_clone_keeps_description_witness :
    (IRStatement.switchStatement sampleSwitch).Valid sampleHeap ∧
    ∃ (s' : IRStatement) (h' : IRHeap) (text : Text),
      (IRStatement.switchStatement sampleSwitch).clone sampleHeap = Except.ok (s', h') ∧
      (IRStatement.switchStatement sampleSwitch).description sampleHeap = Except.ok text ∧
      s'.description h' = Except.ok text ∧
      (∀ sw, IRStatement.switchStatement sampleSwitch = .switchStatement sw →
        ∃ (v : IRNode) (nodes : List IRNode),
          sampleHeap.nodeAt sw.fValue = some v ∧
          List.Forall₂ (fun c n => sampleHeap.nodeAt c = some n) sw.fCases nodes ∧
          text = (if sw.fIsStatic then "@".toList else []) ++ ("switch (".toList
            ++ v.fDescription ++ ") \x7b\n".toList)
            ++ nodes.flatMap (fun n => n.fDescription) ++ "\x7d".toList) :=
  have hv : (IRStatement.switchStatement sampleSwitch).Valid sampleHeap :=
    ⟨by decide, by decide⟩
  ⟨hv, C28_clone_keeps_description sampleHeap (.switchStatement sampleSwitch) hv⟩

/-- C29. The node count of a continue statement is 1, that of a return statement with an
expression is 1 plus the count of the expression, and that of a switch statement is 1
plus the count of the value plus the sum of the counts of the cases. The node count of a
return statement without an expression is undefined: the null pointer is dereferenced,
and the same holds for its clone. Wherever a clone is made, its node count is the node
count of the statement. -/
theorem C29_node_count_of_return_without_expression (h : IRHeap) (s : IRStatement)
    (hv : s.Valid h) :
    (∀ c, s = .continueStatement c → s.nodeCount h = Except.ok 1) ∧
    (∀ r n, s = .returnStatement r → h.nodeAt r.fExpression = some n →
      s.nodeCount h = Except.ok (1 + n.fNodeCount)) ∧
    (∀ r, s = .returnStatement r → r.fExpression = none →
      s.nodeCount h = Except.error Fault.undefined) ∧
    (∀ sw v nodes, s = .switchStatement sw → h.nodeAt sw.fValue = some v →
      List.Forall₂ (fun c n => h.nodeAt c = some n) sw.fCases nodes →
      s.nodeCount h
        = Except.ok (1 + v.fNodeCount + (nodes.map (fun n => n.fNodeCount)).sum)) ∧
    ∃ (s' : IRStatement) (h' : IRHeap),
      s.clone h = Except.ok (s', h') ∧ s'.nodeCount h' = s.nodeCount h := by
  refine ⟨?_, ?_, ?_, ?_, ?_⟩
  · rintro c rfl
    rfl
  · rintro r n rfl hn
    show ReturnStatement.nodeCount h r = _
    unfold ReturnStatement.nodeCount NodePtr.nodeCount
    rw [hn]
    rfl
  · rintro r rfl hnone
    show ReturnStatement.nodeCount h r = _
    unfold ReturnStatement.nodeCount NodePtr.nodeCount
    rw [hnone]
    rfl
  · rintro sw v nodes rfl hval hall
    exact switchNodeCount_nodes h sw v nodes hval hall
  · cases s with
    | continueStatement c => exact ⟨_, _, rfl, rfl⟩
    | returnStatement r =>
      obtain ⟨o, e⟩ := r
      cases e with
      | none => exact ⟨_, _, rfl, rfl⟩
      | some a =>
        have hsome : (h.nodeAt (some a)).isSome := by
          rcases hv with hv | hv
          · cases hv
          · exact hv
        obtain ⟨n, hn⟩ := Option.isSome_iff_exists.1 hsome
        refine ⟨.returnStatement { fOffset := n.fOffset, fExpression := some h.length },
          h ++ [n], ?_, ?_⟩
        · show (ReturnStatement.clone h _ >>= _) = _
          rw [returnClone_spec h o (some a) n hn]
          rfl
        · show ReturnStatement.nodeCount (h ++ [n]) _ = ReturnStatement.nodeCount h _
          unfold ReturnStatement.nodeCount NodePtr.nodeCount
          simp only [nodeAt_new h n [], hn]
    | switchStatement sw =>
      obtain ⟨v, nodes, hval, hall, hclone⟩ := switchClone_spec h sw hv.1 hv.2
      refine ⟨.switchStatement
          { fOffset := sw.fOffset, fIsStatic := sw.fIsStatic,
            fValue := some (h.length + sw.fCases.length), fSymbols := sw.fSymbols,
            fCases := (List.range' h.length sw.fCases.length).map some },
        h ++ nodes ++ [v], ?_, ?_⟩
      · show (SwitchStatement.clone h sw >>= _) = _
        rw [hclone]
        rfl
      · show SwitchStatement.nodeCount (h ++ nodes ++ [v]) _ = SwitchStatement.nodeCount h sw
        have hlen : nodes.length = sw.fCases.length := hall.length_eq.symm
        have h1 := forall₂_cloned [v] nodes h
        rw [hlen] at h1
        rw [switchNodeCount_nodes (h ++ nodes ++ [v]) _ v nodes
          (nodeAt_value_cloned h nodes v _ hlen) h1,
          switchNodeCount_nodes h sw v nodes hval hall]

/-- The statement `return;` at offset 5: its node count is undefined in the empty free
store, and so is that of its clone. -/
theorem C29_node_count_witness :
    (IRStatement.returnStatement { fOffset := 5, fExpression := none }).Valid [] ∧
    (IRStatement.returnStatement { fOffset := 5, fExpression := none }).nodeCount []
      = Except.error Fault.undefined :=
  have hv : (IRStatement.returnStatement { fOffset := 5, fExpression := none }).Valid [] :=
    Or.inl rfl
  ⟨hv, (C29_node_count_of_return_without_expression []
    (.returnStatement { fOffset := 5, fExpression := none }) hv).2.2.1 _ rfl rfl⟩

/-- C30. The clone of a switch statement whose pointers point to nodes has the symbol
table pointer, the static flag and the offset of the statement; its cases are as many
new nodes, at the addresses after the free store in the order of the cases, each a copy
of the node of the case at its place, and its value is a new node that is a copy of the
value. The old free store is the start of the new one, and an assignment through a
pointer of the clone leaves the nodes, the description and the node count of the
statement as they were. -/
theorem C30_switch_clone_shares_symbols_only (h : IRHeap) (s : SwitchStatement)
    (hv : (IRStatement.switchStatement s).Valid h) :
    ∃ (s' : SwitchStatement) (h' : IRHeap),
      s.clone h = Except.ok (s', h') ∧
      s'.fSymbols = s.fSymbols ∧ s'.fIsStatic = s.fIsStatic ∧ s'.fOffset = s.fOffset ∧
      s'.fCases.length = s.fCases.length ∧
      s'.fCases = (List.range' h.length s.fCases.length).map some ∧
      s'.fValue = some (h.length + s.fCases.length) ∧
      List.Forall₂ (fun c c' => h'.nodeAt c' = h.nodeAt c) s.fCases s'.fCases ∧
      h'.nodeAt s'.fValue = h.nodeAt s.fValue ∧
      (∃ more, h' = h ++ more) ∧
      ∀ (a : Nat) (n : IRNode), some a = s'.fValue ∨ some a ∈ s'.fCases →
        (∀ p, (h.nodeAt p).isSome → (h'.store a n).nodeAt p = h.nodeAt p) ∧
        s.description (h'.store a n) = s.description h ∧
        s.nodeCount (h'.store a n) = s.nodeCount h := by
  obtain ⟨v, nodes, hval, hall, hclone⟩ := switchClone_spec h s hv.1 hv.2
  have hlen : nodes.length = s.fCases.length := hall.length_eq.symm
  refine ⟨_, _, hclone, rfl, rfl, rfl, by simp, rfl, rfl, ?_, ?_, ⟨nodes ++ [v], by simp⟩, ?_⟩
  · show List.Forall₂ _ s.fCases ((List.range' h.length s.fCases.length).map some)
    have h1 := forall₂_cloned [v] nodes h
    rw [hlen] at h1
    exact forall₂_copies h _ _ _ _ hall h1
  · show (h ++ nodes ++ [v]).nodeAt (some (h.length + s.fCases.length)) = _
    rw [nodeAt_value_cloned h nodes v _ hlen, hval]
  · intro a n ha
    have hle : h.length ≤ a := by
      rcases ha with ha | ha
      · have : a = h.length + s.fCases.length := by
          have h1 : some a = some (h.length + s.fCases.length) := ha
          exact Option.some.inj h1
        omega
      · have h1 : some a ∈ (List.range' h.length s.fCases.length).map some := ha
        obtain ⟨b, hb, hab⟩ := List.mem_map.1 h1
        cases hab
        exact (List.mem_range'_1.1 hb).1
    have hagree : ∀ p, (h.nodeAt p).isSome →
        ((h ++ nodes ++ [v]).store a n).nodeAt p = h.nodeAt p := by
      intro p hp
      rw [List.append_assoc]
      exact store_nodeAt h _ a n hle p hp
    refine ⟨hagree, ?_, ?_⟩
    · rw [switchDescription_nodes _ s v nodes
        (by rw [hagree _ hv.1, hval]) (forall₂_agree h _ hagree _ _ hall),
        switchDescription_nodes h s v nodes hval hall]
    · rw [switchNodeCount_nodes _ s v nodes
        (by rw [hagree _ hv.1, hval]) (forall₂_agree h _ hagree _ _ hall),
        switchNodeCount_nodes h s v nodes hval hall]

/-- The clone of the static switch of the worked case: same symbol table at address 100,
same flag and offset, cases at the new addresses 3 and 4, value at the new address 5. -/
theorem C30_switch_clone_witness :
    (IRStatement.switchStatement sampleSwitch).Valid sampleHeap ∧
    sampleSwitch.clone sampleHeap
      = Except.ok
          ({ fOffset := 0, fIsStatic := true, fValue := some 5, fSymbols := some 100,
             fCases := [some 3, some 4] },
           sampleHeap ++
            [{ fOffset := 14, fDescription := "case 0:\ncontinue;\n".toList, fNodeCount := 3 },
             { fOffset := 30, fDescription := "default:\nreturn x;\n".toList, fNodeCount := 3 },
             { fOffset := 8, fDescription := "x".toList, fNodeCount := 1 }]) ∧
    ∃ (s' : SwitchStatement) (h' : IRHeap),
      sampleSwitch.clone sampleHeap = Except.ok (s', h') ∧ s'.fSymbols = some 100 :=
  have hv : (IRStatement.switchStatement sampleSwitch).Valid sampleHeap :=
    ⟨by decide, by decide⟩
  ⟨hv, by decide,
    match C30_switch_clone_shares_symbols_only sampleHeap sampleSwitch hv with
    | ⟨s', h', hclone, hsym, _⟩ => ⟨s', h', hclone, hsym⟩⟩

/-! ## C21, C22: the validation loops and the result of `generateCode` -/

theorem validateDeclarations_passed (env : Environment) (rest : List VarDeclaration) :
    ∀ (before : List VarDeclaration) (uniforms : List Variable) (g : CPPCodeGenerator),
      (∀ b ∈ before, passesValidation env b = true) →
      ∃ uniforms', validateDeclarations env (before ++ rest) uniforms g
        = validateDeclarations env rest uniforms' g
  | [], uniforms, g, _ => ⟨uniforms, rfl⟩
  | b :: before, uniforms, g, h => by
    have hb := h b (List.mem_cons_self _ _)
    have hrest : ∀ x ∈ before, passesValidation env x = true :=
      fun x hx => h x (List.mem_cons_of_mem _ hx)
    unfold passesValidation at hb
    rw [List.cons_append, validateDeclarations]
    by_cases hin : is_uniform_in b.fVar = true
    · rw [if_pos hin] at hb
      simp only [if_pos hin]
      cases hget : env.UniformCTypeMapper_Get b.fVar with
      | none => rw [hget] at hb; cases hb
      | some mapper =>
        rw [hget] at hb
        simp only at hb ⊢
        have hcond : ¬ (b.fVar.fModifiers.fLayout.fTracked = true
            ∧ mapper.supportsTracking = false) := by
          rintro ⟨h1, h2⟩
          rw [h1, h2] at hb
          cases hb
        rw [if_neg hcond]
        exact validateDeclarations_passed env rest before _ g hrest
    · rw [if_neg hin] at hb
      simp only [if_neg hin]
      have ht : ¬ b.fVar.fModifiers.fLayout.fTracked = true := by
        intro h1
        rw [h1] at hb
        cases hb
      rw [if_neg ht]
      exact validateDeclarations_passed env rest before _ g hrest

/-- C21 (counterexample). For the program that declares `layout(tracked) in half scale`,
`generateCode` returns false after the report of the conflict, and the output is empty:
nothing of the class is written. -/
theorem C21_tracked_conflict_emits_nothing :
    generateCode trackedConflictProgram [] keyState
      = Except.ok (false, keyState.error 21 trackedConflictMessage) ∧
    (keyState.error 21 trackedConflictMessage).fOut.fText = [] := by
  decide

/-- C21 (amended). When the declarations before a tracked variable that is not a
"uniform in" pass the validation, `generateCode` reports the conflict at the offset of
the declaration and returns false at once: the output and every other member of the
generator are as they were. -/
theorem C21_tracked_conflict_stops_generation (env : Environment)
    (functions : List FunctionDefinition) (g : CPPCodeGenerator)
    (before after : List VarDeclaration) (d : VarDeclaration)
    (hprogram : programDeclarations env.fProgram = before ++ d :: after)
    (hbefore : ∀ b ∈ before, passesValidation env b = true)
    (htracked : d.fVar.fModifiers.fLayout.fTracked = true)
    (hnot : is_uniform_in d.fVar = false) :
    generateCode env functions g
      = Except.ok (false, g.error d.fOffset trackedConflictMessage) := by
  obtain ⟨uniforms, hv⟩ := validateDeclarations_passed env (d :: after) before [] g hbefore
  have hd : validateDeclarations env (d :: after) uniforms g
      = (none, g.error d.fOffset trackedConflictMessage) := by
    rw [validateDeclarations]
    simp only [hnot, htracked]
    rfl
  unfold generateCode
  rw [hprogram, hv, hd]
  rfl

/-- The tracked parameter `scale` is the only declaration of its program. -/
theorem C21_tracked_conflict_witness :
    programDeclarations trackedConflictProgram.fProgram
      = [] ++ { fOffset := 21, fVar := trackedScaleVar, fValue := none } :: [] ∧
    generateCode trackedConflictProgram [] keyState
      = Except.ok (false, keyState.error 21 trackedConflictMessage) :=
  ⟨rfl, C21_tracked_conflict_stops_generation trackedConflictProgram [] keyState [] []
    { fOffset := 21, fVar := trackedScaleVar, fValue := none } rfl
    (fun b hb => by cases hb) rfl rfl⟩

/-- C22. When `generateCode` returns true, no error has been reported to the error
reporter: after the early returns the result is false, and at the end the result is true
only if the error count is zero. -/
theorem C22_true_only_without_errors (env : Environment)
    (functions : List FunctionDefinition) (g g' : CPPCodeGenerator) (r : Bool)
    (h : generateCode env functions g = Except.ok (r, g')) (hr : r = true) :
    g'.fErrors = [] := by
  subst hr
  unfold generateCode at h
  split at h
  · rw [Run.pure_eq_ok] at h
    cases h
  · simp only [Run.bind_eq_ok] at h
    obtain ⟨r1, _, g8, _, g9, _, g13, _, g18, _, h⟩ := h
    rw [Run.pure_eq_ok] at h
    have h1 := congrArg Prod.fst h
    have h2 := congrArg Prod.snd h
    simp only at h1 h2
    rw [Bool.and_eq_true] at h1
    have h3 := of_decide_eq_true h1.2
    rw [h2] at h3
    exact List.length_eq_zero.1 h3

/-- The empty program: `generateCode` returns true, and the error list is empty. -/
theorem C22_true_only_without_errors_witness :
    generateCode emptyProgram [] keyState = Except.ok (true, afterEmptyProgram) ∧
    afterEmptyProgram.fErrors = [] :=
  have h : generateCode emptyProgram [] keyState = Except.ok (true, afterEmptyProgram) := by
    rfl
  ⟨h, C22_true_only_without_errors emptyProgram [] keyState afterEmptyProgram true h rfl⟩

/-! ## C23: the clone and dump-info overrides -/

theorem writeCloneFields_eq (env : Environment) :
    ∀ (params : List Variable) (g : CPPCodeGenerator),
      writeCloneFields env params g = g.write (cloneFieldsText env params)
  | [], g => (write_nil g).symm
  | param :: rest, g => by
    rw [writeCloneFields, writeCloneFields_eq env rest]
    unfold cloneFieldsText
    rw [List.flatMap_cons]
    by_cases h : param.fType.nonnullable.fName ≠ "fragmentProcessor".toList
    · rw [if_pos h, if_pos h, write_write]
    · rw [if_neg h, if_neg h, List.nil_append]

theorem writeDumpInfoArguments_eq :
    ∀ (arguments : List Text) (g : CPPCodeGenerator),
      writeDumpInfoArguments arguments g
        = g.write (arguments.flatMap (fun argument => ", ".toList ++ argument))
  | [], g => (write_nil g).symm
  | argument :: rest, g => by
    rw [writeDumpInfoArguments, writeDumpInfoArguments_eq rest, write_write,
      List.flatMap_cons]

theorem writeClone_custom (env : Environment) (g : CPPCodeGenerator) (s : Section)
    (h : env.getSection SectionName.kCloneSection = some s) :
    writeClone env g = g.write s.fText := by
  unfold writeClone writeSection
  rw [h]
  rfl

theorem writeClone_default (env : Environment) (g : CPPCodeGenerator)
    (h : env.getSection SectionName.kCloneSection = none) :
    writeClone env g
      = (if (env.getSection SectionName.kFieldsSection).isSome = true then
          g.error 0 missingCloneMessage
        else g).write (defaultClone env g.fAccessSampleCoordsDirectly) := by
  have hdirect : (if (env.getSection SectionName.kFieldsSection).isSome = true then
      g.error 0 missingCloneMessage else g).fAccessSampleCoordsDirectly
        = g.fAccessSampleCoordsDirectly := by
    split <;> rfl
  generalize hg1 : (if (env.getSection SectionName.kFieldsSection).isSome = true then
      g.error 0 missingCloneMessage else g) = g1 at hdirect
  unfold writeClone writeSection
  rw [h]
  simp only [if_true]
  rw [hg1, writeCloneFields_eq]
  unfold defaultClone
  rw [← hdirect]
  by_cases hs : countSamplers env.fParameters 0 ≠ 0
  · by_cases hd : g1.fAccessSampleCoordsDirectly = true
    · simp only [if_pos hs, CPPCodeGenerator.write, if_pos hd, List.append_assoc]
    · simp only [if_pos hs, CPPCodeGenerator.write, if_neg hd, List.append_assoc,
        List.nil_append]
  · by_cases hd : g1.fAccessSampleCoordsDirectly = true
    · simp only [if_neg hs, CPPCodeGenerator.write, if_pos hd, List.append_assoc,
        List.nil_append]
    · simp only [if_neg hs, CPPCodeGenerator.write, if_neg hd, List.append_assoc,
        List.nil_append]

theorem writeDumpInfo_custom (env : Environment) (g : CPPCodeGenerator) (s : Section)
    (h : env.getSection SectionName.kDumpInfoSection = some s) :
    writeDumpInfo env g
      = Except.ok (g.write (dumpInfoOpen env ++ s.fText ++ dumpInfoClose)) := by
  unfold writeDumpInfo writeSection
  rw [h]
  simp [CPPCodeGenerator.write, dumpInfoOpen, dumpInfoClose, pure, Except.pure, bind,
    Except.bind]

theorem writeDumpInfo_default (env : Environment) (g : CPPCodeGenerator)
    (fields : Text × List Text)
    (h : env.getSection SectionName.kDumpInfoSection = none)
    (hfields : writeDumpInfoLoop env env.fParameters [] [] = Except.ok fields) :
    writeDumpInfo env g
      = Except.ok ((if (env.getSection SectionName.kFieldsSection).isSome = true then
            g.error 0 missingDumpInfoMessage
          else g).write (dumpInfoOpen env ++ defaultDumpInfo fields.1 fields.2
            ++ dumpInfoClose)) := by
  unfold writeDumpInfo writeSection
  rw [h]
  simp only [if_true, hfields]
  unfold defaultDumpInfo
  by_cases hf : fields.1 ≠ []
  · by_cases hs : (env.getSection SectionName.kFieldsSection).isSome = true
    · simp [hf, hs, writeDumpInfoArguments_eq, CPPCodeGenerator.write,
        CPPCodeGenerator.error, dumpInfoOpen, dumpInfoClose, pure, Except.pure, bind,
        Except.bind]
    · simp [hf, hs, writeDumpInfoArguments_eq, CPPCodeGenerator.write,
        CPPCodeGenerator.error, dumpInfoOpen, dumpInfoClose, pure, Except.pure, bind,
        Except.bind]
  · by_cases hs : (env.getSection SectionName.kFieldsSection).isSome = true
    · simp [hf, hs, CPPCodeGenerator.write,
        CPPCodeGenerator.error, dumpInfoOpen, dumpInfoClose, pure, Except.pure, bind,
        Except.bind]
    · simp [hf, hs, CPPCodeGenerator.write,
        CPPCodeGenerator.error, dumpInfoOpen, dumpInfoClose, pure, Except.pure, bind,
        Except.bind]

theorem ite_returns {α : Type} (c : Prop) [Decidable c] (a b : Run α)
    (ha : ∃ r, a = Except.ok r) (hb : ∃ r, b = Except.ok r) :
    ∃ r, (if c then a else b) = Except.ok r := by
  split
  · exact ha
  · exact hb

theorem runtimeValueTemplate_named (type : SkType) (layout : Layout) (cppCode : Text)
    (hname : type.fName ≠ []) :
    ∃ r, runtimeValueTemplate type layout cppCode = Except.ok r := by
  unfold runtimeValueTemplate
  have hlong : ¬ (type.name ++ "(".toList
      ++ (matrixCells type.fColumns type.fRows).flatMap (fun _ => "%f, ".toList)).dropLast
        = [] := by
    intro h
    have hlen := congrArg List.length h
    rw [List.length_dropLast, List.length_append, List.length_append] at hlen
    have h1 : 0 < type.name.length := List.length_pos.2 hname
    have h2 : ("(".toList).length = 1 := rfl
    rw [h2] at hlen
    simp only [List.length_nil] at hlen
    omega
  rw [if_neg hlong]
  refine ite_returns _ _ _ ⟨_, rfl⟩ ?_
  refine ite_returns _ _ _ ⟨_, rfl⟩ ?_
  refine ite_returns _ _ _ ⟨_, rfl⟩ ?_
  refine ite_returns _ _ _ ⟨_, rfl⟩ ?_
  refine ite_returns _ _ _ ⟨_, rfl⟩ ?_
  refine ite_returns _ _ _ ⟨_, rfl⟩ ?_
  refine ite_returns _ _ _ ⟨_, rfl⟩ ?_
  refine ite_returns _ _ _ ⟨_, rfl⟩ ?_
  exact ite_returns _ _ _ ⟨_, rfl⟩ ⟨_, rfl⟩

theorem writeDumpInfoLoop_named (env : Environment) :
    ∀ (params : List Variable) (formatString : Text) (argumentList : List Text),
      (∀ p ∈ params, p.fType.fName ≠ []) →
      ∃ fields, writeDumpInfoLoop env params formatString argumentList = Except.ok fields
  | [], formatString, argumentList, _ => ⟨_, rfl⟩
  | param :: rest, formatString, argumentList, h => by
    have hrest : ∀ p ∈ rest, p.fType.fName ≠ [] :=
      fun p hp => h p (List.mem_cons_of_mem _ hp)
    rw [writeDumpInfoLoop]
    by_cases hfp : param.fType.nonnullable.fName = "fragmentProcessor".toList
    · rw [if_pos hfp]
      exact writeDumpInfoLoop_named env rest _ _ hrest
    · rw [if_neg hfp]
      obtain ⟨r, hr⟩ := runtimeValueTemplate_named param.fType param.fModifiers.fLayout
        param.fName (h param (List.mem_cons_self _ _))
      unfold formatRuntimeValue
      rw [hr]
      exact writeDumpInfoLoop_named env rest _ _ hrest

theorem writeDumpInfo_fields (env : Environment) (g g' : CPPCodeGenerator)
    (h : env.getSection SectionName.kDumpInfoSection = none)
    (hrun : writeDumpInfo env g = Except.ok g') :
    ∃ fields, writeDumpInfoLoop env env.fParameters [] [] = Except.ok fields := by
  cases hloop : writeDumpInfoLoop env env.fParameters [] [] with
  | ok fields => exact ⟨fields, rfl⟩
  | error e =>
    unfold writeDumpInfo writeSection at hrun
    rw [h] at hrun
    simp only [if_true, hloop] at hrun
    cases hrun

/-- C23. `writeClone` reports its error exactly when there is no clone section and there
is a fields section, and `writeDumpInfo` reports its error exactly when there is no
dump-info section and there is a fields section. The text of a custom section is written
in place of the default; without the section the default is written, whether the error
was reported or not, and `writeDumpInfo` returns when every parameter type has a name. -/
theorem C23_missing_overrides_are_reported (env : Environment) (g : CPPCodeGenerator) :
    ((writeClone env g).fErrors
      = if env.getSection SectionName.kCloneSection = none
            ∧ (env.getSection SectionName.kFieldsSection).isSome = true then
          g.fErrors ++ [(0, missingCloneMessage)]
        else g.fErrors) ∧
    (∀ s, env.getSection SectionName.kCloneSection = some s →
      (writeClone env g).fOut.fText = g.fOut.fText ++ s.fText) ∧
    (env.getSection SectionName.kCloneSection = none →
      (writeClone env g).fOut.fText
        = g.fOut.fText ++ defaultClone env g.fAccessSampleCoordsDirectly) ∧
    (∀ g', writeDumpInfo env g = Except.ok g' →
      g'.fErrors
        = if env.getSection SectionName.kDumpInfoSection = none
              ∧ (env.getSection SectionName.kFieldsSection).isSome = true then
            g.fErrors ++ [(0, missingDumpInfoMessage)]
          else g.fErrors) ∧
    (∀ s, env.getSection SectionName.kDumpInfoSection = some s →
      ∃ g', writeDumpInfo env g = Except.ok g' ∧
        g'.fOut.fText = g.fOut.fText ++ (dumpInfoOpen env ++ s.fText ++ dumpInfoClose)) ∧
    (env.getSection SectionName.kDumpInfoSection = none →
      (∀ p ∈ env.fParameters, p.fType.fName ≠ []) →
      ∃ g' fields, writeDumpInfoLoop env env.fParameters [] [] = Except.ok fields ∧
        writeDumpInfo env g = Except.ok g' ∧
        g'.fOut.fText = g.fOut.fText
          ++ (dumpInfoOpen env ++ defaultDumpInfo fields.1 fields.2 ++ dumpInfoClose)) := by
  refine ⟨?_, ?_, ?_, ?_, ?_, ?_⟩
  · cases hc : env.getSection SectionName.kCloneSection with
    | some s =>
      rw [writeClone_custom env g s hc, if_neg (by rintro ⟨h1, _⟩; cases h1)]
      rfl
    | none =>
      rw [writeClone_default env g hc]
      by_cases hf : (env.getSection SectionName.kFieldsSection).isSome = true
      · rw [if_pos hf, if_pos ⟨rfl, hf⟩]
        rfl
      · rw [if_neg hf, if_neg (by rintro ⟨_, h2⟩; exact hf h2)]
        rfl
  · intro s hc
    rw [writeClone_custom env g s hc]
    rfl
  · intro hc
    rw [writeClone_default env g hc]
    by_cases hf : (env.getSection SectionName.kFieldsSection).isSome = true
    · rw [if_pos hf]
      rfl
    · rw [if_neg hf]
      rfl
  · intro g' hrun
    cases hd : env.getSection SectionName.kDumpInfoSection with
    | some s =>
      rw [writeDumpInfo_custom env g s hd] at hrun
      cases hrun
      rw [if_neg (by rintro ⟨h1, _⟩; cases h1)]
      rfl
    | none =>
      obtain ⟨fields, hfields⟩ := writeDumpInfo_fields env g g' hd hrun
      rw [writeDumpInfo_default env g fields hd hfields] at hrun
      cases hrun
      by_cases hf : (env.getSection SectionName.kFieldsSection).isSome = true
      · rw [if_pos hf, if_pos ⟨rfl, hf⟩]
        rfl
      · rw [if_neg hf, if_neg (by rintro ⟨_, h2⟩; exact hf h2)]
        rfl
  · intro s hd
    exact ⟨_, writeDumpInfo_custom env g s hd, rfl⟩
  · intro hd hnamed
    obtain ⟨fields, hfields⟩ := writeDumpInfoLoop_named env env.fParameters [] [] hnamed
    refine ⟨_, fields, hfields, writeDumpInfo_default env g fields hd hfields, ?_⟩
    by_cases hf : (env.getSection SectionName.kFieldsSection).isSome = true
    · rw [if_pos hf]
      rfl
    · rw [if_neg hf]
      rfl

/-- The program with a fields section and neither a clone nor a dump-info section: each
of the two functions reports its error, and the default body of `onDumpInfo` prints the
parameter `scale`. -/
theorem C23_missing_overrides_witness :
    (writeClone fieldsProgram keyState).fErrors = [(0, missingCloneMessage)] ∧
    (writeClone fieldsProgram keyState).fOut.fText = defaultClone fieldsProgram false ∧
    writeDumpInfo fieldsProgram keyState
      = Except.ok ((keyState.error 0 missingDumpInfoMessage).write
          (dumpInfoOpen fieldsProgram
            ++ "    return SkStringPrintf(\"(scale=%f)\", scale);".toList ++ dumpInfoClose)) :=
  ⟨(C23_missing_overrides_are_reported fieldsProgram keyState).1.trans rfl,
   ((C23_missing_overrides_are_reported fieldsProgram keyState).2.2.1 rfl).trans rfl,
   by decide⟩

/-! ## C35: the order of the parts of `emitCode` -/

theorem writeEmitCodeAliases_eq (env : Environment) :
    ∀ (decls : List VarDeclaration) (g : CPPCodeGenerator),
      writeEmitCodeAliases env decls g = g.write (parameterAliases env decls)
  | [], g => (write_nil g).symm
  | decl :: rest, g => by
    rw [writeEmitCodeAliases, writeEmitCodeAliases_eq env rest]
    unfold parameterAliases
    rw [List.flatMap_cons]
    by_cases h : env.IsParameter decl.fVar = true ∧ is_accessible decl.fVar = true
    · rw [if_pos h, if_pos h, write_write]
    · rw [if_neg h, if_neg h, List.nil_append]

theorem addUniform_eq (env : Environment) (var : Variable) (g g' : CPPCodeGenerator)
    (h : addUniform env var g = Except.ok g') : g' = g.write (uniformHandle env var) := by
  unfold addUniform at h
  unfold uniformHandle
  by_cases hn : needs_uniform_var var = false
  · rw [if_pos hn] at h
    rw [if_pos hn, write_nil]
    rw [Run.pure_eq_ok] at h
    exact h.symm
  · rw [if_neg hn] at h
    rw [if_neg hn]
    cases ht : glsltype_string var.fType with
    | none =>
      rw [ht] at h
      cases h
    | some type =>
      rw [ht] at h
      simp only [Run.pure_eq_ok] at h
      subst h
      by_cases hw : var.fModifiers.fLayout.fWhen.length ≠ 0
      · simp only [if_pos hw, write_write, Option.getD_some, List.append_assoc]
      · simp only [if_neg hw, List.nil_append, List.append_nil, Option.getD_some]

theorem addUniforms_eq (env : Environment) :
    ∀ (uniforms : List Variable) (g g' : CPPCodeGenerator),
      addUniforms env uniforms g = Except.ok g' →
      g' = g.write (uniforms.flatMap (uniformHandle env))
  | [], g, g', h => by
    rw [addUniforms, Run.pure_eq_ok] at h
    rw [← h]
    exact (write_nil g).symm
  | u :: rest, g, g', h => by
    rw [addUniforms, Run.bind_eq_ok] at h
    obtain ⟨g1, hg1, h⟩ := h
    rw [addUniforms_eq env rest g1 g' h, addUniform_eq env u g g1 hg1, write_write,
      List.flatMap_cons]

theorem writeSection_snd (env : Environment) (name : SectionName) (g : CPPCodeGenerator) :
    (writeSection env name [] g).2 = g.write (sectionText env name) := by
  unfold writeSection sectionText
  cases env.getSection name with
  | none => exact (write_nil g).symm
  | some s => rfl

theorem writePrivateVarValue_out (env : Environment) (decl : VarDeclaration)
    (g g' : CPPCodeGenerator) (h : writePrivateVarValue env decl g = Except.ok g') :
    g'.fOut.fId = g.fOut.fId ∧ ∃ t, g'.fOut.fText = g.fOut.fText ++ t := by
  unfold writePrivateVarValue at h
  by_cases hp : is_private decl.fVar = true
  · rw [if_pos hp] at h
    cases hv : decl.fValue with
    | none =>
      rw [hv] at h
      simp only [Run.pure_eq_ok] at h
      subst h
      exact ⟨rfl, [], (List.append_nil _).symm⟩
    | some value =>
      rw [hv] at h
      simp only [Run.bind_eq_ok] at h
      obtain ⟨g2, hg2, h⟩ := h
      rw [Run.pure_eq_ok] at h
      subst h
      have hext := writeExpression_extends env value _ _ _ hg2
      obtain ⟨t, ht⟩ := hext.text
      refine ⟨hext.sink, decl.fVar.fName ++ " = ".toList ++ t ++ ";\n".toList, ?_⟩
      show g2.fOut.fText ++ ";\n".toList = _
      rw [ht]
      simp [CPPCodeGenerator.write, List.append_assoc]
  · rw [if_neg hp, Run.pure_eq_ok] at h
    subst h
    exact ⟨rfl, [], (List.append_nil _).symm⟩

theorem writePrivateVarValuesLoop_out (env : Environment) :
    ∀ (decls : List VarDeclaration) (g g' : CPPCodeGenerator),
      writePrivateVarValuesLoop env decls g = Except.ok g' →
      g'.fOut.fId = g.fOut.fId ∧ ∃ t, g'.fOut.fText = g.fOut.fText ++ t
  | [], g, g', h => by
    rw [writePrivateVarValuesLoop, Run.pure_eq_ok] at h
    subst h
    exact ⟨rfl, [], (List.append_nil _).symm⟩
  | decl :: rest, g, g', h => by
    rw [writePrivateVarValuesLoop, Run.bind_eq_ok] at h
    obtain ⟨g1, hg1, h⟩ := h
    obtain ⟨i1, t1, ht1⟩ := writePrivateVarValue_out env decl g g1 hg1
    obtain ⟨i2, t2, ht2⟩ := writePrivateVarValuesLoop_out env rest g1 g' h
    exact ⟨i2.trans i1, t1 ++ t2, by rw [ht2, ht1, List.append_assoc]⟩

theorem writeFunction_cppBuffer (env : Environment) (f : FunctionDefinition)
    (g g' : CPPCodeGenerator) (h : writeFunction env f g = Except.ok g') :
    g'.fCPPBuffer = g.fCPPBuffer := by
  unfold writeFunction at h
  by_cases hb : f.fDeclaration.fBuiltin = true
  · rw [if_pos hb, Run.pure_eq_ok] at h
    subst h
    rfl
  · rw [if_neg hb] at h
    by_cases hm : f.fDeclaration.fName = "main".toList
    · rw [if_pos hm] at h
      simp only [Run.bind_eq_ok] at h
      obtain ⟨g1, hg1, h⟩ := h
      rw [Run.pure_eq_ok] at h
      subst h
      exact (writeStatements_extends env _ _ _ hg1).cppBuffer
    · rw [if_neg hm] at h
      simp only [Run.bind_eq_ok] at h
      obtain ⟨g1, hg1, params, _, g2, hg2, g3, hg3, h⟩ := h
      cases hr : glsltype_string f.fReturnType with
      | none =>
        rw [hr] at h
        cases h
      | some returnType =>
        rw [hr] at h
        simp only at h
        have e1 := (addExtraEmitCodeLine_frame _ _ _ hg1).2.2.2.2
        have e2 := (addExtraEmitCodeLine_frame _ _ _ hg2).2.2.2.2
        have e3 := (writeStatements_extends env _ _ _ hg3).cppBuffer
        have e4 := (addExtraEmitCodeLine_frame _ _ _ h).2.2.2.2
        rw [e4]
        show g3.fCPPBuffer = _
        rw [e3, e2, e1]

theorem writeFunctions_cppBuffer (env : Environment) :
    ∀ (functions : List FunctionDefinition) (g g' : CPPCodeGenerator),
      writeFunctions env functions g = Except.ok g' → g'.fCPPBuffer = g.fCPPBuffer
  | [], g, g', h => by
    rw [writeFunctions, Run.pure_eq_ok] at h
    subst h
    rfl
  | f :: rest, g, g', h => by
    rw [writeFunctions, Run.bind_eq_ok] at h
    obtain ⟨g1, hg1, h⟩ := h
    rw [writeFunctions_cppBuffer env rest g1 g' h, writeFunction_cppBuffer env f g g1 hg1]

theorem writeCodeAppendArgs_text :
    ∀ (n i : Nat) (g g' : CPPCodeGenerator), writeCodeAppendArgs n i g = Except.ok g' →
      ∃ t, g'.fOut.fText = g.fOut.fText ++ t
  | 0, _, g, g', h => by
    rw [writeCodeAppendArgs, Run.pure_eq_ok] at h
    subst h
    exact ⟨[], (List.append_nil _).symm⟩
  | n + 1, i, g, g', h => by
    rw [writeCodeAppendArgs] at h
    cases hget : g.fFormatArgs[i]? with
    | none => rw [hget] at h; cases h
    | some a =>
      rw [hget] at h
      simp only at h
      obtain ⟨t, ht⟩ := writeCodeAppendArgs_text n (i + 1) _ g' h
      exact ⟨", ".toList ++ a ++ t, by rw [ht]; simp [CPPCodeGenerator.write]⟩

theorem writeCodeAppend_text (code : Text) (g g' : CPPCodeGenerator)
    (h : writeCodeAppend code g = Except.ok g') :
    ∃ t, g'.fOut.fText = g.fOut.fText ++ t := by
  unfold writeCodeAppend at h
  by_cases hcode : code ≠ []
  · rw [if_pos hcode] at h
    simp only [Run.bind_eq_ok] at h
    obtain ⟨g2, hg2, h⟩ := h
    obtain ⟨t, ht⟩ := writeCodeAppendArgs_text _ _ _ _ hg2
    by_cases hc : countFormatSpecifiers code > 0
    · rw [if_pos hc, Run.pure_eq_ok] at h
      subst h
      exact ⟨("        fragBuilder->codeAppendf(\nR\"SkSL(".toList ++ code
          ++ ")SkSL\"\n".toList) ++ t ++ ");\n".toList, by
        show g2.fOut.fText ++ ");\n".toList = _
        rw [ht]
        simp only [CPPCodeGenerator.write, List.append_assoc]⟩
    · rw [if_neg hc, Run.pure_eq_ok] at h
      subst h
      exact ⟨("        fragBuilder->codeAppendf(\nR\"SkSL(".toList ++ code
          ++ ")SkSL\"\n".toList) ++ t ++ ");\n".toList, by
        show g2.fOut.fText ++ ");\n".toList = _
        rw [ht]
        simp only [CPPCodeGenerator.write, List.append_assoc]⟩
  · rw [if_neg hcode, Run.pure_eq_ok] at h
    subst h
    exact ⟨[], (List.append_nil _).symm⟩

theorem flushLoop_text :
    ∀ (n : Nat) (sksl : Text) (i : Nat) (flushPoint tokenStart : Int)
      (g g' : CPPCodeGenerator),
      flushLoop n sksl i flushPoint tokenStart g = Except.ok g' →
      ∃ t, g'.fOut.fText = g.fOut.fText ++ t := by
  intro n
  induction n with
  | zero =>
    intro sksl i fp ts g g' h
    rw [flushLoop] at h
    cases h
  | succ n ih =>
    intro sksl i fp ts g g' h
    rw [flushLoop] at h
    by_cases hi : i < sksl.length
    · rw [if_pos hi] at h
      by_cases hts : ts ≥ 0
      · rw [if_pos hts] at h
        by_cases hc : charAt sksl i = '}'
        · rw [if_pos hc] at h
          simp only [Run.bind_eq_ok] at h
          obtain ⟨g1, hg1, h⟩ := h
          obtain ⟨t1, ht1⟩ := writeCodeAppend_text _ _ _ hg1
          cases hb : g1.fExtraEmitCodeBlocks[stoi (substr sksl (ts + 2).toNat
                (i - (ts + 2).toNat))]? with
          | none => rw [hb] at h; cases h
          | some block =>
            rw [hb] at h
            simp only at h
            obtain ⟨t2, ht2⟩ := ih _ _ _ _ _ _ h
            by_cases hlen : block.length > 0
            · rw [if_pos hlen] at ht2
              exact ⟨t1 ++ (block ++ t2), by
                rw [ht2]
                show (g1.fOut.fText ++ block) ++ t2 = _
                rw [ht1]
                simp only [List.append_assoc]⟩
            · rw [if_neg hlen] at ht2
              exact ⟨t1 ++ t2, by rw [ht2, ht1, List.append_assoc]⟩
        · rw [if_neg hc] at h
          exact ih _ _ _ _ _ _ h
      · rw [if_neg hts] at h
        by_cases hs : charAt sksl i = ';' ∨ charAt sksl i = '{' ∨ charAt sksl i = '}'
        · rw [if_pos hs] at h
          exact ih _ _ _ _ _ _ h
        · rw [if_neg hs] at h
          by_cases ht : i < sksl.length - 1 ∧ charAt sksl i = '$' ∧ charAt sksl (i + 1) = '{'
          · rw [if_pos ht] at h
            exact ih _ _ _ _ _ _ h
          · rw [if_neg ht] at h
            exact ih _ _ _ _ _ _ h
    · rw [if_neg hi] at h
      exact writeCodeAppend_text _ _ _ h

/-- C35 (counterexample). For the program of `uniform half gain` with the custom
emit-code section "// prologue", the `emitCode` method holds the `addUniform` call of
`gain` before the text of the section. -/
theorem C35_add_uniform_precedes_the_section :
    (writeEmitCode gainProgram [] [gainVar] keyState).map (fun r => r.2.fOut.fText)
      = Except.ok (("    void emitCode(EmitArgs& args) override \x7b\n"
          ++ "        GrGLSLFPFragmentBuilder* fragBuilder = args.fFragBuilder;\n"
          ++ "        const GrGain& _outer = args.fFp.cast<GrGain>();\n"
          ++ "        (void) _outer;\n"
          ++ "        gainVar = args.fUniformHandler->addUniform(&_outer, "
          ++ "kFragment_GrShaderFlag, kHalf_GrSLType, \"gain\");\n"
          ++ "// prologue\n"
          ++ "    \x7d\n").toList) := by
  decide

/-- C35 (amended). When `writeEmitCode` returns, the `emitCode` method it has written is,
in this order: the first lines, the local aliases of the accessible parameters, the
values of the private variables, one `addUniform` call for each uniform that needs a
handle (inside its guard when it has one), the text of the custom emit-code section, the
text that the flush of the rendered functions appends to the cpp buffer, and the closing
line. -/
theorem C35_emit_code_parts_in_order (env : Environment)
    (functions : List FunctionDefinition) (uniforms : List Variable)
    (g g' : CPPCodeGenerator) (r : Bool)
    (h : writeEmitCode env functions uniforms g = Except.ok (r, g')) :
    ∃ (privateValues body : Text) (g4 g7 gB gF : CPPCodeGenerator),
      writePrivateVarValues env
          (g.write (emitCodeOpen env
            ++ parameterAliases env (programDeclarations env.fProgram))) = Except.ok g4 ∧
      g4.fOut.fText = g.fOut.fText ++ (emitCodeOpen env
        ++ parameterAliases env (programDeclarations env.fProgram)) ++ privateValues ∧
      g7.fCPPBuffer = some (OutputStream.mk g.fOut.fId
        (g.fOut.fText ++ emitCodeParts env uniforms privateValues)) ∧
      inheritedGenerateCode env functions g7 = Except.ok (r, gB) ∧
      flushEmittedCode gB = Except.ok gF ∧
      gF.fCPPBuffer = some (OutputStream.mk g.fOut.fId
        (g.fOut.fText ++ emitCodeParts env uniforms privateValues ++ body)) ∧
      g'.fOut.fText = g.fOut.fText ++ emitCodeParts env uniforms privateValues ++ body
        ++ "    \x7d\n".toList := by
  unfold writeEmitCode at h
  simp only [Run.bind_eq_ok] at h
  obtain ⟨g4, hg4, g5, hg5, rB, hB, g8, hg8, h⟩ := h
  rw [write_write, writeEmitCodeAliases_eq, write_write] at hg4
  have hopen : ("    void emitCode(EmitArgs& args) override \x7b\n"
      ++ "        GrGLSLFPFragmentBuilder* fragBuilder = args.fFragBuilder;\n").toList
      ++ ("        const ".toList ++ env.fFullName
        ++ "& _outer = args.fFp.cast<".toList ++ env.fFullName
        ++ ">();\n        (void) _outer;\n".toList) = emitCodeOpen env := rfl
  rw [hopen] at hg4
  obtain ⟨hid4, privateValues, htext4⟩ := writePrivateVarValuesLoop_out env _ _ _ hg4
  have h5 := addUniforms_eq env uniforms g4 g5 hg5
  rw [writeSection_snd] at hB
  subst h5
  rw [write_write] at hB
  have hcpp : (g4.write (uniforms.flatMap (uniformHandle env)
      ++ sectionText env SectionName.kEmitCodeSection)).fOut
      = OutputStream.mk g.fOut.fId
          (g.fOut.fText ++ emitCodeParts env uniforms privateValues) := by
    have e1 : (g4.write (uniforms.flatMap (uniformHandle env)
        ++ sectionText env SectionName.kEmitCodeSection)).fOut
        = OutputStream.mk g4.fOut.fId (g4.fOut.fText ++ (uniforms.flatMap (uniformHandle env)
            ++ sectionText env SectionName.kEmitCodeSection)) := rfl
    rw [e1, hid4, htext4]
    unfold emitCodeParts
    simp only [CPPCodeGenerator.write, List.append_assoc]
  generalize hg6 : g4.write (uniforms.flatMap (uniformHandle env)
      ++ sectionText env SectionName.kEmitCodeSection) = g6 at hB hcpp
  generalize hg7 : newExtraEmitCodeBlock
      { g6 with fCPPBuffer := some g6.fOut, fOut := { fId := g6.fStreams, fText := [] },
                fStreams := g6.fStreams + 1 } = g7 at hB
  have hcpp7 : g7.fCPPBuffer = some g6.fOut := by
    rw [← hg7]
    rfl
  have hB' := hB
  unfold inheritedGenerateCode at hB
  rw [Run.bind_eq_ok] at hB
  obtain ⟨gB, hgB, hB⟩ := hB
  rw [Run.pure_eq_ok] at hB
  have hcppB : gB.fCPPBuffer = some g6.fOut := by
    rw [writeFunctions_cppBuffer env functions g7 gB hgB, hcpp7]
  have hrB2 : rB.2 = gB := by rw [← hB]
  rw [hrB2] at hg8
  have hg8' := hg8
  unfold flushEmittedCode at hg8
  rw [hcppB] at hg8
  simp only [Run.bind_eq_ok] at hg8
  obtain ⟨g1, hg1, hg8⟩ := hg8
  rw [Run.pure_eq_ok] at hg8
  obtain ⟨body, hbody⟩ := flushLoop_text _ _ _ _ _ _ _ hg1
  have hid1 := (flushLoop_frame _ _ _ _ _ _ _ hg1).2.2.1
  have hout1 : g1.fOut = OutputStream.mk g.fOut.fId
      (g.fOut.fText ++ emitCodeParts env uniforms privateValues ++ body) := by
    have e1 : g1.fOut = OutputStream.mk g1.fOut.fId g1.fOut.fText := rfl
    rw [e1, hid1, hbody]
    show OutputStream.mk g6.fOut.fId (g6.fOut.fText ++ body) = _
    rw [hcpp]
  have hcpp8 : g8.fCPPBuffer = some g1.fOut := by
    rw [← hg8]
  rw [hcpp8] at h
  simp only [Run.pure_eq_ok] at h
  have hr : rB.1 = r := congrArg Prod.fst h
  have hg' := congrArg Prod.snd h
  simp only at hg'
  refine ⟨privateValues, body, g4, g7, gB, g8, hg4, htext4, ?_, ?_, hg8', ?_, ?_⟩
  · rw [hcpp7, hcpp]
  · rw [hB', ← hr, ← hrB2]
  · rw [hcpp8, hout1]
  · rw [← hg']
    show g1.fOut.fText ++ "    \x7d\n".toList = _
    rw [hout1]

/-- The program of `uniform half gain` with the custom emit-code section: the method is
written, and the text before its closing line is the text of the parts in their order,
with no value of a private variable and no body. -/
theorem C35_emit_code_parts_witness :
    (writeEmitCode gainProgram [] [gainVar] keyState).map (fun r => r.1) = Except.ok true ∧
    emitCodeParts gainProgram [gainVar] []
      = ("    void emitCode(EmitArgs& args) override \x7b\n"
          ++ "        GrGLSLFPFragmentBuilder* fragBuilder = args.fFragBuilder;\n"
          ++ "        const GrGain& _outer = args.fFp.cast<GrGain>();\n"
          ++ "        (void) _outer;\n"
          ++ "        gainVar = args.fUniformHandler->addUniform(&_outer, "
          ++ "kFragment_GrShaderFlag, kHalf_GrSLType, \"gain\");\n"
          ++ "// prologue\n").toList ∧
    ∃ (privateValues body : Text),
      ((writeEmitCode gainProgram [] [gainVar] keyState).getD (false, keyState)).2.fOut.fText
        = keyState.fOut.fText ++ emitCodeParts gainProgram [gainVar] privateValues ++ body
          ++ "    \x7d\n".toList :=
  have hrun : writeEmitCode gainProgram [] [gainVar] keyState
      = Except.ok (true,
          ((writeEmitCode gainProgram [] [gainVar] keyState).getD (false, keyState)).2) := by
    rfl
  ⟨by decide, by decide,
    match C35_emit_code_parts_in_order gainProgram [] [gainVar] keyState _ true hrun with
    | ⟨privateValues, body, _, _, _, _, _, _, _, _, _, _, htext⟩ =>
      ⟨privateValues, body, htext⟩⟩

/-! ## C19: `key` on a uniform variable, and the types without key handling -/

theorem flushPrefix_of_endsStatement (cur : Text) (h : EndsStatement cur) :
    flushPrefix cur = cur ∧ heldBack cur = [] := by
  have hheld : heldBack cur = [] := by
    unfold heldBack
    cases hrev : cur.reverse with
    | nil => rfl
    | cons c rest =>
      have hlast : cur.getLast? = some c := by
        rw [List.getLast?_eq_head?_reverse, hrev]
        rfl
      have hc := (isStatementEndChar_iff c).2 (h c hlast)
      simp [List.takeWhile, hc]
  have happ := flushPrefix_append_heldBack cur
  rw [hheld, List.append_nil] at happ
  exact ⟨happ, hheld⟩

theorem flushedSlices_of_boundaries :
    ∀ (rest : List (Nat × Text)) (first : Text),
      TokensAtBoundaries first rest → flushedSlices first rest = (first, rest)
  | [], _, _ => rfl
  | kt :: rest, first, h => by
    obtain ⟨hp, hh⟩ := flushPrefix_of_endsStatement first h.1
    simp only [flushedSlices]
    rw [hp, hh, List.nil_append, flushedSlices_of_boundaries rest kt.2 h.2]

theorem boundaries_of_flushedSlices :
    ∀ (rest : List (Nat × Text)) (first : Text),
      flushedSlices first rest = (first, rest) → TokensAtBoundaries first rest
  | [], _, _ => trivial
  | kt :: rest, first, h => by
    simp only [flushedSlices, Prod.mk.injEq, List.cons.injEq] at h
    obtain ⟨hp, hkt, hrest⟩ := h
    have hheld : heldBack first = [] := by
      have happ := flushPrefix_append_heldBack first
      rw [hp] at happ
      exact List.append_right_eq_self.1 happ
    rw [hheld, List.nil_append] at hkt hrest
    have hkt2 : (flushedSlices kt.2 rest).1 = kt.2 := congrArg Prod.snd hkt
    refine ⟨?_, boundaries_of_flushedSlices rest kt.2 (Prod.ext hkt2 hrest)⟩
    intro c hc
    rcases flushPrefix_ends first with hnil | ⟨d, hd, hend⟩
    · rw [hp] at hnil
      rw [hnil] at hc
      cases hc
    · rw [hp, hc] at hd
      cases hd
      exact hend

/-- C4 (counterexample). Two sample() calls in consecutive statements, the first with
explicit coordinates, are rendered with the token of each call inside its statement, so
the tokens do not stand at statement boundaries; and the flush differs from the manual
concatenation of the texts between the tokens: the flush writes the lines of a call
before the templated call of the whole statement, the manual concatenation would cut the
statement at the token. -/
theorem C4_sample_tokens_stand_inside_statements :
    writeFunction scenarioA twoSampleMain (newExtraEmitCodeBlock (emitCodeState [] [] []))
      = Except.ok twoSampleCalls ∧
    twoSampleCalls.fOut.fText
      = spliceBuffer [] [(0, "half4 a = ".toList), (1, "%s;\nhalf4 b = ".toList),
          (2, "%s;\n".toList)] ∧
    ¬ TokensAtBoundaries [] [(0, "half4 a = ".toList), (1, "%s;\nhalf4 b = ".toList),
          (2, "%s;\n".toList)] ∧
    (flushEmittedCode twoSampleCalls).map (fun g => g.fCPPBuffer)
      = Except.ok (some (OutputStream.mk 0
          ("        SkString _coords10(\"coords\");\n"
            ++ "        SkString _sample10 = this->invokeChild(0, args, _coords10.c_str());\n"
            ++ "        fragBuilder->codeAppendf(\nR\"SkSL(half4 a = %s;)SkSL\"\n"
            ++ ", _sample10.c_str());\n"
            ++ "        SkString _sample40 = this->invokeChild(1, args);\n"
            ++ "        fragBuilder->codeAppendf(\nR\"SkSL(\nhalf4 b = %s;\n)SkSL\"\n"
            ++ ", _sample40.c_str());\n").toList)) ∧
    (manualSplice [] [(0, "half4 a = ".toList), (1, "%s;\nhalf4 b = ".toList),
          (2, "%s;\n".toList)]
        { twoSampleCalls with fOut := { fId := 0, fText := [] } }).map (fun g => g.fOut)
      = Except.ok (OutputStream.mk 0
          ("        fragBuilder->codeAppendf(\nR\"SkSL(half4 a = )SkSL\"\n);\n"
            ++ "        SkString _coords10(\"coords\");\n"
            ++ "        SkString _sample10 = this->invokeChild(0, args, _coords10.c_str());\n"
            ++ "        fragBuilder->codeAppendf(\nR\"SkSL(%s;\nhalf4 b = )SkSL\"\n"
            ++ ", _sample10.c_str());\n"
            ++ "        SkString _sample40 = this->invokeChild(1, args);\n"
            ++ "        fragBuilder->codeAppendf(\nR\"SkSL(%s;\n)SkSL\"\n"
            ++ ", _sample40.c_str());\n").toList) ∧
    flushEmittedCode twoSampleCalls
      ≠ (manualSplice [] [(0, "half4 a = ".toList), (1, "%s;\nhalf4 b = ".toList),
          (2, "%s;\n".toList)]
        { twoSampleCalls with fOut := { fId := 0, fText := [] } }).map
          (afterFlush twoSampleCalls) := by
  refine ⟨by rfl, by rfl, ?_, by rfl, by rfl, by decide⟩
  intro h
  have hend := h.2.1 ' ' (by rfl)
  rcases hend with h1 | h1 | h1 <;> cases h1

/-- C4 (amended). For a pending buffer `first ${k1} t1 ${k2} t2 ...` whose text outside
the tokens holds no "${": when every token stands at a statement boundary, the slices of
the flush are the texts between the tokens, and `flushEmittedCode` is the manual
concatenation in document order, for each token one templated call with the text before
it and then its block, and at the end one templated call with the text after the last
token. In every case `flushEmittedCode` is the manual concatenation of the slices
`flushedSlices`, which end at statement boundaries; and these slices are the texts
between the tokens only when every token stands at a statement boundary. -/
theorem C4_flush_manual_concatenation_at_boundaries (g : CPPCodeGenerator)
    (cppBuffer : OutputStream) (first : Text) (rest : List (Nat × Text))
    (hcpp : g.fCPPBuffer = some cppBuffer)
    (hbuf : g.fOut.fText = spliceBuffer first rest)
    (hplain : hasTokenStart (first ++ rest.flatMap Prod.snd) = false) :
    (TokensAtBoundaries first rest →
      flushedSlices first rest = (first, rest) ∧
      flushEmittedCode g
        = (manualSplice first rest { g with fOut := cppBuffer }).map (afterFlush g)) ∧
    flushEmittedCode g
      = (manualSplice (flushedSlices first rest).1 (flushedSlices first rest).2
          { g with fOut := cppBuffer }).map (afterFlush g) ∧
    (flushedSlices first rest = (first, rest) → TokensAtBoundaries first rest) := by
  have hgen : flushEmittedCode g
      = (manualSplice (flushedSlices first rest).1 (flushedSlices first rest).2
          { g with fOut := cppBuffer }).map (afterFlush g) := by
    rw [flushEmittedCode_heldBack g cppBuffer first rest hcpp hbuf hplain,
      heldBackSplice_eq_manualSplice]
    rfl
  refine ⟨fun hbound => ?_, hgen, boundaries_of_flushedSlices rest first⟩
  have hs := flushedSlices_of_boundaries rest first hbound
  refine ⟨hs, ?_⟩
  rw [hgen, hs]

/-- The rendering of `void main() { sample(fp0); }`, whose tokens stand at statement
boundaries, is flushed as the manual concatenation of the texts between its tokens; the
rendering of the two sample() calls in consecutive statements is flushed as the manual
concatenation of its slices, the empty text and the two statements. -/
theorem C4_flush_of_sample_statements :
    writeFunction scenarioA oneSampleMain (newExtraEmitCodeBlock (emitCodeState [] [] []))
      = Except.ok oneSampleCall ∧
    TokensAtBoundaries [] [(0, []), (1, "%s;\n".toList)] ∧
    flushEmittedCode oneSampleCall
      = (manualSplice [] [(0, []), (1, "%s;\n".toList)]
          { oneSampleCall with fOut := { fId := 0, fText := [] } }).map
          (afterFlush oneSampleCall) ∧
    (flushEmittedCode oneSampleCall).map (fun g => g.fCPPBuffer)
      = Except.ok (some (OutputStream.mk 0
          ("        SkString _sample10 = this->invokeChild(0, args);\n"
            ++ "        fragBuilder->codeAppendf(\nR\"SkSL(%s;\n)SkSL\"\n"
            ++ ", _sample10.c_str());\n").toList)) ∧
    flushedSlices [] [(0, "half4 a = ".toList), (1, "%s;\nhalf4 b = ".toList),
        (2, "%s;\n".toList)]
      = ([], [(0, []), (1, "half4 a = %s;".toList), (2, "\nhalf4 b = %s;\n".toList)]) ∧
    flushEmittedCode twoSampleCalls
      = (manualSplice [] [(0, []), (1, "half4 a = %s;".toList),
            (2, "\nhalf4 b = %s;\n".toList)]
          { twoSampleCalls with fOut := { fId := 0, fText := [] } }).map
          (afterFlush twoSampleCalls) :=
  have hbound : TokensAtBoundaries [] [(0, []), (1, "%s;\n".toList)] :=
    ⟨fun c hc => (by cases hc), fun c hc => (by cases hc), trivial⟩
  ⟨by rfl, hbound,
    ((C4_flush_manual_concatenation_at_boundaries oneSampleCall { fId := 0, fText := [] } []
      [(0, []), (1, "%s;\n".toList)] rfl (by rfl) (by rfl)).1 hbound).2,
    by rfl, by rfl,
    (C4_flush_manual_concatenation_at_boundaries twoSampleCalls { fId := 0, fText := [] } []
      [(0, "half4 a = ".toList), (1, "%s;\nhalf4 b = ".toList), (2, "%s;\n".toList)]
      rfl (by rfl) (by rfl)).2.1⟩

end SkSL
